import Mathlib

/-!
# PakkuPakku: collision probe, player update and pursuer mode switch

A shallow embedding of `MapCollision.cpp`, `Pacman.cpp` and the mode-switch
block of `Ghost.cpp`, followed by the properties proved about them.

Conventions of the embedding.

* `short` and `unsigned short` values are integers / naturals; every place
  where C++ converts an `int` result back to `short` is an explicit
  `toShort` (reduction modulo `2 ^ 16` into the signed range).
* A conversion from a floating value to an integer type is undefined when
  the value does not fit, and so is an array access outside the array.
  Both are modelled as failure (`none`); the theorems show that they do not
  occur.
* `Headers/Global.hpp` is not part of the sources at hand, so the
  constants it defines are the fields of `Global`, and every result is
  proved for arbitrary values of them (under the side conditions stated in
  each theorem). The constants are taken to have types narrower than
  `int`, so that arithmetic on them is `int` arithmetic.
-/

namespace PakkuPakku

/-! ## Data model -/

/-- Cell kinds of the maze (`enum Cell`). -/
inductive Cell where
  | Door
  | Empty
  | Energizer
  | Pellet
  | Wall
  deriving DecidableEq, Repr

/-- The constants of `Headers/Global.hpp` used by the embedded code. -/
structure Global where
  CELL_SIZE : Nat
  MAP_WIDTH : Nat
  MAP_HEIGHT : Nat
  PACMAN_SPEED : Nat
  ENERGIZER_DURATION : Nat
  GHOST_FRIGHTENED_SPEED : Nat
  GHOST_SPEED : Nat
  GHOST_ESCAPE_SPEED : Nat
  GHOST_1_CHASE : Nat
  GHOST_2_CHASE : Nat
  GHOST_3_CHASE : Nat
  CHASE_DURATION : Nat
  LONG_SCATTER_DURATION : Nat
  SHORT_SCATTER_DURATION : Nat
  deriving DecidableEq, Repr

/-- A sample configuration: the 21 x 21 maze of `main.cpp`, 16-unit cells,
a player speed of 2 and an energizer duration of 512 ticks. -/
def Global.sample : Global :=
  { CELL_SIZE := 16, MAP_WIDTH := 21, MAP_HEIGHT := 21, PACMAN_SPEED := 2,
    ENERGIZER_DURATION := 512, GHOST_FRIGHTENED_SPEED := 3,
    GHOST_SPEED := 1, GHOST_ESCAPE_SPEED := 4,
    GHOST_1_CHASE := 2, GHOST_2_CHASE := 1, GHOST_3_CHASE := 4,
    CHASE_DURATION := 1024, LONG_SCATTER_DURATION := 512, SHORT_SCATTER_DURATION := 256 }

/-- The sample configuration with a 3 x 3 maze. -/
def Global.small : Global :=
  { Global.sample with MAP_WIDTH := 3, MAP_HEIGHT := 3 }

/-- The grid `std::array<std::array<Cell, MAP_HEIGHT>, MAP_WIDTH>`: a list of
columns, `i_map[x][y]` being entry `y` of column `x`. -/
abbrev Grid := List (List Cell)

/-- A grid has the dimensions its C++ type fixes. -/
def Grid.WF (c : Global) (m : Grid) : Prop :=
  m.length = c.MAP_WIDTH ∧ ∀ col ∈ m, col.length = c.MAP_HEIGHT

instance (c : Global) (m : Grid) : Decidable (Grid.WF c m) := by
  unfold Grid.WF; infer_instance

/-- Read `i_map[x][y]`; `none` when the access leaves the array. -/
def Grid.get? (m : Grid) (x y : Nat) : Option Cell :=
  match m[x]? with
  | none => none
  | some col => col[y]?

/-- Write `i_map[x][y] = v`; `none` when the access leaves the array. -/
def Grid.set? (m : Grid) (x y : Nat) (v : Cell) : Option Grid :=
  match m[x]? with
  | none => none
  | some col => if y < col.length then some (m.set x (col.set y v)) else none

/-- A grid of the given dimensions holding the same cell everywhere. -/
def Grid.fill (w h : Nat) (v : Cell) : Grid :=
  List.replicate w (List.replicate h v)

/-- A 3 x 3 grid (three columns) with every cell kind. -/
def Grid.demo : Grid :=
  [[Cell.Wall, Cell.Pellet, Cell.Wall],
   [Cell.Energizer, Cell.Pellet, Cell.Empty],
   [Cell.Wall, Cell.Door, Cell.Wall]]

/-- The cell at signed coordinates, `none` outside the grid. -/
def Grid.cellAt (m : Grid) (x y : Int) : Option Cell :=
  if 0 ≤ x ∧ 0 ≤ y then m.get? x.toNat y.toNat else none

/-- The values of a signed 16-bit integer. -/
def isShort (n : Int) : Prop := -32768 ≤ n ∧ n ≤ 32767

instance (n : Int) : Decidable (isShort n) := by
  unfold isShort; infer_instance

/-- Conversion of an `int` to `short`: reduction modulo `2 ^ 16`. -/
def toShort (n : Int) : Int := (n + 32768) % 65536 - 32768

/-- Conversion of a floating value with integral value `v` to `short`:
undefined (here `none`) when `v` is not a `short`. -/
def floatToShort (v : Int) : Option Int :=
  if -32768 ≤ v ∧ v ≤ 32767 then some v else none

/-- Conversion of a nonnegative floating value with integral part `v` to
`unsigned short`: undefined (here `none`) when `v` does not fit. -/
def floatToUShort (v : Nat) : Option Nat :=
  if v < 65536 then some v else none

/-- 2D position in sub-cell units (`struct Position`, two `short`s). -/
structure Position where
  x : Int
  y : Int
  deriving DecidableEq, Repr

/-! ## MapCollision.cpp -/

/-- `floor(i / float(CELL_SIZE))`. The float quotient of a `short` by a
positive integer constant never rounds across an integer (a non-integral
quotient is at least `1 / CELL_SIZE` away from the next integer, more than
the rounding error), so its floor is the integer floor quotient. -/
def floorCell (c : Global) (i : Int) : Int := i / (c.CELL_SIZE : Int)

/-- `ceil(i / float(CELL_SIZE))`; see `floorCell`. -/
def ceilCell (c : Global) (i : Int) : Int := -((-i) / (c.CELL_SIZE : Int))

/-- The `switch (a)` of `map_collision`: the cell examined at loop index `a`,
before the conversion to `short`. -/
def map_collision.candidate (c : Global) (i_x i_y : Int) (a : Nat) : Int × Int :=
  match a with
  | 0 => (floorCell c i_x, floorCell c i_y)
  | 1 => (ceilCell c i_x, floorCell c i_y)
  | 2 => (floorCell c i_x, ceilCell c i_y)
  | _ => (ceilCell c i_x, ceilCell c i_y)

/-- One iteration of the loop of `map_collision`, acting on the pair
(`output`, `i_map`). -/
def map_collision.visit (c : Global) (i_collect_pellets i_use_door : Bool)
    (i_x i_y : Int) (st : Bool × Grid) (a : Nat) : Option (Bool × Grid) := do
  let x ← floatToShort (map_collision.candidate c i_x i_y a).1
  let y ← floatToShort (map_collision.candidate c i_x i_y a).2
  if 0 ≤ x ∧ 0 ≤ y ∧ x < (c.MAP_WIDTH : Int) ∧ y < (c.MAP_HEIGHT : Int) then
    let cell ← st.2.get? x.toNat y.toNat
    if !i_collect_pellets then
      if cell = Cell.Wall then some (true, st.2)
      else if !i_use_door && cell = Cell.Door then some (true, st.2)
      else some st
    else
      if cell = Cell.Energizer then do
        let m ← st.2.set? x.toNat y.toNat Cell.Empty
        some (true, m)
      else if cell = Cell.Pellet then do
        let m ← st.2.set? x.toNat y.toNat Cell.Empty
        some (st.1, m)
      else some st
  else some st

/-- `map_collision`: the returned flag and the grid after the call. -/
def map_collision (c : Global) (i_collect_pellets i_use_door : Bool)
    (i_x i_y : Int) (i_map : Grid) : Option (Bool × Grid) :=
  [0, 1, 2, 3].foldlM (map_collision.visit c i_collect_pellets i_use_door i_x i_y)
    (false, i_map)

/-- The four candidate cells of a point, as the specification names them:
floor and ceiling of each coordinate divided by the cell size. -/
def candidateCells (c : Global) (x y : Int) : List (Int × Int) :=
  [(⌊(x : ℚ) / c.CELL_SIZE⌋, ⌊(y : ℚ) / c.CELL_SIZE⌋),
   (⌈(x : ℚ) / c.CELL_SIZE⌉, ⌊(y : ℚ) / c.CELL_SIZE⌋),
   (⌊(x : ℚ) / c.CELL_SIZE⌋, ⌈(y : ℚ) / c.CELL_SIZE⌉),
   (⌈(x : ℚ) / c.CELL_SIZE⌉, ⌈(y : ℚ) / c.CELL_SIZE⌉)]

/-- A cell index lies inside `[0, MAP_WIDTH) x [0, MAP_HEIGHT)`. -/
def inBounds (c : Global) (p : Int × Int) : Prop :=
  0 ≤ p.1 ∧ 0 ≤ p.2 ∧ p.1 < (c.MAP_WIDTH : Int) ∧ p.2 < (c.MAP_HEIGHT : Int)

instance (c : Global) (p : Int × Int) : Decidable (inBounds c p) := by
  unfold inBounds; infer_instance

/-- A cell content that blocks a non-collecting probe: a Wall, or a Door
while door passage is disallowed. -/
def Blocking (use_door : Bool) (cell : Option Cell) : Prop :=
  cell = some Cell.Wall ∨ (cell = some Cell.Door ∧ use_door = false)

instance (use_door : Bool) (cell : Option Cell) : Decidable (Blocking use_door cell) := by
  unfold Blocking; infer_instance

/-- A cell content that a collecting probe empties. -/
def Collectable (cell : Option Cell) : Prop :=
  cell = some Cell.Energizer ∨ cell = some Cell.Pellet

instance (cell : Option Cell) : Decidable (Collectable cell) := by
  unfold Collectable; infer_instance

/-! ## Pacman.cpp -/

/-- The state of `class Pacman`. -/
structure Pacman where
  animation_over : Bool
  dead : Bool
  direction : Nat
  animation_timer : Nat
  energizer_timer : Nat
  position : Position
  deriving DecidableEq, Repr

/-- The answers of `sf::Keyboard::isKeyPressed` read during one update: the
directions the player requests this tick. -/
structure Keyboard where
  Right : Bool
  Up : Bool
  Left : Bool
  Down : Bool
  deriving DecidableEq, Repr

/-- The four statements `if (isKeyPressed(..) && !walls[d]) direction = d;`
of `Pacman::update`, in source order. -/
def Pacman.update.turn (kb : Keyboard) (w0 w1 w2 w3 : Bool) (direction : Nat) : Nat :=
  let d0 := if kb.Right && !w0 then 0 else direction
  let d1 := if kb.Up && !w1 then 1 else d0
  let d2 := if kb.Left && !w2 then 2 else d1
  if kb.Down && !w3 then 3 else d2

/-- The `switch (direction)` of `Pacman::update` that moves the player by
`PACMAN_SPEED`; the compound assignments convert back to `short`. -/
def Pacman.update.step (c : Global) (direction : Nat) (position : Position) : Position :=
  match direction with
  | 0 => { position with x := toShort (position.x + (c.PACMAN_SPEED : Int)) }
  | 1 => { position with y := toShort (position.y - (c.PACMAN_SPEED : Int)) }
  | 2 => { position with x := toShort (position.x - (c.PACMAN_SPEED : Int)) }
  | 3 => { position with y := toShort (position.y + (c.PACMAN_SPEED : Int)) }
  | _ => position

/-- The tunnel wrap of `Pacman::update`. -/
def Pacman.update.warp (c : Global) (position : Position) : Position :=
  if position.x < -(c.CELL_SIZE : Int) then
    { position with x := toShort ((c.CELL_SIZE : Int) * c.MAP_WIDTH - c.PACMAN_SPEED) }
  else if position.x ≥ (c.CELL_SIZE : Int) * c.MAP_WIDTH then
    { position with x := toShort ((c.PACMAN_SPEED : Int) - c.CELL_SIZE) }
  else position

/-- `Pacman::update`: the player and the grid after one tick. `walls[direction]`
is a checked array access, and the conversion of the level-scaled duration
`ENERGIZER_DURATION / pow(2, i_level)` (an exact division, then truncation)
to `unsigned short` is a checked conversion. -/
def Pacman.update (c : Global) (kb : Keyboard) (i_level : Nat) (p : Pacman) (i_map : Grid) :
    Option (Pacman × Grid) := do
  let (w0, m0) ← map_collision c false false
    (toShort ((c.PACMAN_SPEED : Int) + p.position.x)) p.position.y i_map
  let (w1, m1) ← map_collision c false false
    p.position.x (toShort (p.position.y - (c.PACMAN_SPEED : Int))) m0
  let (w2, m2) ← map_collision c false false
    (toShort (p.position.x - (c.PACMAN_SPEED : Int))) p.position.y m1
  let (w3, m3) ← map_collision c false false
    p.position.x (toShort (p.position.y + (c.PACMAN_SPEED : Int))) m2
  let direction := Pacman.update.turn kb w0 w1 w2 w3 p.direction
  let wall ← [w0, w1, w2, w3][direction]?
  let moved := if !wall then Pacman.update.step c direction p.position else p.position
  let position := Pacman.update.warp c moved
  let (hit, m4) ← map_collision c true false position.x position.y m3
  if hit then do
    let t ← floatToUShort (c.ENERGIZER_DURATION / 2 ^ i_level)
    some ({ p with direction := direction, position := position, energizer_timer := t }, m4)
  else
    some ({ p with direction := direction, position := position,
                   energizer_timer := (max 0 ((p.energizer_timer : Int) - 1)).toNat }, m4)

/-- The state after `n` consecutive updates with the same keys held. -/
def Pacman.run (c : Global) (kb : Keyboard) (i_level : Nat) :
    Nat → Pacman × Grid → Option (Pacman × Grid)
  | 0, s => some s
  | n + 1, s => (Pacman.update c kb i_level s.1 s.2).bind (Pacman.run c kb i_level n)

/-- Whether direction `d` (0 Right, 1 Up, 2 Left, 3 Down) is requested. -/
def Keyboard.requested (kb : Keyboard) (d : Nat) : Bool :=
  match d with
  | 0 => kb.Right
  | 1 => kb.Up
  | 2 => kb.Left
  | 3 => kb.Down
  | _ => false

/-- A position advanced by exactly `PACMAN_SPEED` along direction `d`. -/
def Position.advance (c : Global) (pos : Position) (d : Nat) : Position :=
  match d with
  | 0 => { pos with x := pos.x + (c.PACMAN_SPEED : Int) }
  | 1 => { pos with y := pos.y - (c.PACMAN_SPEED : Int) }
  | 2 => { pos with x := pos.x - (c.PACMAN_SPEED : Int) }
  | 3 => { pos with y := pos.y + (c.PACMAN_SPEED : Int) }
  | _ => pos

/-- The probe of direction `d` at `PACMAN_SPEED`: the flag returned by the
non-collecting, door-closed `map_collision` at the advanced position. -/
def Pacman.probe (c : Global) (m : Grid) (pos : Position) (d : Nat) : Option Bool :=
  (map_collision c false false (pos.advance c d).x (pos.advance c d).y m).map Prod.fst

/-- No direction requested. -/
def Keyboard.idle : Keyboard :=
  { Right := false, Up := false, Left := false, Down := false }

/-- A player at rest at the origin, facing Right. -/
def Pacman.initial : Pacman :=
  { animation_over := false, dead := false, direction := 0, animation_timer := 0,
    energizer_timer := 0, position := { x := 0, y := 0 } }

/-- A player facing Right in the middle of the 3 x 3 demo grid. -/
def Pacman.demo : Pacman :=
  { Pacman.initial with position := { x := 16, y := 16 } }

/-! ## Ghost.cpp: the mode switch at the start of `Ghost::update` -/

/-- The state of `class Ghost`. `frightened_mode` is 0 for Normal, 1 for
Frightened and 2 for ReturningHome; `movement_mode` is 0 for scatter and 1 for
chase. -/
structure Ghost where
  id : Nat
  movement_mode : Nat
  use_door : Bool
  direction : Nat
  frightened_mode : Nat
  frightened_speed_timer : Nat
  animation_timer : Nat
  home : Position
  home_exit : Position
  position : Position
  target : Position
  deriving DecidableEq, Repr

/-- The first statement of `Ghost::update` (the `if` / `else if` on
`frightened_mode` and the player's energizer timer). The timer is compared
with the `double` value `ENERGIZER_DURATION / pow(2, i_level)`, which is the
exact quotient (a division by a power of two), not its floor. -/
def Ghost.update.mode_switch (c : Global) (i_level : Nat) (energizer_timer : Nat)
    (g : Ghost) : Ghost :=
  if g.frightened_mode = 0 ∧
      (energizer_timer : ℚ) = (c.ENERGIZER_DURATION : ℚ) / 2 ^ i_level then
    { g with frightened_speed_timer := c.GHOST_FRIGHTENED_SPEED, frightened_mode := 1 }
  else if energizer_timer = 0 ∧ g.frightened_mode = 1 then
    { g with frightened_mode := 0 }
  else g

/-- Pursuer 0 as `GhostManager::reset` leaves it on the maze of `main.cpp`:
Normal, in scatter mode, at its spawn cell. -/
def Ghost.fresh : Ghost :=
  { id := 0, movement_mode := 0, use_door := false, direction := 0, frightened_mode := 0,
    frightened_speed_timer := 0, animation_timer := 0,
    home := { x := 160, y := 144 }, home_exit := { x := 160, y := 112 },
    position := { x := 160, y := 112 }, target := { x := 160, y := 112 } }

/-- No non-collecting, door-closed probe on the line `y` is blocked. -/
def rowOpen (c : Global) (y : Int) (m : Grid) : Prop :=
  ∀ x : Int, isShort x → map_collision c false false x y m = some (false, m)

/-- The player faces direction `d` on the line `y`, on which no probe is
blocked. -/
def Pacman.Lane (c : Global) (d : Nat) (y : Int) (s : Pacman × Grid) : Prop :=
  s.1.direction = d ∧ s.1.position.y = y ∧ Grid.WF c s.2 ∧ rowOpen c y s.2

/-- The 21 x 21 grid without any obstacle. -/
def Grid.clear : Grid := Grid.fill 21 21 Cell.Empty

/-- A player facing Right at the left end of line 144 (row 9), fully outside
the grid: `x = -CELL_SIZE`, the last position reached when moving Left. -/
def Pacman.atLeftEdge : Pacman :=
  { Pacman.initial with position := { x := -16, y := 144 } }

/-- A player facing Right at column 0 of line 144 (row 9). -/
def Pacman.onLine : Pacman :=
  { Pacman.initial with position := { x := 0, y := 144 } }

/-! ## Ghost.cpp -/

/-- What `Ghost.cpp` uses and its sources do not determine.

* `probe4 a b v m` is the value of the call `map_collision(0, use_door, speed +
  position.y, i_map)` that initialises `walls[3]` in `Ghost::update`: the call
  passes four arguments (the x coordinate of its three sibling calls is
  absent), so it is not a call of the five-parameter `map_collision` of
  `MapCollision.cpp`. Its value is taken as an unknown function of the four
  arguments passed.
* `sqrt_float n` is `static_cast<float>(sqrt(n))` for an integer `n`, in units
  of `2 ^ (-23)` (every such float is a multiple of that unit). -/
structure Extern where
  probe4 : Bool → Bool → Int → Grid → Bool
  sqrt_float : Nat → Nat

/-- A sample environment, to instantiate statements: the four-argument probe
never blocks and square roots are rounded down to an integer. -/
def Extern.sample : Extern :=
  { probe4 := fun _ _ _ _ => false, sqrt_float := fun n => Nat.sqrt n * 2 ^ 23 }

/-- `Pacman::set_dead`. -/
def Pacman.set_dead (p : Pacman) (i_dead : Bool) : Pacman :=
  if i_dead then { p with dead := i_dead, animation_timer := 0 }
  else { p with dead := i_dead }

/-- `Pacman::set_animation_timer`. -/
def Pacman.set_animation_timer (p : Pacman) (i_animation_timer : Nat) : Pacman :=
  { p with animation_timer := i_animation_timer }

/-- `Ghost::pacman_collision`: strict overlap of the two hit-boxes. -/
def Ghost.pacman_collision (c : Global) (g : Ghost) (i_pacman_position : Position) : Bool :=
  decide (g.position.x > i_pacman_position.x - (c.CELL_SIZE : Int) ∧
    g.position.x < i_pacman_position.x + (c.CELL_SIZE : Int) ∧
    g.position.y > i_pacman_position.y - (c.CELL_SIZE : Int) ∧
    g.position.y < i_pacman_position.y + (c.CELL_SIZE : Int))

/-- `Ghost::get_target_distance`: the (float) distance to the target from the
position advanced by `GHOST_SPEED` in direction `i_direction`. -/
def Ghost.get_target_distance (c : Global) (e : Extern) (g : Ghost) (i_direction : Nat) :
    Nat :=
  let x := match i_direction with
    | 0 => toShort (g.position.x + (c.GHOST_SPEED : Int))
    | 2 => toShort (g.position.x - (c.GHOST_SPEED : Int))
    | _ => g.position.x
  let y := match i_direction with
    | 1 => toShort (g.position.y - (c.GHOST_SPEED : Int))
    | 3 => toShort (g.position.y + (c.GHOST_SPEED : Int))
    | _ => g.position.y
  e.sqrt_float ((x - g.target.x) ^ 2 + (y - g.target.y) ^ 2).toNat

/-- `Ghost::reset`. -/
def Ghost.reset (g : Ghost) (i_home i_home_exit : Position) : Ghost :=
  { g with
    movement_mode := 0, use_door := decide (g.id > 0), direction := 0, frightened_mode := 0,
    frightened_speed_timer := 0, animation_timer := 0,
    home := i_home, home_exit := i_home_exit, target := i_home_exit }

/-- `Ghost::set_position`. -/
def Ghost.set_position (g : Ghost) (i_x i_y : Int) : Ghost :=
  { g with position := { x := i_x, y := i_y } }

/-- `Ghost::switch_mode`; `movement_mode` holds 0 or 1. -/
def Ghost.switch_mode (g : Ghost) : Ghost :=
  { g with movement_mode := 1 - g.movement_mode }

/-- The `switch (i_pacman_direction)` of the chase branches of
`Ghost::update_target`: the position `t` displaced by `CELL_SIZE * n` along
the player's direction. -/
def Ghost.update_target.ahead (c : Global) (n : Nat) (i_pacman_direction : Nat)
    (t : Position) : Position :=
  match i_pacman_direction with
  | 0 => { t with x := toShort (t.x + (c.CELL_SIZE : Int) * n) }
  | 1 => { t with y := toShort (t.y - (c.CELL_SIZE : Int) * n) }
  | 2 => { t with x := toShort (t.x - (c.CELL_SIZE : Int) * n) }
  | 3 => { t with y := toShort (t.y + (c.CELL_SIZE : Int) * n) }
  | _ => t

/-- `Ghost::update_target`. -/
def Ghost.update_target (c : Global) (e : Extern) (g : Ghost) (i_pacman_direction : Nat)
    (i_ghost_0_position i_pacman_position : Position) : Ghost :=
  if g.use_door then
    if g.position = g.target then
      if g.target = g.home_exit then { g with use_door := false }
      else if g.target = g.home then { g with frightened_mode := 0, target := g.home_exit }
      else g
    else g
  else if g.movement_mode = 0 then
    match g.id with
    | 0 => { g with target :=
        { x := toShort ((c.CELL_SIZE : Int) * ((c.MAP_WIDTH : Int) - 1)), y := 0 } }
    | 1 => { g with target := { x := 0, y := 0 } }
    | 2 => { g with target :=
        { x := toShort ((c.CELL_SIZE : Int) * ((c.MAP_WIDTH : Int) - 1)),
          y := toShort ((c.CELL_SIZE : Int) * ((c.MAP_HEIGHT : Int) - 1)) } }
    | 3 => { g with target :=
        { x := 0, y := toShort ((c.CELL_SIZE : Int) * ((c.MAP_HEIGHT : Int) - 1)) } }
    | _ => g
  else
    match g.id with
    | 0 => { g with target := i_pacman_position }
    | 1 => { g with target :=
        Ghost.update_target.ahead c c.GHOST_1_CHASE i_pacman_direction i_pacman_position }
    | 2 =>
      let t := Ghost.update_target.ahead c c.GHOST_2_CHASE i_pacman_direction i_pacman_position
      { g with target :=
        { x := toShort (t.x + (t.x - i_ghost_0_position.x)),
          y := toShort (t.y + (t.y - i_ghost_0_position.y)) } }
    | 3 =>
      if e.sqrt_float ((g.position.x - i_pacman_position.x) ^ 2 +
          (g.position.y - i_pacman_position.y) ^ 2).toNat
          > c.CELL_SIZE * c.GHOST_3_CHASE * 2 ^ 23 then
        { g with target := i_pacman_position }
      else
        { g with target :=
          { x := 0, y := toShort ((c.CELL_SIZE : Int) * ((c.MAP_HEIGHT : Int) - 1)) } }
    | _ => g

/-- The speed of `Ghost::update` (`unsigned char speed`): `GHOST_SPEED`, or
`GHOST_ESCAPE_SPEED` for a pursuer returning home whose coordinates are both
multiples of it. The remainders are only computed for such a pursuer, and are
undefined for a zero divisor. -/
def Ghost.update.speed (c : Global) (g : Ghost) : Option Nat :=
  if g.frightened_mode = 2 then
    if c.GHOST_ESCAPE_SPEED = 0 then none
    else if g.position.x % (c.GHOST_ESCAPE_SPEED : Int) = 0 ∧
        g.position.y % (c.GHOST_ESCAPE_SPEED : Int) = 0 then
      some (c.GHOST_ESCAPE_SPEED % 256)
    else some (c.GHOST_SPEED % 256)
  else some (c.GHOST_SPEED % 256)

/-- The array `walls` of `Ghost::update` as a function of the index. -/
def Ghost.update.walls (w0 w1 w2 w3 : Bool) (a : Nat) : Bool :=
  match a with
  | 0 => w0
  | 1 => w1
  | 2 => w2
  | _ => w3

/-- One iteration of the loop of the non-frightened branch of `Ghost::update`,
acting on (`optimal_direction`, `available_ways`). -/
def Ghost.update.consider (c : Global) (e : Extern) (g : Ghost) (walls : Nat → Bool)
    (st : Nat × Nat) (a : Nat) : Nat × Nat :=
  if a = (2 + g.direction) % 4 then st
  else if !walls a then
    let optimal := if st.1 = 4 then a else st.1
    (if g.get_target_distance c e a < g.get_target_distance c e optimal then a else optimal,
      st.2 + 1)
  else st

/-- The non-frightened branch of `Ghost::update`: the new direction. -/
def Ghost.update.choose (c : Global) (e : Extern) (g : Ghost) (walls : Nat → Bool) : Nat :=
  let st := [0, 1, 2, 3].foldl (Ghost.update.consider c e g walls) (4, 0)
  if st.2 > 1 then st.1
  else if st.1 = 4 then (2 + g.direction) % 4
  else st.1

/-- The count `available_ways` of the frightened branch of `Ghost::update`. -/
def Ghost.update.ways (walls : Nat → Bool) (direction : Nat) : Nat :=
  ([0, 1, 2, 3].filter (fun a => a ≠ (2 + direction) % 4 ∧ walls a = false)).length

/-- The `while` loop of the frightened branch of `Ghost::update`: starting
from the value `random_direction`, draw from the values `rnd` that `rand()`
returns next until the direction is unblocked and not the reverse. The result
is the direction and the values not yet drawn; `none` when the supplied values
run out first. -/
def Ghost.update.pick (walls : Nat → Bool) (direction : Nat) (random_direction : Nat) :
    List Nat → Option (Nat × List Nat)
  | [] =>
    if walls random_direction || random_direction = (2 + direction) % 4 then none
    else some (random_direction, [])
  | v :: rnd =>
    if walls random_direction || random_direction = (2 + direction) % 4 then
      Ghost.update.pick walls direction (v % 4) rnd
    else some (random_direction, v :: rnd)

/-- The `switch (direction)` of `Ghost::update` that moves the pursuer. -/
def Ghost.update.step (speed : Nat) (direction : Nat) (position : Position) : Position :=
  match direction with
  | 0 => { position with x := toShort (position.x + (speed : Int)) }
  | 1 => { position with y := toShort (position.y - (speed : Int)) }
  | 2 => { position with x := toShort (position.x - (speed : Int)) }
  | 3 => { position with y := toShort (position.y + (speed : Int)) }
  | _ => position

/-- The tunnel wrap of `Ghost::update`. -/
def Ghost.update.warp (c : Global) (speed : Nat) (position : Position) : Position :=
  if position.x < -(c.CELL_SIZE : Int) then
    { position with x := toShort ((c.CELL_SIZE : Int) * c.MAP_WIDTH - speed) }
  else if position.x ≥ (c.CELL_SIZE : Int) * c.MAP_WIDTH then
    { position with x := toShort ((speed : Int) - c.CELL_SIZE) }
  else position

/-- The last statement of `Ghost::update`: on contact with the player a pursuer
that is not frightened kills it, any other pursuer starts returning home. -/
def Ghost.update.contact (c : Global) (g : Ghost) (i_pacman : Pacman) : Ghost × Pacman :=
  if g.pacman_collision c i_pacman.position then
    if g.frightened_mode = 0 then (g, i_pacman.set_dead true)
    else ({ g with use_door := true, frightened_mode := 2, target := g.home }, i_pacman)
  else (g, i_pacman)

/-- The movement of `Ghost::update` (`if (move) { ... }`): one step of length
`speed` in the direction chosen, then the tunnel wrap. -/
def Ghost.update.move (c : Global) (speed : Nat) (g : Ghost) (direction : Nat) : Ghost :=
  { g with direction := direction,
           position := Ghost.update.warp c speed (Ghost.update.step speed direction g.position) }

/-- The direction a frightened pursuer takes when it moves: the first
acceptable value of the rejection loop, whose first candidate is `v % 4`, or
the reverse when no direction is acceptable. -/
def Ghost.update.flee (walls : Nat → Bool) (direction : Nat) (v : Nat) (rest : List Nat) :
    Option (Nat × List Nat) :=
  if Ghost.update.ways walls direction > 0 then
    Ghost.update.pick walls direction (v % 4) rest
  else some ((2 + direction) % 4, rest)

/-- The part of `Ghost::update` after the four probes: the choice of the
direction (or the frightened countdown), the movement with tunnel wrap, and
the contact with the player. `rnd` holds the values that the successive calls
of `rand()` return; the result carries the values not drawn. -/
def Ghost.update.act (c : Global) (e : Extern) (speed : Nat) (g : Ghost) (walls : Nat → Bool)
    (i_pacman : Pacman) (rnd : List Nat) : Option (Ghost × Pacman × List Nat) :=
  if g.frightened_mode ≠ 1 then
    some ((Ghost.update.contact c
        (Ghost.update.move c speed g (Ghost.update.choose c e g walls)) i_pacman).1,
      (Ghost.update.contact c
        (Ghost.update.move c speed g (Ghost.update.choose c e g walls)) i_pacman).2, rnd)
  else
    match rnd with
    | [] => none
    | v :: rest =>
      if g.frightened_speed_timer = 0 then
        (Ghost.update.flee walls g.direction v rest).map (fun dr =>
          ((Ghost.update.contact c (Ghost.update.move c speed
              { g with frightened_speed_timer := c.GHOST_FRIGHTENED_SPEED } dr.1) i_pacman).1,
            (Ghost.update.contact c (Ghost.update.move c speed
              { g with frightened_speed_timer := c.GHOST_FRIGHTENED_SPEED } dr.1) i_pacman).2,
            dr.2))
      else
        some ((Ghost.update.contact c
            { g with frightened_speed_timer := g.frightened_speed_timer - 1 } i_pacman).1,
          (Ghost.update.contact c
            { g with frightened_speed_timer := g.frightened_speed_timer - 1 } i_pacman).2, rest)

/-- `Ghost::update`: the pursuer, the player, the grid and the undrawn random
values after the call. `i_ghost_0_position` is the position of pursuer 0 when
the call starts. -/
def Ghost.update (c : Global) (e : Extern) (i_level : Nat) (g : Ghost) (i_map : Grid)
    (i_ghost_0_position : Position) (i_pacman : Pacman) (rnd : List Nat) :
    Option (Ghost × Pacman × Grid × List Nat) := do
  let g1 := Ghost.update.mode_switch c i_level i_pacman.energizer_timer g
  let speed ← Ghost.update.speed c g1
  let g2 := g1.update_target c e i_pacman.direction i_ghost_0_position i_pacman.position
  let (w0, m0) ← map_collision c false g2.use_door
    (toShort ((speed : Int) + g2.position.x)) g2.position.y i_map
  let (w1, m1) ← map_collision c false g2.use_door
    g2.position.x (toShort (g2.position.y - (speed : Int))) m0
  let (w2, m2) ← map_collision c false g2.use_door
    (toShort (g2.position.x - (speed : Int))) g2.position.y m1
  let w3 := e.probe4 false g2.use_door ((speed : Int) + g2.position.y) m2
  let r ← Ghost.update.act c e speed g2 (Ghost.update.walls w0 w1 w2 w3) i_pacman rnd
  some (r.1, r.2.1, m2, r.2.2)

/-- A direction that the frightened branch of `Ghost::update` accepts:
unblocked and not the reverse of the current direction. -/
def Ghost.update.acceptable (walls : Nat → Bool) (direction : Nat) (d : Nat) : Prop :=
  walls d = false ∧ d ≠ (2 + direction) % 4

instance (walls : Nat → Bool) (direction d : Nat) :
    Decidable (Ghost.update.acceptable walls direction d) := by
  unfold Ghost.update.acceptable; infer_instance

/-- Every window of four consecutive supplied values that starts at one of the
positions `0 .. n` contains every residue modulo 4: a rejection loop that has
an acceptable direction then ends within four draws. -/
def Fair (n : Nat) (rnd : List Nat) : Prop :=
  ∀ k, k ≤ n → ∀ r, r < 4 → ∃ i, i < 4 ∧ (rnd[k + i]?).map (· % 4) = some r

instance (n : Nat) (rnd : List Nat) : Decidable (Fair n rnd) := by
  unfold Fair; infer_instance

/-! ## GhostManager.cpp -/

/-- The state of `class GhostManager`; `ghost_0 .. ghost_3` are the entries of
the array `ghosts`. -/
structure GhostManager where
  current_wave : Nat
  wave_timer : Nat
  ghost_0 : Ghost
  ghost_1 : Ghost
  ghost_2 : Ghost
  ghost_3 : Ghost
  deriving DecidableEq, Repr

/-- The array `ghosts` as a list. -/
def GhostManager.ghosts (gm : GhostManager) : List Ghost :=
  [gm.ghost_0, gm.ghost_1, gm.ghost_2, gm.ghost_3]

/-- The scatter/chase flags (`movement_mode`) of the four pursuers. -/
def GhostManager.flags (gm : GhostManager) : List Nat :=
  gm.ghosts.map (fun g => g.movement_mode)

/-- `GhostManager::reset`; `i_ghost_positions a` is entry `a` of the array of
spawn points. -/
def GhostManager.reset (c : Global) (gm : GhostManager) (i_level : Nat)
    (i_ghost_positions : Nat → Position) : Option GhostManager := do
  let wave_timer ← floatToUShort (c.LONG_SCATTER_DURATION / 2 ^ i_level)
  let g0 := gm.ghost_0.set_position (i_ghost_positions 0).x (i_ghost_positions 0).y
  let g1 := gm.ghost_1.set_position (i_ghost_positions 1).x (i_ghost_positions 1).y
  let g2 := gm.ghost_2.set_position (i_ghost_positions 2).x (i_ghost_positions 2).y
  let g3 := gm.ghost_3.set_position (i_ghost_positions 3).x (i_ghost_positions 3).y
  some { current_wave := 0, wave_timer := wave_timer,
         ghost_0 := g0.reset g2.position g0.position,
         ghost_1 := g1.reset g2.position g0.position,
         ghost_2 := g2.reset g2.position g0.position,
         ghost_3 := g3.reset g2.position g0.position }

/-- The `if (current_wave < 7)` of `GhostManager::update`: the next wave, with
the mode of every pursuer switched. -/
def GhostManager.update.advance (gm : GhostManager) : GhostManager :=
  if gm.current_wave < 7 then
    { gm with current_wave := gm.current_wave + 1,
              ghost_0 := gm.ghost_0.switch_mode, ghost_1 := gm.ghost_1.switch_mode,
              ghost_2 := gm.ghost_2.switch_mode, ghost_3 := gm.ghost_3.switch_mode }
  else gm

/-- The value that `GhostManager::update` assigns to `wave_timer` (an
`unsigned short`) when a wave ends, from the wave index after the increment. -/
def GhostManager.update.duration (c : Global) (i_level : Nat) (current_wave : Nat) :
    Option Nat :=
  if current_wave % 2 = 1 then some (c.CHASE_DURATION % 65536)
  else if current_wave = 2 then floatToUShort (c.LONG_SCATTER_DURATION / 2 ^ i_level)
  else floatToUShort (c.SHORT_SCATTER_DURATION / 2 ^ i_level)

/-- The wave scheduler of `GhostManager::update` (the statement before the
loop over the pursuers). -/
def GhostManager.update.wave (c : Global) (i_level : Nat) (energizer_timer : Nat)
    (gm : GhostManager) : Option GhostManager :=
  if energizer_timer = 0 then
    if gm.wave_timer = 0 then
      (GhostManager.update.duration c i_level
          (GhostManager.update.advance gm).current_wave).map
        (fun t => { GhostManager.update.advance gm with wave_timer := t })
    else some { gm with wave_timer := gm.wave_timer - 1 }
  else some gm

/-- `GhostManager::update`: the scheduler, then the four pursuers in order,
each seeing the player and pursuer 0 as the earlier ones left them. -/
def GhostManager.update (c : Global) (e : Extern) (i_level : Nat) (gm : GhostManager)
    (i_map : Grid) (i_pacman : Pacman) (rnd : List Nat) :
    Option (GhostManager × Pacman × Grid × List Nat) := do
  let gm1 ← GhostManager.update.wave c i_level i_pacman.energizer_timer gm
  let (g0, p0, m0, r0) ← gm1.ghost_0.update c e i_level i_map gm1.ghost_0.position i_pacman rnd
  let (g1, p1, m1, r1) ← gm1.ghost_1.update c e i_level m0 g0.position p0 r0
  let (g2, p2, m2, r2) ← gm1.ghost_2.update c e i_level m1 g0.position p1 r1
  let (g3, p3, m3, r3) ← gm1.ghost_3.update c e i_level m2 g0.position p2 r2
  some ({ gm1 with ghost_0 := g0, ghost_1 := g1, ghost_2 := g2, ghost_3 := g3 }, p3, m3, r3)

/-- What one call of `GhostManager::update` receives from outside. -/
structure GhostManager.Input where
  level : Nat
  map : Grid
  pacman : Pacman
  rnd : List Nat

/-- The manager after a sequence of updates, each with inputs of its own. -/
def GhostManager.run (c : Global) (e : Extern) :
    GhostManager → List GhostManager.Input → Option GhostManager
  | gm, [] => some gm
  | gm, i :: rest =>
    (GhostManager.update c e i.level gm i.map i.pacman i.rnd).bind
      (fun r => GhostManager.run c e r.1 rest)

/-! ## main.cpp: one tick of the simulation -/

/-- The part of the state of `main` that a tick of the simulation uses. -/
structure Session where
  game_won : Bool
  level : Nat
  map : Grid
  ghost_manager : GhostManager
  pacman : Pacman

/-- The scan of the grid for a remaining Pellet (with its two `break`s): the
value of `game_won` after it. -/
def main.no_pellet_left (map : Grid) : Bool :=
  map.all (fun column => column.all (fun cell => decide (cell ≠ Cell.Pellet)))

/-- The body of `if (!game_won && !pacman.get_dead())` in the loop of `main`:
the player update, the pursuers' update and the scan for pellets. -/
def main.simulate (c : Global) (e : Extern) (kb : Keyboard) (s : Session) (rnd : List Nat) :
    Option (Session × List Nat) := do
  let (p1, m1) ← Pacman.update c kb s.level s.pacman s.map
  let (gm, p2, m2, rnd1) ← GhostManager.update c e s.level s.ghost_manager m1 p1 rnd
  let game_won := main.no_pellet_left m2
  let p3 := if game_won then p2.set_animation_timer 0 else p2
  some ({ s with game_won := game_won, map := m2, ghost_manager := gm, pacman := p3 }, rnd1)

/-- The invariant that ties door passage to the target: a pursuer with door
passage on is heading for `home_exit`, or is returning home with target
`home`. `Ghost::reset` establishes it and `Ghost::update` keeps it
(`Ghost.reset_coherent`, `Ghost.update_coherent`). -/
def Ghost.Coherent (g : Ghost) : Prop :=
  g.use_door = true → g.target = g.home_exit ∨ (g.frightened_mode = 2 ∧ g.target = g.home)

instance (g : Ghost) : Decidable g.Coherent := by
  unfold Ghost.Coherent; infer_instance

/-- A Frightened pursuer one cell to the right of the player of
`Pacman.onLine`, waiting for its frightened-speed countdown. -/
def Ghost.scared : Ghost :=
  { Ghost.fresh with frightened_mode := 1, frightened_speed_timer := 2,
                     position := { x := 16, y := 144 } }

/-- A Frightened pursuer half a cell to the right of the player of
`Pacman.powered`. -/
def Ghost.cornered : Ghost :=
  { Ghost.scared with position := { x := 8, y := 144 } }

/-- The player of `Pacman.onLine` with 100 ticks of power mode left. -/
def Pacman.powered : Pacman :=
  { Pacman.onLine with energizer_timer := 100 }

/-- A player standing on the spawn cell of `Ghost.fresh` in the tick after it
ate an energizer at level 0 (`Global.sample.ENERGIZER_DURATION = 512`). -/
def Pacman.energized : Pacman :=
  { Pacman.initial with energizer_timer := 512, position := { x := 160, y := 112 } }

/-- A player standing on the spawn cell of `Ghost.fresh`, without power. -/
def Pacman.onSpawn : Pacman :=
  { Pacman.initial with position := { x := 160, y := 112 } }

/-- A pursuer returning home that has just reached its home cell. -/
def Ghost.arrived : Ghost :=
  { Ghost.fresh with frightened_mode := 2, use_door := true,
                     position := { x := 160, y := 144 }, target := { x := 160, y := 144 } }

/-- A pursuer in state ReturningHome standing on `home_exit`, its target, with
door passage on. -/
def Ghost.stranded : Ghost :=
  { Ghost.fresh with frightened_mode := 2, use_door := true }

/-- The manager as its constructor leaves it with the sample constants: wave 0,
pursuers with ids 0 to 3 (the other fields of a pursuer, which the constructor
does not initialise, as in `Ghost.fresh`). -/
def GhostManager.blank : GhostManager :=
  { current_wave := 0, wave_timer := 512,
    ghost_0 := Ghost.fresh, ghost_1 := { Ghost.fresh with id := 1 },
    ghost_2 := { Ghost.fresh with id := 2 }, ghost_3 := { Ghost.fresh with id := 3 } }

/-- The spawn points of the four pursuers in the sketch of `main.cpp`
(`CELL_SIZE = 16`): `0` at column 10 of row 7, `1`, `2`, `3` at columns 9, 10,
11 of row 9. -/
def main.ghost_positions (a : Nat) : Position :=
  match a with
  | 0 => { x := 160, y := 112 }
  | 1 => { x := 144, y := 144 }
  | 2 => { x := 160, y := 144 }
  | _ => { x := 176, y := 144 }

/-- The manager after `reset(0, main.ghost_positions)`. -/
def GhostManager.start : GhostManager :=
  { current_wave := 0, wave_timer := 512,
    ghost_0 := Ghost.fresh,
    ghost_1 := { Ghost.fresh with id := 1, use_door := true, position := { x := 144, y := 144 } },
    ghost_2 := { Ghost.fresh with id := 2, use_door := true, position := { x := 160, y := 144 } },
    ghost_3 := { Ghost.fresh with id := 3, use_door := true, position := { x := 176, y := 144 } } }

/-- An open 3 x 3 grid whose only Pellet is the centre cell. -/
def Grid.pelletCentre : Grid :=
  [[Cell.Empty, Cell.Empty, Cell.Empty],
   [Cell.Empty, Cell.Pellet, Cell.Empty],
   [Cell.Empty, Cell.Empty, Cell.Empty]]

/-- A session on `Grid.pelletCentre`: the player in cell (0, 1), facing Right,
left of the Pellet; the pursuers where `GhostManager.start` has them. -/
def Session.demo : Session :=
  { game_won := false, level := 0, map := Grid.pelletCentre,
    ghost_manager := GhostManager.start,
    pacman := { Pacman.initial with position := { x := 0, y := 16 } } }

/-! ## ConvertSketch.cpp -/

/-- `Pacman::set_position`. -/
def Pacman.set_position (p : Pacman) (i_x i_y : Int) : Pacman :=
  { p with position := { x := i_x, y := i_y } }

/-- What `convert_sketch` writes: its local `output_map` and its two reference
parameters (`i_ghost_positions a` is entry `a` of the array). -/
structure convert_sketch.State where
  output_map : Grid
  i_ghost_positions : Nat → Position
  i_pacman : Pacman

/-- The character `i_map_sketch[a][b]`: `std::string::operator[]` yields the
null character at the index equal to the length, and is undefined beyond;
`std::array::operator[]` is undefined beyond the array. -/
def convert_sketch.char (i_map_sketch : List String) (a b : Nat) : Option Char :=
  match i_map_sketch[a]? with
  | none => none
  | some row =>
    if b < row.toList.length then row.toList[b]?
    else if b = row.toList.length then some (Char.ofNat 0)
    else none

/-- The `switch` of `convert_sketch` for the character `ch` found at row `a`,
column `b`. The products `CELL_SIZE * b`, `CELL_SIZE * a` are converted to
`short`. -/
def convert_sketch.switch (c : Global) (ch : Char) (a b : Nat) (st : convert_sketch.State) :
    Option convert_sketch.State :=
  if ch = '#' then
    (st.output_map.set? b a Cell.Wall).map (fun m => { st with output_map := m })
  else if ch = '=' then
    (st.output_map.set? b a Cell.Door).map (fun m => { st with output_map := m })
  else if ch = '.' then
    (st.output_map.set? b a Cell.Pellet).map (fun m => { st with output_map := m })
  else if ch = '0' then
    some { st with
      i_ghost_positions := Function.update st.i_ghost_positions 0
        { x := toShort ((c.CELL_SIZE : Int) * b), y := toShort ((c.CELL_SIZE : Int) * a) } }
  else if ch = '1' then
    some { st with
      i_ghost_positions := Function.update st.i_ghost_positions 1
        { x := toShort ((c.CELL_SIZE : Int) * b), y := toShort ((c.CELL_SIZE : Int) * a) } }
  else if ch = '2' then
    some { st with
      i_ghost_positions := Function.update st.i_ghost_positions 2
        { x := toShort ((c.CELL_SIZE : Int) * b), y := toShort ((c.CELL_SIZE : Int) * a) } }
  else if ch = '3' then
    some { st with
      i_ghost_positions := Function.update st.i_ghost_positions 3
        { x := toShort ((c.CELL_SIZE : Int) * b), y := toShort ((c.CELL_SIZE : Int) * a) } }
  else if ch = 'P' then
    some { st with
      i_pacman := st.i_pacman.set_position
        (toShort ((c.CELL_SIZE : Int) * b)) (toShort ((c.CELL_SIZE : Int) * a)) }
  else if ch = 'o' then
    (st.output_map.set? b a Cell.Energizer).map (fun m => { st with output_map := m })
  else some st

/-- The body of the inner loop of `convert_sketch` at row `ab.1`, column
`ab.2`: the cell is set to Empty, then the `switch` runs. -/
def convert_sketch.visit (c : Global) (i_map_sketch : List String)
    (st : convert_sketch.State) (ab : Nat × Nat) : Option convert_sketch.State :=
  (st.output_map.set? ab.2 ab.1 Cell.Empty).bind (fun m =>
    (convert_sketch.char i_map_sketch ab.1 ab.2).bind (fun ch =>
      convert_sketch.switch c ch ab.1 ab.2 { st with output_map := m }))

/-- The pairs (row, column) in the order the two nested loops visit them. -/
def convert_sketch.coords (c : Global) : List (Nat × Nat) :=
  (List.range c.MAP_HEIGHT).flatMap (fun a => (List.range c.MAP_WIDTH).map (fun b => (a, b)))

/-- The two nested loops of `convert_sketch`, over the pairs still to visit. -/
def convert_sketch.loop (c : Global) (i_map_sketch : List String) :
    convert_sketch.State → List (Nat × Nat) → Option convert_sketch.State
  | st, [] => some st
  | st, ab :: rest =>
    (convert_sketch.visit c i_map_sketch st ab).bind
      (fun st1 => convert_sketch.loop c i_map_sketch st1 rest)

/-- `convert_sketch`: the grid returned and the two reference parameters after
the call. The loop counters are `unsigned char`s, so a loop whose bound exceeds
255 does not end (no result). `output_map{}` is value-initialised with the
enumerator of value 0, which `Global.hpp` declares; every entry is assigned in
the loop before the function returns, and the model starts from Empty cells. -/
def convert_sketch (c : Global) (i_map_sketch : List String)
    (i_ghost_positions : Nat → Position) (i_pacman : Pacman) : Option convert_sketch.State :=
  if 256 ≤ c.MAP_HEIGHT ∨ (0 < c.MAP_HEIGHT ∧ 256 ≤ c.MAP_WIDTH) then none
  else
    convert_sketch.loop c i_map_sketch
      { output_map := Grid.fill c.MAP_WIDTH c.MAP_HEIGHT Cell.Empty,
        i_ghost_positions := i_ghost_positions, i_pacman := i_pacman }
      (convert_sketch.coords c)

/-- The cell kind that `convert_sketch` leaves for a character. -/
def convert_sketch.cell (ch : Char) : Cell :=
  if ch = '#' then Cell.Wall
  else if ch = '=' then Cell.Door
  else if ch = '.' then Cell.Pellet
  else if ch = 'o' then Cell.Energizer
  else Cell.Empty

/-- The symbol of pursuer `k` in a sketch. -/
def convert_sketch.spawn_symbol (k : Nat) : Char :=
  match k with
  | 0 => '0'
  | 1 => '1'
  | 2 => '2'
  | _ => '3'

/-- The array `i_ghost_positions` after the `switch` of `convert_sketch` for
the character `ch` at row `a`, column `b`. -/
def convert_sketch.spawn (c : Global) (ch : Char) (a b : Nat) (gp : Nat → Position) :
    Nat → Position :=
  if ch = '0' then Function.update gp 0
    { x := toShort ((c.CELL_SIZE : Int) * b), y := toShort ((c.CELL_SIZE : Int) * a) }
  else if ch = '1' then Function.update gp 1
    { x := toShort ((c.CELL_SIZE : Int) * b), y := toShort ((c.CELL_SIZE : Int) * a) }
  else if ch = '2' then Function.update gp 2
    { x := toShort ((c.CELL_SIZE : Int) * b), y := toShort ((c.CELL_SIZE : Int) * a) }
  else if ch = '3' then Function.update gp 3
    { x := toShort ((c.CELL_SIZE : Int) * b), y := toShort ((c.CELL_SIZE : Int) * a) }
  else gp

/-- The player after the `switch` of `convert_sketch` for the character `ch`
at row `a`, column `b`. -/
def convert_sketch.player (c : Global) (ch : Char) (a b : Nat) (pac : Pacman) : Pacman :=
  if ch = 'P' then
    pac.set_position (toShort ((c.CELL_SIZE : Int) * b)) (toShort ((c.CELL_SIZE : Int) * a))
  else pac

/-- The sketch of `main.cpp`. -/
def main.map_sketch : List String :=
  [" ################### ",
   " #........#........# ",
   " #o##.###.#.###.##o# ",
   " #.................# ",
   " #.##.#.#####.#.##.# ",
   " #....#...#...#....# ",
   " ####.### # ###.#### ",
   "    #.#   0   #.#    ",
   "#####.# ##=## #.#####",
   "     .  #123#  .     ",
   "#####.# ##### #.#####",
   "    #.#       #.#    ",
   " ####.# ##### #.#### ",
   " #........#........# ",
   " #.##.###.#.###.##.# ",
   " #o.#.....P.....#.o# ",
   " ##.#.#.#####.#.#.## ",
   " #....#...#...#....# ",
   " #.######.#.######.# ",
   " #.................# ",
   " ################### "]

/-- A 3 x 3 sketch without any spawn symbol and with the undefined symbol
`?`. -/
def convert_sketch.malformed : List String :=
  ["#?#",
   "...",
   "   "]

/-- A Normal pursuer in cell (0, 1) of the 3 x 3 demo grid, above the Wall
cell (0, 2). -/
def Ghost.aboveWall : Ghost :=
  { Ghost.fresh with position := { x := 0, y := 16 } }

/-- A Normal pursuer in cell (1, 1) of the 3 x 3 demo grid, above the Empty
cell (1, 2). -/
def Ghost.aboveGap : Ghost :=
  { Ghost.fresh with position := { x := 16, y := 16 } }

/-- The arguments of one call of `Ghost::update` as the manager passes them:
the level, the grid, the position of pursuer 0, the player, and the values the
calls of `rand()` return in that tick. -/
structure Ghost.Input where
  level : Nat
  map : Grid
  ghost_0_position : Position
  pacman : Pacman
  rnd : List Nat

/-- Successive calls of `Ghost::update` on one pursuer, one call per tick. -/
def Ghost.run (c : Global) (e : Extern) : Ghost → List Ghost.Input → Option Ghost
  | g, [] => some g
  | g, i :: rest =>
    (Ghost.update c e i.level g i.map i.ghost_0_position i.pacman i.rnd).bind
      (fun r => Ghost.run c e r.1 rest)

/-- One tick for the pursuer of `Ghost.scared`: the player of `Pacman.powered`,
a cell away, on the clear grid. -/
def Ghost.Input.demo : Ghost.Input :=
  { level := 0, map := Grid.clear, ghost_0_position := Ghost.fresh.position,
    pacman := Pacman.powered, rnd := [0, 1, 2, 3] }

/-- The square root of `n` rounded to the nearest integer (a square root of an
integer is never half-way between two integers). -/
def Extern.roundSqrt (n : Nat) : Nat :=
  if n ≤ Nat.sqrt n * Nat.sqrt n + Nat.sqrt n then Nat.sqrt n else Nat.sqrt n + 1

/-- The quotient `r / 2 ^ 29` rounded to the nearest integer, ties to even: the
conversion of a 53-bit significand to a 24-bit one. -/
def Extern.roundEven (r : Nat) : Nat :=
  if 2 * (r % 2 ^ 29) < 2 ^ 29 then r / 2 ^ 29
  else if 2 ^ 29 < 2 * (r % 2 ^ 29) then r / 2 ^ 29 + 1
  else if r / 2 ^ 29 % 2 = 0 then r / 2 ^ 29
  else r / 2 ^ 29 + 1

/-- The value of `static_cast<float>(sqrt(n))` in IEEE 754 arithmetic, in units
of `2 ^ (-23)`, for `0 ≤ n < 2 ^ 53` (such an `n` is a `double`): with
`4 ^ k ≤ n < 4 ^ (k + 1)`, the `double` square root is the nearest multiple of
`2 ^ (k - 52)`, and the cast rounds it to the nearest multiple of
`2 ^ (k - 23)`, ties to even. -/
def Extern.sqrtFloat (n : Nat) : Nat :=
  if n = 0 then 0
  else Extern.roundEven (Extern.roundSqrt (n * 4 ^ (52 - Nat.log 4 n))) * 2 ^ Nat.log 4 n

/-- The environment with IEEE 754 square roots, in which the four-argument
probe never blocks. -/
def Extern.ieee : Extern :=
  { probe4 := fun _ _ _ _ => false, sqrt_float := Extern.sqrtFloat }

/-- What the statements about distances use of `static_cast<float>(sqrt(n))`:
it is monotone where `n` is a `double`, exact on the squares of the integers
that are a `float`, and strictly monotone below `2 ^ 22`, where two square
roots of integers are more than two units in the last place of a `float`
apart. -/
structure Extern.Rounds (e : Extern) : Prop where
  mono : ∀ a b : Nat, a ≤ b → b < 2 ^ 53 → e.sqrt_float a ≤ e.sqrt_float b
  exact : ∀ t : Nat, t < 2 ^ 24 → e.sqrt_float (t * t) = t * 2 ^ 23
  strict : ∀ a b : Nat, a < b → b < 2 ^ 22 → e.sqrt_float a < e.sqrt_float b

/-- The argument of `sqrt` in `Ghost::get_target_distance`: the square of the
distance to the target from the position advanced by `GHOST_SPEED` in
direction `i_direction`. -/
def Ghost.get_target_distance.square (c : Global) (g : Ghost) (i_direction : Nat) : Nat :=
  let x := match i_direction with
    | 0 => toShort (g.position.x + (c.GHOST_SPEED : Int))
    | 2 => toShort (g.position.x - (c.GHOST_SPEED : Int))
    | _ => g.position.x
  let y := match i_direction with
    | 1 => toShort (g.position.y - (c.GHOST_SPEED : Int))
    | 3 => toShort (g.position.y + (c.GHOST_SPEED : Int))
    | _ => g.position.y
  ((x - g.target.x) ^ 2 + (y - g.target.y) ^ 2).toNat

/-- Pursuer 3 in chase mode on the spawn cell of `Ghost.fresh`, ten cells to
the right of and two cells above the player of `Pacman.onLine`. -/
def Ghost.chaser3 : Ghost :=
  { Ghost.fresh with id := 3, movement_mode := 1 }

/-- One tick for the manager: level 0, the clear grid, the player of
`Pacman.onLine` without power, and sixteen values of `rand()`. -/
def GhostManager.Input.demo : GhostManager.Input :=
  { level := 0, map := Grid.clear, pacman := Pacman.onLine, rnd := List.range 16 }

/-- A 3 x 3 grid of walls with two free cells in row 1: cell (0, 1), closed
in by walls above, below and to its right, and cell (2, 1), with walls above
and to its left and the Empty cell (2, 2) below. -/
def Grid.pocket : Grid :=
  [[Cell.Wall, Cell.Empty, Cell.Wall],
   [Cell.Wall, Cell.Wall, Cell.Wall],
   [Cell.Wall, Cell.Empty, Cell.Empty]]

/-- A Normal pursuer in cell (0, 1) of `Grid.pocket`, facing Right: Right, Up
and Down are walls. -/
def Ghost.boxed : Ghost :=
  { Ghost.fresh with position := { x := 0, y := 16 } }

/-- A Normal pursuer in cell (2, 1) of `Grid.pocket`, facing Left: Left and Up
are walls, Down is free. -/
def Ghost.overGap : Ghost :=
  { Ghost.fresh with direction := 2, position := { x := 32, y := 16 } }

/-- The pursuer of `Ghost.boxed`, Frightened with its countdown at zero. -/
def Ghost.boxedScared : Ghost :=
  { Ghost.boxed with frightened_mode := 1 }

/-- The pursuer of `Ghost.overGap`, Frightened with its countdown at zero. -/
def Ghost.overGapScared : Ghost :=
  { Ghost.overGap with frightened_mode := 1 }

/-- A player without power in cell (2, 2) of `Grid.pocket`. -/
def Pacman.inPocket : Pacman :=
  { Pacman.initial with position := { x := 32, y := 32 } }

/-- The player of `Pacman.inPocket` with 100 ticks of power mode left. -/
def Pacman.inPocketPowered : Pacman :=
  { Pacman.inPocket with energizer_timer := 100 }

/-- Pursuer 3 in scatter mode (target: the bottom-left corner) in cell (0, 1)
of the 3 x 3 demo grid, facing Right: Right is free, Up and Down are walls. -/
def Ghost.shyAboveWall : Ghost :=
  { Ghost.aboveWall with id := 3 }

/-- Pursuer 3 in scatter mode (target: the bottom-left corner) in cell (1, 1)
of the 3 x 3 demo grid, facing Right: Right is the Door, Up and Down are
free. -/
def Ghost.shyAboveGap : Ghost :=
  { Ghost.aboveGap with id := 3 }

/-- A player without power in cell (1, 0) of the 3 x 3 demo grid. -/
def Pacman.onEnergizer : Pacman :=
  { Pacman.initial with position := { x := 16, y := 0 } }

/-! ## Grid access lemmas -/

theorem Grid.get?_isSome_of_WF {c : Global} {m : Grid} (hm : Grid.WF c m) {x y : Nat}
    (hx : x < c.MAP_WIDTH) (hy : y < c.MAP_HEIGHT) : ∃ cell, m.get? x y = some cell := by
  obtain ⟨hw, hh⟩ := hm
  have hx' : x < m.length := by omega
  have hcol : m[x] ∈ m := List.getElem_mem hx'
  have hy' : y < (m[x]).length := by rw [hh _ hcol]; exact hy
  refine ⟨(m[x])[y], ?_⟩
  simp [Grid.get?, List.getElem?_eq_getElem hx', List.getElem?_eq_getElem hy']

theorem Grid.get?_bounds {c : Global} {m : Grid} (hm : Grid.WF c m) {x y : Nat} {cell : Cell}
    (h : m.get? x y = some cell) : x < c.MAP_WIDTH ∧ y < c.MAP_HEIGHT := by
  obtain ⟨hw, hh⟩ := hm
  unfold Grid.get? at h
  cases hcol : m[x]? with
  | none => simp [hcol] at h
  | some col =>
    simp only [hcol] at h
    obtain ⟨hx, hxe⟩ := List.getElem?_eq_some.1 hcol
    obtain ⟨hy, _⟩ := List.getElem?_eq_some.1 h
    have hmem : col ∈ m := hxe ▸ List.getElem_mem hx
    rw [hh _ hmem] at hy
    exact ⟨by omega, hy⟩

theorem Grid.set?_spec {c : Global} {m : Grid} (hm : Grid.WF c m) {x y : Nat}
    (hx : x < c.MAP_WIDTH) (hy : y < c.MAP_HEIGHT) (v : Cell) :
    ∃ m', m.set? x y v = some m' ∧ Grid.WF c m' ∧
      ∀ i j, m'.get? i j = if i = x ∧ j = y then some v else m.get? i j := by
  obtain ⟨hw, hh⟩ := hm
  have hx' : x < m.length := by omega
  have hcol : m[x] ∈ m := List.getElem_mem hx'
  have hy' : y < (m[x]).length := by rw [hh _ hcol]; exact hy
  refine ⟨m.set x ((m[x]).set y v), ?_, ⟨?_, ?_⟩, ?_⟩
  · simp [Grid.set?, List.getElem?_eq_getElem hx', hy']
  · simpa using hw
  · intro col hmem
    rcases List.mem_or_eq_of_mem_set hmem with h | h
    · exact hh _ h
    · rw [h, List.length_set]; exact hh _ hcol
  · intro i j
    unfold Grid.get?
    rw [List.getElem?_set]
    by_cases hi : x = i
    · subst hi
      simp only [if_pos hx', true_and, if_true]
      rw [List.getElem?_set]
      by_cases hj : y = j
      · subst hj
        simp [hy']
      · have hj' : ¬ j = y := fun h => hj h.symm
        simp [hj, hj', List.getElem?_eq_getElem hx']
    · have hi' : ¬ i = x := fun h => hi h.symm
      simp [hi, hi']

theorem Grid.cellAt_natCast (m : Grid) (i j : Nat) :
    m.cellAt (i : Int) (j : Int) = m.get? i j := by
  simp [Grid.cellAt]

theorem Grid.cellAt_inBounds {c : Global} {m : Grid} (hm : Grid.WF c m) {p : Int × Int}
    {cell : Cell} (h : m.cellAt p.1 p.2 = some cell) : inBounds c p := by
  unfold Grid.cellAt at h
  split at h
  · rename_i h0
    have hb := Grid.get?_bounds hm h
    refine ⟨h0.1, h0.2, ?_, ?_⟩ <;> omega
  · cases h

/-! ## The loop of `map_collision` -/

theorem floorCell_isShort (c : Global) (hC : 0 < c.CELL_SIZE) {i : Int} (hi : isShort i) :
    isShort (floorCell c i) := by
  have hC' : (0 : Int) < (c.CELL_SIZE : Int) := by exact_mod_cast hC
  have h1 := Int.ediv_mul_le i (ne_of_gt hC')
  have h2 := Int.lt_ediv_add_one_mul_self i hC'
  unfold isShort at *
  unfold floorCell
  constructor
  · by_contra hlt
    have : i / (c.CELL_SIZE : Int) + 1 ≤ -32768 := by omega
    nlinarith
  · by_contra hlt
    have : 32768 ≤ i / (c.CELL_SIZE : Int) := by omega
    nlinarith

theorem ceilCell_isShort (c : Global) (hC : 0 < c.CELL_SIZE) {i : Int} (hi : isShort i) :
    isShort (ceilCell c i) := by
  have hC' : (0 : Int) < (c.CELL_SIZE : Int) := by exact_mod_cast hC
  have h1 := Int.ediv_mul_le (-i) (ne_of_gt hC')
  have h2 := Int.lt_ediv_add_one_mul_self (-i) hC'
  unfold isShort at *
  unfold ceilCell
  constructor
  · by_contra hlt
    have : 32769 ≤ -i / (c.CELL_SIZE : Int) := by omega
    nlinarith
  · by_contra hlt
    have : -i / (c.CELL_SIZE : Int) + 1 ≤ -32767 := by omega
    nlinarith

theorem candidate_isShort (c : Global) (hC : 0 < c.CELL_SIZE) {x y : Int}
    (hx : isShort x) (hy : isShort y) (a : Nat) :
    isShort (map_collision.candidate c x y a).1 ∧
      isShort (map_collision.candidate c x y a).2 := by
  have fx := floorCell_isShort c hC hx
  have fy := floorCell_isShort c hC hy
  have cx := ceilCell_isShort c hC hx
  have cy := ceilCell_isShort c hC hy
  unfold map_collision.candidate
  split <;> exact ⟨by assumption, by assumption⟩

theorem floatToShort_of_isShort {v : Int} (h : isShort v) : floatToShort v = some v := by
  unfold floatToShort
  exact if_pos h

theorem floorCell_eq_floor (c : Global) (i : Int) :
    floorCell c i = ⌊(i : ℚ) / c.CELL_SIZE⌋ := by
  unfold floorCell
  rw [Rat.floor_intCast_div_natCast]

theorem ceilCell_eq_ceil (c : Global) (i : Int) :
    ceilCell c i = ⌈(i : ℚ) / c.CELL_SIZE⌉ := by
  unfold ceilCell
  have h : (i : ℚ) / c.CELL_SIZE = -(((-i : Int) : ℚ) / c.CELL_SIZE) := by
    push_cast; ring
  rw [h, Int.ceil_neg, Rat.floor_intCast_div_natCast]

theorem candidate_mem_iff (c : Global) (x y : Int) (q : Int × Int) :
    (∃ a ∈ [0, 1, 2, 3], map_collision.candidate c x y a = q) ↔ q ∈ candidateCells c x y := by
  simp only [candidateCells, ← floorCell_eq_floor, ← ceilCell_eq_ceil, List.mem_cons,
    List.mem_singleton, List.not_mem_nil, or_false, exists_eq_or_imp, exists_eq_left,
    map_collision.candidate]
  constructor
  · rintro (h | h | h | h) <;> simp [← h]
  · rintro (h | h | h | h) <;> simp [h]

theorem inBounds_get? {c : Global} {m : Grid} (hm : Grid.WF c m) {p : Int × Int}
    (hp : inBounds c p) : ∃ cell, m.get? p.1.toNat p.2.toNat = some cell ∧
      m.cellAt p.1 p.2 = some cell := by
  obtain ⟨h1, h2, h3, h4⟩ := hp
  obtain ⟨cell, hcell⟩ := Grid.get?_isSome_of_WF hm (x := p.1.toNat) (y := p.2.toNat)
    (by omega) (by omega)
  exact ⟨cell, hcell, by simp [Grid.cellAt, h1, h2, hcell]⟩

theorem visit_noncollect (c : Global) (hC : 0 < c.CELL_SIZE) {m : Grid} (hm : Grid.WF c m)
    {x y : Int} (hx : isShort x) (hy : isShort y) (d out : Bool) (a : Nat) :
    ∃ out', map_collision.visit c false d x y (out, m) a = some (out', m) ∧
      (out' = true ↔ out = true ∨ (inBounds c (map_collision.candidate c x y a) ∧
        Blocking d (m.cellAt (map_collision.candidate c x y a).1
          (map_collision.candidate c x y a).2))) := by
  obtain ⟨s1, s2⟩ := candidate_isShort c hC hx hy a
  unfold map_collision.visit
  generalize map_collision.candidate c x y a = p at s1 s2 ⊢
  simp only [floatToShort_of_isShort s1, floatToShort_of_isShort s2, Option.bind_eq_bind,
    Option.some_bind]
  by_cases hp : inBounds c p
  · obtain ⟨cell, hg, hc⟩ := inBounds_get? hm hp
    have hp' := hp
    unfold inBounds at hp'
    rw [if_pos hp']
    simp only [hg, Option.some_bind, hc, Blocking]
    cases cell <;> cases d <;> simp [hp]
  · have hp' := hp
    unfold inBounds at hp'
    rw [if_neg hp']
    exact ⟨out, rfl, by simp [hp]⟩

theorem visit_collect (c : Global) (hC : 0 < c.CELL_SIZE) {m : Grid} (hm : Grid.WF c m)
    {x y : Int} (hx : isShort x) (hy : isShort y) (d out : Bool) (a : Nat) :
    ∃ out' m', map_collision.visit c true d x y (out, m) a = some (out', m') ∧
      Grid.WF c m' ∧
      (out' = true ↔ out = true ∨
        m.cellAt (map_collision.candidate c x y a).1 (map_collision.candidate c x y a).2
          = some Cell.Energizer) ∧
      (∀ i j : Nat, m'.get? i j =
        if ((i : Int), (j : Int)) = map_collision.candidate c x y a ∧ Collectable (m.get? i j)
        then some Cell.Empty else m.get? i j) ∧
      (¬ Collectable (m.cellAt (map_collision.candidate c x y a).1
          (map_collision.candidate c x y a).2) → m' = m) := by
  obtain ⟨s1, s2⟩ := candidate_isShort c hC hx hy a
  unfold map_collision.visit
  generalize map_collision.candidate c x y a = p at s1 s2 ⊢
  simp only [floatToShort_of_isShort s1, floatToShort_of_isShort s2, Option.bind_eq_bind,
    Option.some_bind]
  have key : ∀ i j : Nat, ((i : Int), (j : Int)) = p ↔ (i = p.1.toNat ∧ j = p.2.toNat) ∧
      0 ≤ p.1 ∧ 0 ≤ p.2 := by
    intro i j
    rcases p with ⟨p1, p2⟩
    simp only [Prod.mk.injEq]
    omega
  by_cases hp : inBounds c p
  · obtain ⟨cell, hg, hc⟩ := inBounds_get? hm hp
    have hp' := hp
    unfold inBounds at hp'
    rw [if_pos hp']
    obtain ⟨m', hs, hwf, hget⟩ := Grid.set?_spec hm (x := p.1.toNat) (y := p.2.toNat)
      (by omega) (by omega) Cell.Empty
    simp only [hg, Option.some_bind, hc, hs]
    have hcoll : ∀ i j : Nat, ((i : Int), (j : Int)) = p → m.get? i j = some cell := by
      intro i j hij
      obtain ⟨⟨h1, h2⟩, _⟩ := (key i j).1 hij
      rw [h1, h2]; exact hg
    cases cell with
    | Energizer =>
      refine ⟨true, m', by simp, hwf, by simp, ?_, by simp [Collectable]⟩
      intro i j
      rw [hget]
      by_cases hij : ((i : Int), (j : Int)) = p
      · rw [if_pos ((key i j).1 hij).1,
          if_pos ⟨hij, by simp [Collectable, hcoll i j hij]⟩]
      · have : ¬ (i = p.1.toNat ∧ j = p.2.toNat) := fun h =>
          hij ((key i j).2 ⟨h, hp.1, hp.2.1⟩)
        simp [hij, this]
    | Pellet =>
      refine ⟨out, m', by simp, hwf, by simp, ?_, by simp [Collectable]⟩
      intro i j
      rw [hget]
      by_cases hij : ((i : Int), (j : Int)) = p
      · rw [if_pos ((key i j).1 hij).1,
          if_pos ⟨hij, by simp [Collectable, hcoll i j hij]⟩]
      · have : ¬ (i = p.1.toNat ∧ j = p.2.toNat) := fun h =>
          hij ((key i j).2 ⟨h, hp.1, hp.2.1⟩)
        simp [hij, this]
    | _ =>
      refine ⟨out, m, by simp, hm, by simp, ?_, fun _ => rfl⟩
      intro i j
      by_cases hij : ((i : Int), (j : Int)) = p
      · simp [hij, hcoll i j hij, Collectable]
      · simp [hij]
  · have hp' := hp
    unfold inBounds at hp'
    rw [if_neg hp']
    have hnone : ∀ cell, m.cellAt p.1 p.2 ≠ some cell := fun cell h =>
      hp (Grid.cellAt_inBounds hm h)
    refine ⟨out, m, rfl, hm, ?_, ?_, fun _ => rfl⟩
    · simp [hnone]
    · intro i j
      by_cases hij : ((i : Int), (j : Int)) = p
      · have h1 : m.get? i j = m.cellAt p.1 p.2 := by
          rw [← hij]; exact (Grid.cellAt_natCast m i j).symm
        have h2 : ¬ Collectable (m.get? i j) := by
          rw [h1]; unfold Collectable; simp [hnone]
        simp [h2]
      · simp [hij]

theorem visit_collect_cellAt (c : Global) (hC : 0 < c.CELL_SIZE) {m : Grid} (hm : Grid.WF c m)
    {x y : Int} (hx : isShort x) (hy : isShort y) (d out : Bool) (a : Nat) :
    ∃ out' m', map_collision.visit c true d x y (out, m) a = some (out', m') ∧
      Grid.WF c m' ∧
      (out' = true ↔ out = true ∨
        m.cellAt (map_collision.candidate c x y a).1 (map_collision.candidate c x y a).2
          = some Cell.Energizer) ∧
      (∀ q : Int × Int, q = map_collision.candidate c x y a ∧ Collectable (m.cellAt q.1 q.2) →
        m'.cellAt q.1 q.2 = some Cell.Empty) ∧
      (∀ q : Int × Int, ¬ (q = map_collision.candidate c x y a ∧ Collectable (m.cellAt q.1 q.2)) →
        m'.cellAt q.1 q.2 = m.cellAt q.1 q.2) ∧
      (¬ Collectable (m.cellAt (map_collision.candidate c x y a).1
          (map_collision.candidate c x y a).2) → m' = m) := by
  obtain ⟨out', m', hv, hwf, hout, hget, hsame⟩ := visit_collect c hC hm hx hy d out a
  refine ⟨out', m', hv, hwf, hout, ?_, ?_, hsame⟩
  · rintro ⟨q1, q2⟩ ⟨hq, hcol⟩
    have h0 : 0 ≤ q1 ∧ 0 ≤ q2 := by
      by_contra h
      simp [Grid.cellAt, h, Collectable] at hcol
    have e1 : ((q1.toNat : Int), (q2.toNat : Int)) = (q1, q2) := by
      simp only [Prod.mk.injEq]; omega
    have e2 : m.cellAt q1 q2 = m.get? q1.toNat q2.toNat := by simp [Grid.cellAt, h0]
    have e3 : m'.cellAt q1 q2 = m'.get? q1.toNat q2.toNat := by simp [Grid.cellAt, h0]
    simp only at hcol ⊢
    rw [e3, hget, if_pos ⟨e1.trans hq, e2 ▸ hcol⟩]
  · rintro ⟨q1, q2⟩ hq
    by_cases h0 : 0 ≤ q1 ∧ 0 ≤ q2
    · have e1 : ((q1.toNat : Int), (q2.toNat : Int)) = (q1, q2) := by
        simp only [Prod.mk.injEq]; omega
      have e2 : m.cellAt q1 q2 = m.get? q1.toNat q2.toNat := by simp [Grid.cellAt, h0]
      have e3 : m'.cellAt q1 q2 = m'.get? q1.toNat q2.toNat := by simp [Grid.cellAt, h0]
      simp only at hq ⊢
      rw [e3, hget, if_neg, e2]
      rintro ⟨h1, h2⟩
      exact hq ⟨e1.symm.trans h1, e2 ▸ h2⟩
    · simp [Grid.cellAt, h0]

theorem fold_noncollect (c : Global) (hC : 0 < c.CELL_SIZE) {m : Grid} (hm : Grid.WF c m)
    {x y : Int} (hx : isShort x) (hy : isShort y) (d : Bool) (as : List Nat) :
    ∀ out : Bool, ∃ out', as.foldlM (map_collision.visit c false d x y) (out, m)
        = some (out', m) ∧
      (out' = true ↔ out = true ∨ ∃ a ∈ as, inBounds c (map_collision.candidate c x y a) ∧
        Blocking d (m.cellAt (map_collision.candidate c x y a).1
          (map_collision.candidate c x y a).2)) := by
  induction as with
  | nil => intro out; exact ⟨out, rfl, by simp⟩
  | cons a as ih =>
    intro out
    obtain ⟨out1, h1, ho1⟩ := visit_noncollect c hC hm hx hy d out a
    obtain ⟨out2, h2, ho2⟩ := ih out1
    refine ⟨out2, ?_, ?_⟩
    · rw [List.foldlM_cons, h1]; exact h2
    · rw [ho2, ho1]
      simp only [List.mem_cons, exists_eq_or_imp]
      tauto

theorem fold_collect (c : Global) (hC : 0 < c.CELL_SIZE)
    {x y : Int} (hx : isShort x) (hy : isShort y) (d : Bool) (as : List Nat) :
    ∀ (out : Bool) (m : Grid), Grid.WF c m →
      ∃ out' m', as.foldlM (map_collision.visit c true d x y) (out, m) = some (out', m') ∧
      Grid.WF c m' ∧
      (out' = true ↔ out = true ∨ ∃ a ∈ as,
        m.cellAt (map_collision.candidate c x y a).1 (map_collision.candidate c x y a).2
          = some Cell.Energizer) ∧
      (∀ q : Int × Int, (∃ a ∈ as, map_collision.candidate c x y a = q) ∧
          Collectable (m.cellAt q.1 q.2) → m'.cellAt q.1 q.2 = some Cell.Empty) ∧
      (∀ q : Int × Int, ¬ ((∃ a ∈ as, map_collision.candidate c x y a = q) ∧
          Collectable (m.cellAt q.1 q.2)) → m'.cellAt q.1 q.2 = m.cellAt q.1 q.2) ∧
      ((∀ a ∈ as, ¬ Collectable (m.cellAt (map_collision.candidate c x y a).1
          (map_collision.candidate c x y a).2)) → m' = m) := by
  induction as with
  | nil =>
    intro out m hm
    exact ⟨out, m, rfl, hm, by simp, by simp, by simp, by simp⟩
  | cons a as ih =>
    intro out m hm
    obtain ⟨out1, m1, h1, hwf1, hC1, hA1, hB1, hD1⟩ :=
      visit_collect_cellAt c hC hm hx hy d out a
    obtain ⟨out2, m2, h2, hwf2, hC2, hA2, hB2, hD2⟩ := ih out1 m1 hwf1
    have notE : ¬ Collectable (some Cell.Empty) := by simp [Collectable]
    refine ⟨out2, m2, ?_, hwf2, ?_, ?_, ?_, ?_⟩
    · rw [List.foldlM_cons, h1]; exact h2
    · rw [hC2, hC1]
      constructor
      · rintro ((h | h) | ⟨b, hb, hE⟩)
        · exact Or.inl h
        · exact Or.inr ⟨a, List.mem_cons_self _ _, h⟩
        · by_cases hq : map_collision.candidate c x y b = map_collision.candidate c x y a ∧
              Collectable (m.cellAt (map_collision.candidate c x y b).1
                (map_collision.candidate c x y b).2)
          · rw [hA1 _ hq] at hE; cases hE
          · rw [hB1 _ hq] at hE
            exact Or.inr ⟨b, List.mem_cons_of_mem _ hb, hE⟩
      · rintro (h | ⟨b, hb, hE⟩)
        · exact Or.inl (Or.inl h)
        · rcases List.mem_cons.1 hb with rfl | hb
          · exact Or.inl (Or.inr hE)
          · by_cases hq : map_collision.candidate c x y b = map_collision.candidate c x y a
            · rw [hq] at hE; exact Or.inl (Or.inr hE)
            · refine Or.inr ⟨b, hb, ?_⟩
              rw [hB1 _ (fun h => hq h.1)]; exact hE
    · rintro q ⟨⟨b, hb, hbq⟩, hcol⟩
      by_cases hq : q = map_collision.candidate c x y a
      · have e1 := hA1 q ⟨hq, hcol⟩
        rw [hB2 q (fun h => notE (e1 ▸ h.2)), e1]
      · have e1 := hB1 q (fun h => hq h.1)
        rcases List.mem_cons.1 hb with rfl | hb
        · exact absurd hbq.symm hq
        · exact hA2 q ⟨⟨b, hb, hbq⟩, e1 ▸ hcol⟩
    · intro q hq
      have e1 : m1.cellAt q.1 q.2 = m.cellAt q.1 q.2 := by
        apply hB1
        rintro ⟨h1, h2⟩
        exact hq ⟨⟨a, List.mem_cons_self _ _, h1.symm⟩, h2⟩
      rw [hB2 q, e1]
      rintro ⟨⟨b, hb, hbq⟩, h2⟩
      exact hq ⟨⟨b, List.mem_cons_of_mem _ hb, hbq⟩, e1 ▸ h2⟩
    · intro h
      have e1 : m1 = m := hD1 (h a (List.mem_cons_self _ _))
      subst e1
      exact hD2 (fun b hb => h b (List.mem_cons_of_mem _ hb))

/-! ## `map_collision` as a whole -/

theorem map_collision_noncollect (c : Global) (hC : 0 < c.CELL_SIZE) {m : Grid}
    (hm : Grid.WF c m) {x y : Int} (hx : isShort x) (hy : isShort y) (d : Bool) :
    ∃ b, map_collision c false d x y m = some (b, m) ∧
      (b = true ↔ ∃ p ∈ candidateCells c x y, inBounds c p ∧ Blocking d (m.cellAt p.1 p.2)) := by
  obtain ⟨b, hb, hiff⟩ := fold_noncollect c hC hm hx hy d [0, 1, 2, 3] false
  refine ⟨b, hb, ?_⟩
  rw [hiff]
  constructor
  · rintro (h | ⟨a, ha, h⟩)
    · cases h
    · exact ⟨_, (candidate_mem_iff c x y _).1 ⟨a, ha, rfl⟩, h⟩
  · rintro ⟨p, hp, h⟩
    obtain ⟨a, ha, rfl⟩ := (candidate_mem_iff c x y p).2 hp
    exact Or.inr ⟨a, ha, h⟩

theorem map_collision_collect (c : Global) (hC : 0 < c.CELL_SIZE) {m : Grid}
    (hm : Grid.WF c m) {x y : Int} (hx : isShort x) (hy : isShort y) (d : Bool) :
    ∃ b m', map_collision c true d x y m = some (b, m') ∧ Grid.WF c m' ∧
      (b = true ↔ ∃ p ∈ candidateCells c x y, m.cellAt p.1 p.2 = some Cell.Energizer) ∧
      (∀ q : Int × Int, q ∈ candidateCells c x y → Collectable (m.cellAt q.1 q.2) →
        m'.cellAt q.1 q.2 = some Cell.Empty) ∧
      (∀ q : Int × Int, ¬ (q ∈ candidateCells c x y ∧ Collectable (m.cellAt q.1 q.2)) →
        m'.cellAt q.1 q.2 = m.cellAt q.1 q.2) ∧
      ((∀ p ∈ candidateCells c x y, ¬ Collectable (m.cellAt p.1 p.2)) → m' = m) := by
  obtain ⟨b, m', hb, hwf, hiff, hA, hB, hD⟩ := fold_collect c hC hx hy d [0, 1, 2, 3] false m hm
  refine ⟨b, m', hb, hwf, ?_, ?_, ?_, ?_⟩
  · rw [hiff]
    constructor
    · rintro (h | ⟨a, ha, h⟩)
      · cases h
      · exact ⟨_, (candidate_mem_iff c x y _).1 ⟨a, ha, rfl⟩, h⟩
    · rintro ⟨p, hp, h⟩
      obtain ⟨a, ha, rfl⟩ := (candidate_mem_iff c x y p).2 hp
      exact Or.inr ⟨a, ha, h⟩
  · intro q hq hcol
    exact hA q ⟨(candidate_mem_iff c x y q).2 hq, hcol⟩
  · intro q hq
    exact hB q (fun h => hq ⟨(candidate_mem_iff c x y q).1 h.1, h.2⟩)
  · intro h
    apply hD
    intro a ha
    exact h _ ((candidate_mem_iff c x y _).1 ⟨a, ha, rfl⟩)

/-- C1: in non-collecting mode `map_collision` returns true exactly when one of
the four candidate cells (floor / ceiling of `x / CELL_SIZE` and of
`y / CELL_SIZE`) lies inside the grid and is a Wall, or is a Door while door
passage is disallowed. -/
theorem C1_blocked_iff_wall_or_closed_door (c : Global) (hC : 0 < c.CELL_SIZE) (m : Grid)
    (hm : Grid.WF c m) (x y : Int) (hx : isShort x) (hy : isShort y) (use_door : Bool) :
    ∃ b m', map_collision c false use_door x y m = some (b, m') ∧
      (b = true ↔ ∃ p ∈ candidateCells c x y, inBounds c p ∧
        (m.cellAt p.1 p.2 = some Cell.Wall ∨
          (m.cellAt p.1 p.2 = some Cell.Door ∧ use_door = false))) := by
  obtain ⟨b, hb, hiff⟩ := map_collision_noncollect c hC hm hx hy use_door
  exact ⟨b, m, hb, hiff⟩

/-- C1 instantiated: on an all-Wall 21 x 21 grid the probe at (17, 16) is
blocked. -/
theorem C1_blocked_iff_wall_or_closed_door_witness :
    ∃ b m', map_collision Global.sample false false 17 16 (Grid.fill 21 21 Cell.Wall)
        = some (b, m') ∧
      (b = true ↔ ∃ p ∈ candidateCells Global.sample 17 16, inBounds Global.sample p ∧
        ((Grid.fill 21 21 Cell.Wall).cellAt p.1 p.2 = some Cell.Wall ∨
          ((Grid.fill 21 21 Cell.Wall).cellAt p.1 p.2 = some Cell.Door ∧ false = false))) :=
  C1_blocked_iff_wall_or_closed_door Global.sample (by decide) (Grid.fill 21 21 Cell.Wall)
    (by decide) 17 16 (by decide) (by decide) false

/-- C2: in collecting mode `map_collision` returns true exactly when an
in-bounds candidate cell held an Energizer before the call; afterwards every
in-bounds candidate cell that held an Energizer or a Pellet is Empty; a call
whose in-bounds candidate cells all hold Pellets returns false. -/
theorem C2_collect_signal_and_emptying (c : Global) (hC : 0 < c.CELL_SIZE) (m : Grid)
    (hm : Grid.WF c m) (x y : Int) (hx : isShort x) (hy : isShort y) (use_door : Bool) :
    ∃ b m', map_collision c true use_door x y m = some (b, m') ∧
      (b = true ↔ ∃ p ∈ candidateCells c x y, inBounds c p ∧
        m.cellAt p.1 p.2 = some Cell.Energizer) ∧
      (∀ p ∈ candidateCells c x y, inBounds c p →
        (m.cellAt p.1 p.2 = some Cell.Energizer ∨ m.cellAt p.1 p.2 = some Cell.Pellet) →
        m'.cellAt p.1 p.2 = some Cell.Empty) ∧
      ((∀ p ∈ candidateCells c x y, inBounds c p → m.cellAt p.1 p.2 = some Cell.Pellet) →
        b = false) := by
  obtain ⟨b, m', hb, _, hiff, hA, _, _⟩ := map_collision_collect c hC hm hx hy use_door
  have hiff' : b = true ↔ ∃ p ∈ candidateCells c x y, inBounds c p ∧
      m.cellAt p.1 p.2 = some Cell.Energizer := by
    rw [hiff]
    constructor
    · rintro ⟨p, hp, h⟩
      exact ⟨p, hp, Grid.cellAt_inBounds hm h, h⟩
    · rintro ⟨p, hp, _, h⟩
      exact ⟨p, hp, h⟩
  refine ⟨b, m', hb, hiff', ?_, ?_⟩
  · intro p hp _ hcol
    exact hA p hp hcol
  · intro hpel
    cases hbv : b with
    | false => rfl
    | true =>
      obtain ⟨p, hp, hin, hE⟩ := hiff'.1 hbv
      rw [hpel p hp hin] at hE
      cases hE

/-- C2 instantiated: collecting at (17, 16) on the 3 x 3 demo grid. -/
theorem C2_collect_signal_and_emptying_witness :
    ∃ b m', map_collision Global.small true false 16 8 Grid.demo = some (b, m') ∧
      (b = true ↔ ∃ p ∈ candidateCells Global.small 16 8, inBounds Global.small p ∧
        Grid.demo.cellAt p.1 p.2 = some Cell.Energizer) ∧
      (∀ p ∈ candidateCells Global.small 16 8, inBounds Global.small p →
        (Grid.demo.cellAt p.1 p.2 = some Cell.Energizer ∨
          Grid.demo.cellAt p.1 p.2 = some Cell.Pellet) →
        m'.cellAt p.1 p.2 = some Cell.Empty) ∧
      ((∀ p ∈ candidateCells Global.small 16 8, inBounds Global.small p →
        Grid.demo.cellAt p.1 p.2 = some Cell.Pellet) → b = false) :=
  C2_collect_signal_and_emptying Global.small (by decide) Grid.demo (by decide) 16 8
    (by decide) (by decide) false

/-- C3: `map_collision` changes the grid only by collection. In non-collecting
mode the grid after the call is the grid before it. In collecting mode the
dimensions are kept, every cell that is not a candidate cell or is out of
bounds is unchanged, every Wall, Door or Empty cell is unchanged, and a cell
that changes held a Pellet or an Energizer and becomes Empty. -/
theorem C3_grid_changes_only_by_collection (c : Global) (hC : 0 < c.CELL_SIZE) (m : Grid)
    (hm : Grid.WF c m) (x y : Int) (hx : isShort x) (hy : isShort y) (use_door : Bool) :
    (∃ b, map_collision c false use_door x y m = some (b, m)) ∧
    (∃ b m', map_collision c true use_door x y m = some (b, m') ∧ Grid.WF c m' ∧
      (∀ q : Int × Int, (q ∉ candidateCells c x y ∨ ¬ inBounds c q) →
        m'.cellAt q.1 q.2 = m.cellAt q.1 q.2) ∧
      (∀ q : Int × Int, (m.cellAt q.1 q.2 = some Cell.Wall ∨ m.cellAt q.1 q.2 = some Cell.Door ∨
          m.cellAt q.1 q.2 = some Cell.Empty) → m'.cellAt q.1 q.2 = m.cellAt q.1 q.2) ∧
      (∀ q : Int × Int, m'.cellAt q.1 q.2 ≠ m.cellAt q.1 q.2 →
        (m.cellAt q.1 q.2 = some Cell.Pellet ∨ m.cellAt q.1 q.2 = some Cell.Energizer) ∧
        m'.cellAt q.1 q.2 = some Cell.Empty)) := by
  constructor
  · obtain ⟨b, hb, _⟩ := map_collision_noncollect c hC hm hx hy use_door
    exact ⟨b, hb⟩
  · obtain ⟨b, m', hb, hwf, _, hA, hB, _⟩ := map_collision_collect c hC hm hx hy use_door
    refine ⟨b, m', hb, hwf, ?_, ?_, ?_⟩
    · rintro q (hq | hq)
      · exact hB q (fun h => hq h.1)
      · apply hB q
        rintro ⟨_, h2⟩
        rcases h2 with h2 | h2 <;> exact hq (Grid.cellAt_inBounds hm h2)
    · intro q hq
      apply hB q
      rintro ⟨_, h2⟩
      unfold Collectable at h2
      rcases hq with hq | hq | hq <;> rw [hq] at h2 <;> simp at h2
    · intro q hne
      by_cases h : q ∈ candidateCells c x y ∧ Collectable (m.cellAt q.1 q.2)
      · exact ⟨h.2.symm, hA q h.1 h.2⟩
      · exact absurd (hB q h) hne

/-- C3 instantiated on the 3 x 3 demo grid at the point (17, 16). -/
theorem C3_grid_changes_only_by_collection_witness :
    (∃ b, map_collision Global.small false false 16 8 Grid.demo = some (b, Grid.demo)) ∧
    (∃ b m', map_collision Global.small true false 16 8 Grid.demo = some (b, m') ∧
      Grid.WF Global.small m' ∧
      (∀ q : Int × Int, (q ∉ candidateCells Global.small 16 8 ∨ ¬ inBounds Global.small q) →
        m'.cellAt q.1 q.2 = Grid.demo.cellAt q.1 q.2) ∧
      (∀ q : Int × Int, (Grid.demo.cellAt q.1 q.2 = some Cell.Wall ∨
          Grid.demo.cellAt q.1 q.2 = some Cell.Door ∨
          Grid.demo.cellAt q.1 q.2 = some Cell.Empty) →
        m'.cellAt q.1 q.2 = Grid.demo.cellAt q.1 q.2) ∧
      (∀ q : Int × Int, m'.cellAt q.1 q.2 ≠ Grid.demo.cellAt q.1 q.2 →
        (Grid.demo.cellAt q.1 q.2 = some Cell.Pellet ∨
          Grid.demo.cellAt q.1 q.2 = some Cell.Energizer) ∧
        m'.cellAt q.1 q.2 = some Cell.Empty)) :=
  C3_grid_changes_only_by_collection Global.small (by decide) Grid.demo (by decide) 16 8
    (by decide) (by decide) false

/-- C4: the collecting probe is idempotent after the first visit. After one
collecting call at (x, y), a second collecting call at the same point returns
false and leaves the grid as the first call left it, and every in-bounds
candidate cell that held a Pellet or an Energizer is Empty. -/
theorem C4_collect_idempotent (c : Global) (hC : 0 < c.CELL_SIZE) (m : Grid)
    (hm : Grid.WF c m) (x y : Int) (hx : isShort x) (hy : isShort y) (d1 d2 : Bool) :
    ∃ b1 m1, map_collision c true d1 x y m = some (b1, m1) ∧
      map_collision c true d2 x y m1 = some (false, m1) ∧
      (∀ p ∈ candidateCells c x y, inBounds c p →
        (m.cellAt p.1 p.2 = some Cell.Pellet ∨ m.cellAt p.1 p.2 = some Cell.Energizer) →
        m1.cellAt p.1 p.2 = some Cell.Empty) := by
  obtain ⟨b1, m1, hb1, hwf1, _, hA, hB, _⟩ := map_collision_collect c hC hm hx hy d1
  obtain ⟨b2, m2, hb2, _, hiff2, _, _, hD2⟩ := map_collision_collect c hC hwf1 hx hy d2
  have hnot : ∀ p ∈ candidateCells c x y, ¬ Collectable (m1.cellAt p.1 p.2) := by
    intro p hp hcol
    by_cases h : Collectable (m.cellAt p.1 p.2)
    · rw [hA p hp h] at hcol
      simp [Collectable] at hcol
    · rw [hB p (fun h' => h h'.2)] at hcol
      exact h hcol
  have hm2 : m2 = m1 := hD2 hnot
  have hb2f : b2 = false := by
    cases hbv : b2 with
    | false => rfl
    | true =>
      obtain ⟨p, hp, hE⟩ := hiff2.1 hbv
      exact absurd (Or.inl hE) (hnot p hp)
  subst hm2 hb2f
  refine ⟨b1, m2, hb1, hb2, ?_⟩
  intro p hp _ hcol
  exact hA p hp hcol.symm

/-- C4 instantiated on the 3 x 3 demo grid at the point (17, 16). -/
theorem C4_collect_idempotent_witness :
    ∃ b1 m1, map_collision Global.small true false 16 8 Grid.demo = some (b1, m1) ∧
      map_collision Global.small true false 16 8 m1 = some (false, m1) ∧
      (∀ p ∈ candidateCells Global.small 16 8, inBounds Global.small p →
        (Grid.demo.cellAt p.1 p.2 = some Cell.Pellet ∨
          Grid.demo.cellAt p.1 p.2 = some Cell.Energizer) →
        m1.cellAt p.1 p.2 = some Cell.Empty) :=
  C4_collect_idempotent Global.small (by decide) Grid.demo (by decide) 16 8
    (by decide) (by decide) false false

theorem floorCell_mul (c : Global) (hC : 0 < c.CELL_SIZE) (i : Int) :
    floorCell c ((c.CELL_SIZE : Int) * i) = i := by
  have hC' : (c.CELL_SIZE : Int) ≠ 0 := by exact_mod_cast (Nat.pos_iff_ne_zero.1 hC)
  unfold floorCell
  exact Int.mul_ediv_cancel_left i hC'

theorem ceilCell_mul (c : Global) (hC : 0 < c.CELL_SIZE) (i : Int) :
    ceilCell c ((c.CELL_SIZE : Int) * i) = i := by
  have hC' : (c.CELL_SIZE : Int) ≠ 0 := by exact_mod_cast (Nat.pos_iff_ne_zero.1 hC)
  unfold ceilCell
  rw [← mul_neg, Int.mul_ediv_cancel_left _ hC', neg_neg]

/-- C5: a point whose coordinates are exact multiples of `CELL_SIZE` (so that
its four candidate cells coincide) and whose cell is in bounds and neither
Wall nor Door is reported unblocked by the non-collecting probe for either
door mode; a point whose cell (floor of `x / CELL_SIZE`, floor of
`y / CELL_SIZE`) is an in-bounds Wall cell is reported blocked. -/
theorem C5_open_cell_unblocked_wall_blocked (c : Global) (hC : 0 < c.CELL_SIZE) (m : Grid)
    (hm : Grid.WF c m) (x y : Int) (hx : isShort x) (hy : isShort y) :
    (∀ i j : Int, x = (c.CELL_SIZE : Int) * i → y = (c.CELL_SIZE : Int) * j →
      inBounds c (i, j) → m.cellAt i j ≠ some Cell.Wall → m.cellAt i j ≠ some Cell.Door →
      candidateCells c x y = [(i, j), (i, j), (i, j), (i, j)] ∧
      ∀ use_door : Bool, map_collision c false use_door x y m = some (false, m)) ∧
    (inBounds c (⌊(x : ℚ) / c.CELL_SIZE⌋, ⌊(y : ℚ) / c.CELL_SIZE⌋) →
      m.cellAt ⌊(x : ℚ) / c.CELL_SIZE⌋ ⌊(y : ℚ) / c.CELL_SIZE⌋ = some Cell.Wall →
      ∀ use_door : Bool, map_collision c false use_door x y m = some (true, m)) := by
  constructor
  · intro i j hi hj _ hW hD
    have hcand : candidateCells c x y = [(i, j), (i, j), (i, j), (i, j)] := by
      simp only [candidateCells, ← floorCell_eq_floor, ← ceilCell_eq_ceil, hi, hj,
        floorCell_mul c hC, ceilCell_mul c hC]
    refine ⟨hcand, ?_⟩
    intro use_door
    obtain ⟨b, hb, hiff⟩ := map_collision_noncollect c hC hm hx hy use_door
    have hbf : b = false := by
      cases hbv : b with
      | false => rfl
      | true =>
        obtain ⟨p, hp, _, hbl⟩ := hiff.1 hbv
        rw [hcand] at hp
        have hpe : p = (i, j) := by simpa using hp
        subst hpe
        rcases hbl with h | ⟨h, _⟩
        · exact absurd h hW
        · exact absurd h hD
    rw [hb, hbf]
  · intro hin hW use_door
    obtain ⟨b, hb, hiff⟩ := map_collision_noncollect c hC hm hx hy use_door
    have hbt : b = true := by
      apply hiff.2
      refine ⟨(⌊(x : ℚ) / c.CELL_SIZE⌋, ⌊(y : ℚ) / c.CELL_SIZE⌋), ?_, hin, Or.inl hW⟩
      simp [candidateCells]
    rw [hb, hbt]

/-- C5 instantiated on the 3 x 3 demo grid: the point (16, 32) lies in the
Empty cell (1, 2) and is unblocked in either door mode; the point (5, 7) lies
in the Wall cell (0, 0) and is blocked. -/
theorem C5_open_cell_unblocked_wall_blocked_witness :
    (candidateCells Global.small 16 32 = [(1, 2), (1, 2), (1, 2), (1, 2)] ∧
      ∀ use_door : Bool,
        map_collision Global.small false use_door 16 32 Grid.demo = some (false, Grid.demo)) ∧
    (∀ use_door : Bool,
      map_collision Global.small false use_door 5 7 Grid.demo = some (true, Grid.demo)) :=
  ⟨(C5_open_cell_unblocked_wall_blocked Global.small (by decide) Grid.demo (by decide) 16 32
      (by decide) (by decide)).1 1 2 (by decide) (by decide) (by decide) (by decide)
      (by decide),
    (C5_open_cell_unblocked_wall_blocked Global.small (by decide) Grid.demo (by decide) 5 7
      (by decide) (by decide)).2
      (by rw [← floorCell_eq_floor, ← floorCell_eq_floor]; decide)
      (by rw [← floorCell_eq_floor, ← floorCell_eq_floor]; decide)⟩

/-- C6: `map_collision` is total on signed 16-bit points and never leaves the
grid: for both modes the call returns a result (no conversion or array access
of the model fails), a loop iteration whose candidate cell is out of bounds
leaves flag and grid as they are, and when all four candidate cells are out of
bounds the call returns false and the grid is unchanged. -/
theorem C6_total_and_out_of_bounds_skipped (c : Global) (hC : 0 < c.CELL_SIZE) (m : Grid)
    (hm : Grid.WF c m) (x y : Int) (hx : isShort x) (hy : isShort y)
    (collect use_door : Bool) :
    (∃ b m', map_collision c collect use_door x y m = some (b, m') ∧ Grid.WF c m') ∧
    (∀ (a : Nat) (out : Bool), ¬ inBounds c (map_collision.candidate c x y a) →
      map_collision.visit c collect use_door x y (out, m) a = some (out, m)) ∧
    ((∀ p ∈ candidateCells c x y, ¬ inBounds c p) →
      map_collision c collect use_door x y m = some (false, m)) := by
  refine ⟨?_, ?_, ?_⟩
  · cases collect with
    | false =>
      obtain ⟨b, hb, _⟩ := map_collision_noncollect c hC hm hx hy use_door
      exact ⟨b, m, hb, hm⟩
    | true =>
      obtain ⟨b, m', hb, hwf, _⟩ := map_collision_collect c hC hm hx hy use_door
      exact ⟨b, m', hb, hwf⟩
  · intro a out hout
    obtain ⟨s1, s2⟩ := candidate_isShort c hC hx hy a
    unfold map_collision.visit
    unfold inBounds at hout
    simp only [floatToShort_of_isShort s1, floatToShort_of_isShort s2, Option.bind_eq_bind,
      Option.some_bind]
    exact if_neg hout
  · intro hall
    cases collect with
    | false =>
      obtain ⟨b, hb, hiff⟩ := map_collision_noncollect c hC hm hx hy use_door
      have hbf : b = false := by
        cases hbv : b with
        | false => rfl
        | true =>
          obtain ⟨p, hp, hin, _⟩ := hiff.1 hbv
          exact absurd hin (hall p hp)
      rw [hb, hbf]
    | true =>
      obtain ⟨b, m', hb, _, hiff, _, _, hD⟩ := map_collision_collect c hC hm hx hy use_door
      have hnone : ∀ p ∈ candidateCells c x y, ∀ cell, m.cellAt p.1 p.2 ≠ some cell :=
        fun p hp cell h => hall p hp (Grid.cellAt_inBounds hm h)
      have hbf : b = false := by
        cases hbv : b with
        | false => rfl
        | true =>
          obtain ⟨p, hp, hE⟩ := hiff.1 hbv
          exact absurd hE (hnone p hp _)
      have hm' : m' = m := by
        apply hD
        intro p hp hcol
        rcases hcol with h | h <;> exact hnone p hp _ h
      rw [hb, hbf, hm']

/-- C6 instantiated on the 3 x 3 demo grid at the point (-32768, 32767), whose
candidate cells are all out of bounds. -/
theorem C6_total_and_out_of_bounds_skipped_witness :
    (∃ b m', map_collision Global.small true false (-32768) 32767 Grid.demo = some (b, m') ∧
      Grid.WF Global.small m') ∧
    (∀ (a : Nat) (out : Bool),
      ¬ inBounds Global.small (map_collision.candidate Global.small (-32768) 32767 a) →
      map_collision.visit Global.small true false (-32768) 32767 (out, Grid.demo) a
        = some (out, Grid.demo)) ∧
    ((∀ p ∈ candidateCells Global.small (-32768) 32767, ¬ inBounds Global.small p) →
      map_collision Global.small true false (-32768) 32767 Grid.demo
        = some (false, Grid.demo)) :=
  C6_total_and_out_of_bounds_skipped Global.small (by decide) Grid.demo (by decide)
    (-32768) 32767 (by decide) (by decide) true false

/-! ## `Pacman::update` -/

theorem toShort_isShort (n : Int) : isShort (toShort n) := by
  unfold isShort toShort; omega

theorem toShort_of_isShort {n : Int} (h : isShort n) : toShort n = n := by
  unfold isShort at h; unfold toShort; omega

theorem turn_cases (kb : Keyboard) (w0 w1 w2 w3 : Bool) (d : Nat) :
    Pacman.update.turn kb w0 w1 w2 w3 d =
      if kb.Down = true ∧ w3 = false then 3
      else if kb.Left = true ∧ w2 = false then 2
      else if kb.Up = true ∧ w1 = false then 1
      else if kb.Right = true ∧ w0 = false then 0
      else d := by
  unfold Pacman.update.turn
  cases kb.Down <;> cases kb.Left <;> cases kb.Up <;> cases kb.Right <;>
    cases w0 <;> cases w1 <;> cases w2 <;> cases w3 <;> simp

theorem turn_lt (kb : Keyboard) (w0 w1 w2 w3 : Bool) {d : Nat} (hd : d < 4) :
    Pacman.update.turn kb w0 w1 w2 w3 d < 4 := by
  rw [turn_cases]
  split_ifs <;> omega

theorem step_isShort (c : Global) (d : Nat) {pos : Position} (hx : isShort pos.x)
    (hy : isShort pos.y) :
    isShort (Pacman.update.step c d pos).x ∧ isShort (Pacman.update.step c d pos).y := by
  unfold Pacman.update.step
  split <;> exact ⟨by first | exact toShort_isShort _ | exact hx,
    by first | exact toShort_isShort _ | exact hy⟩

theorem warp_isShort (c : Global) {pos : Position} (hx : isShort pos.x) (hy : isShort pos.y) :
    isShort (Pacman.update.warp c pos).x ∧ isShort (Pacman.update.warp c pos).y := by
  unfold Pacman.update.warp
  split_ifs <;> exact ⟨by first | exact toShort_isShort _ | exact hx, hy⟩

theorem warp_y (c : Global) (pos : Position) : (Pacman.update.warp c pos).y = pos.y := by
  unfold Pacman.update.warp
  split_ifs <;> rfl

/-- The result of `Pacman::update` in closed form: the four wall probes leave
the grid alone, the collecting probe runs at the wrapped position, and the
player record is updated as the source does. -/
theorem Pacman.update_spec (c : Global) (hC : 0 < c.CELL_SIZE) (kb : Keyboard) (L : Nat)
    (hE : c.ENERGIZER_DURATION / 2 ^ L < 65536) (p : Pacman) (hd : p.direction < 4)
    (hpx : isShort p.position.x) (hpy : isShort p.position.y) (m : Grid) (hm : Grid.WF c m) :
    ∃ (w0 w1 w2 w3 wall hit : Bool) (dir : Nat) (pos : Position) (m' : Grid),
      map_collision c false false (toShort ((c.PACMAN_SPEED : Int) + p.position.x))
        p.position.y m = some (w0, m) ∧
      map_collision c false false p.position.x
        (toShort (p.position.y - (c.PACMAN_SPEED : Int))) m = some (w1, m) ∧
      map_collision c false false (toShort (p.position.x - (c.PACMAN_SPEED : Int)))
        p.position.y m = some (w2, m) ∧
      map_collision c false false p.position.x
        (toShort (p.position.y + (c.PACMAN_SPEED : Int))) m = some (w3, m) ∧
      dir = Pacman.update.turn kb w0 w1 w2 w3 p.direction ∧ dir < 4 ∧
      [w0, w1, w2, w3][dir]? = some wall ∧
      pos = Pacman.update.warp c
        (if wall = false then Pacman.update.step c dir p.position else p.position) ∧
      isShort pos.x ∧ isShort pos.y ∧
      map_collision c true false pos.x pos.y m = some (hit, m') ∧ Grid.WF c m' ∧
      Pacman.update c kb L p m = some ({ p with
        direction := dir, position := pos,
        energizer_timer := if hit = true then c.ENERGIZER_DURATION / 2 ^ L
          else p.energizer_timer - 1 }, m') := by
  obtain ⟨w0, h0, _⟩ := map_collision_noncollect c hC hm
    (toShort_isShort ((c.PACMAN_SPEED : Int) + p.position.x)) hpy false
  obtain ⟨w1, h1, _⟩ := map_collision_noncollect c hC hm hpx
    (toShort_isShort (p.position.y - (c.PACMAN_SPEED : Int))) false
  obtain ⟨w2, h2, _⟩ := map_collision_noncollect c hC hm
    (toShort_isShort (p.position.x - (c.PACMAN_SPEED : Int))) hpy false
  obtain ⟨w3, h3, _⟩ := map_collision_noncollect c hC hm hpx
    (toShort_isShort (p.position.y + (c.PACMAN_SPEED : Int))) false
  have hdir := turn_lt kb w0 w1 w2 w3 hd
  generalize hdir_eq : Pacman.update.turn kb w0 w1 w2 w3 p.direction = dir at hdir
  have hwall : ∃ wall, [w0, w1, w2, w3][dir]? = some wall := by
    interval_cases dir <;> simp
  obtain ⟨wall, hwall⟩ := hwall
  have hmoved : isShort (if wall = false then Pacman.update.step c dir p.position
      else p.position).x ∧ isShort (if wall = false then Pacman.update.step c dir p.position
      else p.position).y := by
    split_ifs
    · exact step_isShort c dir hpx hpy
    · exact ⟨hpx, hpy⟩
  have hpos := warp_isShort c hmoved.1 hmoved.2
  generalize hpos_eq : Pacman.update.warp c
    (if wall = false then Pacman.update.step c dir p.position else p.position) = pos at hpos
  obtain ⟨hit, m', h4, hwf', _⟩ := map_collision_collect c hC hm hpos.1 hpos.2 false
  refine ⟨w0, w1, w2, w3, wall, hit, dir, pos, m', h0, h1, h2, h3, hdir_eq.symm, hdir, hwall,
    hpos_eq.symm, hpos.1, hpos.2, h4, hwf', ?_⟩
  have hpos_eq' : Pacman.update.warp c
      (if (!wall) = true then Pacman.update.step c dir p.position else p.position) = pos := by
    rw [← hpos_eq]; cases wall <;> rfl
  have ht : floatToUShort (c.ENERGIZER_DURATION / 2 ^ L) = some (c.ENERGIZER_DURATION / 2 ^ L) :=
    if_pos hE
  have hmax : (max 0 ((p.energizer_timer : Int) - 1)).toNat = p.energizer_timer - 1 := by omega
  unfold Pacman.update
  simp only [h0, h1, h2, h3, Option.bind_eq_bind, Option.some_bind, hdir_eq, hwall, hpos_eq',
    h4, ht, hmax]
  cases hit <;> simp

theorem probe_eq (c : Global) (m : Grid) (pos : Position)
    (hx : isShort (pos.x - (c.PACMAN_SPEED : Int)) ∧ isShort (pos.x + (c.PACMAN_SPEED : Int)))
    (hy : isShort (pos.y - (c.PACMAN_SPEED : Int)) ∧ isShort (pos.y + (c.PACMAN_SPEED : Int)))
    {w0 w1 w2 w3 : Bool}
    (h0 : map_collision c false false (toShort ((c.PACMAN_SPEED : Int) + pos.x)) pos.y m
      = some (w0, m))
    (h1 : map_collision c false false pos.x (toShort (pos.y - (c.PACMAN_SPEED : Int))) m
      = some (w1, m))
    (h2 : map_collision c false false (toShort (pos.x - (c.PACMAN_SPEED : Int))) pos.y m
      = some (w2, m))
    (h3 : map_collision c false false pos.x (toShort (pos.y + (c.PACMAN_SPEED : Int))) m
      = some (w3, m)) :
    Pacman.probe c m pos 0 = some w0 ∧ Pacman.probe c m pos 1 = some w1 ∧
    Pacman.probe c m pos 2 = some w2 ∧ Pacman.probe c m pos 3 = some w3 := by
  have e0 : toShort ((c.PACMAN_SPEED : Int) + pos.x) = pos.x + (c.PACMAN_SPEED : Int) := by
    rw [add_comm]; exact toShort_of_isShort hx.2
  rw [e0] at h0
  rw [toShort_of_isShort hy.1] at h1
  rw [toShort_of_isShort hx.1] at h2
  rw [toShort_of_isShort hy.2] at h3
  simp [Pacman.probe, Position.advance, h0, h1, h2, h3]

theorem step_eq_advance (c : Global) (pos : Position)
    (hx : isShort (pos.x - (c.PACMAN_SPEED : Int)) ∧ isShort (pos.x + (c.PACMAN_SPEED : Int)))
    (hy : isShort (pos.y - (c.PACMAN_SPEED : Int)) ∧ isShort (pos.y + (c.PACMAN_SPEED : Int)))
    (d : Nat) : Pacman.update.step c d pos = pos.advance c d := by
  unfold Pacman.update.step Position.advance
  split <;> simp [toShort_of_isShort hx.1, toShort_of_isShort hx.2, toShort_of_isShort hy.1,
    toShort_of_isShort hy.2]

/-- C7: `Pacman::update` switches to a requested direction only if that
direction's probe at `PACMAN_SPEED` is unblocked: among the requested unblocked
directions the one of highest ordinal is taken, and when every requested
direction is blocked (or none is requested) the direction is unchanged. The
position before tunnel wrap is then the old position advanced by exactly
`PACMAN_SPEED` along the new direction if that direction is unblocked, and the
old position otherwise. The player is at least `PACMAN_SPEED` away from the
limits of the 16-bit range. -/
theorem C7_turn_and_advance (c : Global) (hC : 0 < c.CELL_SIZE) (kb : Keyboard) (L : Nat)
    (hE : c.ENERGIZER_DURATION / 2 ^ L < 65536) (p : Pacman) (hd : p.direction < 4)
    (hx : isShort (p.position.x - (c.PACMAN_SPEED : Int)) ∧
      isShort (p.position.x + (c.PACMAN_SPEED : Int)))
    (hy : isShort (p.position.y - (c.PACMAN_SPEED : Int)) ∧
      isShort (p.position.y + (c.PACMAN_SPEED : Int)))
    (m : Grid) (hm : Grid.WF c m) :
    ∃ p' m', Pacman.update c kb L p m = some (p', m') ∧
      (∀ d, d < 4 → ∃ b, Pacman.probe c m p.position d = some b) ∧
      (∀ d, d < 4 → kb.requested d = true → Pacman.probe c m p.position d = some false →
        (∀ e, d < e → e < 4 →
          ¬ (kb.requested e = true ∧ Pacman.probe c m p.position e = some false)) →
        p'.direction = d) ∧
      ((∀ d, d < 4 → kb.requested d = true → Pacman.probe c m p.position d = some true) →
        p'.direction = p.direction) ∧
      (p'.direction ≠ p.direction → kb.requested p'.direction = true ∧
        Pacman.probe c m p.position p'.direction = some false) ∧
      (Pacman.probe c m p.position p'.direction = some false →
        p'.position = Pacman.update.warp c (p.position.advance c p'.direction)) ∧
      (Pacman.probe c m p.position p'.direction = some true →
        p'.position = Pacman.update.warp c p.position) := by
  have hpx : isShort p.position.x := by unfold isShort at *; omega
  have hpy : isShort p.position.y := by unfold isShort at *; omega
  obtain ⟨w0, w1, w2, w3, wall, hit, dir, pos, m', h0, h1, h2, h3, hdir, hlt, hwall, hpos,
    _, _, _, _, hupd⟩ := Pacman.update_spec c hC kb L hE p hd hpx hpy m hm
  obtain ⟨q0, q1, q2, q3⟩ := probe_eq c m p.position hx hy h0 h1 h2 h3
  rw [turn_cases] at hdir
  rw [step_eq_advance c p.position hx hy] at hpos
  have hprobe : Pacman.probe c m p.position dir = some wall := by
    have hall : ∀ d, d < 4 → ∀ w, [w0, w1, w2, w3][d]? = some w →
        Pacman.probe c m p.position d = some w := by
      intro d hd4 w hw
      interval_cases d <;> simp at hw <;> subst hw <;> assumption
    exact hall dir hlt wall hwall
  refine ⟨_, m', hupd, ?_, ?_, ?_, ?_, ?_, ?_⟩
  · intro d hd4
    interval_cases d
    exacts [⟨_, q0⟩, ⟨_, q1⟩, ⟨_, q2⟩, ⟨_, q3⟩]
  · intro d hd4 hreq hfree hmax
    show dir = d
    have m1 := hmax 1
    have m2 := hmax 2
    have m3 := hmax 3
    simp only [q0, q1, q2, q3, Keyboard.requested, Option.some.injEq] at m1 m2 m3
    interval_cases d <;>
      simp only [q0, q1, q2, q3, Keyboard.requested, Option.some.injEq] at hreq hfree <;>
      simp_all
  · intro hall
    show dir = p.direction
    have a0 := hall 0 (by omega)
    have a1 := hall 1 (by omega)
    have a2 := hall 2 (by omega)
    have a3 := hall 3 (by omega)
    simp only [q0, q1, q2, q3, Keyboard.requested, Option.some.injEq] at a0 a1 a2 a3
    rw [hdir]
    split_ifs with c3 c2 c1 c0
    · simp [a3 c3.1] at c3
    · simp [a2 c2.1] at c2
    · simp [a1 c1.1] at c1
    · simp [a0 c0.1] at c0
    · rfl
  · intro hne
    change dir ≠ p.direction at hne
    show kb.requested dir = true ∧ Pacman.probe c m p.position dir = some false
    rw [hdir] at hne ⊢
    split_ifs at hne ⊢ with c3 c2 c1 c0
    · exact ⟨c3.1, by rw [q3, c3.2]⟩
    · exact ⟨c2.1, by rw [q2, c2.2]⟩
    · exact ⟨c1.1, by rw [q1, c1.2]⟩
    · exact ⟨c0.1, by rw [q0, c0.2]⟩
    · exact absurd rfl hne
  · intro hfree
    change Pacman.probe c m p.position dir = some false at hfree
    show pos = _
    rw [hprobe] at hfree
    rw [hpos, if_pos (Option.some.inj hfree)]
  · intro hblk
    change Pacman.probe c m p.position dir = some true at hblk
    show pos = _
    rw [hprobe] at hblk
    have : wall = true := Option.some.inj hblk
    rw [hpos, if_neg (by simp [this])]

/-- C7 instantiated: the player at (16, 16) of the 3 x 3 demo grid, facing
Right, with Up requested: Up is unblocked, so the player turns Up and moves to
(16, 14). -/
theorem C7_turn_and_advance_witness :
    ∃ p' m', Pacman.update Global.small { Keyboard.idle with Up := true } 0 Pacman.demo
        Grid.demo = some (p', m') ∧
      p'.direction = 1 ∧ p'.position = { x := 16, y := 14 } := by
  obtain ⟨p', m', hu, _, hturn, _, _, hfree, _⟩ :=
    C7_turn_and_advance Global.small (by decide) { Keyboard.idle with Up := true } 0
      (by decide) Pacman.demo (by decide) (by decide) (by decide) Grid.demo (by decide)
  have hd : p'.direction = 1 := by
    apply hturn 1 (by decide) (by decide) (by decide)
    intro e h1 h2
    interval_cases e <;> decide
  refine ⟨p', m', hu, hd, ?_⟩
  rw [hfree (by rw [hd]; decide), hd]
  decide

/-- C8: after `Pacman::update` at level `L` the energizer countdown is
`floor(ENERGIZER_DURATION / 2 ^ L)` if the collecting probe at the new position
hit an Energizer (returned true, which happens exactly when an in-bounds
candidate cell of the new position held an Energizer), and
`max(0, previous countdown - 1)` otherwise. -/
theorem C8_energizer_countdown (c : Global) (hC : 0 < c.CELL_SIZE) (kb : Keyboard) (L : Nat)
    (hE : c.ENERGIZER_DURATION / 2 ^ L < 65536) (p : Pacman) (hd : p.direction < 4)
    (hpx : isShort p.position.x) (hpy : isShort p.position.y) (m : Grid) (hm : Grid.WF c m) :
    ∃ p' m' hit, Pacman.update c kb L p m = some (p', m') ∧
      map_collision c true false p'.position.x p'.position.y m = some (hit, m') ∧
      (hit = true ↔ ∃ q ∈ candidateCells c p'.position.x p'.position.y, inBounds c q ∧
        m.cellAt q.1 q.2 = some Cell.Energizer) ∧
      (hit = true → p'.energizer_timer = ⌊(c.ENERGIZER_DURATION : ℚ) / 2 ^ L⌋₊) ∧
      (hit = false → (p'.energizer_timer : Int) = max 0 ((p.energizer_timer : Int) - 1)) := by
  obtain ⟨w0, w1, w2, w3, wall, hit, dir, pos, m', _, _, _, _, _, _, _, _, hsx, hsy, hcol,
    _, hupd⟩ := Pacman.update_spec c hC kb L hE p hd hpx hpy m hm
  obtain ⟨b, m'', hb, _, hiff, _, _, _⟩ := map_collision_collect c hC hm hsx hsy false
  rw [hcol] at hb
  obtain ⟨rfl, rfl⟩ : hit = b ∧ m' = m'' := by simpa using hb
  refine ⟨_, m', hit, hupd, hcol, ?_, ?_, ?_⟩
  · show hit = true ↔ ∃ q ∈ candidateCells c pos.x pos.y, _
    rw [hiff]
    constructor
    · rintro ⟨q, hq, h⟩
      exact ⟨q, hq, Grid.cellAt_inBounds hm h, h⟩
    · rintro ⟨q, hq, _, h⟩
      exact ⟨q, hq, h⟩
  · intro hh
    show (if hit = true then c.ENERGIZER_DURATION / 2 ^ L else p.energizer_timer - 1) = _
    rw [if_pos hh]
    have h2 : ((2 : ℚ) ^ L) = ((2 ^ L : ℕ) : ℚ) := by push_cast; rfl
    rw [h2, Nat.floor_div_eq_div]
  · intro hh
    show (((if hit = true then c.ENERGIZER_DURATION / 2 ^ L else p.energizer_timer - 1 : ℕ)) : Int)
      = _
    rw [if_neg (by simp [hh])]
    omega

/-- C8 instantiated: the player at (16, 16) of the 3 x 3 demo grid at level 1,
with Up requested (it moves to (16, 14) and touches the Energizer cell
(1, 0)). -/
theorem C8_energizer_countdown_witness :
    ∃ p' m' hit, Pacman.update Global.small { Keyboard.idle with Up := true } 1 Pacman.demo
        Grid.demo = some (p', m') ∧
      map_collision Global.small true false p'.position.x p'.position.y Grid.demo
        = some (hit, m') ∧
      (hit = true ↔ ∃ q ∈ candidateCells Global.small p'.position.x p'.position.y,
        inBounds Global.small q ∧ Grid.demo.cellAt q.1 q.2 = some Cell.Energizer) ∧
      (hit = true → p'.energizer_timer = ⌊(Global.small.ENERGIZER_DURATION : ℚ) / 2 ^ 1⌋₊) ∧
      (hit = false →
        (p'.energizer_timer : Int) = max 0 ((Pacman.demo.energizer_timer : Int) - 1)) :=
  C8_energizer_countdown Global.small (by decide) { Keyboard.idle with Up := true } 1
    (by decide) Pacman.demo (by decide) (by decide) (by decide) Grid.demo (by decide)

/-! ## The tunnel -/

theorem collect_blocking_iff (c : Global) (hC : 0 < c.CELL_SIZE) {m : Grid} (hm : Grid.WF c m)
    {x y : Int} (hx : isShort x) (hy : isShort y) {b : Bool} {m' : Grid}
    (h : map_collision c true false x y m = some (b, m')) (d : Bool) (q : Int × Int) :
    Blocking d (m'.cellAt q.1 q.2) ↔ Blocking d (m.cellAt q.1 q.2) := by
  obtain ⟨b2, m2, hb, _, _, hA, hB, _⟩ := map_collision_collect c hC hm hx hy false
  rw [h] at hb
  obtain ⟨rfl, rfl⟩ : b = b2 ∧ m' = m2 := by simpa using hb
  by_cases hq : q ∈ candidateCells c x y ∧ Collectable (m.cellAt q.1 q.2)
  · rw [hA q hq.1 hq.2]
    rcases hq.2 with h2 | h2 <;> rw [h2] <;> simp [Blocking]
  · rw [hB q hq]

theorem rowOpen_collect (c : Global) (hC : 0 < c.CELL_SIZE) {m : Grid} (hm : Grid.WF c m)
    {x y : Int} (hx : isShort x) (hy : isShort y) {b : Bool} {m' : Grid}
    (h : map_collision c true false x y m = some (b, m')) (hwf : Grid.WF c m')
    {y0 : Int} (hy0 : isShort y0) (hopen : rowOpen c y0 m) : rowOpen c y0 m' := by
  intro x1 hx1
  obtain ⟨b0, hb0, hiff0⟩ := map_collision_noncollect c hC hm hx1 hy0 false
  obtain ⟨b1, hb1, hiff1⟩ := map_collision_noncollect c hC hwf hx1 hy0 false
  rw [hopen x1 hx1] at hb0
  have hb0f : b0 = false := by
    have := Option.some.inj hb0
    exact (congrArg Prod.fst this).symm
  have hb1f : b1 = false := by
    cases hbv : b1 with
    | false => rfl
    | true =>
      obtain ⟨q, hq, hin, hbl⟩ := hiff1.1 hbv
      have : b0 = true :=
        hiff0.2 ⟨q, hq, hin, (collect_blocking_iff c hC hm hx hy h false q).1 hbl⟩
      rw [hb0f] at this
      cases this
  rw [hb1, hb1f]

/-- One update of a player moving Right on an open line: the player keeps
direction and line, and `x` advances by `PACMAN_SPEED` or wraps to
`PACMAN_SPEED - CELL_SIZE`. -/
theorem update_right (c : Global) (hC : 0 < c.CELL_SIZE) (hW : 0 < c.MAP_WIDTH)
    (hfit : (c.CELL_SIZE : Int) * c.MAP_WIDTH + c.PACMAN_SPEED ≤ 32767)
    (kb : Keyboard) (hUp : kb.Up = false) (hLeft : kb.Left = false) (hDown : kb.Down = false)
    (L : Nat) (hE : c.ENERGIZER_DURATION / 2 ^ L < 65536) {y : Int} (hy : isShort y)
    (s : Pacman × Grid) (hlane : Pacman.Lane c 0 y s)
    (hlo : -(c.CELL_SIZE : Int) - c.PACMAN_SPEED ≤ s.1.position.x)
    (hhi : s.1.position.x < (c.CELL_SIZE : Int) * c.MAP_WIDTH) :
    ∃ s', Pacman.update c kb L s.1 s.2 = some s' ∧ Pacman.Lane c 0 y s' ∧
      s'.1.position.x =
        if (c.CELL_SIZE : Int) * c.MAP_WIDTH ≤ s.1.position.x + c.PACMAN_SPEED
        then (c.PACMAN_SPEED : Int) - c.CELL_SIZE else s.1.position.x + c.PACMAN_SPEED := by
  obtain ⟨p, m⟩ := s
  obtain ⟨hdir, hpy, hwf, hopen⟩ := hlane
  simp only at hdir hpy hwf hopen hlo hhi ⊢
  have hCW : (c.CELL_SIZE : Int) ≤ (c.CELL_SIZE : Int) * c.MAP_WIDTH := by
    have : (1 : Int) ≤ (c.MAP_WIDTH : Int) := by exact_mod_cast hW
    nlinarith [Int.natCast_nonneg c.CELL_SIZE]
  have hS0 : (0 : Int) ≤ (c.PACMAN_SPEED : Int) := Int.natCast_nonneg _
  have hC0 : (0 : Int) < (c.CELL_SIZE : Int) := by exact_mod_cast hC
  have hpx : isShort p.position.x := by unfold isShort; omega
  have hpy' : isShort p.position.y := hpy ▸ hy
  obtain ⟨w0, w1, w2, w3, wall, hit, dir, pos, m', h0, _, _, _, hdir', _, hwall, hpos, hsx,
    hsy, hcol, hwf', hupd⟩ := Pacman.update_spec c hC kb L hE p (by omega) hpx hpy' m hwf
  have hw0 : w0 = false := by
    rw [hpy, hopen _ (toShort_isShort _)] at h0
    exact (congrArg Prod.fst (Option.some.inj h0)).symm
  have hdir0 : dir = 0 := by
    rw [hdir', turn_cases, hdir]
    simp [hUp, hLeft, hDown]
  subst hdir0
  have hwall0 : wall = false := by
    simp at hwall
    rw [← hwall, hw0]
  have hstep : Pacman.update.step c 0 p.position
      = { p.position with x := p.position.x + (c.PACMAN_SPEED : Int) } := by
    unfold Pacman.update.step
    simp only
    rw [toShort_of_isShort (by unfold isShort; omega)]
  rw [if_pos hwall0, hstep] at hpos
  have hposy : pos.y = y := by rw [hpos, warp_y]; exact hpy
  refine ⟨_, hupd, ⟨rfl, hposy, hwf', ?_⟩, ?_⟩
  · exact rowOpen_collect c hC hwf hsx hsy hcol hwf' hy hopen
  · show pos.x = _
    rw [hpos]
    unfold Pacman.update.warp
    simp only
    rw [if_neg (by omega)]
    by_cases hwrap : (c.CELL_SIZE : Int) * c.MAP_WIDTH ≤ p.position.x + c.PACMAN_SPEED
    · rw [if_pos hwrap, if_pos hwrap]
      exact toShort_of_isShort (by unfold isShort; omega)
    · rw [if_neg hwrap, if_neg hwrap]

/-- One update of a player moving Left on an open line: the player keeps
direction and line, and `x` retreats by `PACMAN_SPEED` or wraps to
`CELL_SIZE * MAP_WIDTH - PACMAN_SPEED`. -/
theorem update_left (c : Global) (hC : 0 < c.CELL_SIZE) (hW : 0 < c.MAP_WIDTH)
    (hfit : (c.CELL_SIZE : Int) * c.MAP_WIDTH + c.PACMAN_SPEED ≤ 32767)
    (kb : Keyboard) (hRight : kb.Right = false) (hUp : kb.Up = false)
    (hDown : kb.Down = false)
    (L : Nat) (hE : c.ENERGIZER_DURATION / 2 ^ L < 65536) {y : Int} (hy : isShort y)
    (s : Pacman × Grid) (hlane : Pacman.Lane c 2 y s)
    (hlo : -(c.CELL_SIZE : Int) ≤ s.1.position.x)
    (hhi : s.1.position.x < (c.CELL_SIZE : Int) * c.MAP_WIDTH) :
    ∃ s', Pacman.update c kb L s.1 s.2 = some s' ∧ Pacman.Lane c 2 y s' ∧
      s'.1.position.x =
        if s.1.position.x - c.PACMAN_SPEED < -(c.CELL_SIZE : Int)
        then (c.CELL_SIZE : Int) * c.MAP_WIDTH - c.PACMAN_SPEED
        else s.1.position.x - c.PACMAN_SPEED := by
  obtain ⟨p, m⟩ := s
  obtain ⟨hdir, hpy, hwf, hopen⟩ := hlane
  simp only at hdir hpy hwf hopen hlo hhi ⊢
  have hCW : (c.CELL_SIZE : Int) ≤ (c.CELL_SIZE : Int) * c.MAP_WIDTH := by
    have : (1 : Int) ≤ (c.MAP_WIDTH : Int) := by exact_mod_cast hW
    nlinarith [Int.natCast_nonneg c.CELL_SIZE]
  have hS0 : (0 : Int) ≤ (c.PACMAN_SPEED : Int) := Int.natCast_nonneg _
  have hC0 : (0 : Int) < (c.CELL_SIZE : Int) := by exact_mod_cast hC
  have hpx : isShort p.position.x := by unfold isShort; omega
  have hpy' : isShort p.position.y := hpy ▸ hy
  obtain ⟨w0, w1, w2, w3, wall, hit, dir, pos, m', _, _, h2, _, hdir', _, hwall, hpos, hsx,
    hsy, hcol, hwf', hupd⟩ := Pacman.update_spec c hC kb L hE p (by omega) hpx hpy' m hwf
  have hw2 : w2 = false := by
    rw [hpy, hopen _ (toShort_isShort _)] at h2
    exact (congrArg Prod.fst (Option.some.inj h2)).symm
  have hdir2 : dir = 2 := by
    rw [hdir', turn_cases, hdir]
    simp [hUp, hRight, hDown]
  subst hdir2
  have hwall0 : wall = false := by
    simp at hwall
    rw [← hwall, hw2]
  have hstep : Pacman.update.step c 2 p.position
      = { p.position with x := p.position.x - (c.PACMAN_SPEED : Int) } := by
    unfold Pacman.update.step
    simp only
    rw [toShort_of_isShort (by unfold isShort; omega)]
  rw [if_pos hwall0, hstep] at hpos
  have hposy : pos.y = y := by rw [hpos, warp_y]; exact hpy
  refine ⟨_, hupd, ⟨rfl, hposy, hwf', ?_⟩, ?_⟩
  · exact rowOpen_collect c hC hwf hsx hsy hcol hwf' hy hopen
  · show pos.x = _
    rw [hpos]
    unfold Pacman.update.warp
    simp only
    by_cases hwrap : p.position.x - c.PACMAN_SPEED < -(c.CELL_SIZE : Int)
    · rw [if_pos hwrap, if_pos hwrap]
      exact toShort_of_isShort (by unfold isShort; omega)
    · rw [if_neg hwrap, if_neg hwrap, if_neg (by omega)]

theorem Pacman.run_add (c : Global) (kb : Keyboard) (L : Nat) (a b : Nat) :
    ∀ s, Pacman.run c kb L (a + b) s = (Pacman.run c kb L a s).bind (Pacman.run c kb L b) := by
  induction a with
  | zero => intro s; simp [Pacman.run]
  | succ a ih =>
    intro s
    rw [Nat.succ_add]
    simp only [Pacman.run]
    cases h : Pacman.update c kb L s.1 s.2 with
    | none => rfl
    | some s1 => simp [ih s1]

theorem Pacman.run_one (c : Global) (kb : Keyboard) (L : Nat) (s : Pacman × Grid) :
    Pacman.run c kb L 1 s = Pacman.update c kb L s.1 s.2 := by
  simp only [Pacman.run]
  cases Pacman.update c kb L s.1 s.2 <;> rfl

theorem run_right_climb (c : Global) (hC : 0 < c.CELL_SIZE) (hW : 0 < c.MAP_WIDTH)
    (hfit : (c.CELL_SIZE : Int) * c.MAP_WIDTH + c.PACMAN_SPEED ≤ 32767)
    (kb : Keyboard) (hUp : kb.Up = false) (hLeft : kb.Left = false) (hDown : kb.Down = false)
    (L : Nat) (hE : c.ENERGIZER_DURATION / 2 ^ L < 65536) {y : Int} (hy : isShort y) :
    ∀ (j : Nat) (s : Pacman × Grid), Pacman.Lane c 0 y s →
      -(c.CELL_SIZE : Int) - c.PACMAN_SPEED ≤ s.1.position.x →
      s.1.position.x + (j : Int) * c.PACMAN_SPEED < (c.CELL_SIZE : Int) * c.MAP_WIDTH →
      ∃ s', Pacman.run c kb L j s = some s' ∧ Pacman.Lane c 0 y s' ∧
        s'.1.position.x = s.1.position.x + (j : Int) * c.PACMAN_SPEED := by
  intro j
  induction j with
  | zero => intro s hl _ _; exact ⟨s, rfl, hl, by simp⟩
  | succ j ih =>
    intro s hl hlo hhi
    have hS0 : (0 : Int) ≤ (c.PACMAN_SPEED : Int) := Int.natCast_nonneg _
    have hj0 : (0 : Int) ≤ (j : Int) * c.PACMAN_SPEED := mul_nonneg (Int.natCast_nonneg _) hS0
    have hj : ((j + 1 : ℕ) : Int) * c.PACMAN_SPEED = (j : Int) * c.PACMAN_SPEED + c.PACMAN_SPEED := by
      push_cast; ring
    rw [hj] at hhi ⊢
    obtain ⟨s1, hu, hl1, hx1⟩ := update_right c hC hW hfit kb hUp hLeft hDown L hE hy s hl hlo
      (by omega)
    rw [if_neg (by omega)] at hx1
    obtain ⟨s2, hr, hl2, hx2⟩ := ih s1 hl1 (by omega) (by omega)
    refine ⟨s2, ?_, hl2, by omega⟩
    simp only [Pacman.run, hu, Option.some_bind]
    exact hr

theorem run_right_wrap (c : Global) (hC : 0 < c.CELL_SIZE) (hW : 0 < c.MAP_WIDTH)
    (hS : 0 < c.PACMAN_SPEED)
    (hfit : (c.CELL_SIZE : Int) * c.MAP_WIDTH + c.PACMAN_SPEED ≤ 32767)
    (kb : Keyboard) (hUp : kb.Up = false) (hLeft : kb.Left = false) (hDown : kb.Down = false)
    (L : Nat) (hE : c.ENERGIZER_DURATION / 2 ^ L < 65536) {y : Int} (hy : isShort y) :
    ∀ (n : Nat) (s : Pacman × Grid), Pacman.Lane c 0 y s →
      -(c.CELL_SIZE : Int) - c.PACMAN_SPEED ≤ s.1.position.x →
      s.1.position.x < (c.CELL_SIZE : Int) * c.MAP_WIDTH →
      (c.CELL_SIZE : Int) * c.MAP_WIDTH - s.1.position.x ≤ n →
      ∃ (k : Nat) (s1 s2 : Pacman × Grid), Pacman.run c kb L k s = some s1 ∧
        (c.CELL_SIZE : Int) * c.MAP_WIDTH ≤ s1.1.position.x + c.PACMAN_SPEED ∧
        Pacman.update c kb L s1.1 s1.2 = some s2 ∧ Pacman.Lane c 0 y s2 ∧
        s2.1.position.x = (c.PACMAN_SPEED : Int) - c.CELL_SIZE := by
  intro n
  induction n with
  | zero => intro s _ _ hhi hn; simp at hn; omega
  | succ n ih =>
    intro s hl hlo hhi hn
    have hS0 : (1 : Int) ≤ (c.PACMAN_SPEED : Int) := by exact_mod_cast hS
    obtain ⟨s1, hu, hl1, hx1⟩ := update_right c hC hW hfit kb hUp hLeft hDown L hE hy s hl hlo hhi
    by_cases hwrap : (c.CELL_SIZE : Int) * c.MAP_WIDTH ≤ s.1.position.x + c.PACMAN_SPEED
    · rw [if_pos hwrap] at hx1
      exact ⟨0, s, s1, rfl, hwrap, hu, hl1, hx1⟩
    · rw [if_neg hwrap] at hx1
      push_cast at hn
      obtain ⟨k, s2, s3, hr, hge, hu2, hl3, hx3⟩ := ih s1 hl1 (by omega) (by omega) (by omega)
      refine ⟨k + 1, s2, s3, ?_, hge, hu2, hl3, hx3⟩
      simp only [Pacman.run, hu, Option.some_bind]
      exact hr

theorem run_left_descend (c : Global) (hC : 0 < c.CELL_SIZE) (hW : 0 < c.MAP_WIDTH)
    (hfit : (c.CELL_SIZE : Int) * c.MAP_WIDTH + c.PACMAN_SPEED ≤ 32767)
    (kb : Keyboard) (hRight : kb.Right = false) (hUp : kb.Up = false)
    (hDown : kb.Down = false)
    (L : Nat) (hE : c.ENERGIZER_DURATION / 2 ^ L < 65536) {y : Int} (hy : isShort y) :
    ∀ (j : Nat) (s : Pacman × Grid), Pacman.Lane c 2 y s →
      s.1.position.x < (c.CELL_SIZE : Int) * c.MAP_WIDTH →
      -(c.CELL_SIZE : Int) ≤ s.1.position.x - (j : Int) * c.PACMAN_SPEED →
      ∃ s', Pacman.run c kb L j s = some s' ∧ Pacman.Lane c 2 y s' ∧
        s'.1.position.x = s.1.position.x - (j : Int) * c.PACMAN_SPEED := by
  intro j
  induction j with
  | zero => intro s hl _ _; exact ⟨s, rfl, hl, by simp⟩
  | succ j ih =>
    intro s hl hhi hlo
    have hS0 : (0 : Int) ≤ (c.PACMAN_SPEED : Int) := Int.natCast_nonneg _
    have hj0 : (0 : Int) ≤ (j : Int) * c.PACMAN_SPEED := mul_nonneg (Int.natCast_nonneg _) hS0
    have hj : ((j + 1 : ℕ) : Int) * c.PACMAN_SPEED = (j : Int) * c.PACMAN_SPEED + c.PACMAN_SPEED := by
      push_cast; ring
    rw [hj] at hlo ⊢
    obtain ⟨s1, hu, hl1, hx1⟩ := update_left c hC hW hfit kb hRight hUp hDown L hE hy s hl
      (by omega) hhi
    rw [if_neg (by omega)] at hx1
    obtain ⟨s2, hr, hl2, hx2⟩ := ih s1 hl1 (by omega) (by omega)
    refine ⟨s2, ?_, hl2, by omega⟩
    simp only [Pacman.run, hu, Option.some_bind]
    exact hr

theorem run_left_wrap (c : Global) (hC : 0 < c.CELL_SIZE) (hW : 0 < c.MAP_WIDTH)
    (hS : 0 < c.PACMAN_SPEED)
    (hfit : (c.CELL_SIZE : Int) * c.MAP_WIDTH + c.PACMAN_SPEED ≤ 32767)
    (kb : Keyboard) (hRight : kb.Right = false) (hUp : kb.Up = false)
    (hDown : kb.Down = false)
    (L : Nat) (hE : c.ENERGIZER_DURATION / 2 ^ L < 65536) {y : Int} (hy : isShort y) :
    ∀ (n : Nat) (s : Pacman × Grid), Pacman.Lane c 2 y s →
      -(c.CELL_SIZE : Int) ≤ s.1.position.x →
      s.1.position.x < (c.CELL_SIZE : Int) * c.MAP_WIDTH →
      s.1.position.x + c.CELL_SIZE < n →
      ∃ (k : Nat) (s1 s2 : Pacman × Grid), Pacman.run c kb L k s = some s1 ∧
        s1.1.position.x - c.PACMAN_SPEED < -(c.CELL_SIZE : Int) ∧
        Pacman.update c kb L s1.1 s1.2 = some s2 ∧ Pacman.Lane c 2 y s2 ∧
        s2.1.position.x = (c.CELL_SIZE : Int) * c.MAP_WIDTH - c.PACMAN_SPEED := by
  intro n
  induction n with
  | zero => intro s _ hlo _ hn; simp at hn; omega
  | succ n ih =>
    intro s hl hlo hhi hn
    have hS0 : (1 : Int) ≤ (c.PACMAN_SPEED : Int) := by exact_mod_cast hS
    obtain ⟨s1, hu, hl1, hx1⟩ := update_left c hC hW hfit kb hRight hUp hDown L hE hy s hl hlo hhi
    by_cases hwrap : s.1.position.x - c.PACMAN_SPEED < -(c.CELL_SIZE : Int)
    · rw [if_pos hwrap] at hx1
      exact ⟨0, s, s1, rfl, hwrap, hu, hl1, hx1⟩
    · rw [if_neg hwrap] at hx1
      push_cast at hn
      obtain ⟨k, s2, s3, hr, hge, hu2, hl3, hx3⟩ := ih s1 hl1 (by omega) (by omega) (by omega)
      refine ⟨k + 1, s2, s3, ?_, hge, hu2, hl3, hx3⟩
      simp only [Pacman.run, hu, Option.some_bind]
      exact hr

theorem Grid.fill_WF (c : Global) (v : Cell) :
    Grid.WF c (Grid.fill c.MAP_WIDTH c.MAP_HEIGHT v) := by
  constructor
  · simp [Grid.fill]
  · intro col hcol
    rw [Grid.fill] at hcol
    rw [List.eq_of_mem_replicate hcol, List.length_replicate]

theorem Grid.cellAt_fill {w h : Nat} {v cell : Cell} {x y : Int}
    (hcell : (Grid.fill w h v).cellAt x y = some cell) : cell = v := by
  unfold Grid.cellAt at hcell
  split at hcell
  · unfold Grid.get? Grid.fill at hcell
    rw [List.getElem?_replicate] at hcell
    by_cases hx : x.toNat < w
    · rw [if_pos hx] at hcell
      simp only at hcell
      rw [List.getElem?_replicate] at hcell
      by_cases hy : y.toNat < h
      · rw [if_pos hy] at hcell
        exact (Option.some.inj hcell).symm
      · rw [if_neg hy] at hcell
        cases hcell
    · rw [if_neg hx] at hcell
      cases hcell
  · cases hcell

theorem rowOpen_fill_empty (c : Global) (hC : 0 < c.CELL_SIZE) {y : Int} (hy : isShort y) :
    rowOpen c y (Grid.fill c.MAP_WIDTH c.MAP_HEIGHT Cell.Empty) := by
  intro x hx
  obtain ⟨b, hb, hiff⟩ := map_collision_noncollect c hC (Grid.fill_WF c Cell.Empty) hx hy false
  have hbf : b = false := by
    cases hbv : b with
    | false => rfl
    | true =>
      obtain ⟨q, _, _, hbl⟩ := hiff.1 hbv
      rcases hbl with h | ⟨h, _⟩ <;> cases Grid.cellAt_fill h
  rw [hb, hbf]

theorem run_right_range (c : Global) (hC : 0 < c.CELL_SIZE) (hW : 0 < c.MAP_WIDTH)
    (hSC : c.PACMAN_SPEED ≤ c.CELL_SIZE)
    (hfit : (c.CELL_SIZE : Int) * c.MAP_WIDTH + c.PACMAN_SPEED ≤ 32767)
    (kb : Keyboard) (hUp : kb.Up = false) (hLeft : kb.Left = false) (hDown : kb.Down = false)
    (L : Nat) (hE : c.ENERGIZER_DURATION / 2 ^ L < 65536) {y : Int} (hy : isShort y) :
    ∀ (n : Nat) (s : Pacman × Grid), Pacman.Lane c 0 y s →
      -(c.CELL_SIZE : Int) ≤ s.1.position.x →
      s.1.position.x < (c.CELL_SIZE : Int) * c.MAP_WIDTH →
      ∃ s', Pacman.run c kb L (n + 1) s = some s' ∧
        (c.PACMAN_SPEED : Int) - c.CELL_SIZE ≤ s'.1.position.x := by
  intro n
  have hS0 : (0 : Int) ≤ (c.PACMAN_SPEED : Int) := Int.natCast_nonneg _
  have hSC' : (c.PACMAN_SPEED : Int) ≤ (c.CELL_SIZE : Int) := by exact_mod_cast hSC
  have hCW : (c.CELL_SIZE : Int) ≤ (c.CELL_SIZE : Int) * c.MAP_WIDTH := by
    have : (1 : Int) ≤ (c.MAP_WIDTH : Int) := by exact_mod_cast hW
    nlinarith [Int.natCast_nonneg c.CELL_SIZE]
  have hC0 : (0 : Int) < (c.CELL_SIZE : Int) := by exact_mod_cast hC
  induction n with
  | zero =>
    intro s hl hlo hhi
    obtain ⟨s1, hu, _, hx1⟩ := update_right c hC hW hfit kb hUp hLeft hDown L hE hy s hl
      (by omega) hhi
    refine ⟨s1, ?_, ?_⟩
    · rw [Nat.zero_add, Pacman.run_one]; exact hu
    · rw [hx1]; split_ifs <;> omega
  | succ n ih =>
    intro s hl hlo hhi
    obtain ⟨s1, hu, hl1, hx1⟩ := update_right c hC hW hfit kb hUp hLeft hDown L hE hy s hl
      (by omega) hhi
    have h1 : -(c.CELL_SIZE : Int) ≤ s1.1.position.x ∧
        s1.1.position.x < (c.CELL_SIZE : Int) * c.MAP_WIDTH := by
      rw [hx1]; split_ifs <;> omega
    obtain ⟨s2, hr, hx2⟩ := ih s1 hl1 h1.1 h1.2
    refine ⟨s2, ?_, hx2⟩
    simp only [Pacman.run, hu, Option.some_bind] at hr ⊢
    exact hr

/-- C9 (as amended): on a line where no probe is blocked, a player facing Right
whose `x` lies on the wrap cycle (`PACMAN_SPEED - CELL_SIZE <= x <
CELL_SIZE * MAP_WIDTH` and `x + CELL_SIZE` a multiple of `PACMAN_SPEED`) comes
back to its starting `x` after finitely many updates, passing through the wrap
from `x >= CELL_SIZE * MAP_WIDTH` to `PACMAN_SPEED - CELL_SIZE`; a player
facing Left with `-CELL_SIZE <= x <= CELL_SIZE * MAP_WIDTH - PACMAN_SPEED` and
`CELL_SIZE * MAP_WIDTH - x` a multiple of `PACMAN_SPEED` likewise comes back,
passing through the wrap from `x < -CELL_SIZE` to
`CELL_SIZE * MAP_WIDTH - PACMAN_SPEED`. -/
theorem C9_tunnel_closed_loop (c : Global) (hC : 0 < c.CELL_SIZE) (hW : 0 < c.MAP_WIDTH)
    (hS : 0 < c.PACMAN_SPEED)
    (hfit : (c.CELL_SIZE : Int) * c.MAP_WIDTH + c.PACMAN_SPEED ≤ 32767)
    (L : Nat) (hE : c.ENERGIZER_DURATION / 2 ^ L < 65536) (kb : Keyboard)
    (p : Pacman) (m : Grid) (hm : Grid.WF c m) (hy : isShort p.position.y)
    (hopen : rowOpen c p.position.y m) :
    (p.direction = 0 → kb.Up = false → kb.Left = false → kb.Down = false →
      (c.PACMAN_SPEED : Int) - c.CELL_SIZE ≤ p.position.x →
      p.position.x < (c.CELL_SIZE : Int) * c.MAP_WIDTH →
      (c.PACMAN_SPEED : Int) ∣ p.position.x + c.CELL_SIZE →
      ∃ n k, k < n ∧
        (∃ s1, Pacman.run c kb L k (p, m) = some s1 ∧
          (c.CELL_SIZE : Int) * c.MAP_WIDTH ≤ s1.1.position.x + c.PACMAN_SPEED) ∧
        (∃ s2, Pacman.run c kb L (k + 1) (p, m) = some s2 ∧
          s2.1.position.x = (c.PACMAN_SPEED : Int) - c.CELL_SIZE) ∧
        (∃ s3, Pacman.run c kb L n (p, m) = some s3 ∧ s3.1.position.x = p.position.x ∧
          s3.1.position.y = p.position.y ∧ s3.1.direction = 0)) ∧
    (p.direction = 2 → kb.Right = false → kb.Up = false → kb.Down = false →
      -(c.CELL_SIZE : Int) ≤ p.position.x →
      p.position.x ≤ (c.CELL_SIZE : Int) * c.MAP_WIDTH - c.PACMAN_SPEED →
      (c.PACMAN_SPEED : Int) ∣ (c.CELL_SIZE : Int) * c.MAP_WIDTH - p.position.x →
      ∃ n k, k < n ∧
        (∃ s1, Pacman.run c kb L k (p, m) = some s1 ∧
          s1.1.position.x - c.PACMAN_SPEED < -(c.CELL_SIZE : Int)) ∧
        (∃ s2, Pacman.run c kb L (k + 1) (p, m) = some s2 ∧
          s2.1.position.x = (c.CELL_SIZE : Int) * c.MAP_WIDTH - c.PACMAN_SPEED) ∧
        (∃ s3, Pacman.run c kb L n (p, m) = some s3 ∧ s3.1.position.x = p.position.x ∧
          s3.1.position.y = p.position.y ∧ s3.1.direction = 2)) := by
  have hS1 : (1 : Int) ≤ (c.PACMAN_SPEED : Int) := by exact_mod_cast hS
  have hC0 : (0 : Int) < (c.CELL_SIZE : Int) := by exact_mod_cast hC
  constructor
  · intro hdir hU hLf hD hlo hhi hdiv
    have hlane : Pacman.Lane c 0 p.position.y (p, m) := ⟨hdir, rfl, hm, hopen⟩
    obtain ⟨k, s1, s2, hr1, hge, hu, hl2, hx2⟩ :=
      run_right_wrap c hC hW hS hfit kb hU hLf hD L hE hy
        ((c.CELL_SIZE : Int) * c.MAP_WIDTH - p.position.x).toNat (p, m) hlane
        (by simp only; omega) hhi (by simp only; omega)
    have hr2 : Pacman.run c kb L (k + 1) (p, m) = some s2 := by
      rw [Pacman.run_add, hr1, Option.some_bind, Pacman.run_one]; exact hu
    obtain ⟨t, ht⟩ := hdiv
    have ht1 : 1 ≤ t := by
      by_contra hlt
      have : t ≤ 0 := by omega
      nlinarith
    have hjS : (((t - 1).toNat : ℕ) : Int) * c.PACMAN_SPEED
        = p.position.x + c.CELL_SIZE - c.PACMAN_SPEED := by
      rw [Int.toNat_of_nonneg (by omega)]
      linear_combination -ht
    obtain ⟨s3, hr3, hl3, hx3⟩ := run_right_climb c hC hW hfit kb hU hLf hD L hE hy
      (t - 1).toNat s2 hl2 (by omega) (by rw [hjS]; omega)
    refine ⟨k + 1 + (t - 1).toNat, k, by omega, ⟨s1, hr1, hge⟩, ⟨s2, hr2, hx2⟩, s3, ?_, ?_,
      hl3.2.1, hl3.1⟩
    · rw [Pacman.run_add, hr2, Option.some_bind]; exact hr3
    · rw [hx3, hjS, hx2]; ring
  · intro hdir hR hU hD hlo hhi hdiv
    have hlane : Pacman.Lane c 2 p.position.y (p, m) := ⟨hdir, rfl, hm, hopen⟩
    obtain ⟨k, s1, s2, hr1, hge, hu, hl2, hx2⟩ :=
      run_left_wrap c hC hW hS hfit kb hR hU hD L hE hy
        (p.position.x + c.CELL_SIZE + 1).toNat (p, m) hlane hlo
        (by simp only; omega) (by simp only; omega)
    have hr2 : Pacman.run c kb L (k + 1) (p, m) = some s2 := by
      rw [Pacman.run_add, hr1, Option.some_bind, Pacman.run_one]; exact hu
    obtain ⟨t, ht⟩ := hdiv
    have ht1 : 1 ≤ t := by
      by_contra hlt
      have : t ≤ 0 := by omega
      nlinarith
    have hjS : (((t - 1).toNat : ℕ) : Int) * c.PACMAN_SPEED
        = (c.CELL_SIZE : Int) * c.MAP_WIDTH - p.position.x - c.PACMAN_SPEED := by
      rw [Int.toNat_of_nonneg (by omega)]
      linear_combination -ht
    obtain ⟨s3, hr3, hl3, hx3⟩ := run_left_descend c hC hW hfit kb hR hU hD L hE hy
      (t - 1).toNat s2 hl2 (by omega) (by rw [hjS]; omega)
    refine ⟨k + 1 + (t - 1).toNat, k, by omega, ⟨s1, hr1, hge⟩, ⟨s2, hr2, hx2⟩, s3, ?_, ?_,
      hl3.2.1, hl3.1⟩
    · rw [Pacman.run_add, hr2, Option.some_bind]; exact hr3
    · rw [hx3, hjS, hx2]; ring

/-- C9 (as amended) instantiated with the sample constants on the clear
21 x 21 grid: from `x = 0` on line 144 the player comes back to `x = 0` both
when facing Right and when facing Left. -/
theorem C9_tunnel_closed_loop_witness :
    (∃ n k, k < n ∧
      (∃ s1, Pacman.run Global.sample Keyboard.idle 0 k (Pacman.onLine, Grid.clear) = some s1 ∧
        (336 : Int) ≤ s1.1.position.x + 2) ∧
      (∃ s2, Pacman.run Global.sample Keyboard.idle 0 (k + 1) (Pacman.onLine, Grid.clear)
          = some s2 ∧ s2.1.position.x = -14) ∧
      (∃ s3, Pacman.run Global.sample Keyboard.idle 0 n (Pacman.onLine, Grid.clear) = some s3 ∧
        s3.1.position.x = 0 ∧ s3.1.position.y = 144 ∧ s3.1.direction = 0)) ∧
    (∃ n k, k < n ∧
      (∃ s1, Pacman.run Global.sample Keyboard.idle 0 k
          ({ Pacman.onLine with direction := 2 }, Grid.clear) = some s1 ∧
        s1.1.position.x - 2 < (-16 : Int)) ∧
      (∃ s2, Pacman.run Global.sample Keyboard.idle 0 (k + 1)
          ({ Pacman.onLine with direction := 2 }, Grid.clear) = some s2 ∧
        s2.1.position.x = 334) ∧
      (∃ s3, Pacman.run Global.sample Keyboard.idle 0 n
          ({ Pacman.onLine with direction := 2 }, Grid.clear) = some s3 ∧
        s3.1.position.x = 0 ∧ s3.1.position.y = 144 ∧ s3.1.direction = 2)) :=
  ⟨(C9_tunnel_closed_loop Global.sample (by decide) (by decide) (by decide) (by decide) 0
      (by decide) Keyboard.idle Pacman.onLine Grid.clear (Grid.fill_WF Global.sample Cell.Empty)
      (by decide) (rowOpen_fill_empty Global.sample (by decide) (by decide))).1
      rfl rfl rfl rfl (by decide) (by decide) (by decide),
    (C9_tunnel_closed_loop Global.sample (by decide) (by decide) (by decide) (by decide) 0
      (by decide) Keyboard.idle { Pacman.onLine with direction := 2 } Grid.clear
      (Grid.fill_WF Global.sample Cell.Empty)
      (by decide) (rowOpen_fill_empty Global.sample (by decide) (by decide))).2
      rfl rfl rfl rfl (by decide) (by decide) (by decide)⟩

/-- C9 as stated fails: with the sample constants on the clear 21 x 21 grid,
a player facing Right at `x = -CELL_SIZE = -16` on line 144 (where no probe is
blocked) never has `x = -16` again, after any positive number of updates: the
wrap lands on `PACMAN_SPEED - CELL_SIZE = -14`. -/
theorem C9_right_from_left_edge_never_returns :
    Pacman.atLeftEdge.direction = 0 ∧ rowOpen Global.sample 144 Grid.clear ∧
    ¬ ∃ n, 0 < n ∧ ∃ s, Pacman.run Global.sample Keyboard.idle 0 n
        (Pacman.atLeftEdge, Grid.clear) = some s ∧
      s.1.position.x = Pacman.atLeftEdge.position.x := by
  have hopen : rowOpen Global.sample 144 Grid.clear :=
    rowOpen_fill_empty Global.sample (by decide) (by decide)
  refine ⟨rfl, hopen, ?_⟩
  rintro ⟨n, hn, s, hr, hx⟩
  obtain ⟨k, rfl⟩ : ∃ k, n = k + 1 := ⟨n - 1, by omega⟩
  have hlane : Pacman.Lane Global.sample 0 144 (Pacman.atLeftEdge, Grid.clear) :=
    ⟨rfl, rfl, Grid.fill_WF Global.sample Cell.Empty, hopen⟩
  obtain ⟨s', hr', hge⟩ := run_right_range Global.sample (by decide) (by decide) (by decide)
    (by decide) Keyboard.idle rfl rfl rfl 0 (by decide) (y := 144) (by decide) k
    (Pacman.atLeftEdge, Grid.clear) hlane (by decide) (by decide)
  rw [hr] at hr'
  obtain rfl : s = s' := Option.some.inj hr'
  have h1 : ((Global.sample.PACMAN_SPEED : ℕ) : Int) - (Global.sample.CELL_SIZE : ℕ) = -14 := by
    decide
  have h2 : Pacman.atLeftEdge.position.x = -16 := rfl
  rw [h1] at hge
  rw [h2] at hx
  omega

/-! ## The mode switch of `Ghost::update` -/

theorem timer_eq_quotient_iff (E L t : Nat) :
    (t : ℚ) = (E : ℚ) / 2 ^ L ↔ t * 2 ^ L = E := by
  have h2 : ((2 : ℚ) ^ L) ≠ 0 := pow_ne_zero _ (by norm_num)
  rw [eq_div_iff h2]
  exact_mod_cast Iff.rfl

theorem mode_switch_normal (c : Global) (L t : Nat) (g : Ghost) (hN : g.frightened_mode = 0) :
    Ghost.update.mode_switch c L t g =
      if t * 2 ^ L = c.ENERGIZER_DURATION then
        { g with frightened_speed_timer := c.GHOST_FRIGHTENED_SPEED, frightened_mode := 1 }
      else g := by
  unfold Ghost.update.mode_switch
  by_cases h : t * 2 ^ L = c.ENERGIZER_DURATION
  · rw [if_pos ⟨hN, (timer_eq_quotient_iff _ _ _).2 h⟩, if_pos h]
  · rw [if_neg (fun h' => h ((timer_eq_quotient_iff _ _ _).1 h'.2)), if_neg h,
      if_neg (fun h' => by rw [hN] at h'; exact absurd h'.2 (by decide))]

/-- C10 (as amended): for every level `L` at which `2 ^ L` divides
`ENERGIZER_DURATION`, a pursuer in state Normal whose update sees the player's
energizer countdown equal to `floor(ENERGIZER_DURATION / 2 ^ L)` is put in
state Frightened by the mode switch of that update, with its frightened-speed
countdown set to `GHOST_FRIGHTENED_SPEED` and nothing else changed. At any
level, a Normal pursuer enters Frightened exactly when the countdown times
`2 ^ L` equals `ENERGIZER_DURATION`. -/
theorem C10_normal_enters_frightened (c : Global) (L : Nat) (g : Ghost) (t : Nat)
    (hN : g.frightened_mode = 0) :
    (2 ^ L ∣ c.ENERGIZER_DURATION → t = c.ENERGIZER_DURATION / 2 ^ L →
      Ghost.update.mode_switch c L t g =
        { g with frightened_speed_timer := c.GHOST_FRIGHTENED_SPEED, frightened_mode := 1 }) ∧
    ((Ghost.update.mode_switch c L t g).frightened_mode = 1 ↔
      t * 2 ^ L = c.ENERGIZER_DURATION) := by
  rw [mode_switch_normal c L t g hN]
  constructor
  · intro hdiv ht
    rw [if_pos (by rw [ht]; exact Nat.div_mul_cancel hdiv)]
  · by_cases h : t * 2 ^ L = c.ENERGIZER_DURATION
    · rw [if_pos h]; simp [h]
    · rw [if_neg h]; simp [h, hN]

/-- C10 (as amended) instantiated: pursuer 0 at level 1 with the sample
constants, the countdown being 256 = 512 / 2. -/
theorem C10_normal_enters_frightened_witness :
    (2 ^ 1 ∣ Global.sample.ENERGIZER_DURATION → 256 = Global.sample.ENERGIZER_DURATION / 2 ^ 1 →
      Ghost.update.mode_switch Global.sample 1 256 Ghost.fresh =
        { Ghost.fresh with
          frightened_speed_timer := Global.sample.GHOST_FRIGHTENED_SPEED,
          frightened_mode := 1 }) ∧
    ((Ghost.update.mode_switch Global.sample 1 256 Ghost.fresh).frightened_mode = 1 ↔
      256 * 2 ^ 1 = Global.sample.ENERGIZER_DURATION) :=
  C10_normal_enters_frightened Global.sample 1 Ghost.fresh 256 rfl

/-- C10 as stated fails: with the sample constants at level 10 the floored
duration is 0 = floor(512 / 1024), and a Normal pursuer whose update sees the
countdown 0 stays Normal. More generally no positive 16-bit value of
`ENERGIZER_DURATION` makes the statement true at every level below 256. -/
theorem C10_floored_countdown_does_not_frighten :
    (Ghost.fresh.frightened_mode = 0 ∧
      (0 : Nat) = Global.sample.ENERGIZER_DURATION / 2 ^ 10 ∧
      (Ghost.update.mode_switch Global.sample 10 0 Ghost.fresh).frightened_mode = 0) ∧
    ¬ ∃ c : Global, 0 < c.ENERGIZER_DURATION ∧ c.ENERGIZER_DURATION < 65536 ∧
      ∀ (L t : Nat) (g : Ghost), L < 256 → g.frightened_mode = 0 →
        t = c.ENERGIZER_DURATION / 2 ^ L →
        (Ghost.update.mode_switch c L t g).frightened_mode = 1 := by
  refine ⟨⟨rfl, by decide, ?_⟩, ?_⟩
  · rw [mode_switch_normal _ _ _ _ rfl, if_neg (by decide)]
    rfl
  · rintro ⟨c, hpos, hlt, hall⟩
    have hdiv0 : c.ENERGIZER_DURATION / 2 ^ 16 = 0 :=
      Nat.div_eq_of_lt (by norm_num; omega)
    have h1 := hall 16 0 Ghost.fresh (by decide) rfl hdiv0.symm
    rw [mode_switch_normal _ _ _ _ rfl, if_neg (by omega)] at h1
    exact absurd h1 (by decide)

/-! ## `Ghost::update`: what the steps keep -/

theorem mode_switch_keeps (c : Global) (L t : Nat) (g : Ghost) :
    (Ghost.update.mode_switch c L t g).position = g.position ∧
    (Ghost.update.mode_switch c L t g).use_door = g.use_door ∧
    (Ghost.update.mode_switch c L t g).target = g.target ∧
    (Ghost.update.mode_switch c L t g).home = g.home ∧
    (Ghost.update.mode_switch c L t g).home_exit = g.home_exit ∧
    (Ghost.update.mode_switch c L t g).movement_mode = g.movement_mode ∧
    (Ghost.update.mode_switch c L t g).id = g.id ∧
    (Ghost.update.mode_switch c L t g).direction = g.direction := by
  unfold Ghost.update.mode_switch
  split_ifs <;> simp

theorem mode_switch_frightened (c : Global) (L t : Nat) (g : Ghost)
    (hF : g.frightened_mode = 1) :
    Ghost.update.mode_switch c L t g =
      if t = 0 then { g with frightened_mode := 0 } else g := by
  unfold Ghost.update.mode_switch
  rw [if_neg (fun h => by rw [hF] at h; exact absurd h.1 (by decide))]
  by_cases ht : t = 0
  · rw [if_pos ⟨ht, hF⟩, if_pos ht]
  · rw [if_neg (fun h => ht h.1), if_neg ht]

theorem mode_switch_returning (c : Global) (L t : Nat) (g : Ghost)
    (hR : g.frightened_mode = 2) : Ghost.update.mode_switch c L t g = g := by
  unfold Ghost.update.mode_switch
  rw [if_neg (fun h => by rw [hR] at h; exact absurd h.1 (by decide)),
    if_neg (fun h => by rw [hR] at h; exact absurd h.2 (by decide))]

theorem update_target_keeps (c : Global) (e : Extern) (g : Ghost) (d : Nat)
    (q0 qp : Position) :
    (g.update_target c e d q0 qp).position = g.position ∧
    (g.update_target c e d q0 qp).home = g.home ∧
    (g.update_target c e d q0 qp).home_exit = g.home_exit ∧
    (g.update_target c e d q0 qp).movement_mode = g.movement_mode ∧
    (g.update_target c e d q0 qp).id = g.id ∧
    (g.update_target c e d q0 qp).direction = g.direction ∧
    (g.update_target c e d q0 qp).frightened_speed_timer = g.frightened_speed_timer := by
  unfold Ghost.update_target
  split_ifs <;> (try split) <;> simp

/-- With door passage on, `update_target` acts only on arrival at the target:
at `home_exit` it revokes door passage, at `home` it sets the state to Normal
and the target to `home_exit`. -/
theorem update_target_door (c : Global) (e : Extern) (g : Ghost) (d : Nat)
    (q0 qp : Position) (hdoor : g.use_door = true) :
    g.update_target c e d q0 qp =
      if g.position = g.target then
        if g.target = g.home_exit then { g with use_door := false }
        else if g.target = g.home then { g with frightened_mode := 0, target := g.home_exit }
        else g
      else g := by
  unfold Ghost.update_target
  rw [if_pos hdoor]

/-- Without door passage `update_target` changes nothing but the target. -/
theorem update_target_no_door (c : Global) (e : Extern) (g : Ghost) (d : Nat)
    (q0 qp : Position) (hdoor : g.use_door = false) :
    (g.update_target c e d q0 qp).frightened_mode = g.frightened_mode ∧
    (g.update_target c e d q0 qp).use_door = false := by
  unfold Ghost.update_target
  rw [if_neg (by simp [hdoor])]
  split_ifs <;> (try split) <;> simp [hdoor]

/-- The state after `update_target` is the state before it, or Normal. -/
theorem update_target_mode (c : Global) (e : Extern) (g : Ghost) (d : Nat)
    (q0 qp : Position) :
    (g.update_target c e d q0 qp).frightened_mode = g.frightened_mode ∨
    ((g.update_target c e d q0 qp).frightened_mode = 0 ∧ g.use_door = true ∧
      g.position = g.target ∧ g.target = g.home ∧ g.target ≠ g.home_exit) := by
  cases hdoor : g.use_door with
  | false => exact Or.inl (update_target_no_door c e g d q0 qp hdoor).1
  | true =>
    rw [update_target_door c e g d q0 qp hdoor]
    split_ifs with h1 h2 h3
    · exact Or.inl rfl
    · exact Or.inr ⟨rfl, rfl, h1, h3, h2⟩
    · exact Or.inl rfl
    · exact Or.inl rfl

theorem speed_defined (c : Global) (g : Ghost)
    (hES : g.frightened_mode = 2 → 0 < c.GHOST_ESCAPE_SPEED) :
    ∃ s, Ghost.update.speed c g = some s ∧ s < 256 := by
  unfold Ghost.update.speed
  by_cases h2 : g.frightened_mode = 2
  · have := hES h2
    rw [if_pos h2, if_neg (by omega)]
    split_ifs
    · exact ⟨_, rfl, Nat.mod_lt _ (by decide)⟩
    · exact ⟨_, rfl, Nat.mod_lt _ (by decide)⟩
  · rw [if_neg h2]
    exact ⟨_, rfl, Nat.mod_lt _ (by decide)⟩

theorem speed_not_returning (c : Global) (g : Ghost) (h : g.frightened_mode ≠ 2) :
    Ghost.update.speed c g = some (c.GHOST_SPEED % 256) := by
  unfold Ghost.update.speed
  rw [if_neg h]

/-- `Ghost::update` in closed form: the three five-argument probes leave the
grid alone, and the rest is `Ghost.update.act` on the pursuer after the mode
switch and the target update. -/
theorem Ghost.update_closed_form (c : Global) (hC : 0 < c.CELL_SIZE) (e : Extern) (L : Nat)
    (g : Ghost) (m : Grid) (hm : Grid.WF c m) (hx : isShort g.position.x)
    (hy : isShort g.position.y) (q0 : Position) (p : Pacman) (rnd : List Nat) {speed : Nat}
    (hs : Ghost.update.speed c (Ghost.update.mode_switch c L p.energizer_timer g)
      = some speed) :
    ∃ w0 w1 w2 : Bool,
      Ghost.update c e L g m q0 p rnd =
        (Ghost.update.act c e speed
          ((Ghost.update.mode_switch c L p.energizer_timer g).update_target c e
            p.direction q0 p.position)
          (Ghost.update.walls w0 w1 w2
            (e.probe4 false
              ((Ghost.update.mode_switch c L p.energizer_timer g).update_target c e
                p.direction q0 p.position).use_door
              ((speed : Int) + g.position.y) m))
          p rnd).map (fun r => (r.1, r.2.1, m, r.2.2)) := by
  have hpos : ((Ghost.update.mode_switch c L p.energizer_timer g).update_target c e
      p.direction q0 p.position).position = g.position := by
    rw [(update_target_keeps c e _ _ _ _).1, (mode_switch_keeps c L _ g).1]
  generalize hg2 : (Ghost.update.mode_switch c L p.energizer_timer g).update_target c e
      p.direction q0 p.position = g2 at hpos
  obtain ⟨w0, h0, _⟩ := map_collision_noncollect c hC hm
    (toShort_isShort ((speed : Int) + g.position.x)) hy g2.use_door
  obtain ⟨w1, h1, _⟩ := map_collision_noncollect c hC hm hx
    (toShort_isShort (g.position.y - (speed : Int))) g2.use_door
  obtain ⟨w2, h2, _⟩ := map_collision_noncollect c hC hm
    (toShort_isShort (g.position.x - (speed : Int))) hy g2.use_door
  refine ⟨w0, w1, w2, ?_⟩
  unfold Ghost.update
  simp only [hs, hg2, hpos, h0, h1, h2, Option.bind_eq_bind, Option.some_bind]
  cases Ghost.update.act c e speed g2
    (Ghost.update.walls w0 w1 w2 (e.probe4 false g2.use_door ((speed : Int) + g.position.y) m))
    p rnd <;> rfl

/-! ## `Ghost::update`: contact, random choice, totality -/

theorem contact_miss (c : Global) (g : Ghost) (p : Pacman)
    (h : g.pacman_collision c p.position = false) : Ghost.update.contact c g p = (g, p) := by
  unfold Ghost.update.contact
  rw [if_neg (by simp [h])]

theorem contact_kill (c : Global) (g : Ghost) (p : Pacman)
    (h : g.pacman_collision c p.position = true) (hN : g.frightened_mode = 0) :
    Ghost.update.contact c g p = (g, p.set_dead true) := by
  unfold Ghost.update.contact
  rw [if_pos h, if_pos hN]

theorem contact_caught (c : Global) (g : Ghost) (p : Pacman)
    (h : g.pacman_collision c p.position = true) (hN : g.frightened_mode ≠ 0) :
    Ghost.update.contact c g p =
      ({ g with use_door := true, frightened_mode := 2, target := g.home }, p) := by
  unfold Ghost.update.contact
  rw [if_pos h, if_neg hN]

theorem contact_keeps (c : Global) (g : Ghost) (p : Pacman) :
    (Ghost.update.contact c g p).1.position = g.position ∧
    (Ghost.update.contact c g p).1.movement_mode = g.movement_mode ∧
    (Ghost.update.contact c g p).1.id = g.id ∧
    (Ghost.update.contact c g p).1.home = g.home ∧
    (Ghost.update.contact c g p).1.home_exit = g.home_exit ∧
    (Ghost.update.contact c g p).1.direction = g.direction ∧
    (Ghost.update.contact c g p).1.frightened_speed_timer = g.frightened_speed_timer ∧
    (Ghost.update.contact c g p).2.energizer_timer = p.energizer_timer ∧
    (Ghost.update.contact c g p).2.position = p.position ∧
    (Ghost.update.contact c g p).2.direction = p.direction := by
  unfold Ghost.update.contact Pacman.set_dead
  split_ifs <;> simp

/-- Every result of `Ghost.update.act` is the contact step applied to a pursuer
that differs from the given one at most in direction, position and
frightened-speed countdown. -/
theorem act_result (c : Global) (e : Extern) (speed : Nat) (g : Ghost) (walls : Nat → Bool)
    (p : Pacman) (rnd : List Nat) {r : Ghost × Pacman × List Nat}
    (h : Ghost.update.act c e speed g walls p rnd = some r) :
    ∃ g' : Ghost, (r.1, r.2.1) = Ghost.update.contact c g' p ∧
      g'.frightened_mode = g.frightened_mode ∧ g'.use_door = g.use_door ∧
      g'.target = g.target ∧ g'.home = g.home ∧ g'.home_exit = g.home_exit ∧
      g'.movement_mode = g.movement_mode ∧ g'.id = g.id := by
  unfold Ghost.update.act at h
  by_cases h1 : g.frightened_mode ≠ 1
  · rw [if_pos h1] at h
    simp only [Option.some.injEq] at h
    subst h
    exact ⟨_, rfl, rfl, rfl, rfl, rfl, rfl, rfl, rfl⟩
  · rw [if_neg h1] at h
    cases rnd with
    | nil => cases h
    | cons v rest =>
      simp only at h
      by_cases h2 : g.frightened_speed_timer = 0
      · rw [if_pos h2] at h
        cases hd : Ghost.update.flee walls g.direction v rest with
        | none => rw [hd] at h; cases h
        | some dr =>
          rw [hd] at h
          simp only [Option.map_some', Option.some.injEq] at h
          subst h
          exact ⟨_, rfl, rfl, rfl, rfl, rfl, rfl, rfl, rfl⟩
      · rw [if_neg h2] at h
        simp only [Option.some.injEq] at h
        subst h
        exact ⟨_, rfl, rfl, rfl, rfl, rfl, rfl, rfl, rfl⟩

theorem act_calm (c : Global) (e : Extern) (speed : Nat) (g : Ghost) (walls : Nat → Bool)
    (p : Pacman) (rnd : List Nat) (h : g.frightened_mode ≠ 1) :
    Ghost.update.act c e speed g walls p rnd =
      some ((Ghost.update.contact c
          (Ghost.update.move c speed g (Ghost.update.choose c e g walls)) p).1,
        (Ghost.update.contact c
          (Ghost.update.move c speed g (Ghost.update.choose c e g walls)) p).2, rnd) := by
  unfold Ghost.update.act
  rw [if_pos h]

theorem act_waiting (c : Global) (e : Extern) (speed : Nat) (g : Ghost) (walls : Nat → Bool)
    (p : Pacman) (v : Nat) (rest : List Nat) (h : g.frightened_mode = 1)
    (ht : g.frightened_speed_timer ≠ 0) :
    Ghost.update.act c e speed g walls p (v :: rest) =
      some ((Ghost.update.contact c
          { g with frightened_speed_timer := g.frightened_speed_timer - 1 } p).1,
        (Ghost.update.contact c
          { g with frightened_speed_timer := g.frightened_speed_timer - 1 } p).2, rest) := by
  unfold Ghost.update.act
  rw [if_neg (by simp [h])]
  simp only
  rw [if_neg ht]

theorem act_fleeing (c : Global) (e : Extern) (speed : Nat) (g : Ghost) (walls : Nat → Bool)
    (p : Pacman) (v : Nat) (rest : List Nat) (h : g.frightened_mode = 1)
    (ht : g.frightened_speed_timer = 0) :
    Ghost.update.act c e speed g walls p (v :: rest) =
      (Ghost.update.flee walls g.direction v rest).map (fun dr =>
        ((Ghost.update.contact c (Ghost.update.move c speed
            { g with frightened_speed_timer := c.GHOST_FRIGHTENED_SPEED } dr.1) p).1,
          (Ghost.update.contact c (Ghost.update.move c speed
            { g with frightened_speed_timer := c.GHOST_FRIGHTENED_SPEED } dr.1) p).2,
          dr.2)) := by
  unfold Ghost.update.act
  rw [if_neg (by simp [h])]
  simp only
  rw [if_pos ht]

theorem ways_pos (walls : Nat → Bool) (direction : Nat)
    (h : Ghost.update.ways walls direction > 0) :
    ∃ d, d < 4 ∧ Ghost.update.acceptable walls direction d := by
  unfold Ghost.update.ways at h
  obtain ⟨d, hd⟩ := List.exists_mem_of_length_pos h
  rw [List.mem_filter] at hd
  obtain ⟨hmem, hok⟩ := hd
  refine ⟨d, ?_, ?_⟩
  · simp at hmem; omega
  · simp at hok
    exact ⟨hok.2, hok.1⟩

theorem pick_finds (walls : Nat → Bool) (direction : Nat) {d : Nat}
    (hd : Ghost.update.acceptable walls direction d) :
    ∀ (rest : List Nat) (rd i : Nat), (rd :: rest.map (· % 4))[i]? = some d →
      ∃ r j, Ghost.update.pick walls direction rd rest = some (r, rest.drop j) ∧ j ≤ i ∧
        Ghost.update.acceptable walls direction r := by
  intro rest
  induction rest with
  | nil =>
    intro rd i hi
    cases i with
    | zero =>
      simp at hi
      subst hi
      refine ⟨rd, 0, ?_, le_refl _, hd⟩
      unfold Ghost.update.pick
      rw [if_neg (by simp [hd.1, hd.2])]
      rfl
    | succ i => simp at hi
  | cons v rest ih =>
    intro rd i hi
    by_cases hrd : Ghost.update.acceptable walls direction rd
    · refine ⟨rd, 0, ?_, Nat.zero_le _, hrd⟩
      unfold Ghost.update.pick
      rw [if_neg (by simp [hrd.1, hrd.2])]
      rfl
    · cases i with
      | zero =>
        simp at hi
        subst hi
        exact absurd hd hrd
      | succ i =>
        have hi' : ((v % 4) :: rest.map (· % 4))[i]? = some d := by
          simpa using hi
        obtain ⟨r, j, hp, hj, hr⟩ := ih (v % 4) i hi'
        refine ⟨r, j + 1, ?_, by omega, hr⟩
        unfold Ghost.update.pick
        rw [if_pos]
        · rw [hp]; rfl
        · unfold Ghost.update.acceptable at hrd
          by_cases hw : walls rd = true
          · simp [hw]
          · have hw' : walls rd = false := by simpa using hw
            have : rd = (2 + direction) % 4 := by
              by_contra hne
              exact hrd ⟨hw', hne⟩
            simp [this]

theorem Fair_drop {n : Nat} {rnd : List Nat} (h : Fair n rnd) {j : Nat} (hj : j ≤ n) :
    Fair (n - j) (rnd.drop j) := by
  intro k hk r hr
  obtain ⟨i, hi, hv⟩ := h (j + k) (by omega) r hr
  refine ⟨i, hi, ?_⟩
  rw [List.getElem?_drop]
  rw [← hv, Nat.add_assoc]

theorem Fair_mono {n m : Nat} {rnd : List Nat} (h : Fair n rnd) (hm : m ≤ n) : Fair m rnd :=
  fun k hk r hr => h k (le_trans hk hm) r hr

theorem Fair_cons {n : Nat} {rnd : List Nat} (h : Fair n rnd) :
    ∃ v rest, rnd = v :: rest := by
  obtain ⟨i, _, hv⟩ := h 0 (Nat.zero_le _) 0 (by decide)
  cases rnd with
  | nil => simp at hv
  | cons v rest => exact ⟨v, rest, rfl⟩

/-- With a fair supply the frightened pursuer finds its direction within four
draws. -/
theorem flee_total (walls : Nat → Bool) (direction : Nat) (v : Nat) (rest : List Nat)
    (hfair : Fair 0 (v :: rest)) :
    ∃ d j, Ghost.update.flee walls direction v rest = some (d, rest.drop j) ∧ j ≤ 3 ∧
      (Ghost.update.ways walls direction > 0 → Ghost.update.acceptable walls direction d) ∧
      (¬ Ghost.update.ways walls direction > 0 → d = (2 + direction) % 4) := by
  unfold Ghost.update.flee
  by_cases hw : Ghost.update.ways walls direction > 0
  · obtain ⟨d, hd4, hd⟩ := ways_pos walls direction hw
    obtain ⟨i, hi, hv⟩ := hfair 0 (le_refl _) d hd4
    have hi' : ((v % 4) :: rest.map (· % 4))[i]? = some d := by
      rw [Nat.zero_add] at hv
      rw [← hv]
      cases i <;> simp
    obtain ⟨r, j, hp, hj, hr⟩ := pick_finds walls direction hd rest (v % 4) i hi'
    rw [if_pos hw, hp]
    exact ⟨r, j, rfl, by omega, fun _ => hr, fun h => absurd hw h⟩
  · rw [if_neg hw]
    exact ⟨_, 0, rfl, by omega, fun h => absurd h hw, fun _ => rfl⟩

/-- With a fair supply `Ghost.update.act` returns, having drawn between zero
and four values. -/
theorem act_total (c : Global) (e : Extern) (speed : Nat) (g : Ghost) (walls : Nat → Bool)
    (p : Pacman) (rnd : List Nat) (hfair : Fair 0 rnd) :
    ∃ r j, Ghost.update.act c e speed g walls p rnd = some r ∧ r.2.2 = rnd.drop j ∧ j ≤ 4 := by
  by_cases h1 : g.frightened_mode ≠ 1
  · exact ⟨_, 0, act_calm c e speed g walls p rnd h1, rfl, by omega⟩
  · obtain ⟨v, rest, rfl⟩ := Fair_cons hfair
    have h1' : g.frightened_mode = 1 := by simpa using h1
    by_cases ht : g.frightened_speed_timer = 0
    · obtain ⟨d, j, hf, hj, _⟩ := flee_total walls g.direction v rest hfair
      rw [act_fleeing c e speed g walls p v rest h1' ht, hf]
      exact ⟨_, j + 1, rfl, rfl, by omega⟩
    · exact ⟨_, 1, act_waiting c e speed g walls p v rest h1' ht, rfl, by omega⟩

theorem ghost_step_isShort (speed d : Nat) {pos : Position} (hx : isShort pos.x)
    (hy : isShort pos.y) :
    isShort (Ghost.update.step speed d pos).x ∧ isShort (Ghost.update.step speed d pos).y := by
  unfold Ghost.update.step
  split <;> exact ⟨by first | exact toShort_isShort _ | exact hx,
    by first | exact toShort_isShort _ | exact hy⟩

theorem ghost_warp_isShort (c : Global) (speed : Nat) {pos : Position} (hx : isShort pos.x)
    (hy : isShort pos.y) :
    isShort (Ghost.update.warp c speed pos).x ∧ isShort (Ghost.update.warp c speed pos).y := by
  unfold Ghost.update.warp
  split_ifs <;> exact ⟨by first | exact toShort_isShort _ | exact hx, hy⟩

theorem move_isShort (c : Global) (speed : Nat) (g : Ghost) (d : Nat)
    (hx : isShort g.position.x) (hy : isShort g.position.y) :
    isShort (Ghost.update.move c speed g d).position.x ∧
    isShort (Ghost.update.move c speed g d).position.y := by
  have h := ghost_step_isShort speed d hx hy
  exact ghost_warp_isShort c speed h.1 h.2

/-- The position after `Ghost.update.act` is again a pair of `short`s. -/
theorem act_isShort (c : Global) (e : Extern) (speed : Nat) (g : Ghost) (walls : Nat → Bool)
    (p : Pacman) (rnd : List Nat) (hx : isShort g.position.x) (hy : isShort g.position.y)
    {r : Ghost × Pacman × List Nat} (h : Ghost.update.act c e speed g walls p rnd = some r) :
    isShort r.1.position.x ∧ isShort r.1.position.y := by
  unfold Ghost.update.act at h
  by_cases h1 : g.frightened_mode ≠ 1
  · rw [if_pos h1] at h
    simp only [Option.some.injEq] at h
    subst h
    simp only
    rw [(contact_keeps c _ p).1]
    exact move_isShort c speed g _ hx hy
  · rw [if_neg h1] at h
    cases rnd with
    | nil => cases h
    | cons v rest =>
      simp only at h
      by_cases h2 : g.frightened_speed_timer = 0
      · rw [if_pos h2] at h
        cases hd : Ghost.update.flee walls g.direction v rest with
        | none => rw [hd] at h; cases h
        | some dr =>
          rw [hd] at h
          simp only [Option.map_some', Option.some.injEq] at h
          subst h
          simp only
          rw [(contact_keeps c _ p).1]
          exact move_isShort c speed _ _ hx hy
      · rw [if_neg h2] at h
        simp only [Option.some.injEq] at h
        subst h
        simp only
        rw [(contact_keeps c _ p).1]
        exact ⟨hx, hy⟩

/-- Every result of `Ghost::update` comes from `Ghost.update.act`, run with
some speed and some blocking flags on the pursuer after the mode switch and the
target update. -/
theorem Ghost.update_inversion (c : Global) (e : Extern) (L : Nat) (g : Ghost) (m : Grid)
    (q0 : Position) (p : Pacman) (rnd : List Nat) {r : Ghost × Pacman × Grid × List Nat}
    (h : Ghost.update c e L g m q0 p rnd = some r) :
    ∃ (speed : Nat) (walls : Nat → Bool) (r' : Ghost × Pacman × List Nat),
      Ghost.update.speed c (Ghost.update.mode_switch c L p.energizer_timer g) = some speed ∧
      Ghost.update.act c e speed
        ((Ghost.update.mode_switch c L p.energizer_timer g).update_target c e
          p.direction q0 p.position) walls p rnd = some r' ∧
      r.1 = r'.1 ∧ r.2.1 = r'.2.1 ∧ r.2.2.2 = r'.2.2 := by
  unfold Ghost.update at h
  simp only [Option.bind_eq_bind] at h
  cases hs : Ghost.update.speed c (Ghost.update.mode_switch c L p.energizer_timer g) with
  | none => rw [hs] at h; cases h
  | some speed =>
    rw [hs] at h
    simp only [Option.some_bind] at h
    generalize (Ghost.update.mode_switch c L p.energizer_timer g).update_target c e
      p.direction q0 p.position = g2 at h ⊢
    cases h0 : map_collision c false g2.use_door (toShort ((speed : Int) + g2.position.x))
        g2.position.y m with
    | none => rw [h0] at h; cases h
    | some r0 =>
      rw [h0] at h
      simp only [Option.some_bind] at h
      cases h1 : map_collision c false g2.use_door g2.position.x
          (toShort (g2.position.y - (speed : Int))) r0.2 with
      | none => rw [h1] at h; cases h
      | some r1 =>
        rw [h1] at h
        simp only [Option.some_bind] at h
        cases h2 : map_collision c false g2.use_door (toShort (g2.position.x - (speed : Int)))
            g2.position.y r1.2 with
        | none => rw [h2] at h; cases h
        | some r2 =>
          rw [h2] at h
          simp only [Option.some_bind] at h
          cases h3 : Ghost.update.act c e speed g2
              (Ghost.update.walls r0.1 r1.1 r2.1
                (e.probe4 false g2.use_door ((speed : Int) + g2.position.y) r2.2)) p rnd with
          | none => rw [h3] at h; cases h
          | some r' =>
            rw [h3] at h
            simp only [Option.some_bind, Option.some.injEq] at h
            subst h
            exact ⟨speed, _, r', rfl, h3, rfl, rfl, rfl⟩

/-- `Ghost::update` returns on a well-formed grid for a pursuer at a `short`
position, given a fair supply of random values (and a positive
`GHOST_ESCAPE_SPEED` if the pursuer is returning home). The grid is unchanged,
at most four values are drawn, and the new position is a pair of `short`s. -/
theorem Ghost.update_returns (c : Global) (hC : 0 < c.CELL_SIZE) (e : Extern) (L : Nat)
    (g : Ghost) (m : Grid) (hm : Grid.WF c m) (hx : isShort g.position.x)
    (hy : isShort g.position.y) (hES : g.frightened_mode = 2 → 0 < c.GHOST_ESCAPE_SPEED)
    (q0 : Position) (p : Pacman) (rnd : List Nat) (hfair : Fair 0 rnd) :
    ∃ r j, Ghost.update c e L g m q0 p rnd = some r ∧ r.2.2.1 = m ∧ r.2.2.2 = rnd.drop j ∧
      j ≤ 4 ∧ isShort r.1.position.x ∧ isShort r.1.position.y := by
  have hES' : (Ghost.update.mode_switch c L p.energizer_timer g).frightened_mode = 2 →
      0 < c.GHOST_ESCAPE_SPEED := by
    intro h2
    apply hES
    by_contra hne
    unfold Ghost.update.mode_switch at h2
    split_ifs at h2
    all_goals first | exact hne h2 | (simp only at h2; omega)
  obtain ⟨speed, hs, _⟩ := speed_defined c _ hES'
  obtain ⟨w0, w1, w2, hupd⟩ := Ghost.update_closed_form c hC e L g m hm hx hy q0 p rnd hs
  have hpos : ((Ghost.update.mode_switch c L p.energizer_timer g).update_target c e
      p.direction q0 p.position).position = g.position := by
    rw [(update_target_keeps c e _ _ _ _).1, (mode_switch_keeps c L _ g).1]
  obtain ⟨r', j, hact, hdrop, hj⟩ := act_total c e speed
    ((Ghost.update.mode_switch c L p.energizer_timer g).update_target c e
      p.direction q0 p.position)
    (Ghost.update.walls w0 w1 w2
      (e.probe4 false
        ((Ghost.update.mode_switch c L p.energizer_timer g).update_target c e
          p.direction q0 p.position).use_door
        ((speed : Int) + g.position.y) m)) p rnd hfair
  have hsh := act_isShort c e speed _ _ p rnd (by rw [hpos]; exact hx) (by rw [hpos]; exact hy)
    hact
  rw [hact] at hupd
  exact ⟨_, j, hupd, rfl, hdrop, hj, hsh.1, hsh.2⟩

theorem pacman_collision_congr (c : Global) {g g' : Ghost} (h : g'.position = g.position)
    (q : Position) : g'.pacman_collision c q = g.pacman_collision c q := by
  unfold Ghost.pacman_collision
  rw [h]

/-- Every result of `Ghost::update` is the contact step applied to a pursuer
that has the state, door flag and target left by the mode switch and the target
update. -/
theorem Ghost.update_result (c : Global) (e : Extern) (L : Nat) (g : Ghost) (m : Grid)
    (q0 : Position) (p : Pacman) (rnd : List Nat) {r : Ghost × Pacman × Grid × List Nat}
    (h : Ghost.update c e L g m q0 p rnd = some r) :
    ∃ g' : Ghost, (r.1, r.2.1) = Ghost.update.contact c g' p ∧
      g'.frightened_mode = ((Ghost.update.mode_switch c L p.energizer_timer g).update_target
        c e p.direction q0 p.position).frightened_mode ∧
      g'.use_door = ((Ghost.update.mode_switch c L p.energizer_timer g).update_target
        c e p.direction q0 p.position).use_door ∧
      g'.target = ((Ghost.update.mode_switch c L p.energizer_timer g).update_target
        c e p.direction q0 p.position).target ∧
      g'.home = g.home ∧ g'.home_exit = g.home_exit ∧
      g'.movement_mode = g.movement_mode ∧ g'.id = g.id := by
  obtain ⟨speed, walls, r', _, hact, h1, h2, _⟩ := Ghost.update_inversion c e L g m q0 p rnd h
  obtain ⟨g', hc, hmode, hdoor, htarget, hhome, hexit, hmm, hid⟩ :=
    act_result c e speed _ walls p rnd hact
  have k1 := update_target_keeps c e (Ghost.update.mode_switch c L p.energizer_timer g)
    p.direction q0 p.position
  have k2 := mode_switch_keeps c L p.energizer_timer g
  refine ⟨g', by rw [h1, h2]; exact hc, hmode, hdoor, htarget, ?_, ?_, ?_, ?_⟩
  · rw [hhome, k1.2.1, k2.2.2.2.1]
  · rw [hexit, k1.2.2.1, k2.2.2.2.2.1]
  · rw [hmm, k1.2.2.2.1, k2.2.2.2.2.2.1]
  · rw [hid, k1.2.2.2.2.1, k2.2.2.2.2.2.2.1]

theorem contact_normal (c : Global) (g : Ghost) (p : Pacman) (hN : g.frightened_mode = 0) :
    (Ghost.update.contact c g p).1 = g := by
  unfold Ghost.update.contact
  split_ifs <;> rfl

theorem Ghost.reset_coherent (g : Ghost) (i_home i_home_exit : Position) :
    (g.reset i_home i_home_exit).Coherent :=
  fun _ => Or.inl rfl

/-- `Ghost::update` keeps the invariant `Ghost.Coherent`. -/
theorem Ghost.update_coherent (c : Global) (e : Extern) (L : Nat) (g : Ghost) (m : Grid)
    (q0 : Position) (p : Pacman) (rnd : List Nat) (hcoh : g.Coherent)
    {r : Ghost × Pacman × Grid × List Nat} (h : Ghost.update c e L g m q0 p rnd = some r) :
    r.1.Coherent := by
  obtain ⟨g', hc, hmode, hdoor, htarget, hhome, hexit, _⟩ :=
    Ghost.update_result c e L g m q0 p rnd h
  have k := mode_switch_keeps c L p.energizer_timer g
  have h1 : (Ghost.update.mode_switch c L p.energizer_timer g).Coherent := by
    intro hd
    rw [k.2.1] at hd
    rw [k.2.2.1, k.2.2.2.1, k.2.2.2.2.1]
    rcases hcoh hd with h | ⟨h2, h⟩
    · exact Or.inl h
    · rw [mode_switch_returning c L _ g h2]
      exact Or.inr ⟨h2, h⟩
  generalize Ghost.update.mode_switch c L p.energizer_timer g = g1 at hmode hdoor htarget h1 k
  have hk2 := update_target_keeps c e g1 p.direction q0 p.position
  have h2 : (g1.update_target c e p.direction q0 p.position).Coherent := by
    cases hd1 : g1.use_door with
    | false =>
      intro hd
      rw [(update_target_no_door c e g1 _ _ _ hd1).2] at hd
      cases hd
    | true =>
      rw [update_target_door c e g1 _ _ _ hd1]
      split_ifs with ha hb hc'
      · intro hd; cases hd
      · intro _; exact Or.inl rfl
      · exact h1
      · exact h1
  have h' : g'.Coherent := by
    intro hd
    rw [hdoor] at hd
    rw [htarget, hmode, hhome, hexit, ← k.2.2.2.1, ← k.2.2.2.2.1, ← hk2.2.1, ← hk2.2.2.1]
    exact h2 hd
  have hr : r.1 = (Ghost.update.contact c g' p).1 := congrArg Prod.fst hc
  rw [hr]
  unfold Ghost.update.contact
  split_ifs
  · exact h'
  · intro _; exact Or.inr ⟨rfl, rfl⟩
  · exact h'

/-- C11: a Frightened pursuer returns to Normal exactly at the tick the
player's energizer countdown is zero. For every Frightened pursuer,
`Ghost::update` with countdown 0 returns and leaves it Normal; with a positive
countdown every result whose position does not overlap the player leaves it
Frightened (and a result exists when the random supply is fair). The second
half is for pursuers that satisfy the invariant `Ghost.Coherent`, which every
`Ghost::reset` establishes and every `Ghost::update` keeps: with door passage
on, `home` is the target only of a pursuer that is ReturningHome. -/
theorem C11_frightened_until_countdown_zero (c : Global) (hC : 0 < c.CELL_SIZE) (e : Extern)
    (L : Nat) (g : Ghost) (hF : g.frightened_mode = 1) (m : Grid) (hm : Grid.WF c m)
    (hx : isShort g.position.x) (hy : isShort g.position.y) (q0 : Position) (p : Pacman)
    (rnd : List Nat) :
    (p.energizer_timer = 0 →
      ∃ r, Ghost.update c e L g m q0 p rnd = some r ∧ r.1.frightened_mode = 0) ∧
    (0 < p.energizer_timer → g.Coherent →
      (Fair 0 rnd → ∃ r, Ghost.update c e L g m q0 p rnd = some r) ∧
      (∀ r, Ghost.update c e L g m q0 p rnd = some r →
        r.1.pacman_collision c p.position = false → r.1.frightened_mode = 1)) ∧
    ((∀ i_home i_home_exit : Position, (g.reset i_home i_home_exit).Coherent) ∧
      (g.Coherent → ∀ r, Ghost.update c e L g m q0 p rnd = some r → r.1.Coherent)) := by
  refine ⟨?_, ?_, Ghost.reset_coherent g,
    fun hcoh r hr => Ghost.update_coherent c e L g m q0 p rnd hcoh hr⟩
  · intro ht
    have hg1 : Ghost.update.mode_switch c L p.energizer_timer g =
        { g with frightened_mode := 0 } := by
      rw [mode_switch_frightened c L _ g hF, if_pos ht]
    have hmode2 : ((Ghost.update.mode_switch c L p.energizer_timer g).update_target c e
        p.direction q0 p.position).frightened_mode = 0 := by
      rcases update_target_mode c e (Ghost.update.mode_switch c L p.energizer_timer g)
        p.direction q0 p.position with h | h
      · rw [h, hg1]
      · exact h.1
    have hs : Ghost.update.speed c (Ghost.update.mode_switch c L p.energizer_timer g)
        = some (c.GHOST_SPEED % 256) :=
      speed_not_returning c _ (by rw [hg1]; simp)
    obtain ⟨w0, w1, w2, hupd⟩ := Ghost.update_closed_form c hC e L g m hm hx hy q0 p rnd hs
    rw [act_calm c e _ _ _ p rnd (by rw [hmode2]; decide)] at hupd
    refine ⟨_, hupd, ?_⟩
    simp only
    rw [contact_normal c _ p (by exact hmode2)]
    exact hmode2
  · intro ht hcoh
    have hT : ¬ (g.use_door = true ∧ g.position = g.target ∧ g.target = g.home ∧
        g.target ≠ g.home_exit) := by
      rintro ⟨hd, _, _, hne⟩
      rcases hcoh hd with h | ⟨h, _⟩
      · exact hne h
      · rw [hF] at h; exact absurd h (by decide)
    have hg1 : Ghost.update.mode_switch c L p.energizer_timer g = g := by
      rw [mode_switch_frightened c L _ g hF, if_neg (by omega)]
    have hmode2 : ((Ghost.update.mode_switch c L p.energizer_timer g).update_target c e
        p.direction q0 p.position).frightened_mode = 1 := by
      rw [hg1]
      rcases update_target_mode c e g p.direction q0 p.position with h | h
      · rw [h, hF]
      · exact absurd ⟨h.2.1, h.2.2.1, h.2.2.2.1, h.2.2.2.2⟩ hT
    constructor
    · intro hfair
      obtain ⟨r, _, hr, _⟩ := Ghost.update_returns c hC e L g m hm hx hy
        (fun h => by rw [hF] at h; exact absurd h (by decide)) q0 p rnd hfair
      exact ⟨r, hr⟩
    · intro r hr hmiss
      obtain ⟨g', hc, hmode, _⟩ := Ghost.update_result c e L g m q0 p rnd hr
      have hpos : r.1.position = g'.position := by
        have := congrArg Prod.fst hc
        simp only at this
        rw [this, (contact_keeps c g' p).1]
      have hmiss' : g'.pacman_collision c p.position = false := by
        rw [← pacman_collision_congr c hpos p.position]; exact hmiss
      rw [contact_miss c g' p hmiss'] at hc
      have : r.1 = g' := congrArg Prod.fst hc
      rw [this, hmode, hmode2]

/-- C11 instantiated: a Frightened pursuer on the clear 21 x 21 grid, one cell
away from the player. -/
theorem C11_frightened_until_countdown_zero_witness :
    (Pacman.onLine.energizer_timer = 0 →
      ∃ r, Ghost.update Global.sample Extern.sample 0 Ghost.scared Grid.clear
          Ghost.fresh.position Pacman.onLine [0, 1, 2, 3] = some r ∧
        r.1.frightened_mode = 0) ∧
    (0 < Pacman.onLine.energizer_timer → Ghost.scared.Coherent →
      (Fair 0 [0, 1, 2, 3] →
        ∃ r, Ghost.update Global.sample Extern.sample 0 Ghost.scared Grid.clear
          Ghost.fresh.position Pacman.onLine [0, 1, 2, 3] = some r) ∧
      (∀ r, Ghost.update Global.sample Extern.sample 0 Ghost.scared Grid.clear
          Ghost.fresh.position Pacman.onLine [0, 1, 2, 3] = some r →
        r.1.pacman_collision Global.sample Pacman.onLine.position = false →
        r.1.frightened_mode = 1)) ∧
    ((∀ i_home i_home_exit : Position, (Ghost.scared.reset i_home i_home_exit).Coherent) ∧
      (Ghost.scared.Coherent →
        ∀ r, Ghost.update Global.sample Extern.sample 0 Ghost.scared Grid.clear
          Ghost.fresh.position Pacman.onLine [0, 1, 2, 3] = some r → r.1.Coherent)) :=
  C11_frightened_until_countdown_zero Global.sample (by decide) Extern.sample 0 Ghost.scared
    rfl Grid.clear (Grid.fill_WF Global.sample Cell.Empty) (by decide) (by decide)
    Ghost.fresh.position Pacman.onLine [0, 1, 2, 3]

theorem update_result_position {c : Global} {g' : Ghost} {p : Pacman}
    {r : Ghost × Pacman × Grid × List Nat}
    (hc : (r.1, r.2.1) = Ghost.update.contact c g' p) : r.1.position = g'.position := by
  have h := congrArg Prod.fst hc
  simp only at h
  rw [h, (contact_keeps c g' p).1]

/-- C12: a pursuer that is Frightened when `Ghost::update` tests its
post-movement position against the player (that is, Frightened after the mode
switch and the target update, the only statements of the update before the
test that write the state) and whose post-movement position overlaps the
player ends the update in ReturningHome with door passage on and its home cell
as target, and the player is left as it was (not marked dead). Such an update
returns whenever the random supply is fair. -/
theorem C12_frightened_overlap_returns_home (c : Global) (hC : 0 < c.CELL_SIZE) (e : Extern)
    (L : Nat) (g : Ghost) (m : Grid) (hm : Grid.WF c m) (hx : isShort g.position.x)
    (hy : isShort g.position.y) (q0 : Position) (p : Pacman) (rnd : List Nat)
    (hF : ((Ghost.update.mode_switch c L p.energizer_timer g).update_target c e p.direction
      q0 p.position).frightened_mode = 1) :
    (Fair 0 rnd → ∃ r, Ghost.update c e L g m q0 p rnd = some r) ∧
    (∀ r, Ghost.update c e L g m q0 p rnd = some r →
      r.1.pacman_collision c p.position = true →
      r.1.frightened_mode = 2 ∧ r.1.use_door = true ∧ r.1.target = g.home ∧
        r.1.home = g.home ∧ r.2.1 = p) := by
  constructor
  · intro hfair
    have hne : g.frightened_mode ≠ 2 := by
      intro h2
      have h1 := mode_switch_returning c L p.energizer_timer g h2
      rcases update_target_mode c e (Ghost.update.mode_switch c L p.energizer_timer g)
        p.direction q0 p.position with h | h
      · rw [hF, h1, h2] at h; exact absurd h (by decide)
      · rw [hF] at h; exact absurd h.1 (by decide)
    obtain ⟨r, _, hr, _⟩ := Ghost.update_returns c hC e L g m hm hx hy
      (fun h => absurd h hne) q0 p rnd hfair
    exact ⟨r, hr⟩
  · intro r hr hhit
    obtain ⟨g', hc, hmode, _, _, hhome, _⟩ := Ghost.update_result c e L g m q0 p rnd hr
    have hhit' : g'.pacman_collision c p.position = true := by
      rw [← pacman_collision_congr c (update_result_position hc) p.position]; exact hhit
    rw [contact_caught c g' p hhit' (by rw [hmode, hF]; decide)] at hc
    have h1 := congrArg Prod.fst hc
    have h2 := congrArg Prod.snd hc
    simp only at h1 h2
    rw [h1, h2]
    exact ⟨rfl, rfl, hhome, hhome, rfl⟩

/-- C12 instantiated: a Frightened pursuer half a cell from a player in power
mode, on the clear 21 x 21 grid. -/
theorem C12_frightened_overlap_returns_home_witness :
    ((Ghost.update.mode_switch Global.sample 0 Pacman.powered.energizer_timer
        Ghost.cornered).update_target Global.sample Extern.sample Pacman.powered.direction
        Ghost.fresh.position Pacman.powered.position).frightened_mode = 1 ∧
    (Fair 0 [0, 1, 2, 3] →
      ∃ r, Ghost.update Global.sample Extern.sample 0 Ghost.cornered Grid.clear
        Ghost.fresh.position Pacman.powered [0, 1, 2, 3] = some r) ∧
    (∀ r, Ghost.update Global.sample Extern.sample 0 Ghost.cornered Grid.clear
        Ghost.fresh.position Pacman.powered [0, 1, 2, 3] = some r →
      r.1.pacman_collision Global.sample Pacman.powered.position = true →
      r.1.frightened_mode = 2 ∧ r.1.use_door = true ∧ r.1.target = Ghost.cornered.home ∧
        r.1.home = Ghost.cornered.home ∧ r.2.1 = Pacman.powered) :=
  have hF : ((Ghost.update.mode_switch Global.sample 0 Pacman.powered.energizer_timer
      Ghost.cornered).update_target Global.sample Extern.sample Pacman.powered.direction
      Ghost.fresh.position Pacman.powered.position).frightened_mode = 1 := by
    rw [mode_switch_frightened _ _ _ _ rfl, if_neg (by decide)]
    rfl
  ⟨hF, C12_frightened_overlap_returns_home Global.sample (by decide) Extern.sample 0
    Ghost.cornered Grid.clear (Grid.fill_WF Global.sample Cell.Empty) (by decide) (by decide)
    Ghost.fresh.position Pacman.powered [0, 1, 2, 3] hF⟩

theorem contact_spares (c : Global) (g : Ghost) (p : Pacman) (h : g.frightened_mode ≠ 0) :
    (Ghost.update.contact c g p).2 = p := by
  unfold Ghost.update.contact
  split_ifs <;> rfl

/-- A step shorter than a cell that does not reach the tunnel wrap leaves the
pursuer overlapping the position it started from. -/
theorem move_near (c : Global) (s : Nat) (g : Ghost) (d : Nat) (hs : s < c.CELL_SIZE)
    (hx1 : -(c.CELL_SIZE : Int) ≤ g.position.x - s)
    (hx2 : g.position.x + s < (c.CELL_SIZE : Int) * c.MAP_WIDTH)
    (hxl : isShort (g.position.x - s)) (hxr : isShort (g.position.x + s))
    (hyu : isShort (g.position.y - s)) (hyd : isShort (g.position.y + s)) :
    (Ghost.update.move c s g d).pacman_collision c g.position = true := by
  unfold Ghost.pacman_collision Ghost.update.move Ghost.update.warp Ghost.update.step
  generalize (c.CELL_SIZE : Int) * c.MAP_WIDTH = cw at hx2 ⊢
  rcases d with _ | _ | _ | _ | d
  all_goals simp only [toShort_of_isShort hxl, toShort_of_isShort hxr, toShort_of_isShort hyu,
    toShort_of_isShort hyd]
  all_goals split_ifs
  all_goals simp only [decide_eq_true_eq]
  all_goals omega

/-- C13 (amended): a pursuer that is Normal at the start of its update and
stands exactly on the player's position marks the player dead in that same
`Ghost::update`, provided the update does not turn it Frightened (the player's
energizer countdown is not `ENERGIZER_DURATION / 2^L`), its speed is below the
cell size, and a step of that length from its position neither reaches the
tunnel wrap nor leaves the range of `short`. The update then returns for every
random supply. -/
theorem C13_normal_on_player_kills (c : Global) (e : Extern) (L : Nat) (g : Ghost) (m : Grid)
    (hm : Grid.WF c m) (q0 : Position) (p : Pacman) (rnd : List Nat)
    (hN : g.frightened_mode = 0) (hpos : g.position = p.position)
    (hE : p.energizer_timer * 2 ^ L ≠ c.ENERGIZER_DURATION)
    (hS : c.GHOST_SPEED % 256 < c.CELL_SIZE)
    (hx1 : -(c.CELL_SIZE : Int) ≤ g.position.x - (c.GHOST_SPEED % 256 : Nat))
    (hx2 : g.position.x + (c.GHOST_SPEED % 256 : Nat) < (c.CELL_SIZE : Int) * c.MAP_WIDTH)
    (hxl : isShort (g.position.x - (c.GHOST_SPEED % 256 : Nat)))
    (hxr : isShort (g.position.x + (c.GHOST_SPEED % 256 : Nat)))
    (hyu : isShort (g.position.y - (c.GHOST_SPEED % 256 : Nat)))
    (hyd : isShort (g.position.y + (c.GHOST_SPEED % 256 : Nat))) :
    ∃ r, Ghost.update c e L g m q0 p rnd = some r ∧ r.2.1 = p.set_dead true ∧
      r.2.1.dead = true ∧ r.1.frightened_mode = 0 := by
  have hC : 0 < c.CELL_SIZE := by omega
  have hx : isShort g.position.x := by unfold isShort at *; omega
  have hy : isShort g.position.y := by unfold isShort at *; omega
  have hg1 : Ghost.update.mode_switch c L p.energizer_timer g = g := by
    rw [mode_switch_normal c L _ g hN, if_neg hE]
  have hs : Ghost.update.speed c (Ghost.update.mode_switch c L p.energizer_timer g)
      = some (c.GHOST_SPEED % 256) :=
    speed_not_returning c _ (by rw [hg1, hN]; decide)
  obtain ⟨w0, w1, w2, hupd⟩ := Ghost.update_closed_form c hC e L g m hm hx hy q0 p rnd hs
  have hmode2 : ((Ghost.update.mode_switch c L p.energizer_timer g).update_target c e
      p.direction q0 p.position).frightened_mode = 0 := by
    rcases update_target_mode c e (Ghost.update.mode_switch c L p.energizer_timer g)
      p.direction q0 p.position with h | h
    · rw [h, hg1, hN]
    · exact h.1
  have hpos2 : ((Ghost.update.mode_switch c L p.energizer_timer g).update_target c e
      p.direction q0 p.position).position = g.position := by
    rw [(update_target_keeps c e _ _ _ _).1, (mode_switch_keeps c L _ g).1]
  rw [act_calm c e _ _ _ p rnd (by rw [hmode2]; decide)] at hupd
  generalize hg2 : (Ghost.update.mode_switch c L p.energizer_timer g).update_target c e
      p.direction q0 p.position = g2 at hupd hmode2 hpos2
  generalize hd : Ghost.update.choose c e g2 _ = d at hupd
  have hhit : (Ghost.update.move c (c.GHOST_SPEED % 256) g2 d).pacman_collision c p.position
      = true := by
    rw [← hpos, ← hpos2]
    rw [← hpos2] at hx1 hx2 hxl hxr hyu hyd
    exact move_near c _ g2 d hS hx1 hx2 hxl hxr hyu hyd
  rw [contact_kill c _ p hhit hmode2] at hupd
  refine ⟨_, hupd, rfl, ?_, hmode2⟩
  simp [Pacman.set_dead]

/-- C13 (amended) instantiated: pursuer 0 on its spawn cell of the clear
21 x 21 grid, the player on the same cell and without power. -/
theorem C13_normal_on_player_kills_witness :
    ∃ r, Ghost.update Global.sample Extern.sample 0 Ghost.fresh Grid.clear
        Ghost.fresh.position Pacman.onSpawn [] = some r ∧
      r.2.1 = Pacman.onSpawn.set_dead true ∧ r.2.1.dead = true ∧ r.1.frightened_mode = 0 :=
  C13_normal_on_player_kills Global.sample Extern.sample 0 Ghost.fresh Grid.clear
    (Grid.fill_WF Global.sample Cell.Empty) Ghost.fresh.position Pacman.onSpawn [] rfl rfl
    (by decide) (by decide) (by decide) (by decide) (by decide) (by decide) (by decide)
    (by decide)

/-- C13 as stated fails: in the update that sees the player's energizer
countdown at `ENERGIZER_DURATION / 2^L` (the tick in which the player ate an
energizer) a Normal pursuer first turns Frightened; standing on the player's
position it is then caught instead, and the player is not marked dead. With
the sample constants at level 0 this holds for every grid, every random supply
and every value of the external functions. -/
theorem C13_pursuer_turning_frightened_spares_player :
    (Ghost.fresh.frightened_mode = 0 ∧ Ghost.fresh.position = Pacman.energized.position ∧
      Pacman.energized.dead = false) ∧
    (∃ r, Ghost.update Global.sample Extern.sample 0 Ghost.fresh Grid.clear
        Ghost.fresh.position Pacman.energized [0] = some r ∧
      r.2.1.dead = false ∧ r.1.frightened_mode = 2) ∧
    (∀ (e : Extern) (m : Grid) (q0 : Position) (rnd : List Nat)
      (r : Ghost × Pacman × Grid × List Nat),
      Ghost.update Global.sample e 0 Ghost.fresh m q0 Pacman.energized rnd = some r →
      r.2.1.dead = false) := by
  have hg1 : ∀ t : Nat, t = 512 → Ghost.update.mode_switch Global.sample 0 t Ghost.fresh =
      { Ghost.fresh with frightened_speed_timer := 3, frightened_mode := 1 } := by
    intro t ht
    subst ht
    rw [mode_switch_normal _ _ _ _ rfl, if_pos (by decide)]
    rfl
  refine ⟨⟨rfl, rfl, rfl⟩, ?_, ?_⟩
  · have hs := speed_not_returning Global.sample
      (Ghost.update.mode_switch Global.sample 0 Pacman.energized.energizer_timer Ghost.fresh)
      (by rw [hg1 Pacman.energized.energizer_timer rfl]; decide)
    obtain ⟨w0, w1, w2, hupd⟩ := Ghost.update_closed_form Global.sample (by decide) Extern.sample 0
      Ghost.fresh Grid.clear (Grid.fill_WF Global.sample Cell.Empty) (by decide) (by decide)
      Ghost.fresh.position Pacman.energized [0] hs
    rw [hg1 Pacman.energized.energizer_timer rfl,
      act_waiting _ _ _ _ _ _ _ _ rfl (by decide)] at hupd
    exact ⟨_, hupd, by decide, by decide⟩
  · intro e m q0 rnd r hr
    obtain ⟨g', hc, hmode, _⟩ := Ghost.update_result _ e 0 Ghost.fresh m q0 Pacman.energized
      rnd hr
    rw [hg1 Pacman.energized.energizer_timer rfl] at hmode
    have h2 := congrArg Prod.snd hc
    simp only at h2
    rw [(update_target_no_door _ e _ _ q0 _ rfl).1] at hmode
    rw [h2, contact_spares _ g' _ (by rw [hmode]; exact Nat.one_ne_zero)]
    rfl

/-! ## `Ghost::update` of a pursuer returning home -/

theorem contact_returning (c : Global) (g : Ghost) (p : Pacman) (h2 : g.frightened_mode = 2)
    (hd : g.use_door = true) (ht : g.target = g.home) :
    (Ghost.update.contact c g p).1 = g := by
  unfold Ghost.update.contact
  split_ifs
  · rfl
  · cases g
    simp only at h2 hd ht
    simp [h2, hd, ht]
  · rfl

/-- While a pursuer returning home has not reached `home`, an update keeps its
state, its door passage and its target. -/
theorem update_returning_keeps (c : Global) (e : Extern) (L : Nat) (g : Ghost) (m : Grid)
    (q0 : Position) (p : Pacman) (rnd : List Nat) (hdoor : g.use_door = true)
    (h2 : g.frightened_mode = 2) (ht : g.target = g.home) (hp : g.position ≠ g.home)
    {r : Ghost × Pacman × Grid × List Nat} (hr : Ghost.update c e L g m q0 p rnd = some r) :
    r.1.frightened_mode = 2 ∧ r.1.use_door = true ∧ r.1.target = g.home := by
  obtain ⟨g', hc, hmode, hd, htg, hhome, _⟩ := Ghost.update_result c e L g m q0 p rnd hr
  rw [mode_switch_returning c L _ g h2, update_target_door c e g _ _ _ hdoor,
    if_neg (by rw [ht]; exact hp)] at hmode hd htg
  have h1 := congrArg Prod.fst hc
  simp only at h1
  rw [contact_returning c g' p (by rw [hmode, h2]) (by rw [hd, hdoor])
    (by rw [htg, hhome, ht])] at h1
  rw [h1]
  exact ⟨by rw [hmode, h2], by rw [hd, hdoor], by rw [htg, ht]⟩

/-- The update in which a pursuer returning home stands on `home` leaves it
Normal, with door passage on and `home_exit` as target. -/
theorem update_returning_arrives (c : Global) (e : Extern) (L : Nat) (g : Ghost) (m : Grid)
    (q0 : Position) (p : Pacman) (rnd : List Nat) (hdoor : g.use_door = true)
    (h2 : g.frightened_mode = 2) (ht : g.target = g.home) (hp : g.position = g.home)
    (hne : g.home ≠ g.home_exit)
    {r : Ghost × Pacman × Grid × List Nat} (hr : Ghost.update c e L g m q0 p rnd = some r) :
    r.1.frightened_mode = 0 ∧ r.1.use_door = true ∧ r.1.target = g.home_exit := by
  obtain ⟨g', hc, hmode, hd, htg, _⟩ := Ghost.update_result c e L g m q0 p rnd hr
  rw [mode_switch_returning c L _ g h2, update_target_door c e g _ _ _ hdoor,
    if_pos (by rw [ht]; exact hp), if_neg (by rw [ht]; exact hne), if_pos ht] at hmode hd htg
  have h1 := congrArg Prod.fst hc
  simp only at h1
  rw [contact_normal c g' p hmode] at h1
  rw [h1]
  exact ⟨hmode, by rw [hd]; exact hdoor, htg⟩

/-- The update of a pursuer returning home draws no random value and returns
whenever `GHOST_ESCAPE_SPEED` is positive. -/
theorem update_returning_total (c : Global) (hC : 0 < c.CELL_SIZE)
    (hES : 0 < c.GHOST_ESCAPE_SPEED) (e : Extern) (L : Nat) (g : Ghost) (m : Grid)
    (hm : Grid.WF c m) (hx : isShort g.position.x) (hy : isShort g.position.y)
    (q0 : Position) (p : Pacman) (rnd : List Nat) (h2 : g.frightened_mode = 2) :
    ∃ r, Ghost.update c e L g m q0 p rnd = some r ∧ r.2.2.2 = rnd := by
  obtain ⟨s, hs, _⟩ := speed_defined c (Ghost.update.mode_switch c L p.energizer_timer g)
    (fun _ => hES)
  obtain ⟨w0, w1, w2, hupd⟩ := Ghost.update_closed_form c hC e L g m hm hx hy q0 p rnd hs
  have hmode : ((Ghost.update.mode_switch c L p.energizer_timer g).update_target c e
      p.direction q0 p.position).frightened_mode ≠ 1 := by
    rcases update_target_mode c e (Ghost.update.mode_switch c L p.energizer_timer g)
      p.direction q0 p.position with h | h
    · rw [h, mode_switch_returning c L _ g h2, h2]; decide
    · rw [h.1]; decide
  rw [act_calm c e _ _ _ p rnd hmode] at hupd
  exact ⟨_, hupd, rfl⟩

/-- C14 (amended): for a pursuer with door passage on. (1) In ReturningHome
with target `home` and position not `home`, `update_target` changes nothing and
every result of `Ghost::update` is still ReturningHome with door passage on and
target `home`. (2) In ReturningHome with target `home`, standing on `home`
(distinct from `home_exit`), `update_target` sets the target to `home_exit` and
the state to Normal, and every result of `Ghost::update` is Normal with door
passage on and target `home_exit`: the return to Normal happens at the arrival
at `home`. (3) Standing on its target `home_exit`, `update_target` revokes door
passage and leaves the state as it is. (4) The update of a pursuer in
ReturningHome returns whenever the grid is well formed, the position is a pair
of `short`s and `GHOST_ESCAPE_SPEED` is positive. -/
theorem C14_returning_home_route (c : Global) (e : Extern) (L : Nat) (g : Ghost) (m : Grid)
    (q0 : Position) (p : Pacman) (rnd : List Nat) (hdoor : g.use_door = true) :
    (g.frightened_mode = 2 → g.target = g.home → g.position ≠ g.home →
      g.update_target c e p.direction q0 p.position = g ∧
      ∀ r, Ghost.update c e L g m q0 p rnd = some r →
        r.1.frightened_mode = 2 ∧ r.1.use_door = true ∧ r.1.target = g.home) ∧
    (g.frightened_mode = 2 → g.target = g.home → g.position = g.home →
      g.home ≠ g.home_exit →
      g.update_target c e p.direction q0 p.position =
        { g with frightened_mode := 0, target := g.home_exit } ∧
      ∀ r, Ghost.update c e L g m q0 p rnd = some r →
        r.1.frightened_mode = 0 ∧ r.1.use_door = true ∧ r.1.target = g.home_exit) ∧
    (g.target = g.home_exit → g.position = g.home_exit →
      g.update_target c e p.direction q0 p.position = { g with use_door := false }) ∧
    (g.frightened_mode = 2 → 0 < c.CELL_SIZE → 0 < c.GHOST_ESCAPE_SPEED → Grid.WF c m →
      isShort g.position.x → isShort g.position.y →
      ∃ r, Ghost.update c e L g m q0 p rnd = some r) := by
  refine ⟨?_, ?_, ?_, ?_⟩
  · intro h2 ht hp
    refine ⟨?_, fun r hr => update_returning_keeps c e L g m q0 p rnd hdoor h2 ht hp hr⟩
    rw [update_target_door c e g _ _ _ hdoor, if_neg (by rw [ht]; exact hp)]
  · intro h2 ht hp hne
    refine ⟨?_, fun r hr => update_returning_arrives c e L g m q0 p rnd hdoor h2 ht hp hne hr⟩
    rw [update_target_door c e g _ _ _ hdoor, if_pos (by rw [ht]; exact hp),
      if_neg (by rw [ht]; exact hne), if_pos ht]
  · intro ht hp
    rw [update_target_door c e g _ _ _ hdoor, if_pos (by rw [ht]; exact hp), if_pos ht]
  · intro h2 hC hES hm hx hy
    obtain ⟨r, hr, _⟩ := update_returning_total c hC hES e L g m hm hx hy q0 p rnd h2
    exact ⟨r, hr⟩

/-- C14 (amended) instantiated: a pursuer returning home that stands on its
home cell, on the clear 21 x 21 grid. -/
theorem C14_returning_home_route_witness :
    (Ghost.arrived.frightened_mode = 2 → Ghost.arrived.target = Ghost.arrived.home →
      Ghost.arrived.position ≠ Ghost.arrived.home →
      Ghost.arrived.update_target Global.sample Extern.sample Pacman.onLine.direction
        Ghost.fresh.position Pacman.onLine.position = Ghost.arrived ∧
      ∀ r, Ghost.update Global.sample Extern.sample 0 Ghost.arrived Grid.clear
          Ghost.fresh.position Pacman.onLine [] = some r →
        r.1.frightened_mode = 2 ∧ r.1.use_door = true ∧ r.1.target = Ghost.arrived.home) ∧
    (Ghost.arrived.frightened_mode = 2 → Ghost.arrived.target = Ghost.arrived.home →
      Ghost.arrived.position = Ghost.arrived.home →
      Ghost.arrived.home ≠ Ghost.arrived.home_exit →
      Ghost.arrived.update_target Global.sample Extern.sample Pacman.onLine.direction
          Ghost.fresh.position Pacman.onLine.position =
        { Ghost.arrived with frightened_mode := 0, target := Ghost.arrived.home_exit } ∧
      ∀ r, Ghost.update Global.sample Extern.sample 0 Ghost.arrived Grid.clear
          Ghost.fresh.position Pacman.onLine [] = some r →
        r.1.frightened_mode = 0 ∧ r.1.use_door = true ∧
          r.1.target = Ghost.arrived.home_exit) ∧
    (Ghost.arrived.target = Ghost.arrived.home_exit →
      Ghost.arrived.position = Ghost.arrived.home_exit →
      Ghost.arrived.update_target Global.sample Extern.sample Pacman.onLine.direction
          Ghost.fresh.position Pacman.onLine.position =
        { Ghost.arrived with use_door := false }) ∧
    (Ghost.arrived.frightened_mode = 2 → 0 < Global.sample.CELL_SIZE →
      0 < Global.sample.GHOST_ESCAPE_SPEED → Grid.WF Global.sample Grid.clear →
      isShort Ghost.arrived.position.x → isShort Ghost.arrived.position.y →
      ∃ r, Ghost.update Global.sample Extern.sample 0 Ghost.arrived Grid.clear
        Ghost.fresh.position Pacman.onLine [] = some r) :=
  C14_returning_home_route Global.sample Extern.sample 0 Ghost.arrived Grid.clear
    Ghost.fresh.position Pacman.onLine [] rfl

/-- C14 as stated fails: the pursuer `Ghost.arrived`, ReturningHome and on its
home cell (which is not `home_exit`), is Normal after `update_target` and at
the end of that `Ghost::update`; and `Ghost.stranded`, ReturningHome and on its
target `home_exit`, loses door passage but stays ReturningHome. -/
theorem C14_normal_restored_at_home_not_at_exit :
    (Ghost.arrived.frightened_mode = 2 ∧ Ghost.arrived.use_door = true ∧
      Ghost.arrived.position = Ghost.arrived.home ∧
      Ghost.arrived.position ≠ Ghost.arrived.home_exit) ∧
    (∀ (e : Extern) (d : Nat) (q0 qp : Position),
      (Ghost.arrived.update_target Global.sample e d q0 qp).frightened_mode = 0) ∧
    (∃ r, Ghost.update Global.sample Extern.sample 0 Ghost.arrived Grid.clear
        Ghost.fresh.position Pacman.onLine [] = some r ∧ r.1.frightened_mode = 0) ∧
    (Ghost.stranded.frightened_mode = 2 ∧ Ghost.stranded.use_door = true ∧
      Ghost.stranded.target = Ghost.stranded.home_exit ∧
      Ghost.stranded.position = Ghost.stranded.home_exit) ∧
    (∀ (e : Extern) (d : Nat) (q0 qp : Position),
      (Ghost.stranded.update_target Global.sample e d q0 qp).frightened_mode = 2 ∧
      (Ghost.stranded.update_target Global.sample e d q0 qp).use_door = false) := by
  refine ⟨⟨rfl, rfl, rfl, by decide⟩, fun e d q0 qp => rfl, ?_, ⟨rfl, rfl, rfl, rfl⟩,
    fun e d q0 qp => ⟨rfl, rfl⟩⟩
  obtain ⟨r, hr, _⟩ := update_returning_total Global.sample (by decide) (by decide)
    Extern.sample 0 Ghost.arrived Grid.clear (Grid.fill_WF Global.sample Cell.Empty)
    (by decide) (by decide) Ghost.fresh.position Pacman.onLine [] rfl
  exact ⟨r, hr, (update_returning_arrives Global.sample Extern.sample 0 Ghost.arrived
    Grid.clear Ghost.fresh.position Pacman.onLine [] rfl rfl rfl rfl (by decide) hr).1⟩

/-! ## GhostManager: the wave scheduler and the four updates -/

/-- No `Ghost::update` writes the scatter/chase flag, the id, `home` or
`home_exit`. -/
theorem Ghost.update_flag (c : Global) (e : Extern) (L : Nat) (g : Ghost) (m : Grid)
    (q0 : Position) (p : Pacman) (rnd : List Nat) {r : Ghost × Pacman × Grid × List Nat}
    (h : Ghost.update c e L g m q0 p rnd = some r) :
    r.1.movement_mode = g.movement_mode ∧ r.1.id = g.id ∧ r.1.home = g.home ∧
      r.1.home_exit = g.home_exit := by
  obtain ⟨g', hc, _, _, _, hhome, hexit, hmm, hid⟩ := Ghost.update_result c e L g m q0 p rnd h
  have h1 := congrArg Prod.fst hc
  simp only at h1
  have k := contact_keeps c g' p
  rw [h1, k.2.1, k.2.2.1, k.2.2.2.1, k.2.2.2.2.1]
  exact ⟨hmm, hid, hhome, hexit⟩

/-- The energizer countdown, position and direction of the player are not
written by `Ghost::update`. -/
theorem Ghost.update_player (c : Global) (e : Extern) (L : Nat) (g : Ghost) (m : Grid)
    (q0 : Position) (p : Pacman) (rnd : List Nat) {r : Ghost × Pacman × Grid × List Nat}
    (h : Ghost.update c e L g m q0 p rnd = some r) :
    r.2.1.energizer_timer = p.energizer_timer ∧ r.2.1.position = p.position ∧
      r.2.1.direction = p.direction := by
  obtain ⟨g', hc, _⟩ := Ghost.update_result c e L g m q0 p rnd h
  have h2 := congrArg Prod.snd hc
  simp only at h2
  have k := contact_keeps c g' p
  rw [h2]
  exact ⟨k.2.2.2.2.2.2.2.1, k.2.2.2.2.2.2.2.2.1, k.2.2.2.2.2.2.2.2.2⟩

theorem advance_spec (gm : GhostManager) :
    (gm.current_wave < 7 ∧
      (GhostManager.update.advance gm).current_wave = gm.current_wave + 1 ∧
      (GhostManager.update.advance gm).flags =
        gm.ghosts.map (fun g => g.switch_mode.movement_mode)) ∨
    (7 ≤ gm.current_wave ∧ GhostManager.update.advance gm = gm) := by
  unfold GhostManager.update.advance
  by_cases h : gm.current_wave < 7
  · rw [if_pos h]
    exact Or.inl ⟨h, rfl, rfl⟩
  · rw [if_neg h]
    exact Or.inr ⟨by omega, rfl⟩

theorem advance_keeps (gm : GhostManager) :
    (GhostManager.update.advance gm).wave_timer = gm.wave_timer ∧
    (GhostManager.update.advance gm).ghosts.map (fun g => (g.position, g.frightened_mode)) =
      gm.ghosts.map (fun g => (g.position, g.frightened_mode)) := by
  unfold GhostManager.update.advance
  split_ifs <;> exact ⟨rfl, rfl⟩

/-- The scheduler in closed form: paused, counting down, or starting the next
wave. -/
theorem wave_cases (c : Global) (L t : Nat) (gm : GhostManager) {gm1 : GhostManager}
    (h : GhostManager.update.wave c L t gm = some gm1) :
    (t ≠ 0 ∧ gm1 = gm) ∨
    (t = 0 ∧ gm.wave_timer ≠ 0 ∧ gm1 = { gm with wave_timer := gm.wave_timer - 1 }) ∨
    (t = 0 ∧ gm.wave_timer = 0 ∧ ∃ d,
      GhostManager.update.duration c L (GhostManager.update.advance gm).current_wave = some d ∧
      gm1 = { GhostManager.update.advance gm with wave_timer := d }) := by
  unfold GhostManager.update.wave at h
  by_cases ht : t = 0
  · rw [if_pos ht] at h
    by_cases hw : gm.wave_timer = 0
    · rw [if_pos hw] at h
      cases hd : GhostManager.update.duration c L (GhostManager.update.advance gm).current_wave
        with
      | none => rw [hd] at h; cases h
      | some d =>
        rw [hd] at h
        simp only [Option.map_some', Option.some.injEq] at h
        exact Or.inr (Or.inr ⟨ht, hw, d, rfl, h.symm⟩)
    · rw [if_neg hw] at h
      simp only [Option.some.injEq] at h
      exact Or.inr (Or.inl ⟨ht, hw, h.symm⟩)
  · rw [if_neg ht] at h
    simp only [Option.some.injEq] at h
    exact Or.inl ⟨ht, h.symm⟩

/-- The scheduler returns whenever the two level-scaled scatter durations fit
an `unsigned short`. -/
theorem wave_total (c : Global) (L t : Nat) (gm : GhostManager)
    (hL : c.LONG_SCATTER_DURATION / 2 ^ L < 65536)
    (hS : c.SHORT_SCATTER_DURATION / 2 ^ L < 65536) :
    ∃ gm1, GhostManager.update.wave c L t gm = some gm1 := by
  have hd : ∀ w, ∃ d, GhostManager.update.duration c L w = some d := by
    intro w
    unfold GhostManager.update.duration floatToUShort
    rw [if_pos hL, if_pos hS]
    split_ifs <;> exact ⟨_, rfl⟩
  unfold GhostManager.update.wave
  obtain ⟨d, hd⟩ := hd (GhostManager.update.advance gm).current_wave
  rw [hd]
  split_ifs <;> exact ⟨_, rfl⟩

/-- What the scheduler does to index and flags, whatever the case. -/
theorem wave_index (c : Global) (L t : Nat) (gm : GhostManager) {gm1 : GhostManager}
    (h : GhostManager.update.wave c L t gm = some gm1) :
    (gm1.current_wave = gm.current_wave + 1 ∧ gm.current_wave < 7 ∧
      gm1.flags = gm.ghosts.map (fun g => g.switch_mode.movement_mode)) ∨
    (gm1.current_wave = gm.current_wave ∧ gm1.flags = gm.flags) := by
  rcases wave_cases c L t gm h with ⟨_, h1⟩ | ⟨_, _, h1⟩ | ⟨_, _, d, _, h1⟩
  · subst h1; exact Or.inr ⟨rfl, rfl⟩
  · subst h1; exact Or.inr ⟨rfl, rfl⟩
  · subst h1
    rcases advance_spec gm with ⟨h7, hi, hf⟩ | ⟨_, ha⟩
    · exact Or.inl ⟨hi, h7, hf⟩
    · refine Or.inr ⟨?_, ?_⟩
      · show (GhostManager.update.advance gm).current_wave = _
        rw [ha]
      · show (GhostManager.update.advance gm).flags = _
        rw [ha]

theorem wave_keeps (c : Global) (L t : Nat) (gm : GhostManager) {gm1 : GhostManager}
    (h : GhostManager.update.wave c L t gm = some gm1) :
    gm1.ghosts.map (fun g => (g.position, g.frightened_mode)) =
      gm.ghosts.map (fun g => (g.position, g.frightened_mode)) := by
  rcases wave_cases c L t gm h with ⟨_, h1⟩ | ⟨_, _, h1⟩ | ⟨_, _, d, _, h1⟩
  · subst h1; rfl
  · subst h1; rfl
  · subst h1; exact (advance_keeps gm).2

/-- Every result of `GhostManager::update` comes from the scheduler followed by
the four pursuers' updates in order. -/
theorem GhostManager.update_phases (c : Global) (e : Extern) (L : Nat) (gm : GhostManager)
    (m : Grid) (p : Pacman) (rnd : List Nat) {r : GhostManager × Pacman × Grid × List Nat}
    (h : GhostManager.update c e L gm m p rnd = some r) :
    ∃ (gm1 : GhostManager) (r0 r1 r2 r3 : Ghost × Pacman × Grid × List Nat),
      GhostManager.update.wave c L p.energizer_timer gm = some gm1 ∧
      gm1.ghost_0.update c e L m gm1.ghost_0.position p rnd = some r0 ∧
      gm1.ghost_1.update c e L r0.2.2.1 r0.1.position r0.2.1 r0.2.2.2 = some r1 ∧
      gm1.ghost_2.update c e L r1.2.2.1 r0.1.position r1.2.1 r1.2.2.2 = some r2 ∧
      gm1.ghost_3.update c e L r2.2.2.1 r0.1.position r2.2.1 r2.2.2.2 = some r3 ∧
      r = ({ gm1 with ghost_0 := r0.1, ghost_1 := r1.1, ghost_2 := r2.1, ghost_3 := r3.1 },
        r3.2.1, r3.2.2.1, r3.2.2.2) := by
  unfold GhostManager.update at h
  simp only [Option.bind_eq_bind] at h
  cases hw : GhostManager.update.wave c L p.energizer_timer gm with
  | none => rw [hw] at h; cases h
  | some gm1 =>
    rw [hw] at h
    simp only [Option.some_bind] at h
    cases h0 : gm1.ghost_0.update c e L m gm1.ghost_0.position p rnd with
    | none => rw [h0] at h; cases h
    | some r0 =>
      rw [h0] at h
      simp only [Option.some_bind] at h
      cases h1 : gm1.ghost_1.update c e L r0.2.2.1 r0.1.position r0.2.1 r0.2.2.2 with
      | none => rw [h1] at h; cases h
      | some r1 =>
        rw [h1] at h
        simp only [Option.some_bind] at h
        cases h2 : gm1.ghost_2.update c e L r1.2.2.1 r0.1.position r1.2.1 r1.2.2.2 with
        | none => rw [h2] at h; cases h
        | some r2 =>
          rw [h2] at h
          simp only [Option.some_bind] at h
          cases h3 : gm1.ghost_3.update c e L r2.2.2.1 r0.1.position r2.2.1 r2.2.2.2 with
          | none => rw [h3] at h; cases h
          | some r3 =>
            rw [h3] at h
            simp only [Option.some_bind, Option.some.injEq] at h
            exact ⟨gm1, r0, r1, r2, r3, rfl, h0, h1, h2, h3, h.symm⟩

/-- The converse of `GhostManager.update_phases`. -/
theorem GhostManager.update_eq (c : Global) (e : Extern) (L : Nat) (gm : GhostManager)
    (m : Grid) (p : Pacman) (rnd : List Nat) {gm1 : GhostManager}
    {r0 r1 r2 r3 : Ghost × Pacman × Grid × List Nat}
    (hw : GhostManager.update.wave c L p.energizer_timer gm = some gm1)
    (h0 : gm1.ghost_0.update c e L m gm1.ghost_0.position p rnd = some r0)
    (h1 : gm1.ghost_1.update c e L r0.2.2.1 r0.1.position r0.2.1 r0.2.2.2 = some r1)
    (h2 : gm1.ghost_2.update c e L r1.2.2.1 r0.1.position r1.2.1 r1.2.2.2 = some r2)
    (h3 : gm1.ghost_3.update c e L r2.2.2.1 r0.1.position r2.2.1 r2.2.2.2 = some r3) :
    GhostManager.update c e L gm m p rnd =
      some ({ gm1 with ghost_0 := r0.1, ghost_1 := r1.1, ghost_2 := r2.1, ghost_3 := r3.1 },
        r3.2.1, r3.2.2.1, r3.2.2.2) := by
  unfold GhostManager.update
  simp only [Option.bind_eq_bind, hw, Option.some_bind, h0, h1, h2, h3]

/-- `GhostManager::reset` in closed form. -/
theorem GhostManager.reset_spec (c : Global) (gm0 : GhostManager) (L : Nat)
    (spawn : Nat → Position) {gm : GhostManager}
    (h : GhostManager.reset c gm0 L spawn = some gm) :
    c.LONG_SCATTER_DURATION / 2 ^ L < 65536 ∧
    gm = { current_wave := 0, wave_timer := c.LONG_SCATTER_DURATION / 2 ^ L,
           ghost_0 := (gm0.ghost_0.set_position (spawn 0).x (spawn 0).y).reset (spawn 2) (spawn 0),
           ghost_1 := (gm0.ghost_1.set_position (spawn 1).x (spawn 1).y).reset (spawn 2) (spawn 0),
           ghost_2 := (gm0.ghost_2.set_position (spawn 2).x (spawn 2).y).reset (spawn 2) (spawn 0),
           ghost_3 := (gm0.ghost_3.set_position (spawn 3).x (spawn 3).y).reset (spawn 2)
             (spawn 0) } := by
  unfold GhostManager.reset floatToUShort at h
  by_cases hL : c.LONG_SCATTER_DURATION / 2 ^ L < 65536
  · rw [if_pos hL] at h
    simp only [Option.bind_eq_bind, Option.some_bind, Option.some.injEq] at h
    exact ⟨hL, h.symm⟩
  · rw [if_neg hL] at h
    cases h

theorem GhostManager.reset_total (c : Global) (gm0 : GhostManager) (L : Nat)
    (spawn : Nat → Position) (hL : c.LONG_SCATTER_DURATION / 2 ^ L < 65536) :
    ∃ gm, GhostManager.reset c gm0 L spawn = some gm := by
  unfold GhostManager.reset floatToUShort
  rw [if_pos hL]
  exact ⟨_, rfl⟩

/-- The wave fields and the flags after `GhostManager::update` are those the
scheduler left. -/
theorem GhostManager.update_wave_fields (c : Global) (e : Extern) (L : Nat)
    (gm : GhostManager) (m : Grid) (p : Pacman) (rnd : List Nat)
    {r : GhostManager × Pacman × Grid × List Nat}
    (h : GhostManager.update c e L gm m p rnd = some r) :
    ∃ gm1, GhostManager.update.wave c L p.energizer_timer gm = some gm1 ∧
      r.1.current_wave = gm1.current_wave ∧ r.1.wave_timer = gm1.wave_timer ∧
      r.1.flags = gm1.flags := by
  obtain ⟨gm1, r0, r1, r2, r3, hw, h0, h1, h2, h3, hr⟩ :=
    GhostManager.update_phases c e L gm m p rnd h
  refine ⟨gm1, hw, ?_, ?_, ?_⟩
  · rw [hr]
  · rw [hr]
  · rw [hr]
    simp only [GhostManager.flags, GhostManager.ghosts, List.map_cons, List.map_nil]
    rw [(Ghost.update_flag c e L _ _ _ _ _ h0).1, (Ghost.update_flag c e L _ _ _ _ _ h1).1,
      (Ghost.update_flag c e L _ _ _ _ _ h2).1, (Ghost.update_flag c e L _ _ _ _ _ h3).1]

/-- One `GhostManager::update` either starts the next wave, switching every
flag, or leaves index and flags alone. -/
theorem GhostManager.update_step (c : Global) (e : Extern) (L : Nat)
    (gm : GhostManager) (m : Grid) (p : Pacman) (rnd : List Nat)
    {r : GhostManager × Pacman × Grid × List Nat}
    (h : GhostManager.update c e L gm m p rnd = some r) :
    (r.1.current_wave = gm.current_wave + 1 ∧ gm.current_wave < 7 ∧
      r.1.flags = gm.ghosts.map (fun g => g.switch_mode.movement_mode)) ∨
    (r.1.current_wave = gm.current_wave ∧ r.1.flags = gm.flags) := by
  obtain ⟨gm1, hw, hcw, _, hf⟩ := GhostManager.update_wave_fields c e L gm m p rnd h
  rw [hcw, hf]
  exact wave_index c L _ gm hw

/-- After the scheduler, the four pursuers' updates return on a well-formed
grid when every pursuer is at a `short` position, `GHOST_ESCAPE_SPEED` is
positive and the random supply is fair for their at most sixteen draws. The
grid is unchanged and the new positions are again `short`s. -/
theorem GhostManager.update_of_wave (c : Global) (hC : 0 < c.CELL_SIZE)
    (hES : 0 < c.GHOST_ESCAPE_SPEED) (e : Extern) (L : Nat) (gm : GhostManager) (m : Grid)
    (hm : Grid.WF c m) (p : Pacman) (rnd : List Nat) {gm1 : GhostManager}
    (hw : GhostManager.update.wave c L p.energizer_timer gm = some gm1)
    (hpos : ∀ g ∈ gm1.ghosts, isShort g.position.x ∧ isShort g.position.y)
    (hfair : Fair 12 rnd) :
    ∃ r, GhostManager.update c e L gm m p rnd = some r ∧ r.2.2.1 = m ∧
      (∀ g ∈ r.1.ghosts, isShort g.position.x ∧ isShort g.position.y) ∧
      ∃ j, j ≤ 16 ∧ r.2.2.2 = rnd.drop j := by
  simp only [GhostManager.ghosts, List.mem_cons, List.mem_nil_iff, or_false, forall_eq_or_imp,
    forall_eq] at hpos
  obtain ⟨hs0, hs1, hs2, hs3⟩ := hpos
  obtain ⟨r0, j0, h0, hm0, hr0, hj0, hq0⟩ := Ghost.update_returns c hC e L gm1.ghost_0 m hm
    hs0.1 hs0.2 (fun _ => hES) gm1.ghost_0.position p rnd (Fair_mono hfair (by omega))
  have hf1 : Fair 0 r0.2.2.2 := by
    rw [hr0]; exact Fair_mono (Fair_drop hfair (by omega : j0 ≤ 12)) (by omega)
  obtain ⟨r1, j1, h1, hm1, hr1, hj1, hq1⟩ := Ghost.update_returns c hC e L gm1.ghost_1 r0.2.2.1
    (by rw [hm0]; exact hm) hs1.1 hs1.2 (fun _ => hES) r0.1.position r0.2.1 r0.2.2.2 hf1
  have hd1 : r1.2.2.2 = rnd.drop (j0 + j1) := by
    rw [hr1, hr0, List.drop_drop, Nat.add_comm]
  have hf2 : Fair 0 r1.2.2.2 := by
    rw [hd1]; exact Fair_mono (Fair_drop hfair (by omega : j0 + j1 ≤ 12)) (by omega)
  obtain ⟨r2, j2, h2, hm2, hr2, hj2, hq2⟩ := Ghost.update_returns c hC e L gm1.ghost_2 r1.2.2.1
    (by rw [hm1, hm0]; exact hm) hs2.1 hs2.2 (fun _ => hES) r0.1.position r1.2.1 r1.2.2.2 hf2
  have hd2 : r2.2.2.2 = rnd.drop (j0 + j1 + j2) := by
    rw [hr2, hd1, List.drop_drop, Nat.add_comm]
  have hf3 : Fair 0 r2.2.2.2 := by
    rw [hd2]; exact Fair_mono (Fair_drop hfair (by omega : j0 + j1 + j2 ≤ 12)) (by omega)
  obtain ⟨r3, j3, h3, hm3, hr3, hj3, hq3⟩ := Ghost.update_returns c hC e L gm1.ghost_3 r2.2.2.1
    (by rw [hm2, hm1, hm0]; exact hm) hs3.1 hs3.2 (fun _ => hES) r0.1.position r2.2.1
    r2.2.2.2 hf3
  have hd3 : r3.2.2.2 = rnd.drop (j0 + j1 + j2 + j3) := by
    rw [hr3, hd2, List.drop_drop, Nat.add_comm]
  refine ⟨_, GhostManager.update_eq c e L gm m p rnd hw h0 h1 h2 h3, ?_, ?_, ?_⟩
  · show r3.2.2.1 = m
    rw [hm3, hm2, hm1, hm0]
  · intro g hg
    simp only [GhostManager.ghosts, List.mem_cons, List.mem_nil_iff, or_false] at hg
    rcases hg with h | h | h | h <;> subst h
    · exact hq0
    · exact hq1
    · exact hq2
    · exact hq3
  · exact ⟨j0 + j1 + j2 + j3, by omega, hd3⟩

theorem wave_positions (c : Global) (L t : Nat) (gm : GhostManager) {gm1 : GhostManager}
    (h : GhostManager.update.wave c L t gm = some gm1)
    (hpos : ∀ g ∈ gm.ghosts, isShort g.position.x ∧ isShort g.position.y) :
    ∀ g ∈ gm1.ghosts, isShort g.position.x ∧ isShort g.position.y := by
  have hk := wave_keeps c L t gm h
  simp only [GhostManager.ghosts, List.map_cons, List.map_nil, List.cons.injEq, Prod.mk.injEq,
    and_true] at hk
  obtain ⟨⟨hp0, _⟩, ⟨hp1, _⟩, ⟨hp2, _⟩, ⟨hp3, _⟩⟩ := hk
  simp only [GhostManager.ghosts, List.mem_cons, List.mem_nil_iff, or_false, forall_eq_or_imp,
    forall_eq] at hpos ⊢
  rw [hp0, hp1, hp2, hp3]
  exact hpos

/-- `GhostManager::update` returns under the conditions of
`GhostManager.update_of_wave` when the level-scaled scatter durations fit an
`unsigned short`. -/
theorem GhostManager.update_returns_all (c : Global) (hC : 0 < c.CELL_SIZE)
    (hES : 0 < c.GHOST_ESCAPE_SPEED) (e : Extern) (L : Nat) (gm : GhostManager) (m : Grid)
    (hm : Grid.WF c m) (p : Pacman) (rnd : List Nat)
    (hL : c.LONG_SCATTER_DURATION / 2 ^ L < 65536)
    (hS : c.SHORT_SCATTER_DURATION / 2 ^ L < 65536)
    (hpos : ∀ g ∈ gm.ghosts, isShort g.position.x ∧ isShort g.position.y)
    (hfair : Fair 12 rnd) :
    ∃ r, GhostManager.update c e L gm m p rnd = some r ∧ r.2.2.1 = m ∧
      (∀ g ∈ r.1.ghosts, isShort g.position.x ∧ isShort g.position.y) ∧
      ∃ j, j ≤ 16 ∧ r.2.2.2 = rnd.drop j := by
  obtain ⟨gm1, hw⟩ := wave_total c L p.energizer_timer gm hL hS
  exact GhostManager.update_of_wave c hC hES e L gm m hm p rnd hw
    (wave_positions c L _ gm hw hpos) hfair

theorem duration_spec (c : Global) (L w : Nat) {d : Nat}
    (h : GhostManager.update.duration c L w = some d) :
    (w % 2 = 1 → d = c.CHASE_DURATION % 65536) ∧
    (w = 2 → d = c.LONG_SCATTER_DURATION / 2 ^ L) ∧
    (w % 2 = 0 → w ≠ 2 → d = c.SHORT_SCATTER_DURATION / 2 ^ L) := by
  unfold GhostManager.update.duration floatToUShort at h
  split_ifs at h with h1 h2 h3 h4
  all_goals simp only [Option.some.injEq] at h
  all_goals subst h
  all_goals refine ⟨fun _ => ?_, fun _ => ?_, fun _ _ => ?_⟩
  all_goals first | rfl | omega

/-- C16: when the wave countdown and the player's energizer countdown are both
zero, `GhostManager::update` at level `L` sets the wave countdown from the wave
index `w` it leaves (the old index plus one, or 7 if it was 7 already):
`CHASE_DURATION` if `w` is odd, the floor of `LONG_SCATTER_DURATION / 2^L` if
`w = 2`, the floor of `SHORT_SCATTER_DURATION / 2^L` for every other even `w`.
`CHASE_DURATION` is taken to fit the `unsigned short` countdown. Such an update
returns on a well-formed grid with the pursuers at `short` positions, given a
fair random supply and scatter durations that fit an `unsigned short`. -/
theorem C16_new_wave_countdown (c : Global) (e : Extern) (L : Nat) (gm : GhostManager)
    (m : Grid) (p : Pacman) (rnd : List Nat) (hwt : gm.wave_timer = 0)
    (het : p.energizer_timer = 0) (hCD : c.CHASE_DURATION < 65536) :
    (∀ r, GhostManager.update c e L gm m p rnd = some r →
      r.1.current_wave = (if gm.current_wave < 7 then gm.current_wave + 1
        else gm.current_wave) ∧
      (r.1.current_wave % 2 = 1 → r.1.wave_timer = c.CHASE_DURATION) ∧
      (r.1.current_wave = 2 → r.1.wave_timer = c.LONG_SCATTER_DURATION / 2 ^ L) ∧
      (r.1.current_wave % 2 = 0 → r.1.current_wave ≠ 2 →
        r.1.wave_timer = c.SHORT_SCATTER_DURATION / 2 ^ L)) ∧
    (0 < c.CELL_SIZE → 0 < c.GHOST_ESCAPE_SPEED → Grid.WF c m →
      c.LONG_SCATTER_DURATION / 2 ^ L < 65536 → c.SHORT_SCATTER_DURATION / 2 ^ L < 65536 →
      (∀ g ∈ gm.ghosts, isShort g.position.x ∧ isShort g.position.y) → Fair 12 rnd →
      ∃ r, GhostManager.update c e L gm m p rnd = some r) := by
  constructor
  · intro r hr
    obtain ⟨gm1, hw, hcw, hwtm, _⟩ := GhostManager.update_wave_fields c e L gm m p rnd hr
    rcases wave_cases c L _ gm hw with ⟨h0, _⟩ | ⟨_, h0, _⟩ | ⟨_, _, d, hd, h1⟩
    · exact absurd het h0
    · exact absurd hwt h0
    · have hcw1 : r.1.current_wave = (GhostManager.update.advance gm).current_wave := by
        rw [hcw, h1]
      have hwt1 : r.1.wave_timer = d := by rw [hwtm, h1]
      obtain ⟨k1, k2, k3⟩ := duration_spec c L _ hd
      rw [← hcw1] at k1 k2 k3
      refine ⟨?_, ?_, ?_, ?_⟩
      · rw [hcw1]
        unfold GhostManager.update.advance
        split_ifs <;> rfl
      · intro h; rw [hwt1, k1 h, Nat.mod_eq_of_lt hCD]
      · intro h; rw [hwt1, k2 h]
      · intro h h'; rw [hwt1, k3 h h']
  · intro hC hES hm hL hS hpos hfair
    obtain ⟨r, hr, _⟩ := GhostManager.update_returns_all c hC hES e L gm m hm p rnd hL hS hpos hfair
    exact ⟨r, hr⟩

/-- C16 instantiated: the manager of `main.cpp` with its first countdown
expired, at level 1, on the clear 21 x 21 grid. -/
theorem C16_new_wave_countdown_witness :
    (∀ r, GhostManager.update Global.sample Extern.sample 1
        { GhostManager.start with wave_timer := 0 } Grid.clear Pacman.onLine
        (List.range 16) = some r →
      r.1.current_wave = (if ({ GhostManager.start with wave_timer := 0 }
          : GhostManager).current_wave < 7
        then ({ GhostManager.start with wave_timer := 0 } : GhostManager).current_wave + 1
        else ({ GhostManager.start with wave_timer := 0 } : GhostManager).current_wave) ∧
      (r.1.current_wave % 2 = 1 → r.1.wave_timer = Global.sample.CHASE_DURATION) ∧
      (r.1.current_wave = 2 →
        r.1.wave_timer = Global.sample.LONG_SCATTER_DURATION / 2 ^ 1) ∧
      (r.1.current_wave % 2 = 0 → r.1.current_wave ≠ 2 →
        r.1.wave_timer = Global.sample.SHORT_SCATTER_DURATION / 2 ^ 1)) ∧
    (0 < Global.sample.CELL_SIZE → 0 < Global.sample.GHOST_ESCAPE_SPEED →
      Grid.WF Global.sample Grid.clear →
      Global.sample.LONG_SCATTER_DURATION / 2 ^ 1 < 65536 →
      Global.sample.SHORT_SCATTER_DURATION / 2 ^ 1 < 65536 →
      (∀ g ∈ ({ GhostManager.start with wave_timer := 0 } : GhostManager).ghosts,
        isShort g.position.x ∧ isShort g.position.y) → Fair 12 (List.range 16) →
      ∃ r, GhostManager.update Global.sample Extern.sample 1
        { GhostManager.start with wave_timer := 0 } Grid.clear Pacman.onLine
        (List.range 16) = some r) :=
  C16_new_wave_countdown Global.sample Extern.sample 1
    { GhostManager.start with wave_timer := 0 } Grid.clear Pacman.onLine (List.range 16)
    rfl rfl (by decide)

/-- C17: the wave clock is paused during the player's power mode. Every result
of a `GhostManager::update` that sees a non-zero energizer countdown has the
wave index, the wave countdown and the four scatter/chase flags of the state
before; every result of one that sees the energizer countdown at zero and a
positive wave countdown has the wave countdown lowered by exactly 1 and the
index (and the flags) unchanged. In both cases the update returns on a
well-formed grid with the pursuers at `short` positions, given a fair random
supply. -/
theorem C17_wave_clock_paused (c : Global) (e : Extern) (L : Nat) (gm : GhostManager)
    (m : Grid) (p : Pacman) (rnd : List Nat) :
    (∀ r, GhostManager.update c e L gm m p rnd = some r →
      (p.energizer_timer ≠ 0 →
        r.1.current_wave = gm.current_wave ∧ r.1.wave_timer = gm.wave_timer ∧
        r.1.flags = gm.flags) ∧
      (p.energizer_timer = 0 → 0 < gm.wave_timer →
        r.1.wave_timer + 1 = gm.wave_timer ∧ r.1.current_wave = gm.current_wave ∧
        r.1.flags = gm.flags)) ∧
    ((p.energizer_timer ≠ 0 ∨ 0 < gm.wave_timer) →
      0 < c.CELL_SIZE → 0 < c.GHOST_ESCAPE_SPEED → Grid.WF c m →
      (∀ g ∈ gm.ghosts, isShort g.position.x ∧ isShort g.position.y) → Fair 12 rnd →
      ∃ r, GhostManager.update c e L gm m p rnd = some r) := by
  constructor
  · intro r hr
    obtain ⟨gm1, hw, hcw, hwtm, hfl⟩ := GhostManager.update_wave_fields c e L gm m p rnd hr
    rw [hcw, hwtm, hfl]
    rcases wave_cases c L _ gm hw with ⟨h0, h1⟩ | ⟨h0, h0', h1⟩ | ⟨h0, h0', _⟩
    · subst h1
      exact ⟨fun _ => ⟨rfl, rfl, rfl⟩, fun h => absurd h h0⟩
    · subst h1
      refine ⟨fun h => absurd h0 h, fun _ hpos => ⟨?_, rfl, rfl⟩⟩
      show gm.wave_timer - 1 + 1 = gm.wave_timer
      omega
    · exact ⟨fun h => absurd h0 h, fun _ hpos => absurd h0' (by omega)⟩
  · intro hcase hC hES hm hpos hfair
    have hw : ∃ gm1, GhostManager.update.wave c L p.energizer_timer gm = some gm1 := by
      unfold GhostManager.update.wave
      by_cases ht : p.energizer_timer = 0
      · have hwt : gm.wave_timer ≠ 0 := by
          rcases hcase with h | h
          · exact absurd ht h
          · omega
        rw [if_pos ht, if_neg hwt]
        exact ⟨_, rfl⟩
      · rw [if_neg ht]
        exact ⟨_, rfl⟩
    obtain ⟨gm1, hw⟩ := hw
    obtain ⟨r, hr, _⟩ := GhostManager.update_of_wave c hC hES e L gm m hm p rnd hw
      (wave_positions c L _ gm hw hpos) hfair
    exact ⟨r, hr⟩

/-- C18: `GhostManager::reset(L, spawn)` returns whenever the floor of
`LONG_SCATTER_DURATION / 2^L` fits the `unsigned short` countdown, and every
result has wave index 0, that floor as wave countdown, pursuer `i` at
`spawn[i]` with the id it had, and for each of the four pursuers (pursuer 0
included) `home = spawn[2]`, `home_exit = spawn[0]`, `target = home_exit`, state
Normal, scatter mode, direction Right (0), frightened-speed countdown 0, and
door passage on exactly when its id is greater than 0. -/
theorem C18_reset_postconditions (c : Global) (gm0 : GhostManager) (L : Nat)
    (spawn : Nat → Position) :
    (c.LONG_SCATTER_DURATION / 2 ^ L < 65536 →
      ∃ gm, GhostManager.reset c gm0 L spawn = some gm) ∧
    (∀ gm, GhostManager.reset c gm0 L spawn = some gm →
      gm.current_wave = 0 ∧ gm.wave_timer = c.LONG_SCATTER_DURATION / 2 ^ L ∧
      gm.ghosts.map (fun g => g.position) = [spawn 0, spawn 1, spawn 2, spawn 3] ∧
      gm.ghosts.map (fun g => g.id) = gm0.ghosts.map (fun g => g.id) ∧
      ∀ g ∈ gm.ghosts, g.home = spawn 2 ∧ g.home_exit = spawn 0 ∧ g.target = g.home_exit ∧
        g.frightened_mode = 0 ∧ g.movement_mode = 0 ∧ g.direction = 0 ∧
        g.frightened_speed_timer = 0 ∧ (g.use_door = true ↔ 0 < g.id)) := by
  refine ⟨GhostManager.reset_total c gm0 L spawn, ?_⟩
  intro gm hgm
  obtain ⟨_, h⟩ := GhostManager.reset_spec c gm0 L spawn hgm
  subst h
  refine ⟨rfl, rfl, rfl, rfl, ?_⟩
  intro g hg
  simp only [GhostManager.ghosts, List.mem_cons, List.mem_nil_iff, or_false] at hg
  rcases hg with h | h | h | h <;> subst h <;>
    simp [Ghost.reset, Ghost.set_position]

/-- C20: in scatter mode (`movement_mode = 0`) with door passage off,
`Ghost::update_target` changes nothing but the target, which it sets for ids 0,
1, 2, 3 to the top-right, top-left, bottom-right and bottom-left corner
`(CELL_SIZE * (MAP_WIDTH - 1), 0)`, `(0, 0)`,
`(CELL_SIZE * (MAP_WIDTH - 1), CELL_SIZE * (MAP_HEIGHT - 1))`,
`(0, CELL_SIZE * (MAP_HEIGHT - 1))`, whatever the player's position and
direction, pursuer 0's position and the external functions are. The corner
coordinates are taken to fit a `short`. -/
theorem C20_scatter_targets (c : Global) (e : Extern) (g : Ghost) (d : Nat)
    (q0 qp : Position) (hdoor : g.use_door = false) (hmode : g.movement_mode = 0)
    (hW : isShort ((c.CELL_SIZE : Int) * ((c.MAP_WIDTH : Int) - 1)))
    (hH : isShort ((c.CELL_SIZE : Int) * ((c.MAP_HEIGHT : Int) - 1))) :
    (g.id = 0 → (g.update_target c e d q0 qp).target =
      { x := (c.CELL_SIZE : Int) * ((c.MAP_WIDTH : Int) - 1), y := 0 }) ∧
    (g.id = 1 → (g.update_target c e d q0 qp).target = { x := 0, y := 0 }) ∧
    (g.id = 2 → (g.update_target c e d q0 qp).target =
      { x := (c.CELL_SIZE : Int) * ((c.MAP_WIDTH : Int) - 1),
        y := (c.CELL_SIZE : Int) * ((c.MAP_HEIGHT : Int) - 1) }) ∧
    (g.id = 3 → (g.update_target c e d q0 qp).target =
      { x := 0, y := (c.CELL_SIZE : Int) * ((c.MAP_HEIGHT : Int) - 1) }) ∧
    g.update_target c e d q0 qp = { g with target := (g.update_target c e d q0 qp).target } ∧
    (∀ (e' : Extern) (d' : Nat) (q0' qp' : Position),
      g.update_target c e' d' q0' qp' = g.update_target c e d q0 qp) := by
  have hform : ∀ (e' : Extern) (d' : Nat) (q0' qp' : Position),
      g.update_target c e' d' q0' qp' =
        match g.id with
        | 0 => { g with target :=
            { x := (c.CELL_SIZE : Int) * ((c.MAP_WIDTH : Int) - 1), y := 0 } }
        | 1 => { g with target := { x := 0, y := 0 } }
        | 2 => { g with target :=
            { x := (c.CELL_SIZE : Int) * ((c.MAP_WIDTH : Int) - 1),
              y := (c.CELL_SIZE : Int) * ((c.MAP_HEIGHT : Int) - 1) } }
        | 3 => { g with target :=
            { x := 0, y := (c.CELL_SIZE : Int) * ((c.MAP_HEIGHT : Int) - 1) } }
        | _ => g := by
    intro e' d' q0' qp'
    unfold Ghost.update_target
    rw [if_neg (by rw [hdoor]; decide), if_pos hmode, toShort_of_isShort hW,
      toShort_of_isShort hH]
  refine ⟨?_, ?_, ?_, ?_, ?_, ?_⟩
  · intro h; rw [hform, h]
  · intro h; rw [hform, h]
  · intro h; rw [hform, h]
  · intro h; rw [hform, h]
  · rw [hform]
    split <;> rfl
  · intro e' d' q0' qp'
    rw [hform, hform e d q0 qp]

/-- C20 instantiated: pursuer 0 of the sample maze, whose scatter corner is
(320, 0). -/
theorem C20_scatter_targets_witness :
    (Ghost.fresh.id = 0 →
      (Ghost.fresh.update_target Global.sample Extern.sample 0 Ghost.fresh.position
        Pacman.onLine.position).target =
      { x := (Global.sample.CELL_SIZE : Int) * ((Global.sample.MAP_WIDTH : Int) - 1),
        y := 0 }) ∧
    (Ghost.fresh.id = 1 →
      (Ghost.fresh.update_target Global.sample Extern.sample 0 Ghost.fresh.position
        Pacman.onLine.position).target = { x := 0, y := 0 }) ∧
    (Ghost.fresh.id = 2 →
      (Ghost.fresh.update_target Global.sample Extern.sample 0 Ghost.fresh.position
        Pacman.onLine.position).target =
      { x := (Global.sample.CELL_SIZE : Int) * ((Global.sample.MAP_WIDTH : Int) - 1),
        y := (Global.sample.CELL_SIZE : Int) * ((Global.sample.MAP_HEIGHT : Int) - 1) }) ∧
    (Ghost.fresh.id = 3 →
      (Ghost.fresh.update_target Global.sample Extern.sample 0 Ghost.fresh.position
        Pacman.onLine.position).target =
      { x := 0,
        y := (Global.sample.CELL_SIZE : Int) * ((Global.sample.MAP_HEIGHT : Int) - 1) }) ∧
    Ghost.fresh.update_target Global.sample Extern.sample 0 Ghost.fresh.position
        Pacman.onLine.position =
      { Ghost.fresh with target :=
        (Ghost.fresh.update_target Global.sample Extern.sample 0 Ghost.fresh.position
          Pacman.onLine.position).target } ∧
    (∀ (e' : Extern) (d' : Nat) (q0' qp' : Position),
      Ghost.fresh.update_target Global.sample e' d' q0' qp' =
        Ghost.fresh.update_target Global.sample Extern.sample 0 Ghost.fresh.position
          Pacman.onLine.position) :=
  C20_scatter_targets Global.sample Extern.sample Ghost.fresh 0 Ghost.fresh.position
    Pacman.onLine.position rfl rfl (by decide) (by decide)

/-! ## main.cpp: the scan for pellets and one tick -/

theorem no_pellet_left_iff (m : Grid) :
    main.no_pellet_left m = true ↔ ∀ col ∈ m, ∀ cell ∈ col, cell ≠ Cell.Pellet := by
  unfold main.no_pellet_left
  simp only [List.all_eq_true, decide_eq_true_eq]

theorem no_pellet_left_of_get? (m : Grid)
    (h : ∀ x y : Nat, m.get? x y ≠ some Cell.Pellet) : main.no_pellet_left m = true := by
  rw [no_pellet_left_iff]
  intro col hcol cell hcell heq
  obtain ⟨x, hx⟩ := List.getElem?_of_mem hcol
  obtain ⟨y, hy⟩ := List.getElem?_of_mem hcell
  apply h x y
  unfold Grid.get?
  rw [hx]
  simp only
  rw [hy, heq]

/-- Every result of a tick carries the flag computed by the scan of the grid it
carries. -/
theorem main.simulate_inv (c : Global) (e : Extern) (kb : Keyboard) (s : Session)
    (rnd : List Nat) {r : Session × List Nat} (h : main.simulate c e kb s rnd = some r) :
    r.1.game_won = main.no_pellet_left r.1.map := by
  unfold main.simulate at h
  simp only [Option.bind_eq_bind] at h
  cases hp : Pacman.update c kb s.level s.pacman s.map with
  | none => rw [hp] at h; cases h
  | some r1 =>
    rw [hp] at h
    simp only [Option.some_bind] at h
    cases hg : GhostManager.update c e s.level s.ghost_manager r1.2 r1.1 rnd with
    | none => rw [hg] at h; cases h
    | some r2 =>
      rw [hg] at h
      simp only [Option.some_bind, Option.some.injEq] at h
      rw [← h]

theorem main.simulate_eq (c : Global) (e : Extern) (kb : Keyboard) (s : Session)
    (rnd : List Nat) {r1 : Pacman × Grid} {r2 : GhostManager × Pacman × Grid × List Nat}
    (hp : Pacman.update c kb s.level s.pacman s.map = some r1)
    (hg : GhostManager.update c e s.level s.ghost_manager r1.2 r1.1 rnd = some r2) :
    ∃ r, main.simulate c e kb s rnd = some r ∧ r.1.map = r2.2.2.1 ∧
      r.1.game_won = main.no_pellet_left r2.2.2.1 := by
  unfold main.simulate
  simp only [Option.bind_eq_bind, hp, Option.some_bind, hg]
  exact ⟨_, rfl, rfl, rfl⟩

/-- On a grid without Wall and Door cells no non-collecting probe is
blocked. -/
theorem open_probe (c : Global) (hC : 0 < c.CELL_SIZE) {m : Grid} (hm : Grid.WF c m)
    (hopen : ∀ x y : Nat, m.get? x y ≠ some Cell.Wall ∧ m.get? x y ≠ some Cell.Door)
    {x y : Int} (hx : isShort x) (hy : isShort y) (d : Bool) :
    map_collision c false d x y m = some (false, m) := by
  obtain ⟨b, hb, hiff⟩ := map_collision_noncollect c hC hm hx hy d
  cases hbv : b with
  | false => rw [hb, hbv]
  | true =>
    obtain ⟨q, _, hin, hbl⟩ := hiff.1 hbv
    obtain ⟨cell, hget, hcell⟩ := inBounds_get? hm hin
    have ho := hopen q.1.toNat q.2.toNat
    rw [hget] at ho
    rw [hcell] at hbl
    rcases hbl with h | ⟨h, _⟩
    · exact absurd h ho.1
    · exact absurd h ho.2

theorem floorCell_mul_sub (c : Global) (i : Int) (s : Nat) (hs : 0 < s)
    (hsC : s ≤ c.CELL_SIZE) : floorCell c ((c.CELL_SIZE : Int) * i - s) = i - 1 := by
  have hC' : (c.CELL_SIZE : Int) ≠ 0 := by omega
  unfold floorCell
  have e1 : (c.CELL_SIZE : Int) * i - s = ((c.CELL_SIZE : Int) - s) + (i - 1) * c.CELL_SIZE := by
    ring
  rw [e1, Int.add_mul_ediv_right _ _ hC', Int.ediv_eq_zero_of_lt (by omega) (by omega)]
  ring

theorem ceilCell_mul_add (c : Global) (i : Int) (s : Nat) (hs : 0 < s)
    (hsC : s ≤ c.CELL_SIZE) : ceilCell c ((c.CELL_SIZE : Int) * i + s) = i + 1 := by
  have hC' : (c.CELL_SIZE : Int) ≠ 0 := by omega
  unfold ceilCell
  have e1 : -((c.CELL_SIZE : Int) * i + s) =
      ((c.CELL_SIZE : Int) - s) + (-(i + 1)) * c.CELL_SIZE := by
    ring
  rw [e1, Int.add_mul_ediv_right _ _ hC', Int.ediv_eq_zero_of_lt (by omega) (by omega)]
  ring

/-- One step of at most a cell from the corner of cell `(i, j)` toward the
adjacent in-bounds cell `t` stays inside the maze and overlaps `t`. -/
theorem toward_geometry (c : Global) (hC : 0 < c.CELL_SIZE) (i j d : Nat) (t : Int × Int)
    (hs0 : 0 < c.PACMAN_SPEED) (hsC : c.PACMAN_SPEED ≤ c.CELL_SIZE)
    (hW : c.CELL_SIZE * c.MAP_WIDTH ≤ 32767) (hH : c.CELL_SIZE * c.MAP_HEIGHT ≤ 32767)
    (hi : i < c.MAP_WIDTH) (hj : j < c.MAP_HEIGHT) (ht : inBounds c t)
    (hadj : (d = 0 ∧ t = ((i : Int) + 1, (j : Int))) ∨ (d = 1 ∧ t = ((i : Int), (j : Int) - 1)) ∨
      (d = 2 ∧ t = ((i : Int) - 1, (j : Int))) ∨ (d = 3 ∧ t = ((i : Int), (j : Int) + 1))) :
    Pacman.update.warp c (Pacman.update.step c d
        { x := (c.CELL_SIZE : Int) * i, y := (c.CELL_SIZE : Int) * j }) =
      Pacman.update.step c d { x := (c.CELL_SIZE : Int) * i, y := (c.CELL_SIZE : Int) * j } ∧
    isShort (Pacman.update.step c d
      { x := (c.CELL_SIZE : Int) * i, y := (c.CELL_SIZE : Int) * j }).x ∧
    isShort (Pacman.update.step c d
      { x := (c.CELL_SIZE : Int) * i, y := (c.CELL_SIZE : Int) * j }).y ∧
    t ∈ candidateCells c
      (Pacman.update.step c d
        { x := (c.CELL_SIZE : Int) * i, y := (c.CELL_SIZE : Int) * j }).x
      (Pacman.update.step c d
        { x := (c.CELL_SIZE : Int) * i, y := (c.CELL_SIZE : Int) * j }).y := by
  have hWi : ((c.CELL_SIZE : Int) * c.MAP_WIDTH) ≤ 32767 := by exact_mod_cast hW
  have hHi : ((c.CELL_SIZE : Int) * c.MAP_HEIGHT) ≤ 32767 := by exact_mod_cast hH
  have hCpos : (0 : Int) < c.CELL_SIZE := by exact_mod_cast hC
  have hx0 : (0 : Int) ≤ (c.CELL_SIZE : Int) * i := by positivity
  have hy0 : (0 : Int) ≤ (c.CELL_SIZE : Int) * j := by positivity
  have hxW : (c.CELL_SIZE : Int) * i + c.CELL_SIZE ≤ (c.CELL_SIZE : Int) * c.MAP_WIDTH := by
    have : (i : Int) + 1 ≤ c.MAP_WIDTH := by omega
    nlinarith
  have hyH : (c.CELL_SIZE : Int) * j + c.CELL_SIZE ≤ (c.CELL_SIZE : Int) * c.MAP_HEIGHT := by
    have : (j : Int) + 1 ≤ c.MAP_HEIGHT := by omega
    nlinarith
  obtain ⟨ht1, ht2, ht3, ht4⟩ := ht
  simp only [candidateCells, ← floorCell_eq_floor, ← ceilCell_eq_ceil]
  unfold Pacman.update.warp
  rcases hadj with ⟨hd, rfl⟩ | ⟨hd, rfl⟩ | ⟨hd, rfl⟩ | ⟨hd, rfl⟩ <;> subst hd <;>
    simp only [Pacman.update.step] at ht1 ht2 ht3 ht4 ⊢
  · have hx1 : (c.CELL_SIZE : Int) * i + c.CELL_SIZE + c.CELL_SIZE ≤
        (c.CELL_SIZE : Int) * c.MAP_WIDTH := by
      have : (i : Int) + 1 + 1 ≤ c.MAP_WIDTH := by omega
      nlinarith
    have hsh : isShort ((c.CELL_SIZE : Int) * i + c.PACMAN_SPEED) := by
      unfold isShort; constructor <;> omega
    rw [toShort_of_isShort hsh]
    refine ⟨?_, hsh, by unfold isShort; constructor <;> omega, ?_⟩
    · rw [if_neg (by omega), if_neg (by omega)]
    · rw [ceilCell_mul_add c i _ hs0 hsC, floorCell_mul c hC, ceilCell_mul c hC]
      simp
  · have hy1 : (c.CELL_SIZE : Int) ≤ (c.CELL_SIZE : Int) * j := by
      have : (1 : Int) ≤ j := by omega
      nlinarith
    have hsh : isShort ((c.CELL_SIZE : Int) * j - c.PACMAN_SPEED) := by
      unfold isShort; constructor <;> omega
    rw [toShort_of_isShort hsh]
    refine ⟨?_, by unfold isShort; constructor <;> omega, hsh, ?_⟩
    · rw [if_neg (by omega), if_neg (by omega)]
    · rw [floorCell_mul_sub c j _ hs0 hsC, floorCell_mul c hC, ceilCell_mul c hC]
      simp
  · have hx1 : (c.CELL_SIZE : Int) ≤ (c.CELL_SIZE : Int) * i := by
      have : (1 : Int) ≤ i := by omega
      nlinarith
    have hsh : isShort ((c.CELL_SIZE : Int) * i - c.PACMAN_SPEED) := by
      unfold isShort; constructor <;> omega
    rw [toShort_of_isShort hsh]
    refine ⟨?_, hsh, by unfold isShort; constructor <;> omega, ?_⟩
    · rw [if_neg (by omega), if_neg (by omega)]
    · rw [floorCell_mul_sub c i _ hs0 hsC, floorCell_mul c hC, ceilCell_mul c hC]
      simp
  · have hsh : isShort ((c.CELL_SIZE : Int) * j + c.PACMAN_SPEED) := by
      unfold isShort; constructor <;> omega
    rw [toShort_of_isShort hsh]
    refine ⟨?_, by unfold isShort; constructor <;> omega, hsh, ?_⟩
    · rw [if_neg (by omega), if_neg (by omega)]
    · rw [ceilCell_mul_add c j _ hs0 hsC, floorCell_mul c hC, ceilCell_mul c hC]
      simp

theorem Grid.get?_mem {m : Grid} {x y : Nat} {cell : Cell} (h : m.get? x y = some cell) :
    ∃ col ∈ m, cell ∈ col := by
  unfold Grid.get? at h
  cases hcol : m[x]? with
  | none => simp [hcol] at h
  | some col =>
    simp only [hcol] at h
    exact ⟨col, List.mem_iff_getElem?.2 ⟨x, hcol⟩, List.mem_iff_getElem?.2 ⟨y, h⟩⟩

/-- On an open grid whose only Pellet is the in-bounds cell `t` adjacent to the
player's cell `(i, j)`, a player update that takes the direction of `t`
returns and leaves a grid in which `t` is Empty and no cell is a Pellet. -/
theorem Pacman.update_toward (c : Global) (hC : 0 < c.CELL_SIZE) (kb : Keyboard) (L : Nat)
    (p : Pacman) (m : Grid) (i j d : Nat) (t : Int × Int)
    (hs0 : 0 < c.PACMAN_SPEED) (hsC : c.PACMAN_SPEED ≤ c.CELL_SIZE)
    (hW : c.CELL_SIZE * c.MAP_WIDTH ≤ 32767) (hH : c.CELL_SIZE * c.MAP_HEIGHT ≤ 32767)
    (hE : c.ENERGIZER_DURATION / 2 ^ L < 65536) (hm : Grid.WF c m)
    (hopen : ∀ col ∈ m, ∀ cell ∈ col, cell ≠ Cell.Wall ∧ cell ≠ Cell.Door)
    (hpel : m.cellAt t.1 t.2 = some Cell.Pellet)
    (honly : ∀ x, x < c.MAP_WIDTH → ∀ y, y < c.MAP_HEIGHT →
      m.get? x y = some Cell.Pellet → ((x : Int), (y : Int)) = t)
    (hi : i < c.MAP_WIDTH) (hj : j < c.MAP_HEIGHT)
    (hpos : p.position = { x := (c.CELL_SIZE : Int) * i, y := (c.CELL_SIZE : Int) * j })
    (hdir : p.direction < 4)
    (hd : Pacman.update.turn kb false false false false p.direction = d)
    (hadj : (d = 0 ∧ t = ((i : Int) + 1, (j : Int))) ∨ (d = 1 ∧ t = ((i : Int), (j : Int) - 1)) ∨
      (d = 2 ∧ t = ((i : Int) - 1, (j : Int))) ∨ (d = 3 ∧ t = ((i : Int), (j : Int) + 1))) :
    ∃ r1, Pacman.update c kb L p m = some r1 ∧ Grid.WF c r1.2 ∧
      r1.2.cellAt t.1 t.2 = some Cell.Empty ∧
      ∀ x y : Nat, r1.2.get? x y ≠ some Cell.Pellet := by
  have hopen' : ∀ x y : Nat, m.get? x y ≠ some Cell.Wall ∧ m.get? x y ≠ some Cell.Door := by
    intro x y
    constructor
    · intro h
      obtain ⟨col, hcol, hcell⟩ := Grid.get?_mem h
      exact (hopen col hcol _ hcell).1 rfl
    · intro h
      obtain ⟨col, hcol, hcell⟩ := Grid.get?_mem h
      exact (hopen col hcol _ hcell).2 rfl
  have ht := Grid.cellAt_inBounds hm hpel
  obtain ⟨hwarp, hsx, hsy, hcand⟩ := toward_geometry c hC i j d t hs0 hsC hW hH hi hj ht hadj
  have hWi : ((c.CELL_SIZE : Int) * c.MAP_WIDTH) ≤ 32767 := by exact_mod_cast hW
  have hHi : ((c.CELL_SIZE : Int) * c.MAP_HEIGHT) ≤ 32767 := by exact_mod_cast hH
  have hpx : isShort p.position.x := by
    rw [hpos]
    have h0 : (0 : Int) ≤ (c.CELL_SIZE : Int) * i := by positivity
    have h1 : (c.CELL_SIZE : Int) * i ≤ (c.CELL_SIZE : Int) * c.MAP_WIDTH := by
      have : (i : Int) ≤ c.MAP_WIDTH := by omega
      nlinarith
    unfold isShort; constructor <;> simp only <;> omega
  have hpy : isShort p.position.y := by
    rw [hpos]
    have h0 : (0 : Int) ≤ (c.CELL_SIZE : Int) * j := by positivity
    have h1 : (c.CELL_SIZE : Int) * j ≤ (c.CELL_SIZE : Int) * c.MAP_HEIGHT := by
      have : (j : Int) ≤ c.MAP_HEIGHT := by omega
      nlinarith
    unfold isShort; constructor <;> simp only <;> omega
  obtain ⟨w0, w1, w2, w3, wall, hit, dir, pos, m', h0, h1, h2, h3, hdir', _, hwall, hpos', _, _,
    hcol, hwf, hupd⟩ := Pacman.update_spec c hC kb L hE p hdir hpx hpy m hm
  have e0 : w0 = false := by
    rw [open_probe c hC hm hopen' (toShort_isShort _) hpy false] at h0
    simp only [Option.some.injEq, Prod.mk.injEq, and_true] at h0
    exact h0.symm
  have e1 : w1 = false := by
    rw [open_probe c hC hm hopen' hpx (toShort_isShort _) false] at h1
    simp only [Option.some.injEq, Prod.mk.injEq, and_true] at h1
    exact h1.symm
  have e2 : w2 = false := by
    rw [open_probe c hC hm hopen' (toShort_isShort _) hpy false] at h2
    simp only [Option.some.injEq, Prod.mk.injEq, and_true] at h2
    exact h2.symm
  have e3 : w3 = false := by
    rw [open_probe c hC hm hopen' hpx (toShort_isShort _) false] at h3
    simp only [Option.some.injEq, Prod.mk.injEq, and_true] at h3
    exact h3.symm
  subst e0 e1 e2 e3
  rw [hd] at hdir'
  subst hdir'
  have hwf4 : wall = false := by
    rcases hadj with ⟨h, _⟩ | ⟨h, _⟩ | ⟨h, _⟩ | ⟨h, _⟩ <;> subst h <;>
      simp at hwall <;> exact hwall
  rw [hwf4, if_pos rfl, hpos, hwarp] at hpos'
  rw [hpos'] at hcol
  obtain ⟨b, m'', hb, _, _, hA, hB, _⟩ := map_collision_collect c hC hm hsx hsy false
  rw [hb] at hcol
  simp only [Option.some.injEq, Prod.mk.injEq] at hcol
  obtain ⟨_, hmm⟩ := hcol
  subst hmm
  have htE : m''.cellAt t.1 t.2 = some Cell.Empty := hA t hcand (Or.inr hpel)
  refine ⟨_, hupd, hwf, htE, ?_⟩
  intro x y hget
  have hcell : m''.cellAt ((x : Int), (y : Int)).1 ((x : Int), (y : Int)).2
      = some Cell.Pellet := by
    simp only
    rw [Grid.cellAt_natCast]; exact hget
  by_cases hq : ((x : Int), (y : Int)) ∈ candidateCells c
      (Pacman.update.step c dir
        { x := (c.CELL_SIZE : Int) * i, y := (c.CELL_SIZE : Int) * j }).x
      (Pacman.update.step c dir
        { x := (c.CELL_SIZE : Int) * i, y := (c.CELL_SIZE : Int) * j }).y ∧
      Collectable (m.cellAt ((x : Int), (y : Int)).1 ((x : Int), (y : Int)).2)
  · rw [hA _ hq.1 hq.2] at hcell
    cases hcell
  · have hsame := hB _ hq
    rw [hcell] at hsame
    have hget0 : m.get? x y = some Cell.Pellet := by
      rw [← Grid.cellAt_natCast]; exact hsame.symm
    obtain ⟨hxb, hyb⟩ := Grid.get?_bounds hm hget0
    have hxy := honly x hxb y hyb hget0
    apply hq
    rw [hxy]
    exact ⟨hcand, Or.inr hpel⟩

/-- C19: every tick that runs the simulation ends with the level-complete flag
`game_won` true if and only if no cell of the grid it leaves is a Pellet
(Energizer cells play no role). In particular: on a well-formed grid without
Wall and Door cells whose only Pellet is the in-bounds cell `t` adjacent to the
player's cell `(i, j)`, a tick whose player update takes the direction `d` of
`t` (speed positive and at most a cell, maze coordinates within `short`)
returns, leaves `t` Empty and sets `game_won`; the pursuers' update returns
under the conditions of `GhostManager.update_returns_all`. -/
theorem C19_level_complete_iff_no_pellet (c : Global) (hC : 0 < c.CELL_SIZE) (e : Extern)
    (kb : Keyboard) (s : Session) (rnd : List Nat) :
    (∀ r, main.simulate c e kb s rnd = some r →
      (r.1.game_won = true ↔ ∀ col ∈ r.1.map, ∀ cell ∈ col, cell ≠ Cell.Pellet)) ∧
    (∀ (i j d : Nat) (t : Int × Int),
      0 < c.PACMAN_SPEED → c.PACMAN_SPEED ≤ c.CELL_SIZE →
      c.CELL_SIZE * c.MAP_WIDTH ≤ 32767 → c.CELL_SIZE * c.MAP_HEIGHT ≤ 32767 →
      c.ENERGIZER_DURATION / 2 ^ s.level < 65536 →
      Grid.WF c s.map →
      (∀ col ∈ s.map, ∀ cell ∈ col, cell ≠ Cell.Wall ∧ cell ≠ Cell.Door) →
      s.map.cellAt t.1 t.2 = some Cell.Pellet →
      (∀ x, x < c.MAP_WIDTH → ∀ y, y < c.MAP_HEIGHT →
        s.map.get? x y = some Cell.Pellet → ((x : Int), (y : Int)) = t) →
      i < c.MAP_WIDTH → j < c.MAP_HEIGHT →
      s.pacman.position = { x := (c.CELL_SIZE : Int) * i, y := (c.CELL_SIZE : Int) * j } →
      s.pacman.direction < 4 →
      Pacman.update.turn kb false false false false s.pacman.direction = d →
      ((d = 0 ∧ t = ((i : Int) + 1, (j : Int))) ∨ (d = 1 ∧ t = ((i : Int), (j : Int) - 1)) ∨
        (d = 2 ∧ t = ((i : Int) - 1, (j : Int))) ∨ (d = 3 ∧ t = ((i : Int), (j : Int) + 1))) →
      0 < c.GHOST_ESCAPE_SPEED →
      c.LONG_SCATTER_DURATION / 2 ^ s.level < 65536 →
      c.SHORT_SCATTER_DURATION / 2 ^ s.level < 65536 →
      (∀ g ∈ s.ghost_manager.ghosts, isShort g.position.x ∧ isShort g.position.y) →
      Fair 12 rnd →
      ∃ r, main.simulate c e kb s rnd = some r ∧
        r.1.map.cellAt t.1 t.2 = some Cell.Empty ∧ r.1.game_won = true) := by
  constructor
  · intro r hr
    rw [main.simulate_inv c e kb s rnd hr, no_pellet_left_iff]
  · intro i j d t hs0 hsC hW hH hE hm hopen hpel honly hi hj hpos hdir hd hadj hES hL hS
      hgpos hfair
    obtain ⟨r1, hp, hwf1, htE, hnone⟩ := Pacman.update_toward c hC kb s.level s.pacman s.map
      i j d t hs0 hsC hW hH hE hm hopen hpel honly hi hj hpos hdir hd hadj
    obtain ⟨r2, hg, hmap, _⟩ := GhostManager.update_returns_all c hC hES e s.level s.ghost_manager
      r1.2 hwf1 r1.1 rnd hL hS hgpos hfair
    obtain ⟨r, hr, hrm, hrw⟩ := main.simulate_eq c e kb s rnd hp hg
    refine ⟨r, hr, ?_, ?_⟩
    · rw [hrm, hmap]; exact htE
    · rw [hrw, hmap]; exact no_pellet_left_of_get? _ hnone

/-- C19 instantiated: the 3 x 3 open grid with a single Pellet in the centre,
the player in cell (0, 1) facing Right with no key pressed. -/
theorem C19_level_complete_iff_no_pellet_witness :
    (∀ r, main.simulate Global.small Extern.sample Keyboard.idle Session.demo
        (List.range 16) = some r →
      (r.1.game_won = true ↔ ∀ col ∈ r.1.map, ∀ cell ∈ col, cell ≠ Cell.Pellet)) ∧
    (∃ r, main.simulate Global.small Extern.sample Keyboard.idle Session.demo
        (List.range 16) = some r ∧
      r.1.map.cellAt 1 1 = some Cell.Empty ∧ r.1.game_won = true) :=
  ⟨(C19_level_complete_iff_no_pellet Global.small (by decide) Extern.sample Keyboard.idle
      Session.demo (List.range 16)).1,
    (C19_level_complete_iff_no_pellet Global.small (by decide) Extern.sample Keyboard.idle
      Session.demo (List.range 16)).2 0 1 0 (1, 1) (by decide) (by decide) (by decide)
      (by decide) (by decide) (by decide) (by decide) (by decide) (by decide) (by decide)
      (by decide) (by decide) (by decide) rfl (Or.inl ⟨rfl, by decide⟩) (by decide)
      (by decide) (by decide) (by decide) (by decide)⟩

/-! ## `Ghost::update_target`: the chase targets and the door branch -/

/-- In chase mode with door passage off, `update_target` takes the branch of
the pursuer's id. -/
theorem update_target_chase (c : Global) (e : Extern) (g : Ghost) (d : Nat)
    (q0 qp : Position) (hdoor : g.use_door = false) (hmode : g.movement_mode ≠ 0) :
    g.update_target c e d q0 qp =
      match g.id with
      | 0 => { g with target := qp }
      | 1 => { g with target := Ghost.update_target.ahead c c.GHOST_1_CHASE d qp }
      | 2 => { g with target :=
          { x := toShort ((Ghost.update_target.ahead c c.GHOST_2_CHASE d qp).x +
              ((Ghost.update_target.ahead c c.GHOST_2_CHASE d qp).x - q0.x)),
            y := toShort ((Ghost.update_target.ahead c c.GHOST_2_CHASE d qp).y +
              ((Ghost.update_target.ahead c c.GHOST_2_CHASE d qp).y - q0.y)) } }
      | 3 =>
        if e.sqrt_float ((g.position.x - qp.x) ^ 2 + (g.position.y - qp.y) ^ 2).toNat
            > c.CELL_SIZE * c.GHOST_3_CHASE * 2 ^ 23 then
          { g with target := qp }
        else
          { g with target :=
            { x := 0, y := toShort ((c.CELL_SIZE : Int) * ((c.MAP_HEIGHT : Int) - 1)) } }
      | _ => g := by
  unfold Ghost.update_target
  rw [if_neg (by rw [hdoor]; decide), if_neg hmode]

/-- C21: in chase mode (`movement_mode` not 0) with door passage off,
`Ghost::update_target` changes only the target; it sets the target of pursuer
0 to the player's position, and the target of pursuer 1 to the player's
position displaced by `CELL_SIZE * GHOST_1_CHASE` along the player's direction
(0 Right: +x, 1 Up: -y, 2 Left: -x, 3 Down: +y), the displaced coordinate being
taken to fit a `short`. -/
theorem C21_chase_targets_direct_and_ahead (c : Global) (e : Extern) (g : Ghost) (d : Nat)
    (q0 qp : Position) (hdoor : g.use_door = false) (hmode : g.movement_mode ≠ 0) :
    (g.id = 0 → g.update_target c e d q0 qp = { g with target := qp }) ∧
    (g.id = 1 →
      (d = 0 → isShort (qp.x + (c.CELL_SIZE : Int) * c.GHOST_1_CHASE) →
        g.update_target c e d q0 qp = { g with target :=
          { x := qp.x + (c.CELL_SIZE : Int) * c.GHOST_1_CHASE, y := qp.y } }) ∧
      (d = 1 → isShort (qp.y - (c.CELL_SIZE : Int) * c.GHOST_1_CHASE) →
        g.update_target c e d q0 qp = { g with target :=
          { x := qp.x, y := qp.y - (c.CELL_SIZE : Int) * c.GHOST_1_CHASE } }) ∧
      (d = 2 → isShort (qp.x - (c.CELL_SIZE : Int) * c.GHOST_1_CHASE) →
        g.update_target c e d q0 qp = { g with target :=
          { x := qp.x - (c.CELL_SIZE : Int) * c.GHOST_1_CHASE, y := qp.y } }) ∧
      (d = 3 → isShort (qp.y + (c.CELL_SIZE : Int) * c.GHOST_1_CHASE) →
        g.update_target c e d q0 qp = { g with target :=
          { x := qp.x, y := qp.y + (c.CELL_SIZE : Int) * c.GHOST_1_CHASE } })) := by
  have h := update_target_chase c e g d q0 qp hdoor hmode
  refine ⟨fun hid => ?_, fun hid => ⟨?_, ?_, ?_, ?_⟩⟩
  · rw [h, hid]
  all_goals
    intro hd hs
    rw [h, hid, hd]
    simp only [Ghost.update_target.ahead, toShort_of_isShort hs]

/-- C21 instantiated: pursuers 0 and 1 in chase mode, the player of
`Pacman.onLine` facing Right (`GHOST_1_CHASE = 2`, `CELL_SIZE = 16`). -/
theorem C21_chase_targets_direct_and_ahead_witness :
    ({ Ghost.fresh with movement_mode := 1 } : Ghost).update_target Global.sample
        Extern.sample 0 Ghost.fresh.position Pacman.onLine.position =
      { Ghost.fresh with movement_mode := 1, target := { x := 0, y := 144 } } ∧
    ({ Ghost.fresh with movement_mode := 1, id := 1 } : Ghost).update_target Global.sample
        Extern.sample 0 Ghost.fresh.position Pacman.onLine.position =
      { Ghost.fresh with movement_mode := 1, id := 1, target := { x := 32, y := 144 } } :=
  ⟨(C21_chase_targets_direct_and_ahead Global.sample Extern.sample
      { Ghost.fresh with movement_mode := 1 } 0 Ghost.fresh.position Pacman.onLine.position
      rfl (by decide)).1 rfl,
    ((C21_chase_targets_direct_and_ahead Global.sample Extern.sample
      { Ghost.fresh with movement_mode := 1, id := 1 } 0 Ghost.fresh.position
      Pacman.onLine.position rfl (by decide)).2 rfl).1 rfl (by decide)⟩

/-- C22: in chase mode with door passage off, `Ghost::update_target` changes
only the target of pursuer 2 and sets it to `2 * Q - G0` componentwise, where
`Q` is the player's position displaced by `CELL_SIZE * GHOST_2_CHASE` along the
player's direction (0 Right: +x, 1 Up: -y, 2 Left: -x, 3 Down: +y) and `G0` is
pursuer 0's position; the displaced coordinate and the two results are taken
to fit a `short`. -/
theorem C22_chase_target_reflected (c : Global) (e : Extern) (g : Ghost) (d : Nat)
    (q0 qp : Position) (hdoor : g.use_door = false) (hmode : g.movement_mode ≠ 0)
    (hid : g.id = 2) :
    (d = 0 → isShort (qp.x + (c.CELL_SIZE : Int) * c.GHOST_2_CHASE) →
      isShort (2 * (qp.x + (c.CELL_SIZE : Int) * c.GHOST_2_CHASE) - q0.x) →
      isShort (2 * qp.y - q0.y) →
      g.update_target c e d q0 qp = { g with target :=
        { x := 2 * (qp.x + (c.CELL_SIZE : Int) * c.GHOST_2_CHASE) - q0.x,
          y := 2 * qp.y - q0.y } }) ∧
    (d = 1 → isShort (qp.y - (c.CELL_SIZE : Int) * c.GHOST_2_CHASE) →
      isShort (2 * qp.x - q0.x) →
      isShort (2 * (qp.y - (c.CELL_SIZE : Int) * c.GHOST_2_CHASE) - q0.y) →
      g.update_target c e d q0 qp = { g with target :=
        { x := 2 * qp.x - q0.x,
          y := 2 * (qp.y - (c.CELL_SIZE : Int) * c.GHOST_2_CHASE) - q0.y } }) ∧
    (d = 2 → isShort (qp.x - (c.CELL_SIZE : Int) * c.GHOST_2_CHASE) →
      isShort (2 * (qp.x - (c.CELL_SIZE : Int) * c.GHOST_2_CHASE) - q0.x) →
      isShort (2 * qp.y - q0.y) →
      g.update_target c e d q0 qp = { g with target :=
        { x := 2 * (qp.x - (c.CELL_SIZE : Int) * c.GHOST_2_CHASE) - q0.x,
          y := 2 * qp.y - q0.y } }) ∧
    (d = 3 → isShort (qp.y + (c.CELL_SIZE : Int) * c.GHOST_2_CHASE) →
      isShort (2 * qp.x - q0.x) →
      isShort (2 * (qp.y + (c.CELL_SIZE : Int) * c.GHOST_2_CHASE) - q0.y) →
      g.update_target c e d q0 qp = { g with target :=
        { x := 2 * qp.x - q0.x,
          y := 2 * (qp.y + (c.CELL_SIZE : Int) * c.GHOST_2_CHASE) - q0.y } }) := by
  have h := update_target_chase c e g d q0 qp hdoor hmode
  rw [hid] at h
  simp only at h
  refine ⟨?_, ?_, ?_, ?_⟩
  · intro hd hs hx hy
    have ex : qp.x + (c.CELL_SIZE : Int) * c.GHOST_2_CHASE +
        (qp.x + (c.CELL_SIZE : Int) * c.GHOST_2_CHASE - q0.x) =
        2 * (qp.x + (c.CELL_SIZE : Int) * c.GHOST_2_CHASE) - q0.x := by ring
    have ey : qp.y + (qp.y - q0.y) = 2 * qp.y - q0.y := by ring
    rw [h, hd]
    simp only [Ghost.update_target.ahead, toShort_of_isShort hs, ex, ey,
      toShort_of_isShort hx, toShort_of_isShort hy]
    rw [hid]
  · intro hd hs hx hy
    have ex : qp.x + (qp.x - q0.x) = 2 * qp.x - q0.x := by ring
    have ey : qp.y - (c.CELL_SIZE : Int) * c.GHOST_2_CHASE +
        (qp.y - (c.CELL_SIZE : Int) * c.GHOST_2_CHASE - q0.y) =
        2 * (qp.y - (c.CELL_SIZE : Int) * c.GHOST_2_CHASE) - q0.y := by ring
    rw [h, hd]
    simp only [Ghost.update_target.ahead, toShort_of_isShort hs, ex, ey,
      toShort_of_isShort hx, toShort_of_isShort hy]
    rw [hid]
  · intro hd hs hx hy
    have ex : qp.x - (c.CELL_SIZE : Int) * c.GHOST_2_CHASE +
        (qp.x - (c.CELL_SIZE : Int) * c.GHOST_2_CHASE - q0.x) =
        2 * (qp.x - (c.CELL_SIZE : Int) * c.GHOST_2_CHASE) - q0.x := by ring
    have ey : qp.y + (qp.y - q0.y) = 2 * qp.y - q0.y := by ring
    rw [h, hd]
    simp only [Ghost.update_target.ahead, toShort_of_isShort hs, ex, ey,
      toShort_of_isShort hx, toShort_of_isShort hy]
    rw [hid]
  · intro hd hs hx hy
    have ex : qp.x + (qp.x - q0.x) = 2 * qp.x - q0.x := by ring
    have ey : qp.y + (c.CELL_SIZE : Int) * c.GHOST_2_CHASE +
        (qp.y + (c.CELL_SIZE : Int) * c.GHOST_2_CHASE - q0.y) =
        2 * (qp.y + (c.CELL_SIZE : Int) * c.GHOST_2_CHASE) - q0.y := by ring
    rw [h, hd]
    simp only [Ghost.update_target.ahead, toShort_of_isShort hs, ex, ey,
      toShort_of_isShort hx, toShort_of_isShort hy]
    rw [hid]

/-- C22 instantiated: pursuer 2 in chase mode, the player at (0, 144) facing
Right, pursuer 0 at (160, 112): `Q = (16, 144)` and the target is
(-128, 176). -/
theorem C22_chase_target_reflected_witness :
    ({ Ghost.fresh with movement_mode := 1, id := 2 } : Ghost).update_target Global.sample
        Extern.sample 0 Ghost.fresh.position Pacman.onLine.position =
      { Ghost.fresh with movement_mode := 1, id := 2, target := { x := -128, y := 176 } } :=
  (C22_chase_target_reflected Global.sample Extern.sample
    { Ghost.fresh with movement_mode := 1, id := 2 } 0 Ghost.fresh.position
    Pacman.onLine.position rfl (by decide) rfl).1 rfl (by decide) (by decide) (by decide)

/-- C29: with door passage on, `Ghost::update_target` never assigns a scatter
or chase target. Whatever the movement-mode flag, the id, the player's position
and direction, pursuer 0's position and the external functions are, the target
after the call is the target before it, or it is `home_exit` and then the
pursuer stood on its target, that target was `home` and was not `home_exit`;
and the result does not depend on any of those inputs except through the
flag and id it carries along. -/
theorem C29_door_branch_overrides_targets (c : Global) (e : Extern) (g : Ghost) (d : Nat)
    (q0 qp : Position) (hdoor : g.use_door = true) :
    ((g.update_target c e d q0 qp).target = g.target ∨
      ((g.update_target c e d q0 qp).target = g.home_exit ∧ g.position = g.target ∧
        g.target = g.home ∧ g.target ≠ g.home_exit)) ∧
    (∀ (e' : Extern) (d' : Nat) (q0' qp' : Position),
      g.update_target c e' d' q0' qp' = g.update_target c e d q0 qp) ∧
    (∀ (movement_mode id : Nat),
      (({ g with movement_mode := movement_mode, id := id } : Ghost).update_target
        c e d q0 qp).target = (g.update_target c e d q0 qp).target) := by
  refine ⟨?_, ?_, ?_⟩
  · rw [update_target_door c e g d q0 qp hdoor]
    split_ifs with h1 h2 h3
    · exact Or.inl rfl
    · exact Or.inr ⟨rfl, h1, h3, h2⟩
    · exact Or.inl rfl
    · exact Or.inl rfl
  · intro e' d' q0' qp'
    rw [update_target_door c e g d q0 qp hdoor, update_target_door c e' g d' q0' qp' hdoor]
  · intro mm id
    rw [update_target_door c e g d q0 qp hdoor,
      update_target_door c e { g with movement_mode := mm, id := id } d q0 qp hdoor]
    simp only
    split_ifs <;> rfl

/-- C29 instantiated: a pursuer returning home that stands on `home`, in chase
mode, gets `home_exit` as target, not the player's position. -/
theorem C29_door_branch_overrides_targets_witness :
    (({ Ghost.arrived with movement_mode := 1 } : Ghost).update_target Global.sample
        Extern.sample 0 Ghost.fresh.position Pacman.onLine.position).target =
      Ghost.arrived.home_exit ∧
    ((({ Ghost.arrived with movement_mode := 1 } : Ghost).update_target Global.sample
        Extern.sample 0 Ghost.fresh.position Pacman.onLine.position).target =
        ({ Ghost.arrived with movement_mode := 1 } : Ghost).target ∨
      ((({ Ghost.arrived with movement_mode := 1 } : Ghost).update_target Global.sample
          Extern.sample 0 Ghost.fresh.position Pacman.onLine.position).target =
          ({ Ghost.arrived with movement_mode := 1 } : Ghost).home_exit ∧
        ({ Ghost.arrived with movement_mode := 1 } : Ghost).position =
          ({ Ghost.arrived with movement_mode := 1 } : Ghost).target ∧
        ({ Ghost.arrived with movement_mode := 1 } : Ghost).target =
          ({ Ghost.arrived with movement_mode := 1 } : Ghost).home ∧
        ({ Ghost.arrived with movement_mode := 1 } : Ghost).target ≠
          ({ Ghost.arrived with movement_mode := 1 } : Ghost).home_exit)) :=
  ⟨rfl, (C29_door_branch_overrides_targets Global.sample Extern.sample
    { Ghost.arrived with movement_mode := 1 } 0 Ghost.fresh.position Pacman.onLine.position
    rfl).1⟩

/-! ## `convert_sketch` -/

theorem char_defined (i_map_sketch : List String) (a b : Nat) (ha : a < i_map_sketch.length)
    (hrow : ∀ row ∈ i_map_sketch, b ≤ row.toList.length) :
    ∃ ch, convert_sketch.char i_map_sketch a b = some ch := by
  unfold convert_sketch.char
  rw [List.getElem?_eq_getElem ha]
  simp only
  have hb := hrow _ (List.getElem_mem ha)
  by_cases h : b < (i_map_sketch[a]).toList.length
  · rw [if_pos h, List.getElem?_eq_getElem h]
    exact ⟨_, rfl⟩
  · rw [if_neg h, if_pos (by omega)]
    exact ⟨_, rfl⟩

/-- The `switch` of `convert_sketch` in one expression: a write of the cell
kind when the character stands for one, and the new spawn points and
player. -/
theorem switch_eq (c : Global) (ch : Char) (a b : Nat) (st : convert_sketch.State) :
    convert_sketch.switch c ch a b st =
      (if convert_sketch.cell ch = Cell.Empty then some st.output_map
        else st.output_map.set? b a (convert_sketch.cell ch)).map
        (fun m => { output_map := m,
                    i_ghost_positions := convert_sketch.spawn c ch a b st.i_ghost_positions,
                    i_pacman := convert_sketch.player c ch a b st.i_pacman }) := by
  unfold convert_sketch.switch convert_sketch.cell convert_sketch.spawn convert_sketch.player
  by_cases h1 : ch = '#'
  · subst h1; simp
  by_cases h2 : ch = '='
  · subst h2; simp
  by_cases h3 : ch = '.'
  · subst h3; simp
  by_cases h4 : ch = '0'
  · subst h4; simp
  by_cases h5 : ch = '1'
  · subst h5; simp
  by_cases h6 : ch = '2'
  · subst h6; simp
  by_cases h7 : ch = '3'
  · subst h7; simp
  by_cases h8 : ch = 'P'
  · subst h8; simp
  by_cases h9 : ch = 'o'
  · subst h9; simp
  simp [h1, h2, h3, h4, h5, h6, h7, h8, h9]

/-- One visit of the loops of `convert_sketch` at an in-bounds pair. -/
theorem visit_sketch (c : Global) (i_map_sketch : List String) (st : convert_sketch.State)
    (hm : Grid.WF c st.output_map) {a b : Nat} (ha : a < c.MAP_HEIGHT) (hb : b < c.MAP_WIDTH)
    {ch : Char} (hch : convert_sketch.char i_map_sketch a b = some ch) :
    ∃ m', convert_sketch.visit c i_map_sketch st (a, b) =
        some { output_map := m',
               i_ghost_positions := convert_sketch.spawn c ch a b st.i_ghost_positions,
               i_pacman := convert_sketch.player c ch a b st.i_pacman } ∧
      Grid.WF c m' ∧
      ∀ i j, m'.get? i j =
        if i = b ∧ j = a then some (convert_sketch.cell ch) else st.output_map.get? i j := by
  obtain ⟨m1, hm1, hwf1, hget1⟩ := Grid.set?_spec hm hb ha Cell.Empty
  unfold convert_sketch.visit
  simp only [hm1, hch, Option.some_bind, switch_eq]
  by_cases hE : convert_sketch.cell ch = Cell.Empty
  · rw [if_pos hE]
    refine ⟨m1, rfl, hwf1, ?_⟩
    intro i j
    rw [hget1, hE]
  · rw [if_neg hE]
    obtain ⟨m2, hm2, hwf2, hget2⟩ := Grid.set?_spec hwf1 hb ha (convert_sketch.cell ch)
    simp only [hm2, Option.map_some']
    refine ⟨m2, rfl, hwf2, ?_⟩
    intro i j
    rw [hget2, hget1]
    split_ifs <;> rfl

theorem loop_append (c : Global) (i_map_sketch : List String) (l1 l2 : List (Nat × Nat)) :
    ∀ st, convert_sketch.loop c i_map_sketch st (l1 ++ l2) =
      (convert_sketch.loop c i_map_sketch st l1).bind
        (fun st1 => convert_sketch.loop c i_map_sketch st1 l2) := by
  induction l1 with
  | nil => intro st; rfl
  | cons x xs ih =>
    intro st
    simp only [List.cons_append, convert_sketch.loop]
    cases convert_sketch.visit c i_map_sketch st x with
    | none => rfl
    | some st1 => simp only [Option.some_bind]; exact ih st1

theorem spawn_other (c : Global) (ch : Char) (a b : Nat) (gp : Nat → Position) (k : Nat)
    (h : ch ≠ convert_sketch.spawn_symbol k ∨ 4 ≤ k) :
    convert_sketch.spawn c ch a b gp k = gp k := by
  unfold convert_sketch.spawn
  split_ifs with h0 h1 h2 h3
  · subst h0
    refine Function.update_noteq ?_ _ _
    rintro rfl
    rcases h with h | h
    · exact h rfl
    · omega
  · subst h1
    refine Function.update_noteq ?_ _ _
    rintro rfl
    rcases h with h | h
    · exact h rfl
    · omega
  · subst h2
    refine Function.update_noteq ?_ _ _
    rintro rfl
    rcases h with h | h
    · exact h rfl
    · omega
  · subst h3
    refine Function.update_noteq ?_ _ _
    rintro rfl
    rcases h with h | h
    · exact h rfl
    · omega
  · rfl

theorem spawn_same (c : Global) (a b : Nat) (gp : Nat → Position) (k : Nat) (hk : k < 4) :
    convert_sketch.spawn c (convert_sketch.spawn_symbol k) a b gp k =
      { x := toShort ((c.CELL_SIZE : Int) * b), y := toShort ((c.CELL_SIZE : Int) * a) } := by
  obtain rfl | rfl | rfl | rfl : k = 0 ∨ k = 1 ∨ k = 2 ∨ k = 3 := by omega
  all_goals simp [convert_sketch.spawn, convert_sketch.spawn_symbol]

/-- The loops of `convert_sketch` over a list of in-bounds pairs whose
characters exist: the loop returns, every visited cell holds the kind of its
character, the other cells are untouched, and a spawn point (the player) whose
symbol is not met is untouched. -/
theorem loop_sketch (c : Global) (i_map_sketch : List String) (l : List (Nat × Nat))
    (hl : ∀ ab ∈ l, ab.1 < c.MAP_HEIGHT ∧ ab.2 < c.MAP_WIDTH ∧
      ∃ ch, convert_sketch.char i_map_sketch ab.1 ab.2 = some ch) :
    ∀ st : convert_sketch.State, Grid.WF c st.output_map →
      ∃ st', convert_sketch.loop c i_map_sketch st l = some st' ∧ Grid.WF c st'.output_map ∧
        (∀ i j, st'.output_map.get? i j =
          if (j, i) ∈ l then (convert_sketch.char i_map_sketch j i).map convert_sketch.cell
          else st.output_map.get? i j) ∧
        (∀ k, (∀ ab ∈ l, convert_sketch.char i_map_sketch ab.1 ab.2 ≠
            some (convert_sketch.spawn_symbol k)) ∨ 4 ≤ k →
          st'.i_ghost_positions k = st.i_ghost_positions k) ∧
        ((∀ ab ∈ l, convert_sketch.char i_map_sketch ab.1 ab.2 ≠ some 'P') →
          st'.i_pacman = st.i_pacman) ∧
        st'.i_pacman = { st.i_pacman with position := st'.i_pacman.position } := by
  induction l with
  | nil =>
    intro st hm
    exact ⟨st, rfl, hm, fun i j => by simp, fun k _ => rfl, fun _ => rfl, rfl⟩
  | cons x xs ih =>
    intro st hm
    obtain ⟨hxa, hxb, ch, hch⟩ := hl x (List.mem_cons_self _ _)
    obtain ⟨m1, hv, hwf1, hget1⟩ := visit_sketch c i_map_sketch st hm hxa hxb hch
    obtain ⟨st', hloop, hwf', hget', hgp', hpac', hfr'⟩ :=
      ih (fun ab hab => hl ab (List.mem_cons_of_mem _ hab))
        { output_map := m1,
          i_ghost_positions := convert_sketch.spawn c ch x.1 x.2 st.i_ghost_positions,
          i_pacman := convert_sketch.player c ch x.1 x.2 st.i_pacman } hwf1
    refine ⟨st', ?_, hwf', ?_, ?_, ?_, ?_⟩
    · simp only [convert_sketch.loop]
      rw [show x = (x.1, x.2) from rfl, hv]
      exact hloop
    · intro i j
      rw [hget']
      by_cases hmem : (j, i) ∈ xs
      · rw [if_pos hmem, if_pos (List.mem_cons_of_mem _ hmem)]
      · rw [if_neg hmem]
        simp only
        rw [hget1]
        by_cases hx : i = x.2 ∧ j = x.1
        · obtain ⟨rfl, rfl⟩ := hx
          rw [if_pos ⟨rfl, rfl⟩, if_pos (List.mem_cons_self _ _), hch]
          rfl
        · rw [if_neg hx, if_neg]
          intro hmem'
          rcases List.mem_cons.1 hmem' with h | h
          · exact hx ⟨by rw [← h], by rw [← h]⟩
          · exact hmem h
    · intro k hk
      rw [hgp' k (hk.imp (fun h ab hab => h ab (List.mem_cons_of_mem _ hab)) id)]
      simp only
      apply spawn_other
      rcases hk with hk | hk
      · left
        intro heq
        exact hk x (List.mem_cons_self _ _) (by rw [hch, heq])
      · exact Or.inr hk
    · intro hP
      rw [hpac' (fun ab hab => hP ab (List.mem_cons_of_mem _ hab))]
      simp only
      unfold convert_sketch.player
      rw [if_neg]
      intro heq
      exact hP x (List.mem_cons_self _ _) (by rw [hch, heq])
    · rw [hfr']
      simp only
      unfold convert_sketch.player Pacman.set_position
      split_ifs <;> rfl

theorem mem_coords (c : Global) (a b : Nat) :
    (a, b) ∈ convert_sketch.coords c ↔ a < c.MAP_HEIGHT ∧ b < c.MAP_WIDTH := by
  unfold convert_sketch.coords
  simp only [List.mem_flatMap, List.mem_range, List.mem_map, Prod.mk.injEq]
  constructor
  · rintro ⟨a', ha', b', hb', rfl, rfl⟩
    exact ⟨ha', hb'⟩
  · rintro ⟨ha, hb⟩
    exact ⟨a, ha, b, hb, rfl, rfl⟩

/-- The loops visit the pairs in row-major order. -/
theorem coords_sorted (c : Global) :
    List.Pairwise (fun x y : Nat × Nat => x.1 < y.1 ∨ (x.1 = y.1 ∧ x.2 < y.2))
      (convert_sketch.coords c) := by
  unfold convert_sketch.coords
  rw [List.pairwise_flatMap]
  constructor
  · intro a _
    rw [List.pairwise_map]
    exact (List.pairwise_lt_range c.MAP_WIDTH).imp (fun h => Or.inr ⟨rfl, h⟩)
  · refine (List.pairwise_lt_range c.MAP_HEIGHT).imp ?_
    intro a1 a2 h x hx y hy
    simp only [List.mem_map, List.mem_range] at hx hy
    obtain ⟨_, _, rfl⟩ := hx
    obtain ⟨_, _, rfl⟩ := hy
    exact Or.inl h

/-- The pairs visited split at any in-bounds pair into those visited before
and those visited after it, the latter all later in row-major order. -/
theorem coords_split (c : Global) (a b : Nat) (ha : a < c.MAP_HEIGHT) (hb : b < c.MAP_WIDTH) :
    ∃ l1 l2, convert_sketch.coords c = l1 ++ (a, b) :: l2 ∧
      ∀ y ∈ l2, (a < y.1 ∨ (a = y.1 ∧ b < y.2)) ∧ y.1 < c.MAP_HEIGHT ∧ y.2 < c.MAP_WIDTH := by
  obtain ⟨l1, l2, h⟩ := List.append_of_mem ((mem_coords c a b).2 ⟨ha, hb⟩)
  refine ⟨l1, l2, h, ?_⟩
  intro y hy
  have hs := coords_sorted c
  rw [h, List.pairwise_append] at hs
  have h2 := (List.pairwise_cons.1 hs.2.1).1 y hy
  have hmem : (y.1, y.2) ∈ convert_sketch.coords c := by
    rw [h]
    exact List.mem_append_right _ (List.mem_cons_of_mem _ hy)
  exact ⟨h2, (mem_coords c y.1 y.2).1 hmem⟩

theorem coords_chars (c : Global) (i_map_sketch : List String)
    (hlen : i_map_sketch.length = c.MAP_HEIGHT)
    (hrows : ∀ row ∈ i_map_sketch, c.MAP_WIDTH ≤ row.toList.length + 1) :
    ∀ ab : Nat × Nat, ab.1 < c.MAP_HEIGHT → ab.2 < c.MAP_WIDTH →
      ∃ ch, convert_sketch.char i_map_sketch ab.1 ab.2 = some ch := by
  intro ab ha hb
  exact char_defined i_map_sketch ab.1 ab.2 (by omega)
    (fun row hrow => by have := hrows row hrow; omega)

/-- `convert_sketch` on a sketch of `MAP_HEIGHT` rows, each of at least
`MAP_WIDTH - 1` characters (loop bounds below 256): it returns; cell `(b, a)`
holds the kind of the character at row `a`, column `b`; a spawn point (the
player) whose symbol does not occur is as before; a spawn point (the player's
position) whose symbol occurs at `(a, b)` and nowhere later in row-major order
is the `short` pair of `CELL_SIZE * b`, `CELL_SIZE * a`; the player's other
fields are as before. -/
theorem convert_sketch_result (c : Global) (i_map_sketch : List String)
    (gp : Nat → Position) (pac : Pacman) (hH : c.MAP_HEIGHT < 256) (hW : c.MAP_WIDTH < 256)
    (hlen : i_map_sketch.length = c.MAP_HEIGHT)
    (hrows : ∀ row ∈ i_map_sketch, c.MAP_WIDTH ≤ row.toList.length + 1) :
    ∃ st, convert_sketch c i_map_sketch gp pac = some st ∧ Grid.WF c st.output_map ∧
      (∀ a b, a < c.MAP_HEIGHT → b < c.MAP_WIDTH →
        ∃ ch, convert_sketch.char i_map_sketch a b = some ch ∧
          st.output_map.get? b a = some (convert_sketch.cell ch)) ∧
      (∀ k, (∀ a b, a < c.MAP_HEIGHT → b < c.MAP_WIDTH →
          convert_sketch.char i_map_sketch a b ≠ some (convert_sketch.spawn_symbol k)) ∨
          4 ≤ k → st.i_ghost_positions k = gp k) ∧
      ((∀ a b, a < c.MAP_HEIGHT → b < c.MAP_WIDTH →
          convert_sketch.char i_map_sketch a b ≠ some 'P') → st.i_pacman = pac) ∧
      (∀ k a b, k < 4 → a < c.MAP_HEIGHT → b < c.MAP_WIDTH →
        convert_sketch.char i_map_sketch a b = some (convert_sketch.spawn_symbol k) →
        (∀ a' b', a' < c.MAP_HEIGHT → b' < c.MAP_WIDTH → (a < a' ∨ (a = a' ∧ b < b')) →
          convert_sketch.char i_map_sketch a' b' ≠ some (convert_sketch.spawn_symbol k)) →
        st.i_ghost_positions k =
          { x := toShort ((c.CELL_SIZE : Int) * b), y := toShort ((c.CELL_SIZE : Int) * a) }) ∧
      (∀ a b, a < c.MAP_HEIGHT → b < c.MAP_WIDTH →
        convert_sketch.char i_map_sketch a b = some 'P' →
        (∀ a' b', a' < c.MAP_HEIGHT → b' < c.MAP_WIDTH → (a < a' ∨ (a = a' ∧ b < b')) →
          convert_sketch.char i_map_sketch a' b' ≠ some 'P') →
        st.i_pacman.position =
          { x := toShort ((c.CELL_SIZE : Int) * b), y := toShort ((c.CELL_SIZE : Int) * a) }) ∧
      st.i_pacman = { pac with position := st.i_pacman.position } := by
  have hchars := coords_chars c i_map_sketch hlen hrows
  have hl : ∀ l : List (Nat × Nat), (∀ ab ∈ l, ab.1 < c.MAP_HEIGHT ∧ ab.2 < c.MAP_WIDTH) →
      ∀ ab ∈ l, ab.1 < c.MAP_HEIGHT ∧ ab.2 < c.MAP_WIDTH ∧
        ∃ ch, convert_sketch.char i_map_sketch ab.1 ab.2 = some ch :=
    fun l h ab hab => ⟨(h ab hab).1, (h ab hab).2, hchars ab (h ab hab).1 (h ab hab).2⟩
  have hall : ∀ ab ∈ convert_sketch.coords c, ab.1 < c.MAP_HEIGHT ∧ ab.2 < c.MAP_WIDTH :=
    fun ab hab => (mem_coords c ab.1 ab.2).1 hab
  have hwf0 : Grid.WF c (Grid.fill c.MAP_WIDTH c.MAP_HEIGHT Cell.Empty) := Grid.fill_WF c _
  obtain ⟨st, hst, hwf, hget, hgp, hpac, hfr⟩ :=
    loop_sketch c i_map_sketch (convert_sketch.coords c) (hl _ hall)
      { output_map := Grid.fill c.MAP_WIDTH c.MAP_HEIGHT Cell.Empty,
        i_ghost_positions := gp, i_pacman := pac } hwf0
  have hcs : convert_sketch c i_map_sketch gp pac = some st := by
    unfold convert_sketch
    rw [if_neg (by omega)]
    exact hst
  refine ⟨st, hcs, hwf, ?_, ?_, ?_, ?_, ?_, hfr⟩
  · intro a b ha hb
    obtain ⟨ch, hch⟩ := hchars (a, b) ha hb
    refine ⟨ch, hch, ?_⟩
    rw [hget, if_pos ((mem_coords c a b).2 ⟨ha, hb⟩), hch]
    rfl
  · intro k hk
    apply hgp k
    rcases hk with hk | hk
    · exact Or.inl (fun ab hab => hk ab.1 ab.2 (hall ab hab).1 (hall ab hab).2)
    · exact Or.inr hk
  · intro hP
    exact hpac (fun ab hab => hP ab.1 ab.2 (hall ab hab).1 (hall ab hab).2)
  · intro k a b hk ha hb hch hlater
    obtain ⟨l1, l2, hsplit, hl2⟩ := coords_split c a b ha hb
    have hall1 : ∀ ab ∈ l1, ab.1 < c.MAP_HEIGHT ∧ ab.2 < c.MAP_WIDTH := fun ab hab =>
      hall ab (by rw [hsplit]; exact List.mem_append_left _ hab)
    obtain ⟨st1, hst1, hwf1, _⟩ := loop_sketch c i_map_sketch l1 (hl _ hall1)
      { output_map := Grid.fill c.MAP_WIDTH c.MAP_HEIGHT Cell.Empty,
        i_ghost_positions := gp, i_pacman := pac } hwf0
    obtain ⟨m2, hv, hwf2, _⟩ := visit_sketch c i_map_sketch st1 hwf1 ha hb hch
    obtain ⟨st3, hst3, _, _, hgp3, _⟩ := loop_sketch c i_map_sketch l2
      (hl _ (fun ab hab => (hl2 ab hab).2))
      { output_map := m2,
        i_ghost_positions := convert_sketch.spawn c (convert_sketch.spawn_symbol k) a b
          st1.i_ghost_positions,
        i_pacman := convert_sketch.player c (convert_sketch.spawn_symbol k) a b
          st1.i_pacman } hwf2
    have hwhole : convert_sketch.loop c i_map_sketch
        { output_map := Grid.fill c.MAP_WIDTH c.MAP_HEIGHT Cell.Empty,
          i_ghost_positions := gp, i_pacman := pac } (convert_sketch.coords c) = some st3 := by
      rw [hsplit, loop_append, hst1]
      simp only [Option.some_bind, convert_sketch.loop, hv]
      exact hst3
    rw [hst] at hwhole
    simp only [Option.some.injEq] at hwhole
    rw [hwhole, hgp3 k (Or.inl (fun ab hab =>
      hlater ab.1 ab.2 (hl2 ab hab).2.1 (hl2 ab hab).2.2 (hl2 ab hab).1))]
    exact spawn_same c a b _ k hk
  · intro a b ha hb hch hlater
    obtain ⟨l1, l2, hsplit, hl2⟩ := coords_split c a b ha hb
    have hall1 : ∀ ab ∈ l1, ab.1 < c.MAP_HEIGHT ∧ ab.2 < c.MAP_WIDTH := fun ab hab =>
      hall ab (by rw [hsplit]; exact List.mem_append_left _ hab)
    obtain ⟨st1, hst1, hwf1, _⟩ := loop_sketch c i_map_sketch l1 (hl _ hall1)
      { output_map := Grid.fill c.MAP_WIDTH c.MAP_HEIGHT Cell.Empty,
        i_ghost_positions := gp, i_pacman := pac } hwf0
    obtain ⟨m2, hv, hwf2, _⟩ := visit_sketch c i_map_sketch st1 hwf1 ha hb hch
    obtain ⟨st3, hst3, _, _, _, hpac3, _⟩ := loop_sketch c i_map_sketch l2
      (hl _ (fun ab hab => (hl2 ab hab).2))
      { output_map := m2,
        i_ghost_positions := convert_sketch.spawn c 'P' a b st1.i_ghost_positions,
        i_pacman := convert_sketch.player c 'P' a b st1.i_pacman } hwf2
    have hwhole : convert_sketch.loop c i_map_sketch
        { output_map := Grid.fill c.MAP_WIDTH c.MAP_HEIGHT Cell.Empty,
          i_ghost_positions := gp, i_pacman := pac } (convert_sketch.coords c) = some st3 := by
      rw [hsplit, loop_append, hst1]
      simp only [Option.some_bind, convert_sketch.loop, hv]
      exact hst3
    rw [hst] at hwhole
    simp only [Option.some.injEq] at hwhole
    rw [hwhole, hpac3 (fun ab hab =>
      hlater ab.1 ab.2 (hl2 ab hab).2.1 (hl2 ab hab).2.2 (hl2 ab hab).1)]
    simp only [convert_sketch.player, if_true, Pacman.set_position]

theorem cell_table :
    convert_sketch.cell '#' = Cell.Wall ∧ convert_sketch.cell '=' = Cell.Door ∧
    convert_sketch.cell '.' = Cell.Pellet ∧ convert_sketch.cell 'o' = Cell.Energizer ∧
    ∀ ch : Char, ch ≠ '#' → ch ≠ '=' → ch ≠ '.' → ch ≠ 'o' →
      convert_sketch.cell ch = Cell.Empty := by
  refine ⟨by decide, by decide, by decide, by decide, ?_⟩
  intro ch h1 h2 h3 h4
  simp [convert_sketch.cell, h1, h2, h3, h4]

theorem char_of_entry (i_map_sketch : List String) (a b : Nat) (ch : Char)
    (h : (i_map_sketch[a]?).bind (fun row => row.toList[b]?) = some ch) :
    convert_sketch.char i_map_sketch a b = some ch := by
  unfold convert_sketch.char
  cases hrow : i_map_sketch[a]? with
  | none => rw [hrow] at h; cases h
  | some row =>
    rw [hrow] at h
    simp only [Option.some_bind] at h
    have hb : b < row.toList.length := by
      by_contra hnb
      rw [List.getElem?_eq_none (by omega)] at h
      cases h
    simp only
    rw [if_pos hb, h]

theorem entry_of_char (i_map_sketch : List String) (a b : Nat) (ch : Char)
    (h : convert_sketch.char i_map_sketch a b = some ch) (hch : ch ≠ Char.ofNat 0) :
    (i_map_sketch[a]?).bind (fun row => row.toList[b]?) = some ch := by
  unfold convert_sketch.char at h
  cases hrow : i_map_sketch[a]? with
  | none => rw [hrow] at h; cases h
  | some row =>
    rw [hrow] at h
    simp only at h
    simp only [Option.some_bind]
    split_ifs at h with h1 h2
    · exact h
    · simp only [Option.some.injEq] at h
      exact absurd h.symm hch

/-- C24: for a sketch of `MAP_HEIGHT` rows of at least `MAP_WIDTH - 1`
characters (dimensions below 256, maze coordinates within `short`),
`convert_sketch` returns a grid in which, for every character `ch` of the
sketch at row `a`, column `b` (entry `b` of entry `a` of the sketch), cell
`(b, a)` is Wall for `#`, Door for `=`, Pellet for `.`, Energizer for `o` and
Empty for every other character. The symbol of pursuer `k` (`0` to `3`) at row
`a`, column `b` sets that pursuer's spawn point to `(CELL_SIZE * b,
CELL_SIZE * a)`, and `P` sets the player's position to it (the other fields of
the player are kept), the cell being Empty: this is the value after the call
when the symbol does not occur again later in row-major order. -/
theorem C24_convert_sketch_cells_and_spawns (c : Global) (i_map_sketch : List String)
    (gp : Nat → Position) (pac : Pacman) (hH : c.MAP_HEIGHT < 256) (hW : c.MAP_WIDTH < 256)
    (hlen : i_map_sketch.length = c.MAP_HEIGHT)
    (hrows : ∀ row ∈ i_map_sketch, c.MAP_WIDTH ≤ row.toList.length + 1)
    (hCW : c.CELL_SIZE * c.MAP_WIDTH ≤ 32767) (hCH : c.CELL_SIZE * c.MAP_HEIGHT ≤ 32767) :
    ∃ st, convert_sketch c i_map_sketch gp pac = some st ∧ Grid.WF c st.output_map ∧
      (∀ (a b : Nat) (ch : Char), b < c.MAP_WIDTH →
        (i_map_sketch[a]?).bind (fun row => row.toList[b]?) = some ch →
        (ch = '#' → st.output_map.get? b a = some Cell.Wall) ∧
        (ch = '=' → st.output_map.get? b a = some Cell.Door) ∧
        (ch = '.' → st.output_map.get? b a = some Cell.Pellet) ∧
        (ch = 'o' → st.output_map.get? b a = some Cell.Energizer) ∧
        (ch ≠ '#' → ch ≠ '=' → ch ≠ '.' → ch ≠ 'o' →
          st.output_map.get? b a = some Cell.Empty)) ∧
      (∀ (k : Nat) (sym : Char) (a b : Nat),
        (k, sym) ∈ [(0, '0'), (1, '1'), (2, '2'), (3, '3')] → b < c.MAP_WIDTH →
        (i_map_sketch[a]?).bind (fun row => row.toList[b]?) = some sym →
        (∀ a', a' < c.MAP_HEIGHT → ∀ b', b' < c.MAP_WIDTH → (a < a' ∨ (a = a' ∧ b < b')) →
          (i_map_sketch[a']?).bind (fun row => row.toList[b']?) ≠ some sym) →
        st.i_ghost_positions k =
          { x := (c.CELL_SIZE : Int) * b, y := (c.CELL_SIZE : Int) * a }) ∧
      (∀ a b : Nat, b < c.MAP_WIDTH →
        (i_map_sketch[a]?).bind (fun row => row.toList[b]?) = some 'P' →
        (∀ a', a' < c.MAP_HEIGHT → ∀ b', b' < c.MAP_WIDTH → (a < a' ∨ (a = a' ∧ b < b')) →
          (i_map_sketch[a']?).bind (fun row => row.toList[b']?) ≠ some 'P') →
        st.i_pacman = { pac with position :=
          { x := (c.CELL_SIZE : Int) * b, y := (c.CELL_SIZE : Int) * a } }) := by
  obtain ⟨st, hst, hwf, hcells, _, _, hsp, hpl, hfr⟩ :=
    convert_sketch_result c i_map_sketch gp pac hH hW hlen hrows
  have hshort : ∀ a b : Nat, a < c.MAP_HEIGHT → b < c.MAP_WIDTH →
      toShort ((c.CELL_SIZE : Int) * b) = (c.CELL_SIZE : Int) * b ∧
      toShort ((c.CELL_SIZE : Int) * a) = (c.CELL_SIZE : Int) * a := by
    intro a b ha hb
    have hWi : ((c.CELL_SIZE : Int) * c.MAP_WIDTH) ≤ 32767 := by exact_mod_cast hCW
    have hHi : ((c.CELL_SIZE : Int) * c.MAP_HEIGHT) ≤ 32767 := by exact_mod_cast hCH
    have hb0 : (0 : Int) ≤ (c.CELL_SIZE : Int) * b := by positivity
    have ha0 : (0 : Int) ≤ (c.CELL_SIZE : Int) * a := by positivity
    have hb1 : (c.CELL_SIZE : Int) * b ≤ (c.CELL_SIZE : Int) * c.MAP_WIDTH := by
      have : (b : Int) ≤ c.MAP_WIDTH := by omega
      nlinarith
    have ha1 : (c.CELL_SIZE : Int) * a ≤ (c.CELL_SIZE : Int) * c.MAP_HEIGHT := by
      have : (a : Int) ≤ c.MAP_HEIGHT := by omega
      nlinarith
    exact ⟨toShort_of_isShort ⟨by omega, by omega⟩, toShort_of_isShort ⟨by omega, by omega⟩⟩
  have hrow : ∀ (a b : Nat) (ch : Char), (i_map_sketch[a]?).bind (fun row => row.toList[b]?) = some ch →
      a < c.MAP_HEIGHT := by
    intro a b ch h
    by_contra hna
    rw [List.getElem?_eq_none (by omega)] at h
    cases h
  refine ⟨st, hst, hwf, ?_, ?_, ?_⟩
  · intro a b ch hb hch
    obtain ⟨ch', hch', hget⟩ := hcells a b (hrow a b ch hch) hb
    rw [char_of_entry i_map_sketch a b ch hch] at hch'
    simp only [Option.some.injEq] at hch'
    subst hch'
    rw [hget]
    refine ⟨fun h => ?_, fun h => ?_, fun h => ?_, fun h => ?_, fun h1 h2 h3 h4 => ?_⟩
    · rw [h, cell_table.1]
    · rw [h, cell_table.2.1]
    · rw [h, cell_table.2.2.1]
    · rw [h, cell_table.2.2.2.1]
    · rw [cell_table.2.2.2.2 ch h1 h2 h3 h4]
  · intro k sym a b hks hb hch hlater
    have ha := hrow a b sym hch
    have hk : k < 4 ∧ sym = convert_sketch.spawn_symbol k ∧ sym ≠ Char.ofNat 0 := by
      simp only [List.mem_cons, Prod.mk.injEq, List.mem_nil_iff, or_false] at hks
      rcases hks with ⟨rfl, rfl⟩ | ⟨rfl, rfl⟩ | ⟨rfl, rfl⟩ | ⟨rfl, rfl⟩ <;>
        exact ⟨by decide, rfl, by decide⟩
    obtain ⟨hk4, hsym, hnul⟩ := hk
    rw [hsp k a b hk4 ha hb (by rw [← hsym]; exact char_of_entry i_map_sketch a b sym hch)
      (fun a' b' ha' hb' hlt hc => hlater a' ha' b' hb' hlt
        (entry_of_char i_map_sketch a' b' sym (by rw [hsym]; exact hc) hnul)),
      (hshort a b ha hb).1, (hshort a b ha hb).2]
  · intro a b hb hch hlater
    have ha := hrow a b 'P' hch
    rw [hfr, hpl a b ha hb (char_of_entry i_map_sketch a b 'P' hch)
      (fun a' b' ha' hb' hlt hc => hlater a' ha' b' hb' hlt
        (entry_of_char i_map_sketch a' b' 'P' hc (by decide))),
      (hshort a b ha hb).1, (hshort a b ha hb).2]

/-- C24 instantiated: the sketch of `main.cpp` with the sample constants
(`CELL_SIZE = 16`). Cell (1, 0) is a Wall, (2, 1) a Pellet, (2, 2) an Energizer,
(10, 8) the Door, (0, 0) and the cell (10, 7) of the symbol `0` are Empty; the
spawn points are (160, 112), (144, 144), (160, 144), (176, 144) and the player
starts at (160, 240). -/
theorem C24_convert_sketch_cells_and_spawns_witness :
    ∃ st, convert_sketch Global.sample main.map_sketch main.ghost_positions Pacman.initial
        = some st ∧
      st.output_map.get? 1 0 = some Cell.Wall ∧ st.output_map.get? 2 1 = some Cell.Pellet ∧
      st.output_map.get? 2 2 = some Cell.Energizer ∧
      st.output_map.get? 10 8 = some Cell.Door ∧ st.output_map.get? 0 0 = some Cell.Empty ∧
      st.output_map.get? 10 7 = some Cell.Empty ∧
      st.i_ghost_positions 0 = { x := 160, y := 112 } ∧
      st.i_ghost_positions 1 = { x := 144, y := 144 } ∧
      st.i_ghost_positions 2 = { x := 160, y := 144 } ∧
      st.i_ghost_positions 3 = { x := 176, y := 144 } ∧
      st.i_pacman = { Pacman.initial with position := { x := 160, y := 240 } } := by
  obtain ⟨st, hst, _, hcell, hsp, hpl⟩ :=
    C24_convert_sketch_cells_and_spawns Global.sample main.map_sketch main.ghost_positions
      Pacman.initial (by decide) (by decide) (by decide) (by decide) (by decide) (by decide)
  refine ⟨st, hst, (hcell 0 1 '#' (by decide) (by decide)).1 rfl,
    (hcell 1 2 '.' (by decide) (by decide)).2.2.1 rfl,
    (hcell 2 2 'o' (by decide) (by decide)).2.2.2.1 rfl,
    (hcell 8 10 '=' (by decide) (by decide)).2.1 rfl,
    (hcell 0 0 ' ' (by decide) (by decide)).2.2.2.2 (by decide) (by decide) (by decide)
      (by decide),
    (hcell 7 10 '0' (by decide) (by decide)).2.2.2.2 (by decide) (by decide) (by decide)
      (by decide),
    hsp 0 '0' 7 10 (by decide) (by decide) (by decide) (by decide),
    hsp 1 '1' 9 9 (by decide) (by decide) (by decide) (by decide),
    hsp 2 '2' 9 10 (by decide) (by decide) (by decide) (by decide),
    hsp 3 '3' 9 11 (by decide) (by decide) (by decide) (by decide),
    hpl 15 10 (by decide) (by decide) (by decide)⟩

/-- C25 (amended): `convert_sketch` validates nothing. For every sketch of
`MAP_HEIGHT` rows of at least `MAP_WIDTH - 1` characters (dimensions below 256)
it returns a well-formed grid; when the player's symbol does not occur the
player is returned as it was passed in; a pursuer whose symbol does not occur
keeps the spawn point passed in; and a character other than `#`, `=`, `.`, `o`
(a symbol outside the defined set included) yields an Empty cell. -/
theorem C25_convert_sketch_accepts_every_sketch (c : Global) (i_map_sketch : List String)
    (gp : Nat → Position) (pac : Pacman) (hH : c.MAP_HEIGHT < 256) (hW : c.MAP_WIDTH < 256)
    (hlen : i_map_sketch.length = c.MAP_HEIGHT)
    (hrows : ∀ row ∈ i_map_sketch, c.MAP_WIDTH ≤ row.toList.length + 1) :
    ∃ st, convert_sketch c i_map_sketch gp pac = some st ∧ Grid.WF c st.output_map ∧
      ((∀ a b, a < c.MAP_HEIGHT → b < c.MAP_WIDTH →
          convert_sketch.char i_map_sketch a b ≠ some 'P') → st.i_pacman = pac) ∧
      (∀ k, k < 4 → (∀ a b, a < c.MAP_HEIGHT → b < c.MAP_WIDTH →
          convert_sketch.char i_map_sketch a b ≠ some (convert_sketch.spawn_symbol k)) →
        st.i_ghost_positions k = gp k) ∧
      (∀ a b ch, a < c.MAP_HEIGHT → b < c.MAP_WIDTH →
        convert_sketch.char i_map_sketch a b = some ch →
        ch ≠ '#' → ch ≠ '=' → ch ≠ '.' → ch ≠ 'o' →
        st.output_map.get? b a = some Cell.Empty) := by
  obtain ⟨st, hst, hwf, hcells, hgp, hpac, _⟩ :=
    convert_sketch_result c i_map_sketch gp pac hH hW hlen hrows
  refine ⟨st, hst, hwf, hpac, fun k _ hk => hgp k (Or.inl hk), ?_⟩
  intro a b ch ha hb hch h1 h2 h3 h4
  obtain ⟨ch', hch', hget⟩ := hcells a b ha hb
  rw [hch] at hch'
  simp only [Option.some.injEq] at hch'
  subst hch'
  rw [hget, cell_table.2.2.2.2 ch h1 h2 h3 h4]

/-- C25 (amended) instantiated: the 3 x 3 sketch `convert_sketch.malformed`. -/
theorem C25_convert_sketch_accepts_every_sketch_witness :
    ∃ st, convert_sketch Global.small convert_sketch.malformed main.ghost_positions
        Pacman.initial = some st ∧ Grid.WF Global.small st.output_map ∧
      ((∀ a b, a < Global.small.MAP_HEIGHT → b < Global.small.MAP_WIDTH →
          convert_sketch.char convert_sketch.malformed a b ≠ some 'P') →
        st.i_pacman = Pacman.initial) ∧
      (∀ k, k < 4 → (∀ a b, a < Global.small.MAP_HEIGHT → b < Global.small.MAP_WIDTH →
          convert_sketch.char convert_sketch.malformed a b ≠
            some (convert_sketch.spawn_symbol k)) →
        st.i_ghost_positions k = main.ghost_positions k) ∧
      (∀ a b ch, a < Global.small.MAP_HEIGHT → b < Global.small.MAP_WIDTH →
        convert_sketch.char convert_sketch.malformed a b = some ch →
        ch ≠ '#' → ch ≠ '=' → ch ≠ '.' → ch ≠ 'o' →
        st.output_map.get? b a = some Cell.Empty) :=
  C25_convert_sketch_accepts_every_sketch Global.small convert_sketch.malformed
    main.ghost_positions Pacman.initial (by decide) (by decide) (by decide) (by decide)

/-- C25 as stated fails: the sketch `convert_sketch.malformed` has no player
symbol, no pursuer symbol and the undefined symbol `?` at row 0, column 1, and
`convert_sketch` returns a grid for it (with cell (1, 0) Empty), leaving the
player and the spawn points as they were passed in. -/
theorem C25_malformed_sketch_is_loaded :
    ((∀ a, a < 3 → ∀ b, b < 3 → convert_sketch.char convert_sketch.malformed a b ≠ some 'P') ∧
      (∀ k, k < 4 → ∀ a, a < 3 → ∀ b, b < 3 → convert_sketch.char convert_sketch.malformed a b ≠
        some (convert_sketch.spawn_symbol k)) ∧
      convert_sketch.char convert_sketch.malformed 0 1 = some '?') ∧
    ∃ st, convert_sketch Global.small convert_sketch.malformed main.ghost_positions
        Pacman.initial = some st ∧ Grid.WF Global.small st.output_map ∧
      st.output_map.get? 1 0 = some Cell.Empty ∧ st.i_pacman = Pacman.initial ∧
      ∀ k, k < 4 → st.i_ghost_positions k = main.ghost_positions k := by
  have hP : ∀ a, a < 3 → ∀ b, b < 3 →
      convert_sketch.char convert_sketch.malformed a b ≠ some 'P' := by decide
  have hK : ∀ k, k < 4 → ∀ a, a < 3 → ∀ b, b < 3 →
      convert_sketch.char convert_sketch.malformed a b ≠
        some (convert_sketch.spawn_symbol k) := by decide
  have hQ : convert_sketch.char convert_sketch.malformed 0 1 = some '?' := by decide
  refine ⟨⟨hP, hK, hQ⟩, ?_⟩
  obtain ⟨st, hst, hwf, hcells, hgp, hpac, _⟩ :=
    convert_sketch_result Global.small convert_sketch.malformed main.ghost_positions
      Pacman.initial (by decide) (by decide) (by decide) (by decide)
  refine ⟨st, hst, hwf, ?_, hpac (fun a b ha hb => hP a ha b hb),
    fun k hk => hgp k (Or.inl (fun a b ha hb => hK k hk a ha b hb))⟩
  obtain ⟨ch, hch, hget⟩ := hcells 0 1 (by decide) (by decide)
  rw [hQ] at hch
  simp only [Option.some.injEq] at hch
  subst hch
  rw [hget]
  rfl

/-! ## `Ghost::update`: the four blocking flags -/

/-- `Ghost::update` with its probes spelled out: the flags of Right, Up and
Left are the five-argument probes at the position advanced by `speed`; the flag
of Down is the value of the four-argument call. -/
theorem Ghost.update_probes (c : Global) (hC : 0 < c.CELL_SIZE) (e : Extern) (L : Nat)
    (g : Ghost) (m : Grid) (hm : Grid.WF c m) (hx : isShort g.position.x)
    (hy : isShort g.position.y) (q0 : Position) (p : Pacman) (rnd : List Nat) {speed : Nat}
    (hs : Ghost.update.speed c (Ghost.update.mode_switch c L p.energizer_timer g)
      = some speed) :
    ∃ w0 w1 w2 : Bool,
      map_collision c false
        ((Ghost.update.mode_switch c L p.energizer_timer g).update_target c e
          p.direction q0 p.position).use_door
        (toShort ((speed : Int) + g.position.x)) g.position.y m = some (w0, m) ∧
      map_collision c false
        ((Ghost.update.mode_switch c L p.energizer_timer g).update_target c e
          p.direction q0 p.position).use_door
        g.position.x (toShort (g.position.y - (speed : Int))) m = some (w1, m) ∧
      map_collision c false
        ((Ghost.update.mode_switch c L p.energizer_timer g).update_target c e
          p.direction q0 p.position).use_door
        (toShort (g.position.x - (speed : Int))) g.position.y m = some (w2, m) ∧
      Ghost.update c e L g m q0 p rnd =
        (Ghost.update.act c e speed
          ((Ghost.update.mode_switch c L p.energizer_timer g).update_target c e
            p.direction q0 p.position)
          (Ghost.update.walls w0 w1 w2
            (e.probe4 false
              ((Ghost.update.mode_switch c L p.energizer_timer g).update_target c e
                p.direction q0 p.position).use_door
              ((speed : Int) + g.position.y) m))
          p rnd).map (fun r => (r.1, r.2.1, m, r.2.2)) := by
  have hpos : ((Ghost.update.mode_switch c L p.energizer_timer g).update_target c e
      p.direction q0 p.position).position = g.position := by
    rw [(update_target_keeps c e _ _ _ _).1, (mode_switch_keeps c L _ g).1]
  generalize hg2 : (Ghost.update.mode_switch c L p.energizer_timer g).update_target c e
      p.direction q0 p.position = g2 at hpos
  obtain ⟨w0, h0, _⟩ := map_collision_noncollect c hC hm
    (toShort_isShort ((speed : Int) + g.position.x)) hy g2.use_door
  obtain ⟨w1, h1, _⟩ := map_collision_noncollect c hC hm hx
    (toShort_isShort (g.position.y - (speed : Int))) g2.use_door
  obtain ⟨w2, h2, _⟩ := map_collision_noncollect c hC hm
    (toShort_isShort (g.position.x - (speed : Int))) hy g2.use_door
  refine ⟨w0, w1, w2, h0, h1, h2, ?_⟩
  unfold Ghost.update
  simp only [hs, hg2, hpos, h0, h1, h2, Option.bind_eq_bind, Option.some_bind]
  cases Ghost.update.act c e speed g2
    (Ghost.update.walls w0 w1 w2 (e.probe4 false g2.use_door ((speed : Int) + g.position.y) m))
    p rnd <;> rfl

/-- The speed of `Ghost::update`: `GHOST_ESCAPE_SPEED` for a pursuer returning
home whose coordinates are both multiples of it, `GHOST_SPEED` otherwise (both
as `unsigned char`). -/
theorem speed_value (c : Global) (g : Ghost) {s : Nat} (h : Ghost.update.speed c g = some s) :
    (g.frightened_mode = 2 ∧ (c.GHOST_ESCAPE_SPEED : Int) ∣ g.position.x ∧
      (c.GHOST_ESCAPE_SPEED : Int) ∣ g.position.y → s = c.GHOST_ESCAPE_SPEED % 256) ∧
    (¬ (g.frightened_mode = 2 ∧ (c.GHOST_ESCAPE_SPEED : Int) ∣ g.position.x ∧
      (c.GHOST_ESCAPE_SPEED : Int) ∣ g.position.y) → s = c.GHOST_SPEED % 256) := by
  unfold Ghost.update.speed at h
  simp only [← Int.dvd_iff_emod_eq_zero] at h
  split_ifs at h with h2 h0 hd
  · refine ⟨fun _ => (Option.some.inj h).symm, fun hn => absurd ⟨h2, hd⟩ hn⟩
  · refine ⟨fun hp => absurd ⟨hp.2.1, hp.2.2⟩ hd, fun _ => (Option.some.inj h).symm⟩
  · exact ⟨fun hp => absurd hp.1 h2, fun _ => (Option.some.inj h).symm⟩

/-- C28: what `Ghost::update` computes as blocking flags, and why the flag of
Down is not the probe the claim names. (1) On a well-formed grid, for a pursuer
at a `short` position whose speed `s` is defined: `s` is `GHOST_ESCAPE_SPEED`
when the pursuer is ReturningHome and both coordinates are multiples of it and
`GHOST_SPEED` otherwise (as `unsigned char`); the flags of Right, Up and Left
are the non-collecting probes with the door-passage flag at `(x + s, y)`,
`(x, y - s)`, `(x - s, y)`; the flag of Down is the value of the four-argument
call, which receives `s + y` and not `x`. (2) On the 3 x 3 demo grid the
pursuers `Ghost.aboveWall` and `Ghost.aboveGap` have the same `y` and door flag,
the probe at `(x, y + 1)` is blocked for the first and free for the second, so
no value of the four-argument call is the Down probe of both. -/
theorem C28_down_flag_ignores_x :
    (∀ (c : Global) (e : Extern) (L : Nat) (g : Ghost) (m : Grid) (q0 : Position)
      (p : Pacman) (rnd : List Nat) (s : Nat),
      0 < c.CELL_SIZE → Grid.WF c m → isShort g.position.x → isShort g.position.y →
      Ghost.update.speed c (Ghost.update.mode_switch c L p.energizer_timer g) = some s →
      ((g.frightened_mode = 2 ∧ (c.GHOST_ESCAPE_SPEED : Int) ∣ g.position.x ∧
          (c.GHOST_ESCAPE_SPEED : Int) ∣ g.position.y → s = c.GHOST_ESCAPE_SPEED % 256) ∧
        (¬ (g.frightened_mode = 2 ∧ (c.GHOST_ESCAPE_SPEED : Int) ∣ g.position.x ∧
          (c.GHOST_ESCAPE_SPEED : Int) ∣ g.position.y) → s = c.GHOST_SPEED % 256)) ∧
      ∃ w0 w1 w2 : Bool,
        map_collision c false
          ((Ghost.update.mode_switch c L p.energizer_timer g).update_target c e
            p.direction q0 p.position).use_door
          (toShort ((s : Int) + g.position.x)) g.position.y m = some (w0, m) ∧
        map_collision c false
          ((Ghost.update.mode_switch c L p.energizer_timer g).update_target c e
            p.direction q0 p.position).use_door
          g.position.x (toShort (g.position.y - (s : Int))) m = some (w1, m) ∧
        map_collision c false
          ((Ghost.update.mode_switch c L p.energizer_timer g).update_target c e
            p.direction q0 p.position).use_door
          (toShort (g.position.x - (s : Int))) g.position.y m = some (w2, m) ∧
        Ghost.update c e L g m q0 p rnd =
          (Ghost.update.act c e s
            ((Ghost.update.mode_switch c L p.energizer_timer g).update_target c e
              p.direction q0 p.position)
            (Ghost.update.walls w0 w1 w2
              (e.probe4 false
                ((Ghost.update.mode_switch c L p.energizer_timer g).update_target c e
                  p.direction q0 p.position).use_door
                ((s : Int) + g.position.y) m))
            p rnd).map (fun r => (r.1, r.2.1, m, r.2.2))) ∧
    (Ghost.aboveWall.position.y = Ghost.aboveGap.position.y ∧
      Ghost.aboveWall.use_door = Ghost.aboveGap.use_door ∧
      map_collision Global.small false false Ghost.aboveWall.position.x
        (Ghost.aboveWall.position.y + 1) Grid.demo = some (true, Grid.demo) ∧
      map_collision Global.small false false Ghost.aboveGap.position.x
        (Ghost.aboveGap.position.y + 1) Grid.demo = some (false, Grid.demo)) ∧
    ¬ ∃ e : Extern, ∀ g : Ghost, g = Ghost.aboveWall ∨ g = Ghost.aboveGap →
      map_collision Global.small false g.use_door g.position.x (g.position.y + 1) Grid.demo =
        some (e.probe4 false g.use_door (1 + g.position.y) Grid.demo, Grid.demo) := by
  have hA : map_collision Global.small false false Ghost.aboveWall.position.x
      (Ghost.aboveWall.position.y + 1) Grid.demo = some (true, Grid.demo) := by decide
  have hB : map_collision Global.small false false Ghost.aboveGap.position.x
      (Ghost.aboveGap.position.y + 1) Grid.demo = some (false, Grid.demo) := by decide
  refine ⟨?_, ⟨rfl, rfl, hA, hB⟩, ?_⟩
  · intro c e L g m q0 p rnd s hC hm hx hy hs
    have hg1 := mode_switch_keeps c L p.energizer_timer g
    have hsv := speed_value c _ hs
    rw [hg1.1] at hsv
    have hmode : (Ghost.update.mode_switch c L p.energizer_timer g).frightened_mode = 2 ↔
        g.frightened_mode = 2 := by
      constructor
      · intro h2
        by_contra hne
        unfold Ghost.update.mode_switch at h2
        split_ifs at h2
        all_goals first | exact hne h2 | (simp only at h2; omega)
      · intro h2
        rw [mode_switch_returning c L _ g h2]
        exact h2
    rw [hmode] at hsv
    exact ⟨hsv, Ghost.update_probes c hC e L g m hm hx hy q0 p rnd hs⟩
  · rintro ⟨e, he⟩
    have h1 := he Ghost.aboveWall (Or.inl rfl)
    have h2 := he Ghost.aboveGap (Or.inr rfl)
    have e1 : Ghost.aboveWall.use_door = false := rfl
    have e2 : Ghost.aboveGap.use_door = false := rfl
    have e3 : Ghost.aboveWall.position.y = 16 := rfl
    have e4 : Ghost.aboveGap.position.y = 16 := rfl
    rw [e1] at h1
    rw [e2] at h2
    rw [hA, e3] at h1
    rw [hB, e4] at h2
    simp only [Option.some.injEq, Prod.mk.injEq, and_true] at h1 h2
    rw [← h1] at h2
    exact absurd h2 (by decide)

/-! ## `Ghost::update`: the choice of direction of a pursuer that is not frightened -/

theorem consider_step (c : Global) (e : Extern) (g : Ghost) (walls : Nat → Bool)
    (st : Nat × Nat) (a : Nat) :
    (¬ Ghost.update.acceptable walls g.direction a →
      Ghost.update.consider c e g walls st a = st) ∧
    (Ghost.update.acceptable walls g.direction a →
      Ghost.update.consider c e g walls st a =
        (if st.1 = 4 then a
          else if g.get_target_distance c e a < g.get_target_distance c e st.1 then a
          else st.1, st.2 + 1)) := by
  unfold Ghost.update.acceptable Ghost.update.consider
  constructor
  · intro h
    by_cases h1 : a = (2 + g.direction) % 4
    · rw [if_pos h1]
    · rw [if_neg h1]
      have hw : walls a = true := by
        cases hv : walls a with
        | true => rfl
        | false => exact absurd ⟨hv, h1⟩ h
      simp [hw]
  · rintro ⟨hw, h1⟩
    rw [if_neg h1]
    simp only [hw, Bool.not_false, if_true]
    by_cases h4 : st.1 = 4
    · simp [h4]
    · simp [h4]

/-- The loop over the remaining directions once a candidate is held: the
candidate is replaced only by a strictly nearer acceptable direction. -/
theorem fold_consider_held (c : Global) (e : Extern) (g : Ghost) (walls : Nat → Bool)
    (l : List Nat) (hl4 : ∀ a ∈ l, a ≠ 4) :
    ∀ st : Nat × Nat, st.1 ≠ 4 → (∀ a ∈ l, st.1 < a) → l.Pairwise (fun a b => a < b) →
      (l.foldl (Ghost.update.consider c e g walls) st).1 ≠ 4 ∧
      (l.foldl (Ghost.update.consider c e g walls) st).2 =
        st.2 + (l.filter (fun a => Ghost.update.acceptable walls g.direction a)).length ∧
      ((l.foldl (Ghost.update.consider c e g walls) st).1 = st.1 ∨
        ((l.foldl (Ghost.update.consider c e g walls) st).1 ∈ l ∧
          Ghost.update.acceptable walls g.direction
            (l.foldl (Ghost.update.consider c e g walls) st).1 ∧
          g.get_target_distance c e (l.foldl (Ghost.update.consider c e g walls) st).1 <
            g.get_target_distance c e st.1)) ∧
      g.get_target_distance c e (l.foldl (Ghost.update.consider c e g walls) st).1 ≤
        g.get_target_distance c e st.1 ∧
      ∀ x ∈ l, Ghost.update.acceptable walls g.direction x →
        g.get_target_distance c e (l.foldl (Ghost.update.consider c e g walls) st).1 ≤
          g.get_target_distance c e x ∧
        (g.get_target_distance c e x =
            g.get_target_distance c e (l.foldl (Ghost.update.consider c e g walls) st).1 →
          (l.foldl (Ghost.update.consider c e g walls) st).1 ≤ x) := by
  induction l with
  | nil =>
    intro st h4 _ _
    exact ⟨h4, by simp, Or.inl rfl, le_refl _, fun x hx => absurd hx (List.not_mem_nil x)⟩
  | cons y ys ih =>
    intro st h4 hlt hsorted
    have hys4 : ∀ a ∈ ys, a ≠ 4 := fun a ha => hl4 a (List.mem_cons_of_mem _ ha)
    have hy4 : y ≠ 4 := hl4 y (List.mem_cons_self _ _)
    have hsy := List.pairwise_cons.1 hsorted
    have hoy : st.1 < y := hlt y (List.mem_cons_self _ _)
    simp only [List.foldl_cons]
    by_cases hok : Ghost.update.acceptable walls g.direction y
    · rw [(consider_step c e g walls st y).2 hok, if_neg h4]
      by_cases hlt' : g.get_target_distance c e y < g.get_target_distance c e st.1
      · rw [if_pos hlt']
        obtain ⟨i1, i2, i3, i4, i5⟩ := ih hys4 (y, st.2 + 1) hy4 hsy.1 hsy.2
        simp only at i1 i2 i3 i4 i5
        refine ⟨i1, ?_, ?_, ?_, ?_⟩
        · rw [i2, List.filter_cons_of_pos (by simpa using hok), List.length_cons]; omega
        · right
          rcases i3 with h | ⟨h, hacc, hd⟩
          · rw [h]; exact ⟨List.mem_cons_self _ _, hok, hlt'⟩
          · exact ⟨List.mem_cons_of_mem _ h, hacc, by omega⟩
        · omega
        · intro x hx hxok
          rcases List.mem_cons.1 hx with rfl | hx
          · refine ⟨i4, fun heq => ?_⟩
            rcases i3 with h | ⟨_, _, hd⟩
            · rw [h]
            · omega
          · exact i5 x hx hxok
      · rw [if_neg hlt']
        obtain ⟨i1, i2, i3, i4, i5⟩ := ih hys4 (st.1, st.2 + 1) h4
          (fun a ha => hlt a (List.mem_cons_of_mem _ ha)) hsy.2
        simp only at i1 i2 i3 i4 i5
        refine ⟨i1, ?_, ?_, i4, ?_⟩
        · rw [i2, List.filter_cons_of_pos (by simpa using hok), List.length_cons]; omega
        · rcases i3 with h | ⟨h, hacc, hd⟩
          · exact Or.inl h
          · exact Or.inr ⟨List.mem_cons_of_mem _ h, hacc, hd⟩
        · intro x hx hxok
          rcases List.mem_cons.1 hx with rfl | hx
          · refine ⟨by omega, fun heq => ?_⟩
            rcases i3 with h | ⟨_, _, hd⟩
            · rw [h]; omega
            · omega
          · exact i5 x hx hxok
    · rw [(consider_step c e g walls st y).1 hok]
      obtain ⟨i1, i2, i3, i4, i5⟩ := ih hys4 st h4
        (fun a ha => hlt a (List.mem_cons_of_mem _ ha)) hsy.2
      refine ⟨i1, ?_, ?_, i4, ?_⟩
      · rw [i2, List.filter_cons_of_neg (by simpa using hok)]
      · rcases i3 with h | ⟨h, hacc, hd⟩
        · exact Or.inl h
        · exact Or.inr ⟨List.mem_cons_of_mem _ h, hacc, hd⟩
      · intro x hx hxok
        rcases List.mem_cons.1 hx with rfl | hx
        · exact absurd hxok hok
        · exact i5 x hx hxok

/-- The loop over the directions from the start value (4, 0): without an
acceptable direction nothing changes; otherwise it ends on the first of the
nearest acceptable directions. -/
theorem fold_consider_start (c : Global) (e : Extern) (g : Ghost) (walls : Nat → Bool)
    (l : List Nat) (hl4 : ∀ a ∈ l, a ≠ 4) (hsorted : l.Pairwise (fun a b => a < b)) :
    (l.filter (fun a => Ghost.update.acceptable walls g.direction a) = [] →
      l.foldl (Ghost.update.consider c e g walls) (4, 0) = (4, 0)) ∧
    (l.filter (fun a => Ghost.update.acceptable walls g.direction a) ≠ [] →
      (l.foldl (Ghost.update.consider c e g walls) (4, 0)).1 ≠ 4 ∧
      (l.foldl (Ghost.update.consider c e g walls) (4, 0)).1 ∈ l ∧
      Ghost.update.acceptable walls g.direction
        (l.foldl (Ghost.update.consider c e g walls) (4, 0)).1 ∧
      ∀ x ∈ l, Ghost.update.acceptable walls g.direction x →
        g.get_target_distance c e (l.foldl (Ghost.update.consider c e g walls) (4, 0)).1 ≤
          g.get_target_distance c e x ∧
        (g.get_target_distance c e x =
            g.get_target_distance c e
              (l.foldl (Ghost.update.consider c e g walls) (4, 0)).1 →
          (l.foldl (Ghost.update.consider c e g walls) (4, 0)).1 ≤ x)) := by
  induction l with
  | nil => exact ⟨fun _ => rfl, fun h => absurd rfl h⟩
  | cons y ys ih =>
    have hys4 : ∀ a ∈ ys, a ≠ 4 := fun a ha => hl4 a (List.mem_cons_of_mem _ ha)
    have hy4 : y ≠ 4 := hl4 y (List.mem_cons_self _ _)
    have hsy := List.pairwise_cons.1 hsorted
    simp only [List.foldl_cons]
    by_cases hok : Ghost.update.acceptable walls g.direction y
    · rw [(consider_step c e g walls (4, 0) y).2 hok, if_pos rfl,
        List.filter_cons_of_pos (by simpa using hok)]
      refine ⟨fun h => absurd h (List.cons_ne_nil _ _), fun _ => ?_⟩
      obtain ⟨i1, _, i3, i4, i5⟩ := fold_consider_held c e g walls ys hys4
        (y, ((4, 0) : Nat × Nat).2 + 1) hy4 hsy.1 hsy.2
      simp only at i1 i3 i4 i5 ⊢
      refine ⟨i1, ?_, ?_, ?_⟩
      · rcases i3 with h | ⟨h, _, _⟩
        · rw [h]; exact List.mem_cons_self _ _
        · exact List.mem_cons_of_mem _ h
      · rcases i3 with h | ⟨_, h, _⟩
        · rw [h]; exact hok
        · exact h
      · intro x hx hxok
        rcases List.mem_cons.1 hx with rfl | hx
        · refine ⟨i4, fun heq => ?_⟩
          rcases i3 with h | ⟨_, _, hd⟩
          · rw [h]
          · omega
        · exact i5 x hx hxok
    · rw [(consider_step c e g walls (4, 0) y).1 hok,
        List.filter_cons_of_neg (by simpa using hok)]
      obtain ⟨j1, j2⟩ := ih hys4 hsy.2
      refine ⟨j1, fun hne => ?_⟩
      obtain ⟨k1, k2, k3, k4⟩ := j2 hne
      refine ⟨k1, List.mem_cons_of_mem _ k2, k3, ?_⟩
      intro x hx hxok
      rcases List.mem_cons.1 hx with rfl | hx
      · exact absurd hxok hok
      · exact k4 x hx hxok

/-- The direction that a pursuer which is not frightened takes: the reverse
when no other direction is unblocked, otherwise the nearest (as
`get_target_distance` computes it) of the unblocked directions other than the
reverse, the lowest one among equally near ones. -/
theorem choose_direction (c : Global) (e : Extern) (g : Ghost) (walls : Nat → Bool) :
    ((∀ a, a < 4 → ¬ Ghost.update.acceptable walls g.direction a) →
      Ghost.update.choose c e g walls = (2 + g.direction) % 4) ∧
    ((∃ a, a < 4 ∧ Ghost.update.acceptable walls g.direction a) →
      Ghost.update.choose c e g walls < 4 ∧
      Ghost.update.acceptable walls g.direction (Ghost.update.choose c e g walls) ∧
      ∀ x, x < 4 → Ghost.update.acceptable walls g.direction x →
        g.get_target_distance c e (Ghost.update.choose c e g walls) ≤
          g.get_target_distance c e x ∧
        (g.get_target_distance c e x =
            g.get_target_distance c e (Ghost.update.choose c e g walls) →
          Ghost.update.choose c e g walls ≤ x)) := by
  have hmem : ∀ a, a ∈ [0, 1, 2, 3] ↔ a < 4 := by
    intro a
    simp only [List.mem_cons, List.mem_singleton, List.not_mem_nil, or_false]
    omega
  obtain ⟨h1, h2⟩ := fold_consider_start c e g walls [0, 1, 2, 3]
    (fun a ha => by have := (hmem a).1 ha; omega) (by decide)
  constructor
  · intro hnone
    have hnil : [0, 1, 2, 3].filter (fun a => Ghost.update.acceptable walls g.direction a)
        = [] := by
      rw [List.filter_eq_nil_iff]
      intro a ha
      simpa using hnone a ((hmem a).1 ha)
    unfold Ghost.update.choose
    simp [h1 hnil]
  · rintro ⟨a, ha, hacc⟩
    have hne : [0, 1, 2, 3].filter (fun a => Ghost.update.acceptable walls g.direction a)
        ≠ [] := by
      intro hnil
      rw [List.filter_eq_nil_iff] at hnil
      exact absurd hacc (by simpa using hnil a ((hmem a).2 ha))
    obtain ⟨k1, k2, k3, k4⟩ := h2 hne
    have hch : Ghost.update.choose c e g walls =
        ([0, 1, 2, 3].foldl (Ghost.update.consider c e g walls) (4, 0)).1 := by
      unfold Ghost.update.choose
      simp only
      split_ifs <;> rfl
    rw [hch]
    exact ⟨(hmem _).1 k2, k3, fun x hx hxok => k4 x ((hmem x).2 hx) hxok⟩

/-- `Ghost::update` of a pursuer that is not Frightened after the mode switch:
it returns, draws no random value, and the pursuer moves in the direction of
`Ghost.update.choose` for the flags of the four probes. -/
theorem Ghost.update_calm (c : Global) (hC : 0 < c.CELL_SIZE) (e : Extern) (L : Nat)
    (g : Ghost) (m : Grid) (hm : Grid.WF c m) (hx : isShort g.position.x)
    (hy : isShort g.position.y) (q0 : Position) (p : Pacman) (rnd : List Nat)
    (hnf : (Ghost.update.mode_switch c L p.energizer_timer g).frightened_mode ≠ 1)
    (hES : g.frightened_mode = 2 → 0 < c.GHOST_ESCAPE_SPEED) :
    ∃ (s : Nat) (w0 w1 w2 : Bool),
      Ghost.update.speed c (Ghost.update.mode_switch c L p.energizer_timer g) = some s ∧
      map_collision c false
        ((Ghost.update.mode_switch c L p.energizer_timer g).update_target c e
          p.direction q0 p.position).use_door
        (toShort ((s : Int) + g.position.x)) g.position.y m = some (w0, m) ∧
      map_collision c false
        ((Ghost.update.mode_switch c L p.energizer_timer g).update_target c e
          p.direction q0 p.position).use_door
        g.position.x (toShort (g.position.y - (s : Int))) m = some (w1, m) ∧
      map_collision c false
        ((Ghost.update.mode_switch c L p.energizer_timer g).update_target c e
          p.direction q0 p.position).use_door
        (toShort (g.position.x - (s : Int))) g.position.y m = some (w2, m) ∧
      Ghost.update c e L g m q0 p rnd = some
        ((Ghost.update.contact c (Ghost.update.move c s
            ((Ghost.update.mode_switch c L p.energizer_timer g).update_target c e
              p.direction q0 p.position)
            (Ghost.update.choose c e
              ((Ghost.update.mode_switch c L p.energizer_timer g).update_target c e
                p.direction q0 p.position)
              (Ghost.update.walls w0 w1 w2
                (e.probe4 false
                  ((Ghost.update.mode_switch c L p.energizer_timer g).update_target c e
                    p.direction q0 p.position).use_door
                  ((s : Int) + g.position.y) m)))) p).1,
          (Ghost.update.contact c (Ghost.update.move c s
            ((Ghost.update.mode_switch c L p.energizer_timer g).update_target c e
              p.direction q0 p.position)
            (Ghost.update.choose c e
              ((Ghost.update.mode_switch c L p.energizer_timer g).update_target c e
                p.direction q0 p.position)
              (Ghost.update.walls w0 w1 w2
                (e.probe4 false
                  ((Ghost.update.mode_switch c L p.energizer_timer g).update_target c e
                    p.direction q0 p.position).use_door
                  ((s : Int) + g.position.y) m)))) p).2,
          m, rnd) := by
  have hES' : (Ghost.update.mode_switch c L p.energizer_timer g).frightened_mode = 2 →
      0 < c.GHOST_ESCAPE_SPEED := by
    intro h2
    apply hES
    by_contra hne
    unfold Ghost.update.mode_switch at h2
    split_ifs at h2
    all_goals first | exact hne h2 | (simp only at h2; omega)
  obtain ⟨s, hs, _⟩ := speed_defined c _ hES'
  obtain ⟨w0, w1, w2, h0, h1, h2, hupd⟩ :=
    Ghost.update_probes c hC e L g m hm hx hy q0 p rnd hs
  have hmode2 : ((Ghost.update.mode_switch c L p.energizer_timer g).update_target c e
      p.direction q0 p.position).frightened_mode ≠ 1 := by
    rcases update_target_mode c e (Ghost.update.mode_switch c L p.energizer_timer g)
      p.direction q0 p.position with h | h
    · rw [h]; exact hnf
    · rw [h.1]; decide
  rw [act_calm c e _ _ _ p rnd hmode2] at hupd
  exact ⟨s, w0, w1, w2, hs, h0, h1, h2, hupd⟩

/-- A pursuer that is not Frightened (after the mode switch of the update)
reverses exactly when the flags say so. `Ghost::update` returns, without
drawing a random value; with `d` the direction before the update and the four
blocking flags as the update computes them (Right, Up, Left by the probes at
the position advanced by the speed, Down by the four-argument call), the new
direction is below 4, and it is `(d + 2) mod 4` if and only if the flags of the
three other directions are all set. -/
theorem Ghost.update_reverse_iff_flags (c : Global) (hC : 0 < c.CELL_SIZE) (e : Extern)
    (L : Nat) (g : Ghost) (m : Grid) (hm : Grid.WF c m) (hx : isShort g.position.x)
    (hy : isShort g.position.y) (q0 : Position) (p : Pacman) (rnd : List Nat)
    (hnf : (Ghost.update.mode_switch c L p.energizer_timer g).frightened_mode ≠ 1)
    (hES : g.frightened_mode = 2 → 0 < c.GHOST_ESCAPE_SPEED) :
    ∃ (s : Nat) (w0 w1 w2 : Bool) (r : Ghost × Pacman × Grid × List Nat),
      Ghost.update.speed c (Ghost.update.mode_switch c L p.energizer_timer g) = some s ∧
      map_collision c false
        ((Ghost.update.mode_switch c L p.energizer_timer g).update_target c e
          p.direction q0 p.position).use_door
        (toShort ((s : Int) + g.position.x)) g.position.y m = some (w0, m) ∧
      map_collision c false
        ((Ghost.update.mode_switch c L p.energizer_timer g).update_target c e
          p.direction q0 p.position).use_door
        g.position.x (toShort (g.position.y - (s : Int))) m = some (w1, m) ∧
      map_collision c false
        ((Ghost.update.mode_switch c L p.energizer_timer g).update_target c e
          p.direction q0 p.position).use_door
        (toShort (g.position.x - (s : Int))) g.position.y m = some (w2, m) ∧
      Ghost.update c e L g m q0 p rnd = some r ∧ r.2.2.2 = rnd ∧ r.1.direction < 4 ∧
      (r.1.direction = (g.direction + 2) % 4 ↔
        ∀ a, a < 4 → a ≠ (g.direction + 2) % 4 →
          Ghost.update.walls w0 w1 w2
            (e.probe4 false
              ((Ghost.update.mode_switch c L p.energizer_timer g).update_target c e
                p.direction q0 p.position).use_door
              ((s : Int) + g.position.y) m) a = true) := by
  obtain ⟨s, w0, w1, w2, hs, h0, h1, h2, hupd⟩ :=
    Ghost.update_calm c hC e L g m hm hx hy q0 p rnd hnf hES
  refine ⟨s, w0, w1, w2, _, hs, h0, h1, h2, hupd, rfl, ?_⟩
  have hdir2 : ((Ghost.update.mode_switch c L p.energizer_timer g).update_target c e
      p.direction q0 p.position).direction = g.direction := by
    rw [(update_target_keeps c e _ _ _ _).2.2.2.2.2.1, (mode_switch_keeps c L _ g).2.2.2.2.2.2.2]
  generalize (Ghost.update.mode_switch c L p.energizer_timer g).update_target c e
      p.direction q0 p.position = g2 at hdir2 ⊢
  generalize Ghost.update.walls w0 w1 w2 (e.probe4 false g2.use_door
      ((s : Int) + g.position.y) m) = walls
  simp only
  rw [(contact_keeps c _ p).2.2.2.2.2.1]
  have hd : (Ghost.update.move c s g2 (Ghost.update.choose c e g2 walls)).direction =
      Ghost.update.choose c e g2 walls := rfl
  rw [hd]
  obtain ⟨k1, k2⟩ := choose_direction c e g2 walls
  rw [hdir2] at k1 k2
  have hcomm : (g.direction + 2) % 4 = (2 + g.direction) % 4 := by rw [Nat.add_comm]
  rw [hcomm]
  by_cases hex : ∃ a, a < 4 ∧ Ghost.update.acceptable walls g.direction a
  · obtain ⟨l1, l2, _⟩ := k2 hex
    refine ⟨l1, ?_⟩
    constructor
    · intro heq
      exact absurd heq l2.2
    · intro hall
      obtain ⟨a, ha, hacc⟩ := hex
      have := hall a ha hacc.2
      rw [hacc.1] at this
      cases this
  · have hnone : ∀ a, a < 4 → ¬ Ghost.update.acceptable walls g.direction a :=
      fun a ha hacc => hex ⟨a, ha, hacc⟩
    rw [k1 hnone]
    refine ⟨Nat.mod_lt _ (by decide), fun _ => ?_, fun _ => rfl⟩
    intro a ha hne
    cases hw : walls a with
    | true => rfl
    | false => exact absurd ⟨hw, hne⟩ (hnone a ha)

/-! ## The frightened-speed countdown -/

theorem pick_lt (walls : Nat → Bool) (direction : Nat) :
    ∀ (rnd : List Nat) (rd : Nat) {r : Nat × List Nat}, rd < 4 →
      Ghost.update.pick walls direction rd rnd = some r → r.1 < 4 := by
  intro rnd
  induction rnd with
  | nil =>
    intro rd r hrd h
    unfold Ghost.update.pick at h
    split_ifs at h
    cases h
    exact hrd
  | cons v rest ih =>
    intro rd r hrd h
    unfold Ghost.update.pick at h
    split_ifs at h
    · exact ih (v % 4) (Nat.mod_lt _ (by decide)) h
    · cases h
      exact hrd

theorem flee_lt (walls : Nat → Bool) (direction v : Nat) (rest : List Nat)
    {r : Nat × List Nat} (h : Ghost.update.flee walls direction v rest = some r) : r.1 < 4 := by
  unfold Ghost.update.flee at h
  split_ifs at h
  · exact pick_lt walls direction rest (v % 4) (Nat.mod_lt _ (by decide)) h
  · cases h
    exact Nat.mod_lt _ (by decide)

theorem roundEven_near (r : Nat) :
    Extern.roundEven r * 2 ^ 29 ≤ r + 2 ^ 28 ∧ r ≤ Extern.roundEven r * 2 ^ 29 + 2 ^ 28 := by
  unfold Extern.roundEven
  simp only [Nat.reducePow]
  split_ifs <;> omega

theorem roundEven_mono {a b : Nat} (h : a ≤ b) : Extern.roundEven a ≤ Extern.roundEven b := by
  unfold Extern.roundEven
  simp only [Nat.reducePow]
  have hq : a / 536870912 ≤ b / 536870912 := Nat.div_le_div_right h
  split_ifs <;> omega

theorem roundSqrt_near (n : Nat) :
    Nat.sqrt n ≤ Extern.roundSqrt n ∧ Extern.roundSqrt n ≤ Nat.sqrt n + 1 := by
  unfold Extern.roundSqrt
  split_ifs <;> omega

theorem roundSqrt_mono {a b : Nat} (h : a ≤ b) : Extern.roundSqrt a ≤ Extern.roundSqrt b := by
  have hs : Nat.sqrt a ≤ Nat.sqrt b := Nat.sqrt_le_sqrt h
  rcases Nat.lt_or_ge (Nat.sqrt a) (Nat.sqrt b) with hlt | hge
  · exact le_trans (roundSqrt_near a).2 (le_trans hlt (roundSqrt_near b).1)
  · have heq : Nat.sqrt a = Nat.sqrt b := le_antisymm hs hge
    unfold Extern.roundSqrt
    rw [heq]
    split_ifs <;> omega

theorem scaled_range {n : Nat} (h0 : n ≠ 0) (hk : Nat.log 4 n ≤ 52) :
    2 ^ 104 ≤ n * 4 ^ (52 - Nat.log 4 n) ∧ n * 4 ^ (52 - Nat.log 4 n) < 2 ^ 106 := by
  have h1 : 4 ^ Nat.log 4 n ≤ n := Nat.pow_log_le_self 4 h0
  have h2 : n < 4 ^ (Nat.log 4 n + 1) := Nat.lt_pow_succ_log_self (by decide) n
  have hK : 0 < 4 ^ (52 - Nat.log 4 n) := Nat.pow_pos (by decide)
  have e1 : 4 ^ Nat.log 4 n * 4 ^ (52 - Nat.log 4 n) = 2 ^ 104 := by
    rw [← pow_add, Nat.add_sub_cancel' hk]
    norm_num
  have e2 : 4 ^ (Nat.log 4 n + 1) * 4 ^ (52 - Nat.log 4 n) = 2 ^ 106 := by
    rw [← pow_add, show Nat.log 4 n + 1 + (52 - Nat.log 4 n) = 53 by omega]
    norm_num
  constructor
  · rw [← e1]
    exact Nat.mul_le_mul_right _ h1
  · rw [← e2]
    exact Nat.mul_lt_mul_of_pos_right h2 hK

theorem sqrt_range {N : Nat} (h : 2 ^ 104 ≤ N ∧ N < 2 ^ 106) :
    2 ^ 52 ≤ Nat.sqrt N ∧ Nat.sqrt N < 2 ^ 53 := by
  constructor
  · rw [Nat.le_sqrt]
    exact le_trans (by norm_num) h.1
  · rw [Nat.sqrt_lt]
    exact lt_of_lt_of_le h.2 (by norm_num)

theorem mantissa_range {n : Nat} (h0 : n ≠ 0) (hk : Nat.log 4 n ≤ 52) :
    2 ^ 23 ≤ Extern.roundEven (Extern.roundSqrt (n * 4 ^ (52 - Nat.log 4 n))) ∧
    Extern.roundEven (Extern.roundSqrt (n * 4 ^ (52 - Nat.log 4 n))) ≤ 2 ^ 24 := by
  have hs := sqrt_range (scaled_range h0 hk)
  have hr := roundSqrt_near (n * 4 ^ (52 - Nat.log 4 n))
  have hm := roundEven_near (Extern.roundSqrt (n * 4 ^ (52 - Nat.log 4 n)))
  simp only [Nat.reducePow] at hs hm ⊢
  omega

theorem log4_le {n : Nat} (h : n < 2 ^ 53) : Nat.log 4 n ≤ 52 := by
  have : Nat.log 4 n < 27 := by
    by_cases h0 : n = 0
    · subst h0; simp
    · exact Nat.log_lt_of_lt_pow h0 (lt_trans h (by norm_num))
  omega

theorem sqrtFloat_mono {a b : Nat} (h : a ≤ b) (hb : b < 2 ^ 53) :
    Extern.sqrtFloat a ≤ Extern.sqrtFloat b := by
  by_cases ha0 : a = 0
  · subst ha0
    unfold Extern.sqrtFloat
    simp
  have hb0 : b ≠ 0 := by omega
  have hka := log4_le (lt_of_le_of_lt h hb)
  have hkb := log4_le hb
  have hk : Nat.log 4 a ≤ Nat.log 4 b := Nat.log_mono_right h
  unfold Extern.sqrtFloat
  rw [if_neg ha0, if_neg hb0]
  rcases Nat.lt_or_ge (Nat.log 4 a) (Nat.log 4 b) with hlt | hge
  · have h1 := (mantissa_range ha0 hka).2
    have h2 := (mantissa_range hb0 hkb).1
    calc Extern.roundEven (Extern.roundSqrt (a * 4 ^ (52 - Nat.log 4 a))) * 2 ^ Nat.log 4 a
        ≤ 2 ^ 24 * 2 ^ Nat.log 4 a := Nat.mul_le_mul_right _ h1
      _ = 2 ^ 23 * 2 ^ (Nat.log 4 a + 1) := by rw [pow_succ]; ring
      _ ≤ 2 ^ 23 * 2 ^ Nat.log 4 b :=
        Nat.mul_le_mul_left _ (Nat.pow_le_pow_right (by decide) hlt)
      _ ≤ _ := Nat.mul_le_mul_right _ h2
  · have heq : Nat.log 4 a = Nat.log 4 b := le_antisymm hk hge
    rw [heq]
    exact Nat.mul_le_mul_right _ (roundEven_mono (roundSqrt_mono (Nat.mul_le_mul_right _ h)))

theorem log4_sq {t : Nat} (ht : t ≠ 0) : Nat.log 4 (t * t) = Nat.log 2 t := by
  have h1 : 2 ^ Nat.log 2 t ≤ t := Nat.pow_log_le_self 2 ht
  have h2 : t < 2 ^ (Nat.log 2 t + 1) := Nat.lt_pow_succ_log_self (by decide) t
  rw [Nat.log_eq_iff (Or.inr ⟨by decide, Nat.mul_ne_zero ht ht⟩)]
  constructor
  · calc 4 ^ Nat.log 2 t = 2 ^ Nat.log 2 t * 2 ^ Nat.log 2 t := by
          rw [show (4 : Nat) = 2 * 2 by rfl, mul_pow]
      _ ≤ t * t := Nat.mul_le_mul h1 h1
  · calc t * t < 2 ^ (Nat.log 2 t + 1) * 2 ^ (Nat.log 2 t + 1) :=
          Nat.mul_lt_mul_of_lt_of_lt h2 h2
      _ = 4 ^ (Nat.log 2 t + 1) := by rw [show (4 : Nat) = 2 * 2 by rfl, mul_pow]

theorem roundSqrt_sq (s : Nat) : Extern.roundSqrt (s * s) = s := by
  unfold Extern.roundSqrt
  rw [Nat.sqrt_eq]
  rw [if_pos (Nat.le_add_right _ _)]

theorem roundEven_mul (q : Nat) : Extern.roundEven (q * 2 ^ 29) = q := by
  unfold Extern.roundEven
  rw [Nat.mul_mod_left, Nat.mul_div_cancel _ (by norm_num)]
  simp

theorem sqrtFloat_sq {t : Nat} (ht : t < 2 ^ 24) : Extern.sqrtFloat (t * t) = t * 2 ^ 23 := by
  by_cases h0 : t = 0
  · subst h0
    unfold Extern.sqrtFloat
    simp
  have hj : Nat.log 2 t < 24 := Nat.log_lt_of_lt_pow h0 ht
  unfold Extern.sqrtFloat
  rw [if_neg (Nat.mul_ne_zero h0 h0), log4_sq h0]
  have e1 : t * t * 4 ^ (52 - Nat.log 2 t) =
      (t * 2 ^ (52 - Nat.log 2 t)) * (t * 2 ^ (52 - Nat.log 2 t)) := by
    rw [show (4 : Nat) = 2 * 2 by rfl, mul_pow]
    ring
  have e2 : t * 2 ^ (52 - Nat.log 2 t) = t * 2 ^ (23 - Nat.log 2 t) * 2 ^ 29 := by
    rw [mul_assoc, ← pow_add, show 23 - Nat.log 2 t + 29 = 52 - Nat.log 2 t by omega]
  rw [e1, roundSqrt_sq, e2, roundEven_mul, mul_assoc, ← pow_add,
    show 23 - Nat.log 2 t + Nat.log 2 t = 23 by omega]

theorem mantissa_strict {a b : Nat} (h : a < b) (ha : a ≠ 0) (hk : Nat.log 4 a = Nat.log 4 b)
    (hb : b < 2 ^ 22) :
    Extern.roundEven (Extern.roundSqrt (a * 4 ^ (52 - Nat.log 4 a))) <
      Extern.roundEven (Extern.roundSqrt (b * 4 ^ (52 - Nat.log 4 b))) := by
  have hk10 : Nat.log 4 b < 11 :=
    Nat.log_lt_of_lt_pow (by omega) (lt_of_lt_of_le hb (by norm_num))
  rw [← hk] at hk10 ⊢
  have hK : 2 ^ 84 ≤ 4 ^ (52 - Nat.log 4 a) :=
    calc 2 ^ 84 = 4 ^ 42 := by norm_num
      _ ≤ 4 ^ (52 - Nat.log 4 a) := Nat.pow_le_pow_right (by decide) (by omega)
  have hN : a * 4 ^ (52 - Nat.log 4 a) + 4 ^ (52 - Nat.log 4 a) ≤
      b * 4 ^ (52 - Nat.log 4 a) := by
    calc a * 4 ^ (52 - Nat.log 4 a) + 4 ^ (52 - Nat.log 4 a)
        = (a + 1) * 4 ^ (52 - Nat.log 4 a) := by ring
      _ ≤ _ := Nat.mul_le_mul_right _ h
  have hsa := sqrt_range (scaled_range ha (by omega))
  have hsq := Nat.sqrt_le (a * 4 ^ (52 - Nat.log 4 a))
  generalize a * 4 ^ (52 - Nat.log 4 a) = A at hN hsa hsq ⊢
  generalize b * 4 ^ (52 - Nat.log 4 a) = B at hN ⊢
  generalize 4 ^ (52 - Nat.log 4 a) = K at hK hN
  have hsb : Nat.sqrt A + (2 ^ 29 + 2) ≤ Nat.sqrt B := by
    rw [Nat.le_sqrt]
    have e : (Nat.sqrt A + (2 ^ 29 + 2)) * (Nat.sqrt A + (2 ^ 29 + 2)) =
        Nat.sqrt A * Nat.sqrt A + 2 * (2 ^ 29 + 2) * Nat.sqrt A + (2 ^ 29 + 2) * (2 ^ 29 + 2) := by
      ring
    rw [e]
    simp only [Nat.reducePow, Nat.reduceAdd, Nat.reduceMul] at hK hsa ⊢
    omega
  have ra := roundSqrt_near A
  have rb := roundSqrt_near B
  have ma := roundEven_near (Extern.roundSqrt A)
  have mb := roundEven_near (Extern.roundSqrt B)
  simp only [Nat.reducePow, Nat.reduceAdd] at hsb ma mb
  omega

theorem sqrtFloat_strict {a b : Nat} (h : a < b) (hb : b < 2 ^ 22) :
    Extern.sqrtFloat a < Extern.sqrtFloat b := by
  have hb53 : b < 2 ^ 53 := lt_trans hb (by norm_num)
  have hle : a + 1 ≤ b := h
  suffices hs : Extern.sqrtFloat a < Extern.sqrtFloat (a + 1) from
    lt_of_lt_of_le hs (sqrtFloat_mono hle hb53)
  have hb' : a + 1 < 2 ^ 22 := lt_of_le_of_lt hle hb
  by_cases ha : a = 0
  · subst ha
    rw [show (0 : Nat) + 1 = 1 * 1 by rfl, sqrtFloat_sq (by norm_num)]
    unfold Extern.sqrtFloat
    simp
  have hk : Nat.log 4 a ≤ Nat.log 4 (a + 1) := Nat.log_mono_right (Nat.le_succ a)
  have hka : Nat.log 4 a < 11 :=
    Nat.log_lt_of_lt_pow ha (lt_of_lt_of_le (lt_trans (Nat.lt_succ_self a) hb') (by norm_num))
  rcases Nat.lt_or_ge (Nat.log 4 a) (Nat.log 4 (a + 1)) with hlt | hge
  · have h1 : 4 ^ Nat.log 4 (a + 1) ≤ a + 1 := Nat.pow_log_le_self 4 (Nat.succ_ne_zero a)
    have h2 : a < 4 ^ (Nat.log 4 a + 1) := Nat.lt_pow_succ_log_self (by decide) a
    have h3 : 4 ^ (Nat.log 4 a + 1) ≤ 4 ^ Nat.log 4 (a + 1) :=
      Nat.pow_le_pow_right (by decide) hlt
    have h4 : a + 1 = 2 ^ (Nat.log 4 a + 1) * 2 ^ (Nat.log 4 a + 1) := by
      rw [← mul_pow]
      exact le_antisymm (by exact h2) (le_trans h3 h1)
    have h5 : 2 ^ (Nat.log 4 a + 1) < 2 ^ 24 := Nat.pow_lt_pow_right (by decide) (by omega)
    rw [h4, sqrtFloat_sq h5]
    unfold Extern.sqrtFloat
    rw [if_neg ha]
    have hlt24 : Extern.roundEven (Extern.roundSqrt (a * 4 ^ (52 - Nat.log 4 a))) < 2 ^ 24 := by
      have hK : 2 ^ 84 ≤ 4 ^ (52 - Nat.log 4 a) :=
        calc 2 ^ 84 = 4 ^ 42 := by norm_num
          _ ≤ 4 ^ (52 - Nat.log 4 a) := Nat.pow_le_pow_right (by decide) (by omega)
      have hN : a * 4 ^ (52 - Nat.log 4 a) + 4 ^ (52 - Nat.log 4 a) ≤ 2 ^ 106 := by
        calc a * 4 ^ (52 - Nat.log 4 a) + 4 ^ (52 - Nat.log 4 a)
            = (a + 1) * 4 ^ (52 - Nat.log 4 a) := by ring
          _ ≤ 4 ^ (Nat.log 4 a + 1) * 4 ^ (52 - Nat.log 4 a) :=
            Nat.mul_le_mul_right _ h2
          _ = 2 ^ 106 := by
            rw [← pow_add, show Nat.log 4 a + 1 + (52 - Nat.log 4 a) = 53 by omega]
            norm_num
      generalize a * 4 ^ (52 - Nat.log 4 a) = A at hN ⊢
      generalize 4 ^ (52 - Nat.log 4 a) = K at hK hN
      have hs : Nat.sqrt A < 2 ^ 53 - 2 ^ 30 := by
        rw [Nat.sqrt_lt]
        simp only [Nat.reducePow, Nat.reduceSub, Nat.reduceMul] at hK hN ⊢
        omega
      have ra := roundSqrt_near A
      have ma := roundEven_near (Extern.roundSqrt A)
      simp only [Nat.reducePow, Nat.reduceSub] at hs ma ⊢
      omega
    calc _ < 2 ^ 24 * 2 ^ Nat.log 4 a :=
          Nat.mul_lt_mul_of_pos_right hlt24 (Nat.pow_pos (by decide))
      _ = 2 ^ (Nat.log 4 a + 1) * 2 ^ 23 := by rw [pow_succ]; ring
  · have heq : Nat.log 4 a = Nat.log 4 (a + 1) := le_antisymm hk hge
    unfold Extern.sqrtFloat
    rw [if_neg ha, if_neg (Nat.succ_ne_zero a)]
    have hm := mantissa_strict (Nat.lt_succ_self a) ha heq hb'
    rw [← heq] at hm ⊢
    exact Nat.mul_lt_mul_of_pos_right hm (Nat.pow_pos (by decide))

/-- IEEE 754 square roots have the properties of `Extern.Rounds`. -/
theorem ieee_rounds : Extern.ieee.Rounds :=
  { mono := fun _ _ h hb => sqrtFloat_mono h hb,
    exact := fun _ ht => sqrtFloat_sq ht,
    strict := fun _ _ h hb => sqrtFloat_strict h hb }

theorem get_target_distance_square (c : Global) (e : Extern) (g : Ghost) (d : Nat) :
    g.get_target_distance c e d = e.sqrt_float (Ghost.get_target_distance.square c g d) :=
  rfl

/-- The squared distance between two positions whose coordinates are `short`s
is a `double`. -/
theorem square_bound {a b u v : Int} (ha : isShort a) (hb : isShort b) (hu : isShort u)
    (hv : isShort v) : ((a - u) ^ 2 + (b - v) ^ 2).toNat < 2 ^ 53 := by
  unfold isShort at ha hb hu hv
  have h1 : (a - u) ^ 2 ≤ 65535 ^ 2 := sq_le_sq' (by omega) (by omega)
  have h2 : (b - v) ^ 2 ≤ 65535 ^ 2 := sq_le_sq' (by omega) (by omega)
  have h3 : 0 ≤ (a - u) ^ 2 := sq_nonneg _
  have h4 : 0 ≤ (b - v) ^ 2 := sq_nonneg _
  generalize (a - u) ^ 2 = A at h1 h3 ⊢
  generalize (b - v) ^ 2 = B at h2 h4 ⊢
  norm_num at h1 h2 ⊢
  omega

/-- With the rounding of `Extern.Rounds`, the float square root of `n` exceeds
an integer `t < 2048` exactly when `n` exceeds its square. -/
theorem sqrt_float_gt_iff (e : Extern) (hR : e.Rounds) {t n : Nat} (ht : t < 2048)
    (hn : n < 2 ^ 53) : e.sqrt_float n > t * 2 ^ 23 ↔ t * t < n := by
  have hex := hR.exact t (lt_trans ht (by norm_num))
  have htt : t * t ≤ 2047 * 2047 := Nat.mul_le_mul (by omega) (by omega)
  constructor
  · intro h
    by_contra hle
    have := hR.mono n (t * t) (by omega) (by norm_num; omega)
    omega
  · intro h
    have h1 := hR.strict (t * t) (t * t + 1) (Nat.lt_succ_self _) (by norm_num; omega)
    have h2 := hR.mono (t * t + 1) n h hn
    omega

/-- C23: in chase mode (`movement_mode` not 0) with door passage off, the
target of pursuer 3 is the player's position if the Euclidean distance from
the pursuer to the player is greater than `CELL_SIZE * GHOST_3_CHASE`, which
is to say `dx ^ 2 + dy ^ 2 > (CELL_SIZE * GHOST_3_CHASE) ^ 2`, and otherwise the
bottom-left corner `(0, CELL_SIZE * (MAP_HEIGHT - 1))`; no other field changes.
The code compares `static_cast<float>(sqrt(dx ^ 2 + dy ^ 2))` with the
threshold: the statement is for square roots that round as `Extern.Rounds`
says (IEEE 754 square roots do), a threshold below 2048, coordinates that are
`short`s, and a corner coordinate that fits a `short`. -/
theorem C23_chase_target_by_distance (c : Global) (e : Extern) (hR : e.Rounds) (g : Ghost)
    (d : Nat) (q0 qp : Position) (hdoor : g.use_door = false) (hmode : g.movement_mode ≠ 0)
    (hid : g.id = 3) (hT : c.CELL_SIZE * c.GHOST_3_CHASE < 2048)
    (hx : isShort g.position.x) (hy : isShort g.position.y) (hqx : isShort qp.x)
    (hqy : isShort qp.y) (hH : isShort ((c.CELL_SIZE : Int) * ((c.MAP_HEIGHT : Int) - 1))) :
    ((((c.CELL_SIZE * c.GHOST_3_CHASE : Nat) : ℝ) <
        Real.sqrt (((g.position.x - qp.x) ^ 2 + (g.position.y - qp.y) ^ 2 : Int) : ℝ)) ↔
      ((c.CELL_SIZE * c.GHOST_3_CHASE : Nat) : Int) ^ 2 <
        (g.position.x - qp.x) ^ 2 + (g.position.y - qp.y) ^ 2) ∧
    (((c.CELL_SIZE * c.GHOST_3_CHASE : Nat) : Int) ^ 2 <
        (g.position.x - qp.x) ^ 2 + (g.position.y - qp.y) ^ 2 →
      g.update_target c e d q0 qp = { g with target := qp }) ∧
    ((g.position.x - qp.x) ^ 2 + (g.position.y - qp.y) ^ 2 ≤
        ((c.CELL_SIZE * c.GHOST_3_CHASE : Nat) : Int) ^ 2 →
      g.update_target c e d q0 qp = { g with target :=
        { x := 0, y := (c.CELL_SIZE : Int) * ((c.MAP_HEIGHT : Int) - 1) } }) := by
  have hform := update_target_chase c e g d q0 qp hdoor hmode
  rw [hid] at hform
  simp only at hform
  rw [toShort_of_isShort hH] at hform
  have hn := square_bound hx hy hqx hqy
  have hiff := sqrt_float_gt_iff e hR hT hn
  have hnn : 0 ≤ (g.position.x - qp.x) ^ 2 + (g.position.y - qp.y) ^ 2 :=
    add_nonneg (sq_nonneg _) (sq_nonneg _)
  have hcast : c.CELL_SIZE * c.GHOST_3_CHASE * (c.CELL_SIZE * c.GHOST_3_CHASE) <
        ((g.position.x - qp.x) ^ 2 + (g.position.y - qp.y) ^ 2).toNat ↔
      ((c.CELL_SIZE * c.GHOST_3_CHASE : Nat) : Int) ^ 2 <
        (g.position.x - qp.x) ^ 2 + (g.position.y - qp.y) ^ 2 := by
    rw [Int.lt_toNat, sq (((c.CELL_SIZE * c.GHOST_3_CHASE : Nat) : Int))]
    push_cast
    rfl
  refine ⟨?_, fun h => ?_, fun h => ?_⟩
  · rw [Real.lt_sqrt (Nat.cast_nonneg _)]
    exact_mod_cast Iff.rfl
  · rw [hform, if_pos (hiff.2 (hcast.2 h))]
    rw [hid]
  · rw [hform, if_neg (fun hgt => absurd (hcast.1 (hiff.1 hgt)) (not_lt.2 h))]
    rw [hid]

/-- C23 instantiated: pursuer 3 ten cells to the right of and two cells above
the player, further than the `CELL_SIZE * GHOST_3_CHASE = 64` of the sample
constants, with IEEE 754 square roots. -/
theorem C23_chase_target_by_distance_witness :
    ((((Global.sample.CELL_SIZE * Global.sample.GHOST_3_CHASE : Nat) : ℝ) <
        Real.sqrt (((Ghost.chaser3.position.x - Pacman.onLine.position.x) ^ 2 + (Ghost.chaser3.position.y - Pacman.onLine.position.y) ^ 2 : Int) : ℝ)) ↔
      ((Global.sample.CELL_SIZE * Global.sample.GHOST_3_CHASE : Nat) : Int) ^ 2 <
        (Ghost.chaser3.position.x - Pacman.onLine.position.x) ^ 2 + (Ghost.chaser3.position.y - Pacman.onLine.position.y) ^ 2) ∧
    (((Global.sample.CELL_SIZE * Global.sample.GHOST_3_CHASE : Nat) : Int) ^ 2 <
        (Ghost.chaser3.position.x - Pacman.onLine.position.x) ^ 2 + (Ghost.chaser3.position.y - Pacman.onLine.position.y) ^ 2 →
      Ghost.chaser3.update_target Global.sample Extern.ieee 0 Ghost.fresh.position Pacman.onLine.position = { Ghost.chaser3 with target := Pacman.onLine.position }) ∧
    ((Ghost.chaser3.position.x - Pacman.onLine.position.x) ^ 2 + (Ghost.chaser3.position.y - Pacman.onLine.position.y) ^ 2 ≤
        ((Global.sample.CELL_SIZE * Global.sample.GHOST_3_CHASE : Nat) : Int) ^ 2 →
      Ghost.chaser3.update_target Global.sample Extern.ieee 0 Ghost.fresh.position Pacman.onLine.position = { Ghost.chaser3 with target :=
        { x := 0, y := (Global.sample.CELL_SIZE : Int) * ((Global.sample.MAP_HEIGHT : Int) - 1) } }) :=
  C23_chase_target_by_distance Global.sample Extern.ieee ieee_rounds Ghost.chaser3 0
    Ghost.fresh.position Pacman.onLine.position rfl (by decide) rfl (by decide) (by decide)
    (by decide) (by decide) (by decide) (by decide)

/-- A pursuer that is not Frightened (after the mode switch of the update)
takes the nearest direction among those whose flag is clear. `Ghost::update`
returns; with the four blocking flags as the update computes them (Down by the
four-argument call) and the target as the update sets it, when some direction
other than the reverse has its flag clear the new direction is such a
direction, and among them it minimises the squared Euclidean distance from the
position advanced by `GHOST_SPEED` to the target, the lowest ordinal winning
among equally near directions. The code compares the distances as `float`s:
the statement is for square roots that round as `Extern.Rounds` says and
squared distances below `2 ^ 22`. -/
theorem Ghost.update_nearest_flagged (c : Global) (hC : 0 < c.CELL_SIZE)
    (e : Extern) (hR : e.Rounds) (L : Nat) (g : Ghost) (m : Grid) (hm : Grid.WF c m)
    (hx : isShort g.position.x) (hy : isShort g.position.y) (q0 : Position) (p : Pacman)
    (rnd : List Nat)
    (hnf : (Ghost.update.mode_switch c L p.energizer_timer g).frightened_mode ≠ 1)
    (hES : g.frightened_mode = 2 → 0 < c.GHOST_ESCAPE_SPEED)
    (hrange : ∀ a, a < 4 → Ghost.get_target_distance.square c
      ((Ghost.update.mode_switch c L p.energizer_timer g).update_target c e
        p.direction q0 p.position) a < 2 ^ 22) :
    ∃ (s : Nat) (w0 w1 w2 : Bool) (r : Ghost × Pacman × Grid × List Nat),
      Ghost.update.speed c (Ghost.update.mode_switch c L p.energizer_timer g) = some s ∧
      map_collision c false
        ((Ghost.update.mode_switch c L p.energizer_timer g).update_target c e
          p.direction q0 p.position).use_door
        (toShort ((s : Int) + g.position.x)) g.position.y m = some (w0, m) ∧
      map_collision c false
        ((Ghost.update.mode_switch c L p.energizer_timer g).update_target c e
          p.direction q0 p.position).use_door
        g.position.x (toShort (g.position.y - (s : Int))) m = some (w1, m) ∧
      map_collision c false
        ((Ghost.update.mode_switch c L p.energizer_timer g).update_target c e
          p.direction q0 p.position).use_door
        (toShort (g.position.x - (s : Int))) g.position.y m = some (w2, m) ∧
      Ghost.update c e L g m q0 p rnd = some r ∧
      ((∃ a, a < 4 ∧ Ghost.update.acceptable
          (Ghost.update.walls w0 w1 w2
            (e.probe4 false
              ((Ghost.update.mode_switch c L p.energizer_timer g).update_target c e
                p.direction q0 p.position).use_door
              ((s : Int) + g.position.y) m)) g.direction a) →
        r.1.direction < 4 ∧
        Ghost.update.acceptable
          (Ghost.update.walls w0 w1 w2
            (e.probe4 false
              ((Ghost.update.mode_switch c L p.energizer_timer g).update_target c e
                p.direction q0 p.position).use_door
              ((s : Int) + g.position.y) m)) g.direction r.1.direction ∧
        ∀ x, x < 4 →
          Ghost.update.acceptable
            (Ghost.update.walls w0 w1 w2
              (e.probe4 false
                ((Ghost.update.mode_switch c L p.energizer_timer g).update_target c e
                  p.direction q0 p.position).use_door
                ((s : Int) + g.position.y) m)) g.direction x →
          Ghost.get_target_distance.square c
              ((Ghost.update.mode_switch c L p.energizer_timer g).update_target c e
                p.direction q0 p.position) r.1.direction ≤
            Ghost.get_target_distance.square c
              ((Ghost.update.mode_switch c L p.energizer_timer g).update_target c e
                p.direction q0 p.position) x ∧
          (Ghost.get_target_distance.square c
              ((Ghost.update.mode_switch c L p.energizer_timer g).update_target c e
                p.direction q0 p.position) x =
            Ghost.get_target_distance.square c
              ((Ghost.update.mode_switch c L p.energizer_timer g).update_target c e
                p.direction q0 p.position) r.1.direction →
            r.1.direction ≤ x)) := by
  obtain ⟨s, w0, w1, w2, hs, h0, h1, h2, hupd⟩ :=
    Ghost.update_calm c hC e L g m hm hx hy q0 p rnd hnf hES
  refine ⟨s, w0, w1, w2, _, hs, h0, h1, h2, hupd, ?_⟩
  have hdir2 : ((Ghost.update.mode_switch c L p.energizer_timer g).update_target c e
      p.direction q0 p.position).direction = g.direction := by
    rw [(update_target_keeps c e _ _ _ _).2.2.2.2.2.1, (mode_switch_keeps c L _ g).2.2.2.2.2.2.2]
  generalize (Ghost.update.mode_switch c L p.energizer_timer g).update_target c e
      p.direction q0 p.position = g2 at hdir2 hrange ⊢
  generalize Ghost.update.walls w0 w1 w2 (e.probe4 false g2.use_door
      ((s : Int) + g.position.y) m) = walls
  simp only
  rw [(contact_keeps c _ p).2.2.2.2.2.1]
  have hd : (Ghost.update.move c s g2 (Ghost.update.choose c e g2 walls)).direction =
      Ghost.update.choose c e g2 walls := rfl
  rw [hd]
  obtain ⟨_, k2⟩ := choose_direction c e g2 walls
  rw [hdir2] at k2
  intro hex
  obtain ⟨l1, l2, l3⟩ := k2 hex
  refine ⟨l1, l2, fun x hx4 hacc => ?_⟩
  obtain ⟨m1, m2⟩ := l3 x hx4 hacc
  rw [get_target_distance_square, get_target_distance_square] at m1 m2
  constructor
  · by_contra hlt
    have := hR.strict _ _ (not_le.1 hlt) (hrange _ l1)
    omega
  · intro heq
    exact m2 (by rw [heq])

/-! ## The direction of a frightened pursuer -/

theorem pick_acceptable (walls : Nat → Bool) (direction : Nat) :
    ∀ (rnd : List Nat) (rd : Nat) {r : Nat × List Nat},
      Ghost.update.pick walls direction rd rnd = some r →
      Ghost.update.acceptable walls direction r.1 := by
  intro rnd
  induction rnd with
  | nil =>
    intro rd r h
    unfold Ghost.update.pick at h
    split_ifs at h with hb
    cases h
    simpa [Ghost.update.acceptable] using hb
  | cons v rest ih =>
    intro rd r h
    unfold Ghost.update.pick at h
    split_ifs at h with hb
    · exact ih (v % 4) h
    · cases h
      simpa [Ghost.update.acceptable] using hb

theorem pick_first (walls : Nat → Bool) (direction rd : Nat) (rnd : List Nat)
    (h : Ghost.update.acceptable walls direction rd) :
    Ghost.update.pick walls direction rd rnd = some (rd, rnd) := by
  have hb : ¬ ((walls rd || decide (rd = (2 + direction) % 4)) = true) := by
    simp [h.1, h.2]
  cases rnd with
  | nil => unfold Ghost.update.pick; rw [if_neg hb]
  | cons v rest => unfold Ghost.update.pick; rw [if_neg hb]

theorem ways_pos_iff (walls : Nat → Bool) (direction : Nat) :
    Ghost.update.ways walls direction > 0 ↔
      ∃ d, d < 4 ∧ Ghost.update.acceptable walls direction d := by
  constructor
  · exact ways_pos walls direction
  · rintro ⟨d, hd, hacc⟩
    unfold Ghost.update.ways
    apply List.length_pos_of_mem (a := d)
    rw [List.mem_filter]
    refine ⟨?_, by simp [hacc.1, hacc.2]⟩
    simp only [List.mem_cons, List.mem_singleton, List.not_mem_nil, or_false]
    omega

/-- Every result of the frightened choice: an acceptable direction when there
is one, the reverse otherwise. -/
theorem flee_result (walls : Nat → Bool) (direction v : Nat) (rest : List Nat)
    {r : Nat × List Nat} (h : Ghost.update.flee walls direction v rest = some r) :
    ((∃ a, a < 4 ∧ Ghost.update.acceptable walls direction a) →
      Ghost.update.acceptable walls direction r.1) ∧
    ((∀ a, a < 4 → ¬ Ghost.update.acceptable walls direction a) →
      r.1 = (2 + direction) % 4) := by
  unfold Ghost.update.flee at h
  split_ifs at h with hw
  · refine ⟨fun _ => pick_acceptable walls direction rest (v % 4) h, fun hnone => ?_⟩
    obtain ⟨a, ha, hacc⟩ := (ways_pos_iff walls direction).1 hw
    exact absurd hacc (hnone a ha)
  · cases h
    exact ⟨fun hex => absurd ((ways_pos_iff walls direction).2 hex) hw, fun _ => rfl⟩

/-- The direction of a Frightened pursuer that moves, in terms of the flags.
For a pursuer that is Frightened when `Ghost::update` chooses its direction
(after the mode switch and the target update) and whose frightened-speed
countdown is zero there, with `d` its direction before the update and the four
blocking flags as the update computes them (speed `GHOST_SPEED`, Down by the
four-argument call): the update returns on a fair random supply; every result
has a direction below 4 whose flag is clear and that is not `(d + 2) mod 4`
whenever some direction is so, and that is `(d + 2) mod 4` when none is; and
every such direction is taken when `rand()` returns it first. -/
theorem Ghost.update_flee_flagged (c : Global) (hC : 0 < c.CELL_SIZE)
    (e : Extern) (L : Nat) (g : Ghost) (m : Grid) (hm : Grid.WF c m)
    (hx : isShort g.position.x) (hy : isShort g.position.y) (q0 : Position) (p : Pacman)
    (rnd : List Nat)
    (hF : ((Ghost.update.mode_switch c L p.energizer_timer g).update_target c e
      p.direction q0 p.position).frightened_mode = 1)
    (hk : (Ghost.update.mode_switch c L p.energizer_timer g).frightened_speed_timer = 0) :
    ∃ w0 w1 w2 : Bool,
      map_collision c false
        ((Ghost.update.mode_switch c L p.energizer_timer g).update_target c e
          p.direction q0 p.position).use_door
        (toShort (((c.GHOST_SPEED % 256 : Nat) : Int) + g.position.x)) g.position.y m
        = some (w0, m) ∧
      map_collision c false
        ((Ghost.update.mode_switch c L p.energizer_timer g).update_target c e
          p.direction q0 p.position).use_door
        g.position.x (toShort (g.position.y - ((c.GHOST_SPEED % 256 : Nat) : Int))) m
        = some (w1, m) ∧
      map_collision c false
        ((Ghost.update.mode_switch c L p.energizer_timer g).update_target c e
          p.direction q0 p.position).use_door
        (toShort (g.position.x - ((c.GHOST_SPEED % 256 : Nat) : Int))) g.position.y m
        = some (w2, m) ∧
      (Fair 0 rnd → ∃ r, Ghost.update c e L g m q0 p rnd = some r) ∧
      (∀ r, Ghost.update c e L g m q0 p rnd = some r →
        r.1.direction < 4 ∧
        ((∃ a, a < 4 ∧ Ghost.update.acceptable
            (Ghost.update.walls w0 w1 w2
              (e.probe4 false
                ((Ghost.update.mode_switch c L p.energizer_timer g).update_target c e
                  p.direction q0 p.position).use_door
                (((c.GHOST_SPEED % 256 : Nat) : Int) + g.position.y) m)) g.direction a) →
          Ghost.update.walls w0 w1 w2
            (e.probe4 false
              ((Ghost.update.mode_switch c L p.energizer_timer g).update_target c e
                p.direction q0 p.position).use_door
              (((c.GHOST_SPEED % 256 : Nat) : Int) + g.position.y) m) r.1.direction = false ∧
          r.1.direction ≠ (g.direction + 2) % 4) ∧
        ((∀ a, a < 4 → ¬ Ghost.update.acceptable
            (Ghost.update.walls w0 w1 w2
              (e.probe4 false
                ((Ghost.update.mode_switch c L p.energizer_timer g).update_target c e
                  p.direction q0 p.position).use_door
                (((c.GHOST_SPEED % 256 : Nat) : Int) + g.position.y) m)) g.direction a) →
          r.1.direction = (g.direction + 2) % 4)) ∧
      (∀ a rest, a < 4 → rnd = a :: rest →
        Ghost.update.acceptable
          (Ghost.update.walls w0 w1 w2
            (e.probe4 false
              ((Ghost.update.mode_switch c L p.energizer_timer g).update_target c e
                p.direction q0 p.position).use_door
              (((c.GHOST_SPEED % 256 : Nat) : Int) + g.position.y) m)) g.direction a →
        ∃ r, Ghost.update c e L g m q0 p rnd = some r ∧ r.1.direction = a ∧ r.2.2.2 = rest) := by
  have hm1 : (Ghost.update.mode_switch c L p.energizer_timer g).frightened_mode = 1 := by
    rcases update_target_mode c e (Ghost.update.mode_switch c L p.energizer_timer g)
      p.direction q0 p.position with h | h
    · rw [← h]; exact hF
    · rw [h.1] at hF; exact absurd hF (by decide)
  have hs : Ghost.update.speed c (Ghost.update.mode_switch c L p.energizer_timer g)
      = some (c.GHOST_SPEED % 256) :=
    speed_not_returning c _ (by rw [hm1]; decide)
  have hES : g.frightened_mode = 2 → 0 < c.GHOST_ESCAPE_SPEED := by
    intro h2
    rw [mode_switch_returning c L _ g h2, h2] at hm1
    exact absurd hm1 (by decide)
  obtain ⟨w0, w1, w2, h0, h1, h2, hupd⟩ :=
    Ghost.update_probes c hC e L g m hm hx hy q0 p rnd hs
  have hk2 : ((Ghost.update.mode_switch c L p.energizer_timer g).update_target c e
      p.direction q0 p.position).frightened_speed_timer = 0 := by
    rw [(update_target_keeps c e _ _ _ _).2.2.2.2.2.2, hk]
  have hdir2 : ((Ghost.update.mode_switch c L p.energizer_timer g).update_target c e
      p.direction q0 p.position).direction = g.direction := by
    rw [(update_target_keeps c e _ _ _ _).2.2.2.2.2.1, (mode_switch_keeps c L _ g).2.2.2.2.2.2.2]
  refine ⟨w0, w1, w2, h0, h1, h2, ?_, ?_, ?_⟩
  · intro hfair
    obtain ⟨r, _, hr, _⟩ := Ghost.update_returns c hC e L g m hm hx hy hES q0 p rnd hfair
    exact ⟨r, hr⟩
  · generalize (Ghost.update.mode_switch c L p.energizer_timer g).update_target c e
        p.direction q0 p.position = g2 at hF hk2 hdir2 hupd ⊢
    generalize Ghost.update.walls w0 w1 w2 (e.probe4 false g2.use_door
        (((c.GHOST_SPEED % 256 : Nat) : Int) + g.position.y) m) = walls at hupd ⊢
    intro r hr
    rw [hr] at hupd
    have hcomm : (g.direction + 2) % 4 = (2 + g.direction) % 4 := by rw [Nat.add_comm]
    cases rnd with
    | nil =>
      unfold Ghost.update.act at hupd
      rw [if_neg (by simp [hF])] at hupd
      simp at hupd
    | cons v rest =>
      rw [act_fleeing c e _ g2 walls p v rest hF hk2] at hupd
      cases hfl : Ghost.update.flee walls g2.direction v rest with
      | none => rw [hfl] at hupd; simp at hupd
      | some dr =>
        rw [hfl] at hupd
        simp only [Option.map_some', Option.some.injEq] at hupd
        have hd : r.1.direction = dr.1 := by
          rw [hupd]; simp only; rw [(contact_keeps c _ p).2.2.2.2.2.1]; rfl
        have hres := flee_result walls g2.direction v rest hfl
        rw [hdir2] at hres
        rw [hd, hcomm]
        exact ⟨flee_lt walls g2.direction v rest hfl, fun hex => hres.1 hex, hres.2⟩
  · generalize (Ghost.update.mode_switch c L p.energizer_timer g).update_target c e
        p.direction q0 p.position = g2 at hF hk2 hdir2 hupd ⊢
    generalize Ghost.update.walls w0 w1 w2 (e.probe4 false g2.use_door
        (((c.GHOST_SPEED % 256 : Nat) : Int) + g.position.y) m) = walls at hupd ⊢
    intro a rest ha hrnd hacc
    subst hrnd
    rw [act_fleeing c e _ g2 walls p a rest hF hk2] at hupd
    have hfl : Ghost.update.flee walls g2.direction a rest = some (a, rest) := by
      unfold Ghost.update.flee
      rw [hdir2, if_pos ((ways_pos_iff walls g.direction).2 ⟨a, ha, hacc⟩),
        Nat.mod_eq_of_lt ha]
      exact pick_first walls g.direction a rest hacc
    rw [hfl] at hupd
    refine ⟨_, hupd, ?_, rfl⟩
    simp only
    rw [(contact_keeps c _ p).2.2.2.2.2.1]
    rfl

/-! ## The scatter/chase flags and the wave index -/

/-- A sequence of updates keeps every flag equal to the wave index modulo 2. -/
theorem GhostManager.run_parity (c : Global) (e : Extern) (inputs : List GhostManager.Input) :
    ∀ (gm gm' : GhostManager), (∀ f ∈ gm.flags, f = gm.current_wave % 2) →
      GhostManager.run c e gm inputs = some gm' →
      ∀ f ∈ gm'.flags, f = gm'.current_wave % 2 := by
  induction inputs with
  | nil =>
    intro gm gm' hf h
    simp only [GhostManager.run, Option.some.injEq] at h
    subst h
    exact hf
  | cons i rest ih =>
    intro gm gm' hf h
    simp only [GhostManager.run] at h
    cases hu : GhostManager.update c e i.level gm i.map i.pacman i.rnd with
    | none => rw [hu] at h; cases h
    | some r =>
      rw [hu] at h
      simp only [Option.some_bind] at h
      refine ih r.1 gm' ?_ h
      rcases GhostManager.update_step c e _ gm _ _ _ hu with ⟨hcw, _, hfl⟩ | ⟨hcw, hfl⟩
      · rw [hfl, hcw]
        simp only [GhostManager.flags, GhostManager.ghosts, List.map_cons, List.map_nil,
          List.mem_cons, List.mem_nil_iff, or_false, forall_eq_or_imp, forall_eq] at hf ⊢
        unfold Ghost.switch_mode
        simp only
        omega
      · rw [hfl, hcw]
        exact hf

/-- A sequence of updates returns when every tick brings a well-formed grid, a
fair random supply and a level whose scaled scatter durations fit an `unsigned
short`, and the pursuers start at `short` positions. -/
theorem GhostManager.run_returns (c : Global) (hC : 0 < c.CELL_SIZE)
    (hES : 0 < c.GHOST_ESCAPE_SPEED) (e : Extern) (inputs : List GhostManager.Input) :
    ∀ gm : GhostManager, (∀ g ∈ gm.ghosts, isShort g.position.x ∧ isShort g.position.y) →
      (∀ i ∈ inputs, Grid.WF c i.map ∧ Fair 12 i.rnd ∧
        c.LONG_SCATTER_DURATION / 2 ^ i.level < 65536 ∧
        c.SHORT_SCATTER_DURATION / 2 ^ i.level < 65536) →
      ∃ gm', GhostManager.run c e gm inputs = some gm' := by
  induction inputs with
  | nil => intro gm _ _; exact ⟨gm, rfl⟩
  | cons i rest ih =>
    intro gm hpos hall
    obtain ⟨hwf, hfair, hL, hS⟩ := hall i (List.mem_cons_self _ _)
    obtain ⟨r, hr, _, hpos', _⟩ :=
      GhostManager.update_returns_all c hC hES e i.level gm i.map hwf i.pacman i.rnd hL hS
        hpos hfair
    obtain ⟨gm', hrun⟩ := ih r.1 hpos' (fun j hj => hall j (List.mem_cons_of_mem _ hj))
    refine ⟨gm', ?_⟩
    simp only [GhostManager.run]
    rw [hr]
    exact hrun

/-- C32: after `GhostManager::reset` and any sequence of `GhostManager::update`
calls, the scatter/chase flag of each of the four pursuers equals the wave
index modulo 2 (scatter, 0, on even waves; chase, 1, on odd waves), so all four
flags are the same. Such a sequence returns when the spawn points are `short`s
and every tick brings a well-formed grid, a fair random supply and a level
whose scaled scatter durations fit an `unsigned short`. -/
theorem C32_flags_equal_wave_parity (c : Global) (e : Extern) (gm0 : GhostManager)
    (L0 : Nat) (spawn : Nat → Position) (gm : GhostManager)
    (inputs : List GhostManager.Input) (gm' : GhostManager)
    (hreset : GhostManager.reset c gm0 L0 spawn = some gm)
    (hrun : GhostManager.run c e gm inputs = some gm') :
    (gm'.ghost_0.movement_mode = gm'.current_wave % 2 ∧
      gm'.ghost_1.movement_mode = gm'.current_wave % 2 ∧
      gm'.ghost_2.movement_mode = gm'.current_wave % 2 ∧
      gm'.ghost_3.movement_mode = gm'.current_wave % 2) ∧
    (0 < c.CELL_SIZE → 0 < c.GHOST_ESCAPE_SPEED →
      (∀ a, a < 4 → isShort (spawn a).x ∧ isShort (spawn a).y) →
      ∀ ticks : List GhostManager.Input,
        (∀ i ∈ ticks, Grid.WF c i.map ∧ Fair 12 i.rnd ∧
          c.LONG_SCATTER_DURATION / 2 ^ i.level < 65536 ∧
          c.SHORT_SCATTER_DURATION / 2 ^ i.level < 65536) →
        ∃ gm'', GhostManager.run c e gm ticks = some gm'') := by
  obtain ⟨_, hgm⟩ := GhostManager.reset_spec c gm0 L0 spawn hreset
  have hfl0 : ∀ f ∈ gm.flags, f = gm.current_wave % 2 := by
    intro f hf
    rw [hgm] at hf ⊢
    simp only [GhostManager.flags, GhostManager.ghosts, Ghost.reset, List.map_cons,
      List.map_nil, List.mem_cons, List.mem_nil_iff, or_false, or_self] at hf
    rw [hf]
    rfl
  have hfl := GhostManager.run_parity c e inputs gm gm' hfl0 hrun
  simp only [GhostManager.flags, GhostManager.ghosts, List.map_cons, List.map_nil,
    List.mem_cons, List.mem_nil_iff, or_false, forall_eq_or_imp, forall_eq] at hfl
  refine ⟨hfl, fun hC hES hsp ticks hall => ?_⟩
  refine GhostManager.run_returns c hC hES e ticks gm ?_ hall
  rw [hgm]
  simp only [GhostManager.ghosts, Ghost.reset, Ghost.set_position, List.mem_cons,
    List.mem_nil_iff, or_false, forall_eq_or_imp, forall_eq]
  exact ⟨hsp 0 (by decide), hsp 1 (by decide), hsp 2 (by decide), hsp 3 (by decide)⟩

/-- C32 instantiated: the manager of `main.cpp` after `reset(0,
main.ghost_positions)` and 600 updates at level 0 on the clear grid, more
than the 512 ticks that wave 0 lasts with the sample constants. -/
theorem C32_flags_equal_wave_parity_witness :
    ∃ gm', GhostManager.run Global.sample Extern.sample GhostManager.start
        (List.replicate 600 GhostManager.Input.demo) = some gm' ∧
      gm'.ghost_0.movement_mode = gm'.current_wave % 2 ∧
      gm'.ghost_1.movement_mode = gm'.current_wave % 2 ∧
      gm'.ghost_2.movement_mode = gm'.current_wave % 2 ∧
      gm'.ghost_3.movement_mode = gm'.current_wave % 2 := by
  have hall : ∀ i ∈ List.replicate 600 GhostManager.Input.demo,
      Grid.WF Global.sample i.map ∧ Fair 12 i.rnd ∧
        Global.sample.LONG_SCATTER_DURATION / 2 ^ i.level < 65536 ∧
        Global.sample.SHORT_SCATTER_DURATION / 2 ^ i.level < 65536 := by
    intro i hi
    rw [List.eq_of_mem_replicate hi]
    exact ⟨Grid.fill_WF Global.sample Cell.Empty, by decide, by decide, by decide⟩
  obtain ⟨gm', hrun⟩ := GhostManager.run_returns Global.sample (by decide) (by decide)
    Extern.sample (List.replicate 600 GhostManager.Input.demo) GhostManager.start
    (by decide) hall
  exact ⟨gm', hrun, (C32_flags_equal_wave_parity Global.sample Extern.sample
    GhostManager.blank 0 main.ghost_positions GhostManager.start
    (List.replicate 600 GhostManager.Input.demo) gm' (by decide) hrun).1⟩

/-! ## The player stays clear of walls and doors -/

/-- A collecting probe, wherever it runs, leaves unblocked every
non-collecting probe that was unblocked: it only turns cells Empty. -/
theorem probe_after_collect (c : Global) (hC : 0 < c.CELL_SIZE) {m m' : Grid}
    (hm : Grid.WF c m) {x y u v : Int} (hx : isShort x) (hy : isShort y) (hu : isShort u)
    (hv : isShort v) (d d' hit : Bool)
    (hcol : map_collision c true d' u v m = some (hit, m'))
    (hfree : map_collision c false d x y m = some (false, m)) :
    map_collision c false d x y m' = some (false, m') := by
  obtain ⟨b1, m1, h1, hwf1, _, hA, hB, _⟩ := map_collision_collect c hC hm hu hv d'
  rw [hcol] at h1
  simp only [Option.some.injEq, Prod.mk.injEq] at h1
  obtain ⟨_, rfl⟩ := h1
  obtain ⟨b, hb, hiff⟩ := map_collision_noncollect c hC hm hx hy d
  rw [hfree] at hb
  simp only [Option.some.injEq, Prod.mk.injEq, and_true] at hb
  subst hb
  obtain ⟨b', hb', hiff'⟩ := map_collision_noncollect c hC hwf1 hx hy d
  cases hbv : b' with
  | false => rw [hb', hbv]
  | true =>
    obtain ⟨q, hq, hin, hbl⟩ := hiff'.1 hbv
    exfalso
    by_cases hc : q ∈ candidateCells c u v ∧ Collectable (m.cellAt q.1 q.2)
    · rw [hA q hc.1 hc.2] at hbl
      unfold Blocking at hbl
      rcases hbl with h | ⟨h, _⟩ <;> cases h
    · rw [hB q hc] at hbl
      have := hiff.2 ⟨q, hq, hin, hbl⟩
      cases this

/-- C33: the player never moves into a wall or door. For every grid, request
set and level, if the non-collecting probe with doors impassable is unblocked
at the player's position before `Pacman::update`, the update returns; the
position before the tunnel wrap is the old position or the old position moved
one step in the new direction; and when that position is within
`[-CELL_SIZE, CELL_SIZE * MAP_WIDTH)`, so that no tunnel wrap occurs, it is the
new position and the probe there is unblocked on the grid after the update.
The player's direction is below 4, its coordinates are `short`s, and the
level-scaled energizer duration fits an `unsigned short`. -/
theorem C33_player_stays_unblocked (c : Global) (hC : 0 < c.CELL_SIZE) (kb : Keyboard)
    (L : Nat) (hE : c.ENERGIZER_DURATION / 2 ^ L < 65536) (p : Pacman) (hd : p.direction < 4)
    (hpx : isShort p.position.x) (hpy : isShort p.position.y) (m : Grid) (hm : Grid.WF c m)
    (hfree : map_collision c false false p.position.x p.position.y m = some (false, m)) :
    ∃ (r : Pacman × Grid) (moved : Position), Pacman.update c kb L p m = some r ∧
      r.1.position = Pacman.update.warp c moved ∧
      (moved = p.position ∨ moved = Pacman.update.step c r.1.direction p.position) ∧
      (-(c.CELL_SIZE : Int) ≤ moved.x → moved.x < (c.CELL_SIZE : Int) * c.MAP_WIDTH →
        r.1.position = moved ∧
        map_collision c false false r.1.position.x r.1.position.y r.2 = some (false, r.2)) := by
  obtain ⟨w0, w1, w2, w3, wall, hit, dir, pos, m', h0, h1, h2, h3, _, hlt, hwall, hpos,
    hsx, hsy, h4, _, hupd⟩ := Pacman.update_spec c hC kb L hE p hd hpx hpy m hm
  refine ⟨_, if wall = false then Pacman.update.step c dir p.position else p.position,
    hupd, hpos, ?_, ?_⟩
  · cases wall
    · exact Or.inr (if_pos rfl)
    · exact Or.inl (if_neg (by decide))
  · intro hlo hhi
    have hnw : pos = if wall = false then Pacman.update.step c dir p.position
        else p.position := by
      rw [hpos]
      unfold Pacman.update.warp
      rw [if_neg (not_lt.2 hlo), if_neg (not_le.2 hhi)]
    refine ⟨hnw, ?_⟩
    have hprobe : map_collision c false false pos.x pos.y m = some (false, m) := by
      rw [hnw]
      cases wall with
      | true => exact hfree
      | false =>
        rw [if_pos rfl]
        have e0 : toShort (p.position.x + (c.PACMAN_SPEED : Int)) =
            toShort ((c.PACMAN_SPEED : Int) + p.position.x) := by rw [add_comm]
        interval_cases dir
        · simp only [List.getElem?_cons_zero, Option.some.injEq] at hwall
          subst hwall
          simp only [Pacman.update.step]
          rw [e0]
          exact h0
        · simp only [List.getElem?_cons_succ, List.getElem?_cons_zero,
            Option.some.injEq] at hwall
          subst hwall
          exact h1
        · simp only [List.getElem?_cons_succ, List.getElem?_cons_zero,
            Option.some.injEq] at hwall
          subst hwall
          exact h2
        · simp only [List.getElem?_cons_succ, List.getElem?_cons_zero,
            Option.some.injEq] at hwall
          subst hwall
          exact h3
    exact probe_after_collect c hC hm hsx hsy hsx hsy false false hit h4 hprobe

/-- C33 instantiated: the player in the middle cell of the 3 x 3 demo grid,
with Up requested. -/
theorem C33_player_stays_unblocked_witness :
    ∃ (r : Pacman × Grid) (moved : Position), Pacman.update Global.small { Keyboard.idle with Up := true } 0 Pacman.demo Grid.demo = some r ∧
      r.1.position = Pacman.update.warp Global.small moved ∧
      (moved = Pacman.demo.position ∨ moved = Pacman.update.step Global.small r.1.direction Pacman.demo.position) ∧
      (-(Global.small.CELL_SIZE : Int) ≤ moved.x → moved.x < (Global.small.CELL_SIZE : Int) * Global.small.MAP_WIDTH →
        r.1.position = moved ∧
        map_collision Global.small false false r.1.position.x r.1.position.y r.2 = some (false, r.2)) :=
  C33_player_stays_unblocked Global.small (by decide) { Keyboard.idle with Up := true } 0
    (by decide) Pacman.demo (by decide) (by decide) (by decide) Grid.demo (by decide)
    (by decide)

/-! ## The Down flag in the choice of direction -/

/-- `Ghost::update` of a pursuer that is not Frightened, for given values of
the speed, the door flag and the three five-argument probes: the new direction
is that of `Ghost.update.choose` for these flags and the value of the
four-argument call. -/
theorem Ghost.update_calm_flags (c : Global) (hC : 0 < c.CELL_SIZE) (e : Extern) (L : Nat)
    (g : Ghost) (m : Grid) (hm : Grid.WF c m) (hx : isShort g.position.x)
    (hy : isShort g.position.y) (q0 : Position) (p : Pacman) (rnd : List Nat)
    (hnf : (Ghost.update.mode_switch c L p.energizer_timer g).frightened_mode ≠ 1)
    (hES : g.frightened_mode = 2 → 0 < c.GHOST_ESCAPE_SPEED) {s : Nat} {d w0 w1 w2 : Bool}
    (hs : Ghost.update.speed c (Ghost.update.mode_switch c L p.energizer_timer g) = some s)
    (hd : ((Ghost.update.mode_switch c L p.energizer_timer g).update_target c e
      p.direction q0 p.position).use_door = d)
    (h0 : map_collision c false d (toShort ((s : Int) + g.position.x)) g.position.y m
      = some (w0, m))
    (h1 : map_collision c false d g.position.x (toShort (g.position.y - (s : Int))) m
      = some (w1, m))
    (h2 : map_collision c false d (toShort (g.position.x - (s : Int))) g.position.y m
      = some (w2, m)) :
    ∃ r, Ghost.update c e L g m q0 p rnd = some r ∧
      r.1.direction = Ghost.update.choose c e
        ((Ghost.update.mode_switch c L p.energizer_timer g).update_target c e
          p.direction q0 p.position)
        (Ghost.update.walls w0 w1 w2 (e.probe4 false d ((s : Int) + g.position.y) m)) := by
  obtain ⟨s', w0', w1', w2', hs', h0', h1', h2', hupd⟩ :=
    Ghost.update_calm c hC e L g m hm hx hy q0 p rnd hnf hES
  rw [hs] at hs'
  simp only [Option.some.injEq] at hs'
  subst hs'
  rw [hd] at h0' h1' h2' hupd
  rw [h0] at h0'
  rw [h1] at h1'
  rw [h2] at h2'
  simp only [Option.some.injEq, Prod.mk.injEq, and_true] at h0' h1' h2'
  subst h0' h1' h2'
  refine ⟨_, hupd, ?_⟩
  simp only
  rw [(contact_keeps c _ p).2.2.2.2.2.1]
  rfl

/-- `Ghost.update_flee_flagged` for given values of the door flag and the
three five-argument probes. -/
theorem Ghost.update_flee_pinned (c : Global) (hC : 0 < c.CELL_SIZE) (e : Extern) (L : Nat)
    (g : Ghost) (m : Grid) (hm : Grid.WF c m) (hx : isShort g.position.x)
    (hy : isShort g.position.y) (q0 : Position) (p : Pacman) (rnd : List Nat)
    (hF : ((Ghost.update.mode_switch c L p.energizer_timer g).update_target c e
      p.direction q0 p.position).frightened_mode = 1)
    (hk : (Ghost.update.mode_switch c L p.energizer_timer g).frightened_speed_timer = 0)
    {d w0 w1 w2 : Bool}
    (hd : ((Ghost.update.mode_switch c L p.energizer_timer g).update_target c e
      p.direction q0 p.position).use_door = d)
    (h0 : map_collision c false d
      (toShort (((c.GHOST_SPEED % 256 : Nat) : Int) + g.position.x)) g.position.y m
      = some (w0, m))
    (h1 : map_collision c false d g.position.x
      (toShort (g.position.y - ((c.GHOST_SPEED % 256 : Nat) : Int))) m = some (w1, m))
    (h2 : map_collision c false d
      (toShort (g.position.x - ((c.GHOST_SPEED % 256 : Nat) : Int))) g.position.y m
      = some (w2, m)) :
    (Fair 0 rnd → ∃ r, Ghost.update c e L g m q0 p rnd = some r) ∧
    (∀ r, Ghost.update c e L g m q0 p rnd = some r →
      ((∃ a, a < 4 ∧ Ghost.update.acceptable
          (Ghost.update.walls w0 w1 w2
            (e.probe4 false d (((c.GHOST_SPEED % 256 : Nat) : Int) + g.position.y) m))
          g.direction a) →
        r.1.direction ≠ (g.direction + 2) % 4) ∧
      ((∀ a, a < 4 → ¬ Ghost.update.acceptable
          (Ghost.update.walls w0 w1 w2
            (e.probe4 false d (((c.GHOST_SPEED % 256 : Nat) : Int) + g.position.y) m))
          g.direction a) →
        r.1.direction = (g.direction + 2) % 4)) ∧
    (∀ a rest, a < 4 → rnd = a :: rest →
      Ghost.update.acceptable
        (Ghost.update.walls w0 w1 w2
          (e.probe4 false d (((c.GHOST_SPEED % 256 : Nat) : Int) + g.position.y) m))
        g.direction a →
      ∃ r, Ghost.update c e L g m q0 p rnd = some r ∧ r.1.direction = a) := by
  obtain ⟨w0', w1', w2', h0', h1', h2', k1, k2, k3⟩ :=
    Ghost.update_flee_flagged c hC e L g m hm hx hy q0 p rnd hF hk
  rw [hd] at h0' h1' h2' k2 k3
  rw [h0] at h0'
  rw [h1] at h1'
  rw [h2] at h2'
  simp only [Option.some.injEq, Prod.mk.injEq, and_true] at h0' h1' h2'
  subst h0' h1' h2'
  refine ⟨k1, fun r hr => ⟨fun hex => ((k2 r hr).2.1 hex).2, (k2 r hr).2.2⟩, ?_⟩
  intro a rest ha hrnd hacc
  obtain ⟨r, hr, hdir, _⟩ := k3 a rest ha hrnd hacc
  exact ⟨r, hr, hdir⟩

theorem choose_single (c : Global) (e : Extern) (g : Ghost) (walls : Nat → Bool) {d : Nat}
    (hd : d < 4) (hacc : Ghost.update.acceptable walls g.direction d)
    (honly : ∀ a, a < 4 → Ghost.update.acceptable walls g.direction a → a = d) :
    Ghost.update.choose c e g walls = d := by
  obtain ⟨hlt, hok, _⟩ := (choose_direction c e g walls).2 ⟨d, hd, hacc⟩
  exact honly _ hlt hok

/-- C27 fails at the Down flag (the defect of C28: line 174 of `Ghost.cpp`
omits the x coordinate). On `Grid.pocket` the pursuer of `Ghost.boxed` faces
Right with Right, Up and Down blocked, and the pursuer of `Ghost.overGap`
faces Left with Left and Up blocked and Down free; both are on the line
`y = 16`, so the four-argument call receives the same arguments for both.
Whatever it returns: if it returns false the boxed-in pursuer takes Down, into
the wall, instead of reversing; if it returns true the other pursuer reverses
although Down is free. So no value of the call makes both updates do what the
claim says. -/
theorem C27_down_flag_breaks_reverse_rule :
    (map_collision Global.small false false 1 16 Grid.pocket = some (true, Grid.pocket) ∧
      map_collision Global.small false false 0 15 Grid.pocket = some (true, Grid.pocket) ∧
      map_collision Global.small false false 0 17 Grid.pocket = some (true, Grid.pocket) ∧
      map_collision Global.small false false 31 16 Grid.pocket = some (true, Grid.pocket) ∧
      map_collision Global.small false false 32 15 Grid.pocket = some (true, Grid.pocket) ∧
      map_collision Global.small false false 32 17 Grid.pocket = some (false, Grid.pocket)) ∧
    (∀ e : Extern, ∃ rA rB,
      Ghost.update Global.small e 0 Ghost.boxed Grid.pocket Ghost.boxed.position
        Pacman.inPocket [] = some rA ∧
      Ghost.update Global.small e 0 Ghost.overGap Grid.pocket Ghost.overGap.position
        Pacman.inPocket [] = some rB ∧
      ((e.probe4 false false 17 Grid.pocket = false ∧ rA.1.direction = 3) ∨
        (e.probe4 false false 17 Grid.pocket = true ∧ rB.1.direction = 0))) ∧
    ¬ ∃ e : Extern,
      (∀ r, Ghost.update Global.small e 0 Ghost.boxed Grid.pocket Ghost.boxed.position
          Pacman.inPocket [] = some r → r.1.direction = (Ghost.boxed.direction + 2) % 4) ∧
      (∀ r, Ghost.update Global.small e 0 Ghost.overGap Grid.pocket Ghost.overGap.position
          Pacman.inPocket [] = some r → r.1.direction ≠ (Ghost.overGap.direction + 2) % 4) := by
  have hmain : ∀ e : Extern, ∃ rA rB,
      Ghost.update Global.small e 0 Ghost.boxed Grid.pocket Ghost.boxed.position
        Pacman.inPocket [] = some rA ∧
      Ghost.update Global.small e 0 Ghost.overGap Grid.pocket Ghost.overGap.position
        Pacman.inPocket [] = some rB ∧
      ((e.probe4 false false 17 Grid.pocket = false ∧ rA.1.direction = 3) ∨
        (e.probe4 false false 17 Grid.pocket = true ∧ rB.1.direction = 0)) := by
    intro e
    have hcalm : ∀ g : Ghost, g.frightened_mode = 0 → g.use_door = false →
        Ghost.update.mode_switch Global.small 0 Pacman.inPocket.energizer_timer g = g ∧
        ((Ghost.update.mode_switch Global.small 0 Pacman.inPocket.energizer_timer
          g).update_target Global.small e Pacman.inPocket.direction g.position
          Pacman.inPocket.position).use_door = false ∧
        ((Ghost.update.mode_switch Global.small 0 Pacman.inPocket.energizer_timer
          g).update_target Global.small e Pacman.inPocket.direction g.position
          Pacman.inPocket.position).direction = g.direction := by
      intro g hN hdoor
      have h1 : Ghost.update.mode_switch Global.small 0 Pacman.inPocket.energizer_timer g
          = g := by
        rw [mode_switch_normal _ _ _ _ hN, if_neg (by decide)]
      rw [h1]
      exact ⟨rfl, (update_target_no_door _ e g _ _ _ hdoor).2,
        (update_target_keeps _ e g _ _ _).2.2.2.2.2.1⟩
    obtain ⟨a1, a2, a3⟩ := hcalm Ghost.boxed rfl rfl
    obtain ⟨b1, b2, b3⟩ := hcalm Ghost.overGap rfl rfl
    obtain ⟨rA, hrA, hdA⟩ := Ghost.update_calm_flags Global.small (by decide) e 0 Ghost.boxed
      Grid.pocket (by decide) (by decide) (by decide) Ghost.boxed.position Pacman.inPocket []
      (by rw [a1]; decide) (fun h => absurd h (by decide))
      (speed_not_returning _ _ (by rw [a1]; decide)) a2
      (show _ = some (true, Grid.pocket) by decide)
      (show _ = some (true, Grid.pocket) by decide)
      (show _ = some (false, Grid.pocket) by decide)
    obtain ⟨rB, hrB, hdB⟩ := Ghost.update_calm_flags Global.small (by decide) e 0
      Ghost.overGap Grid.pocket (by decide) (by decide) (by decide) Ghost.overGap.position
      Pacman.inPocket []
      (by rw [b1]; decide) (fun h => absurd h (by decide))
      (speed_not_returning _ _ (by rw [b1]; decide)) b2
      (show _ = some (false, Grid.pocket) by decide)
      (show _ = some (true, Grid.pocket) by decide)
      (show _ = some (true, Grid.pocket) by decide)
    have e17A : (((Global.small.GHOST_SPEED % 256 : Nat) : Int) + Ghost.boxed.position.y)
        = 17 := by decide
    have e17B : (((Global.small.GHOST_SPEED % 256 : Nat) : Int) + Ghost.overGap.position.y)
        = 17 := by decide
    rw [e17A] at hdA
    rw [e17B] at hdB
    refine ⟨rA, rB, hrA, hrB, ?_⟩
    cases hv : e.probe4 false false 17 Grid.pocket with
    | false =>
      refine Or.inl ⟨rfl, ?_⟩
      rw [hdA, hv]
      apply choose_single
      · decide
      · rw [a3]; decide
      · rw [a3]; decide
    | true =>
      refine Or.inr ⟨rfl, ?_⟩
      rw [hdB, hv, (choose_direction _ e _ _).1 (by rw [b3]; decide), b3]
      rfl
  refine ⟨⟨by decide, by decide, by decide, by decide, by decide, by decide⟩, hmain, ?_⟩
  rintro ⟨e, hA, hB⟩
  obtain ⟨rA, rB, hrA, hrB, h | h⟩ := hmain e
  · have := hA rA hrA
    rw [h.2] at this
    exact absurd this (by decide)
  · exact hB rB hrB h.2

/-- C31 fails at the Down flag (the defect of C28: line 174 of `Ghost.cpp`
omits the x coordinate). On `Grid.pocket` the Frightened pursuers of
`Ghost.boxedScared` (facing Right; Right, Up and Down blocked) and
`Ghost.overGapScared` (facing Left; Left and Up blocked, Down free) are both
on the line `y = 16`, their countdowns at zero, the player in power mode and
`rand()` returning 3, 0, 1, 2. Whatever the four-argument call returns: if it
returns false the boxed-in pursuer takes Down, a blocked direction, instead of
the reverse; if it returns true the other pursuer reverses although Down is
unblocked and not the reverse. So no value of the call makes both updates do
what the claim says. -/
theorem C31_down_flag_breaks_frightened_choice :
    (map_collision Global.small false false 1 16 Grid.pocket = some (true, Grid.pocket) ∧
      map_collision Global.small false false 0 15 Grid.pocket = some (true, Grid.pocket) ∧
      map_collision Global.small false false 0 17 Grid.pocket = some (true, Grid.pocket) ∧
      map_collision Global.small false false 31 16 Grid.pocket = some (true, Grid.pocket) ∧
      map_collision Global.small false false 32 15 Grid.pocket = some (true, Grid.pocket) ∧
      map_collision Global.small false false 32 17 Grid.pocket = some (false, Grid.pocket)) ∧
    (∀ e : Extern, ∃ rA rB,
      Ghost.update Global.small e 0 Ghost.boxedScared Grid.pocket Ghost.boxedScared.position
        Pacman.inPocketPowered [3, 0, 1, 2] = some rA ∧
      Ghost.update Global.small e 0 Ghost.overGapScared Grid.pocket
        Ghost.overGapScared.position Pacman.inPocketPowered [3, 0, 1, 2] = some rB ∧
      ((e.probe4 false false 17 Grid.pocket = false ∧ rA.1.direction = 3) ∨
        (e.probe4 false false 17 Grid.pocket = true ∧ rB.1.direction = 0))) ∧
    ¬ ∃ e : Extern,
      (∀ r, Ghost.update Global.small e 0 Ghost.boxedScared Grid.pocket
          Ghost.boxedScared.position Pacman.inPocketPowered [3, 0, 1, 2] = some r →
        r.1.direction = (Ghost.boxedScared.direction + 2) % 4) ∧
      (∀ r, Ghost.update Global.small e 0 Ghost.overGapScared Grid.pocket
          Ghost.overGapScared.position Pacman.inPocketPowered [3, 0, 1, 2] = some r →
        r.1.direction ≠ (Ghost.overGapScared.direction + 2) % 4) := by
  have hmain : ∀ e : Extern, ∃ rA rB,
      Ghost.update Global.small e 0 Ghost.boxedScared Grid.pocket Ghost.boxedScared.position
        Pacman.inPocketPowered [3, 0, 1, 2] = some rA ∧
      Ghost.update Global.small e 0 Ghost.overGapScared Grid.pocket
        Ghost.overGapScared.position Pacman.inPocketPowered [3, 0, 1, 2] = some rB ∧
      ((e.probe4 false false 17 Grid.pocket = false ∧ rA.1.direction = 3) ∨
        (e.probe4 false false 17 Grid.pocket = true ∧ rB.1.direction = 0)) := by
    intro e
    have hfr : ∀ g : Ghost, g.frightened_mode = 1 → g.use_door = false →
        Ghost.update.mode_switch Global.small 0 Pacman.inPocketPowered.energizer_timer g
          = g ∧
        ((Ghost.update.mode_switch Global.small 0 Pacman.inPocketPowered.energizer_timer
          g).update_target Global.small e Pacman.inPocketPowered.direction g.position
          Pacman.inPocketPowered.position).use_door = false ∧
        ((Ghost.update.mode_switch Global.small 0 Pacman.inPocketPowered.energizer_timer
          g).update_target Global.small e Pacman.inPocketPowered.direction g.position
          Pacman.inPocketPowered.position).frightened_mode = 1 := by
      intro g hF hdoor
      have h1 : Ghost.update.mode_switch Global.small 0
          Pacman.inPocketPowered.energizer_timer g = g := by
        rw [mode_switch_frightened _ _ _ _ hF, if_neg (by decide)]
      rw [h1]
      refine ⟨rfl, (update_target_no_door _ e g _ _ _ hdoor).2, ?_⟩
      rw [(update_target_no_door _ e g _ _ _ hdoor).1, hF]
    obtain ⟨a1, a2, a3⟩ := hfr Ghost.boxedScared rfl rfl
    obtain ⟨b1, b2, b3⟩ := hfr Ghost.overGapScared rfl rfl
    obtain ⟨tA, _, kA⟩ := Ghost.update_flee_pinned Global.small (by decide) e 0
      Ghost.boxedScared Grid.pocket (by decide) (by decide) (by decide)
      Ghost.boxedScared.position Pacman.inPocketPowered [3, 0, 1, 2] a3
      (by rw [a1]; rfl) a2
      (show _ = some (true, Grid.pocket) by decide)
      (show _ = some (true, Grid.pocket) by decide)
      (show _ = some (false, Grid.pocket) by decide)
    obtain ⟨tB, jB, _⟩ := Ghost.update_flee_pinned Global.small (by decide) e 0
      Ghost.overGapScared Grid.pocket (by decide) (by decide) (by decide)
      Ghost.overGapScared.position Pacman.inPocketPowered [3, 0, 1, 2] b3
      (by rw [b1]; rfl) b2
      (show _ = some (false, Grid.pocket) by decide)
      (show _ = some (true, Grid.pocket) by decide)
      (show _ = some (true, Grid.pocket) by decide)
    have e17A : (((Global.small.GHOST_SPEED % 256 : Nat) : Int) +
        Ghost.boxedScared.position.y) = 17 := by decide
    have e17B : (((Global.small.GHOST_SPEED % 256 : Nat) : Int) +
        Ghost.overGapScared.position.y) = 17 := by decide
    rw [e17A] at kA
    rw [e17B] at jB
    obtain ⟨rA, hrA⟩ := tA (by decide)
    obtain ⟨rB, hrB⟩ := tB (by decide)
    cases hv : e.probe4 false false 17 Grid.pocket with
    | false =>
      rw [hv] at kA
      obtain ⟨r, hr, hdir⟩ := kA 3 [0, 1, 2] (by decide) rfl (by decide)
      exact ⟨r, rB, hr, hrB, Or.inl ⟨rfl, hdir⟩⟩
    | true =>
      rw [hv] at jB
      exact ⟨rA, rB, hrA, hrB, Or.inr ⟨rfl, (jB rB hrB).2 (by decide)⟩⟩
  refine ⟨⟨by decide, by decide, by decide, by decide, by decide, by decide⟩, hmain, ?_⟩
  rintro ⟨e, hA, hB⟩
  obtain ⟨rA, rB, hrA, hrB, h | h⟩ := hmain e
  · have := hA rA hrA
    rw [h.2] at this
    exact absurd this (by decide)
  · exact hB rB hrB h.2

/-- C26 fails at the Down flag (the defect of C28: line 174 of `Ghost.cpp`
omits the x coordinate). On the 3 x 3 demo grid the pursuers of
`Ghost.shyAboveWall` and `Ghost.shyAboveGap` (pursuer 3 in scatter mode, target
(0, 32), facing Right) are both on the line `y = 16`. For the first, Right is
the only unblocked direction other than the reverse and Down is a wall; for
the second, Up and Down are unblocked and Down is the nearer to the target
(squared distances 481 and 545). Whatever the four-argument call returns, with
square roots that round as `Extern.Rounds` says: if it returns false the first
pursuer takes Down, a blocked direction (squared distance 225, against 257 for
Right); if it returns true the second takes Up, not the nearest unblocked
direction. With IEEE 754 square roots and a call that returns false, the first
pursuer takes Down. -/
theorem C26_down_flag_breaks_nearest_choice :
    (map_collision Global.small false false 1 16 Grid.demo = some (false, Grid.demo) ∧
      map_collision Global.small false false 0 15 Grid.demo = some (true, Grid.demo) ∧
      map_collision Global.small false false 0 17 Grid.demo = some (true, Grid.demo) ∧
      map_collision Global.small false false 17 16 Grid.demo = some (true, Grid.demo) ∧
      map_collision Global.small false false 16 15 Grid.demo = some (false, Grid.demo) ∧
      map_collision Global.small false false 16 17 Grid.demo = some (false, Grid.demo)) ∧
    (Ghost.get_target_distance.square Global.small
        { Ghost.shyAboveGap with target := { x := 0, y := 32 } } 3 = 481 ∧
      Ghost.get_target_distance.square Global.small
        { Ghost.shyAboveGap with target := { x := 0, y := 32 } } 1 = 545) ∧
    (∀ e : Extern, e.Rounds → ∃ rA rB,
      Ghost.update Global.small e 0 Ghost.shyAboveWall Grid.demo Ghost.aboveGap.position
        Pacman.onEnergizer [] = some rA ∧
      Ghost.update Global.small e 0 Ghost.shyAboveGap Grid.demo Ghost.aboveGap.position
        Pacman.onEnergizer [] = some rB ∧
      (Ghost.shyAboveWall.update_target Global.small e Pacman.onEnergizer.direction
        Ghost.aboveGap.position Pacman.onEnergizer.position).target = { x := 0, y := 32 } ∧
      (Ghost.shyAboveGap.update_target Global.small e Pacman.onEnergizer.direction
        Ghost.aboveGap.position Pacman.onEnergizer.position).target = { x := 0, y := 32 } ∧
      ((e.probe4 false false 17 Grid.demo = false ∧ rA.1.direction = 3) ∨
        (e.probe4 false false 17 Grid.demo = true ∧ rB.1.direction = 1))) ∧
    (∃ r, Ghost.update Global.small Extern.ieee 0 Ghost.shyAboveWall Grid.demo
        Ghost.aboveGap.position Pacman.onEnergizer [] = some r ∧ r.1.direction = 3) ∧
    ¬ ∃ e : Extern, e.Rounds ∧
      (∀ r, Ghost.update Global.small e 0 Ghost.shyAboveWall Grid.demo
          Ghost.aboveGap.position Pacman.onEnergizer [] = some r → r.1.direction = 0) ∧
      (∀ r, Ghost.update Global.small e 0 Ghost.shyAboveGap Grid.demo
          Ghost.aboveGap.position Pacman.onEnergizer [] = some r → r.1.direction = 3) := by
  have hmain : ∀ e : Extern, e.Rounds → ∃ rA rB,
      Ghost.update Global.small e 0 Ghost.shyAboveWall Grid.demo Ghost.aboveGap.position
        Pacman.onEnergizer [] = some rA ∧
      Ghost.update Global.small e 0 Ghost.shyAboveGap Grid.demo Ghost.aboveGap.position
        Pacman.onEnergizer [] = some rB ∧
      (Ghost.shyAboveWall.update_target Global.small e Pacman.onEnergizer.direction
        Ghost.aboveGap.position Pacman.onEnergizer.position).target = { x := 0, y := 32 } ∧
      (Ghost.shyAboveGap.update_target Global.small e Pacman.onEnergizer.direction
        Ghost.aboveGap.position Pacman.onEnergizer.position).target = { x := 0, y := 32 } ∧
      ((e.probe4 false false 17 Grid.demo = false ∧ rA.1.direction = 3) ∨
        (e.probe4 false false 17 Grid.demo = true ∧ rB.1.direction = 1)) := by
    intro e hR
    have hcalm : ∀ g : Ghost, g.frightened_mode = 0 → g.use_door = false →
        g.movement_mode = 0 → g.id = 3 →
        Ghost.update.mode_switch Global.small 0 Pacman.onEnergizer.energizer_timer g = g ∧
        g.update_target Global.small e Pacman.onEnergizer.direction
          Ghost.aboveGap.position Pacman.onEnergizer.position =
          { g with target := { x := 0, y := 32 } } := by
      intro g hN hdoor hmm hid
      refine ⟨by rw [mode_switch_normal _ _ _ _ hN, if_neg (by decide)], ?_⟩
      unfold Ghost.update_target
      rw [if_neg (by rw [hdoor]; decide), if_pos hmm, hid]
      rfl
    obtain ⟨a1, a2⟩ := hcalm Ghost.shyAboveWall rfl rfl rfl rfl
    obtain ⟨b1, b2⟩ := hcalm Ghost.shyAboveGap rfl rfl rfl rfl
    obtain ⟨rA, hrA, hdA⟩ := Ghost.update_calm_flags Global.small (by decide) e 0
      Ghost.shyAboveWall Grid.demo (by decide) (by decide) (by decide)
      Ghost.aboveGap.position Pacman.onEnergizer []
      (by rw [a1]; decide) (fun h => absurd h (by decide))
      (speed_not_returning _ _ (by rw [a1]; decide)) (show _ = false by rw [a1, a2]; rfl)
      (show _ = some (false, Grid.demo) by decide)
      (show _ = some (true, Grid.demo) by decide)
      (show _ = some (false, Grid.demo) by decide)
    obtain ⟨rB, hrB, hdB⟩ := Ghost.update_calm_flags Global.small (by decide) e 0
      Ghost.shyAboveGap Grid.demo (by decide) (by decide) (by decide)
      Ghost.aboveGap.position Pacman.onEnergizer []
      (by rw [b1]; decide) (fun h => absurd h (by decide))
      (speed_not_returning _ _ (by rw [b1]; decide)) (show _ = false by rw [b1, b2]; rfl)
      (show _ = some (true, Grid.demo) by decide)
      (show _ = some (false, Grid.demo) by decide)
      (show _ = some (false, Grid.demo) by decide)
    have e17A : (((Global.small.GHOST_SPEED % 256 : Nat) : Int) +
        Ghost.shyAboveWall.position.y) = 17 := by decide
    have e17B : (((Global.small.GHOST_SPEED % 256 : Nat) : Int) +
        Ghost.shyAboveGap.position.y) = 17 := by decide
    rw [a1, a2, e17A] at hdA
    rw [b1, b2, e17B] at hdB
    refine ⟨rA, rB, hrA, hrB, by rw [a2], by rw [b2], ?_⟩
    cases hv : e.probe4 false false 17 Grid.demo with
    | false =>
      refine Or.inl ⟨rfl, ?_⟩
      rw [hdA, hv]
      obtain ⟨hlt, hacc, hmin⟩ := (choose_direction Global.small e
        { Ghost.shyAboveWall with target := { x := 0, y := 32 } }
        (Ghost.update.walls false true false false)).2 ⟨0, by decide, by decide⟩
      have h3 := (hmin 3 (by decide) (by decide)).1
      rw [get_target_distance_square, get_target_distance_square] at h3
      have q3 : Ghost.get_target_distance.square Global.small
          { Ghost.shyAboveWall with target := { x := 0, y := 32 } } 3 = 15 * 15 := by
        decide
      have q0 : Ghost.get_target_distance.square Global.small
          { Ghost.shyAboveWall with target := { x := 0, y := 32 } } 0 = 257 := by
        decide
      rw [q3, hR.exact 15 (by norm_num)] at h3
      have k16 := hR.exact 16 (by norm_num)
      have k257 := hR.mono (16 * 16) 257 (by norm_num) (by norm_num)
      rw [k16] at k257
      generalize Ghost.update.choose Global.small e
        { Ghost.shyAboveWall with target := { x := 0, y := 32 } }
        (Ghost.update.walls false true false false) = d at hlt hacc h3 ⊢
      interval_cases d
      · rw [q0] at h3
        omega
      · exact absurd hacc (by decide)
      · exact absurd hacc (by decide)
      · rfl
    | true =>
      refine Or.inr ⟨rfl, ?_⟩
      rw [hdB, hv]
      apply choose_single
      · decide
      · decide
      · decide
  refine ⟨⟨by decide, by decide, by decide, by decide, by decide, by decide⟩,
    ⟨by decide, by decide⟩, hmain, ?_, ?_⟩
  · obtain ⟨rA, _, hrA, _, _, _, h | h⟩ := hmain Extern.ieee ieee_rounds
    · exact ⟨rA, hrA, h.2⟩
    · exact absurd h.1 (by decide)
  · rintro ⟨e, hR, hA, hB⟩
    obtain ⟨rA, rB, hrA, hrB, _, _, h | h⟩ := hmain e hR
    · have := hA rA hrA
      rw [h.2] at this
      exact absurd this (by decide)
    · have := hB rB hrB
      rw [h.2] at this
      exact absurd this (by decide)

end PakkuPakku
